import Mathlib

/-!
CollabRef: replication and synchronisation subsystem.

A shallow embedding of the room hub (`SyncServer`), the transport client
(`SyncClient`) and the synchronisation orchestrator (`CollabManager`) of
CollabRef, together with theorems about their message handling.

Modelling conventions.

* `QJsonValue` is the inductive type `JsonValue`; a JSON number (a finite
  `double`) is a rational, which is exact because the code only copies numbers.
* `QJsonObject` is an association list read through `QJsonObject.value`;
  `img[key] = v` is `QJsonObject.insert`.  Reading `obj[key]` from an object that is
  not `const` binds a missing key to `Null` first (`QJsonObject.ref`); where the code
  goes on to store or send such an object, the model keeps the binding.  Objects built
  by Qt never bind a key twice (`QJsonObject.WellFormed`).
* `QHash` is an association list with `QHash.value`, `QHash.insert`,
  `QHash.remove`.
* A `QWebSocket*` is a natural number (the pointer's identity).
* Text frames are modelled by the JSON document they denote, and so is the
  content of the save file: `QJsonDocument::toJson` followed by
  `QJsonDocument::fromJson` is taken to be the identity.
* Handlers return the new state together with the effects they performed
  (frames sent, files written), in program order.
-/

namespace CollabRef

/-! ## JSON values -/

/-- QJsonValue: the six JSON kinds plus Qt's `Undefined`. -/
inductive JsonValue where
  | undefined
  | null
  | bool (b : Bool)
  | double (d : Rat)
  | string (s : String)
  | array (items : List JsonValue)
  | object (fields : List (String × JsonValue))

/-- QJsonObject: bindings from keys to values. -/
abbrev QJsonObject := List (String × JsonValue)

/-- QJsonArray. -/
abbrev QJsonArray := List JsonValue

namespace JsonValue

/-- Model of `QJsonValue::toString()`: the string, or the empty string for any other kind. -/
def toString : JsonValue → String
  | string s => s
  | _ => ""

/-- Model of `QJsonValue::toDouble(defaultValue)`. -/
def toDouble (v : JsonValue) (defaultValue : Rat := 0) : Rat :=
  match v with
  | double d => d
  | _ => defaultValue

/-- Model of `QJsonValue::toBool(defaultValue)`. -/
def toBool (v : JsonValue) (defaultValue : Bool := false) : Bool :=
  match v with
  | bool b => b
  | _ => defaultValue

/-- Model of `QJsonValue::toArray()`: the array, or an empty array for any other kind. -/
def toArray : JsonValue → QJsonArray
  | array items => items
  | _ => []

/-- Model of `QJsonValue::toObject()`: the object, or an empty object for any other kind. -/
def toObject : JsonValue → QJsonObject
  | object fields => fields
  | _ => []

/-- Model of `QJsonValue::isUndefined()`. -/
def isUndefined : JsonValue → Bool
  | undefined => true
  | _ => false

end JsonValue

namespace QJsonObject

/-- Model of `QJsonObject::value(key)` and the const `operator[]`: `Undefined` when the key is absent. -/
def value : QJsonObject → String → JsonValue
  | [], _ => JsonValue.undefined
  | (k, v) :: rest, key => if k = key then v else value rest key

/-- Model of `QJsonObject::contains(key)`. -/
def contains : QJsonObject → String → Bool
  | [], _ => false
  | (k, _) :: rest, key => if k = key then true else contains rest key

/-- Model of `QJsonObject::remove(key)`. -/
def remove : QJsonObject → String → QJsonObject
  | [], _ => []
  | (k, v) :: rest, key => if k = key then remove rest key else (k, v) :: remove rest key

/-- Rebind `key` where it is bound, or add the binding. -/
def replace : QJsonObject → String → JsonValue → QJsonObject
  | [], key, v => [(key, v)]
  | (k, w) :: rest, key, v => if k = key then (k, v) :: rest else (k, w) :: replace rest key v

/-- Model of `QJsonObject::insert(key, value)`, which is what `obj[key] = value` does:
inserting `Undefined` removes the key. -/
def insert (o : QJsonObject) (key : String) (v : JsonValue) : QJsonObject :=
  if v.isUndefined then remove o key else replace o key v

/-- The keys bound by an object, in the order of iteration. -/
def keys (o : QJsonObject) : List String := o.map Prod.fst

/-- The object left behind by reading `obj[key]` through the non-const `operator[]`, which
returns a `QJsonValueRef`: a key that is not bound is bound to `Null` (`QJsonValue()`)
first.  The value read is `value (ref o key) key`. -/
def ref (o : QJsonObject) (key : String) : QJsonObject :=
  if contains o key then o else insert o key JsonValue.null

/-- The shape of every object Qt builds or parses: no key is bound twice. -/
def WellFormed (o : QJsonObject) : Prop := (keys o).Nodup

end QJsonObject

/-! ## QHash -/

namespace QHash

/-- Model of `QHash::value(key)`, with `none` for the default-constructed value of a missing key. -/
def value {κ α : Type} [DecidableEq κ] : List (κ × α) → κ → Option α
  | [], _ => none
  | (k, v) :: rest, key => if k = key then some v else value rest key

/-- Model of `QHash::remove(key)`. -/
def remove {κ α : Type} [DecidableEq κ] : List (κ × α) → κ → List (κ × α)
  | [], _ => []
  | (k, v) :: rest, key => if k = key then remove rest key else (k, v) :: remove rest key

/-- Model of `QHash::insert(key, value)`: an existing binding of the key is replaced. -/
def insert {κ α : Type} [DecidableEq κ] : List (κ × α) → κ → α → List (κ × α)
  | [], key, v => [(key, v)]
  | (k, w) :: rest, key, v => if k = key then (k, v) :: rest else (k, w) :: insert rest key v

end QHash

/-! ## The room hub (`SyncServer`) -/

/-- A `QWebSocket*`, identified by its address. -/
abbrev Socket := Nat

/-- The durable storage seen by the hub: for every existing file the JSON
document its bytes denote, and the paths that cannot be opened. -/
structure Disk where
  files : List (String × JsonValue)
  denied : List String

namespace Disk

/-- Model of `QFile::exists()`. -/
def fileExists (d : Disk) (path : String) : Bool := (QHash.value d.files path).isSome

/-- Model of `QFile::open(mode)` succeeds. -/
def canOpen (d : Disk) (path : String) : Bool := !(d.denied.contains path)

/-- Model of `file.write(doc.toJson())` on a file opened with `WriteOnly`. -/
def write (d : Disk) (path : String) (doc : JsonValue) : Disk :=
  { d with files := QHash.insert d.files path doc }

end Disk

/-- The fields of `SyncServer` that message handling reads and writes. -/
structure SyncServer where
  m_clients : List Socket
  m_clientIds : List (Socket × String)
  m_clientsById : List (String × Socket)
  m_boardState : QJsonArray
  m_textState : QJsonArray
  m_saveFilePath : String

/-- A frame handed to `QWebSocket::sendTextMessage`: the socket and the document sent. -/
abbrev Frame := Socket × QJsonObject

/-- The outcome of one hub handler: new state, new storage, frames sent in order. -/
structure HubResult where
  server : SyncServer
  disk : Disk
  sent : List Frame

namespace SyncServer

/-- Model of `m_clientIds.value(client)`: the connection identity, empty for an unknown socket. -/
def clientId (s : SyncServer) (client : Socket) : String :=
  (QHash.value s.m_clientIds client).getD ""

/-- The id a stored record is found by: `rec.toObject()[key].toString()`. -/
def recordId (key : String) (rec : JsonValue) : String :=
  (QJsonObject.value rec.toObject key).toString

/-- The scan `for (i...) if (state[i].toObject()[key].toString() == id) { exists = true; break; }`. -/
def containsId (key : String) : QJsonArray → String → Bool
  | [], _ => false
  | rec :: rest, id => if recordId key rec = id then true else containsId key rest id

/-- The merge `for (it = msg.begin(); it != msg.end(); ++it) img[it.key()] = it.value();`. -/
def mergeFields (img msg : QJsonObject) : QJsonObject :=
  msg.foldl (fun acc kv => QJsonObject.insert acc kv.1 kv.2) img

/-- The update scan: the first record with the id is replaced by its merge with `msg`.
The record is the local copy `img`, after `img[key]` has been read from it. -/
def mergeUpdate (key : String) (msg : QJsonObject) : QJsonArray → String → QJsonArray
  | [], _ => []
  | rec :: rest, id =>
      if recordId key rec = id then
        JsonValue.object (mergeFields (QJsonObject.ref rec.toObject key) msg) :: rest
      else rec :: mergeUpdate key msg rest id

/-- The remove scan: `removeAt(i)` for the first record with the id. -/
def removeFirst (key : String) : QJsonArray → String → QJsonArray
  | [], _ => []
  | rec :: rest, id => if recordId key rec = id then rest else rec :: removeFirst key rest id

/-- One round of a pushSync merge loop: the pushed value, as the local copy `img` left by
reading `img[key]`, is appended when no stored record has its id. -/
def pushOne (key : String) (acc : QJsonArray × Bool) (val : JsonValue) : QJsonArray × Bool :=
  let obj := QJsonObject.ref val.toObject key
  if containsId key acc.1 (QJsonObject.value obj key).toString then acc
  else (acc.1 ++ [JsonValue.object obj], true)

/-- A pushSync merge loop over the pushed array, threading `stateChanged`. -/
def pushMerge (key : String) (state : QJsonArray) (changed : Bool) (pushed : QJsonArray) :
    QJsonArray × Bool :=
  pushed.foldl (pushOne key) (state, changed)

/-- Model of `SyncServer::broadcast`. -/
def broadcast (s : SyncServer) (message : QJsonObject) (excludeClientId : String) : List Frame :=
  (s.m_clients.filter (fun c => decide (s.clientId c ≠ excludeClientId))).map
    (fun c => (c, message))

/-- Model of `SyncServer::sendToClient`. -/
def sendToClient (s : SyncServer) (clientId : String) (message : QJsonObject) : List Frame :=
  match QHash.value s.m_clientsById clientId with
  | some client => [(client, message)]
  | none => []

/-- Model of `SyncServer::saveState`; `now` is `QDateTime::currentDateTime().toString(Qt::ISODate)`. -/
def saveState (s : SyncServer) (d : Disk) (now : String) : Disk :=
  if s.m_saveFilePath = "" then d
  else if s.m_boardState.isEmpty && s.m_textState.isEmpty then d
  else
    let root : QJsonObject :=
      QJsonObject.insert (QJsonObject.insert (QJsonObject.insert [] "images"
        (JsonValue.array s.m_boardState)) "texts" (JsonValue.array s.m_textState))
        "savedAt" (JsonValue.string now)
    if d.canOpen s.m_saveFilePath then d.write s.m_saveFilePath (JsonValue.object root) else d

/-- Model of `SyncServer::loadState`. -/
def loadState (s : SyncServer) (d : Disk) : SyncServer :=
  if s.m_saveFilePath = "" then s
  else
    match QHash.value d.files s.m_saveFilePath with
    | none => s
    | some doc =>
        if d.canOpen s.m_saveFilePath then
          match doc with
          | JsonValue.object root =>
              { s with m_boardState := (QJsonObject.value root "images").toArray
                       m_textState := (QJsonObject.value root "texts").toArray }
          | _ => s
        else s

/-- The hub right after construction and `setSaveFile(path)`: no connection, empty room. -/
def fresh (path : String) : SyncServer :=
  { m_clients := [], m_clientIds := [], m_clientsById := [],
    m_boardState := [], m_textState := [], m_saveFilePath := path }

/-- The `fullSync` message built from the current room state. -/
def fullSyncMsg (s : SyncServer) : QJsonObject :=
  QJsonObject.insert (QJsonObject.insert (QJsonObject.insert [] "type"
    (JsonValue.string "fullSync")) "images" (JsonValue.array s.m_boardState))
    "texts" (JsonValue.array s.m_textState)

/-- The user list sent to a joiner: one `{userId}` object per key of `m_clientsById`
other than the joiner's. -/
def userListMsg (s : SyncServer) (clientId : String) : QJsonObject :=
  let users : QJsonArray :=
    ((s.m_clientsById.map Prod.fst).filter (fun id => decide (id ≠ clientId))).map
      (fun id => JsonValue.object (QJsonObject.insert [] "userId" (JsonValue.string id)))
  QJsonObject.insert (QJsonObject.insert [] "type" (JsonValue.string "userList"))
    "users" (JsonValue.array users)

/-- The geometry fields an imageUpdate may carry (message catalogue, `imageUpdate` row). -/
def geometryFields : List String := ["x", "y", "rotation", "scale", "zIndex"]

/-- The tail shared by the relaying branches: `msg["userId"] = clientId; broadcast(msg, clientId);`. -/
def relay (s : SyncServer) (d : Disk) (msg : QJsonObject) (clientId : String) : HubResult :=
  { server := s, disk := d,
    sent := s.broadcast (QJsonObject.insert msg "userId" (JsonValue.string clientId)) clientId }

/-- The `pushSync` branch of `onTextMessageReceived`: both merge loops, the reply to the
pusher, and the broadcast when `stateChanged`.  The branch neither stores nor sends
`msg`, so the bindings its reads `msg["images"]` and `msg["texts"]` may add are dropped. -/
def onPushSync (s : SyncServer) (d : Disk) (msg : QJsonObject) (clientId : String) : HubResult :=
  let images := pushMerge "imageId" s.m_boardState false (QJsonObject.value msg "images").toArray
  let texts := pushMerge "textId" s.m_textState images.2 (QJsonObject.value msg "texts").toArray
  let s1 := { s with m_boardState := images.1, m_textState := texts.1 }
  let syncMsg := s1.fullSyncMsg
  { server := s1, disk := d,
    sent := s1.sendToClient clientId syncMsg ++
      (if texts.2 then s1.broadcast syncMsg clientId else []) }

/-- Model of `SyncServer::onTextMessageReceived` for the frame `doc` received on `client`.
`received` is `doc.object()`; the handler's `msg` is not `const`, so each of its reads
`msg["type"]`, `msg["imageId"]`, `msg["textId"]` goes through `QJsonObject.ref`, and it is
the object left by these reads that the branch stores, merges and relays. -/
def onTextMessageReceived (s : SyncServer) (d : Disk) (now : String) (client : Socket)
    (doc : JsonValue) : HubResult :=
  let clientId := s.clientId client
  match doc with
  | JsonValue.object received =>
    let msg := QJsonObject.ref received "type"
    let type := (QJsonObject.value msg "type").toString
    if type = "join" then
      let msg1 := QJsonObject.insert msg "userId" (JsonValue.string clientId)
      { server := s, disk := d,
        sent := s.broadcast msg1 clientId ++ s.sendToClient clientId (s.userListMsg clientId) }
    else if type = "cursor" then
      relay s d msg clientId
    else if type = "imageAdd" then
      let msg := QJsonObject.ref msg "imageId"
      let imageId := (QJsonObject.value msg "imageId").toString
      if containsId "imageId" s.m_boardState imageId then relay s d msg clientId
      else
        let s1 := { s with m_boardState := s.m_boardState ++ [JsonValue.object msg] }
        relay s1 (s1.saveState d now) msg clientId
    else if type = "imageUpdate" then
      let msg := QJsonObject.ref msg "imageId"
      let imageId := (QJsonObject.value msg "imageId").toString
      relay { s with m_boardState := mergeUpdate "imageId" msg s.m_boardState imageId } d
        msg clientId
    else if type = "imageRemove" then
      let msg := QJsonObject.ref msg "imageId"
      let imageId := (QJsonObject.value msg "imageId").toString
      if containsId "imageId" s.m_boardState imageId then
        let s1 := { s with m_boardState := removeFirst "imageId" s.m_boardState imageId }
        relay s1 (s1.saveState d now) msg clientId
      else relay s d msg clientId
    else if type = "textAdd" then
      let msg := QJsonObject.ref msg "textId"
      let textId := (QJsonObject.value msg "textId").toString
      if containsId "textId" s.m_textState textId then relay s d msg clientId
      else
        let s1 := { s with m_textState := s.m_textState ++ [JsonValue.object msg] }
        relay s1 (s1.saveState d now) msg clientId
    else if type = "textUpdate" then
      let msg := QJsonObject.ref msg "textId"
      let textId := (QJsonObject.value msg "textId").toString
      relay { s with m_textState := mergeUpdate "textId" msg s.m_textState textId } d
        msg clientId
    else if type = "textRemove" then
      let msg := QJsonObject.ref msg "textId"
      let textId := (QJsonObject.value msg "textId").toString
      if containsId "textId" s.m_textState textId then
        let s1 := { s with m_textState := removeFirst "textId" s.m_textState textId }
        relay s1 (s1.saveState d now) msg clientId
      else relay s d msg clientId
    else if type = "requestSync" then
      { server := s, disk := d, sent := s.sendToClient clientId s.fullSyncMsg }
    else if type = "pushSync" then
      onPushSync s d msg clientId
    else
      relay s d msg clientId
  | _ => { server := s, disk := d, sent := [] }

/-- Model of `SyncServer::onNewConnection` for the pending connection `client`; `newId` is the
identity cut from a fresh UUID. -/
def onNewConnection (s : SyncServer) (d : Disk) (client : Socket) (newId : String) : HubResult :=
  let s1 := { s with m_clients := s.m_clients ++ [client],
                     m_clientIds := QHash.insert s.m_clientIds client newId,
                     m_clientsById := QHash.insert s.m_clientsById newId client }
  { server := s1, disk := d,
    sent := if !s1.m_boardState.isEmpty || !s1.m_textState.isEmpty then
        s1.sendToClient newId s1.fullSyncMsg
      else [] }

/-- Model of `SyncServer::onClientDisconnected` for the socket `client`. -/
def onClientDisconnected (s : SyncServer) (d : Disk) (client : Socket) : HubResult :=
  let clientId := s.clientId client
  let s1 := { s with m_clients := s.m_clients.filter (fun c => decide (c ≠ client)),
                     m_clientIds := QHash.remove s.m_clientIds client,
                     m_clientsById := QHash.remove s.m_clientsById clientId }
  { server := s1, disk := d,
    sent := s1.broadcast (QJsonObject.insert (QJsonObject.insert []
      "type" (JsonValue.string "leave")) "userId" (JsonValue.string clientId)) clientId }

/-- The frames of `sent` addressed to the socket `sock`, in order. -/
def framesFor (sock : Socket) (sent : List Frame) : List QJsonObject :=
  (sent.filter (fun f => decide (f.1 = sock))).map Prod.snd

end SyncServer

/-- What the event loop hands to a running hub: a pending connection, a text frame on a
connection, a connection closing, or the timeout of `m_saveTimer`. -/
inductive HubEvent where
  | newConnection (client : Socket) (newId : String)
  | textMessage (now : String) (client : Socket) (doc : JsonValue)
  | clientDisconnected (client : Socket)
  | saveTimeout (now : String)

namespace SyncServer

/-- One turn of the hub's event loop: the slot connected to the signal. -/
def handleEvent (s : SyncServer) (d : Disk) : HubEvent → HubResult
  | HubEvent.newConnection client newId => s.onNewConnection d client newId
  | HubEvent.textMessage now client doc => s.onTextMessageReceived d now client doc
  | HubEvent.clientDisconnected client => s.onClientDisconnected d client
  | HubEvent.saveTimeout now => { server := s, disk := s.saveState d now, sent := [] }

/-- The hub's reaction to a sequence of events, with the frames sent in order. -/
def runEvents (s : SyncServer) (d : Disk) : List HubEvent → HubResult
  | [] => { server := s, disk := d, sent := [] }
  | e :: rest =>
      let r := s.handleEvent d e
      let rs := runEvents r.server r.disk rest
      { server := rs.server, disk := rs.disk, sent := r.sent ++ rs.sent }

/-- A hub process starting on the storage `d` with save file `path`: construction,
`setSaveFile(path)`, then `loadState()` in `start`. -/
def restart (path : String) (d : Disk) : SyncServer := (fresh path).loadState d

/-- The message types whose branch of `onTextMessageReceived` ends in
`msg["userId"] = clientId; broadcast(msg, clientId);` after its own work. -/
def relayedTypes : List String :=
  ["join", "cursor", "imageAdd", "imageUpdate", "imageRemove", "textAdd", "textUpdate",
   "textRemove"]

/-- The message types whose branch of `onTextMessageReceived` assigns `m_boardState` or
`m_textState`. -/
def storingTypes : List String :=
  ["imageAdd", "imageUpdate", "imageRemove", "textAdd", "textUpdate", "textRemove", "pushSync"]

/-- The key a branch of `onTextMessageReceived` reads from `msg` before it relays it:
`msg["imageId"]` in the three image branches, `msg["textId"]` in the three text branches,
none in the `join` and `cursor` branches and in the final `else`. -/
def idKeyOf (type : String) : Option String :=
  if type = "imageAdd" ∨ type = "imageUpdate" ∨ type = "imageRemove" then some "imageId"
  else if type = "textAdd" ∨ type = "textUpdate" ∨ type = "textRemove" then some "textId"
  else none

/-- The object `msg` holds when a relaying branch reaches `msg["userId"] = clientId`:
`received` after the read `msg["type"]` and the branch's read of its id key, if it has
one. -/
def relayedMsg (received : QJsonObject) : QJsonObject :=
  let msg := QJsonObject.ref received "type"
  match idKeyOf (QJsonObject.value msg "type").toString with
  | some key => QJsonObject.ref msg key
  | none => msg

end SyncServer

/-- The `type` of the message an event carries: `none` for an event that is not a text
frame holding a JSON object. -/
def HubEvent.messageType : HubEvent → Option String
  | HubEvent.textMessage _ _ (JsonValue.object msg) =>
      some (QJsonObject.value msg "type").toString
  | _ => none

/-! ## The transport client (`SyncClient`) -/

/-- Model of `QAbstractSocket::SocketState`, as far as the client's socket goes through it. -/
inductive SocketState where
  | unconnected
  | connecting
  | connected
  | closing
  deriving DecidableEq

/-- Model of `SyncClient::MAX_RECONNECT_ATTEMPTS`. -/
def MAX_RECONNECT_ATTEMPTS : Nat := 10

/-- The text of the terminal error raised by the reconnect timer. -/
def reconnectFailedText : String := "Failed to reconnect after multiple attempts"

/-- The state of a `SyncClient`: its fields, the state of its socket, and whether each
of its two timers is running. -/
structure SyncClient where
  socketState : SocketState
  m_serverUrl : String
  m_roomId : String
  m_oderId : String
  pingTimerActive : Bool
  reconnectTimerActive : Bool
  m_reconnectAttempts : Nat

/-- What a `SyncClient` does to the outside: calls on its socket and signals it emits. -/
inductive ClientEffect where
  | socketOpen (url : String)
  | socketClose
  | sendTextMessage (message : QJsonObject)
  | connected
  | disconnected
  | messageReceived (message : QJsonObject)
  | errorOccurred (error : String)

/-- What happens to a `SyncClient` between calls of its public functions: a signal of
its socket or the timeout of one of its timers. -/
inductive ClientEvent where
  | socketConnected
  | socketDisconnected
  | socketError (errorString : String)
  | textMessageReceived (doc : JsonValue)
  | pingTimeout
  | reconnectTimeout

namespace SyncClient

/-- The client right after construction; `oderId` is the UUID minted by the constructor. -/
def create (oderId : String) : SyncClient :=
  { socketState := SocketState.unconnected, m_serverUrl := "", m_roomId := "",
    m_oderId := oderId, pingTimerActive := false, reconnectTimerActive := false,
    m_reconnectAttempts := 0 }

/-- Model of `SyncClient::isConnected`. -/
def isConnected (c : SyncClient) : Bool := decide (c.socketState = SocketState.connected)

/-- Model of `SyncClient::connectToServer`. -/
def connectToServer (c : SyncClient) (url : String) : SyncClient × List ClientEffect :=
  ({ c with m_serverUrl := url, m_reconnectAttempts := 0,
            socketState := SocketState.connecting },
   [ClientEffect.socketOpen url])

/-- Model of `SyncClient::sendMessage`: dropped unless connected. -/
def sendMessage (c : SyncClient) (message : QJsonObject) : List ClientEffect :=
  if c.isConnected then [ClientEffect.sendTextMessage message] else []

/-- Model of `SyncClient::joinRoom`. -/
def joinRoom (c : SyncClient) (roomId userName : String) : SyncClient × List ClientEffect :=
  let c1 := { c with m_roomId := roomId }
  let message : QJsonObject :=
    QJsonObject.insert (QJsonObject.insert (QJsonObject.insert (QJsonObject.insert []
      "type" (JsonValue.string "join")) "roomId" (JsonValue.string roomId))
      "oderId" (JsonValue.string c.m_oderId)) "userName" (JsonValue.string userName)
  (c1, c1.sendMessage message)

/-- Model of `SyncClient::leaveRoom`. -/
def leaveRoom (c : SyncClient) : SyncClient × List ClientEffect :=
  if c.m_roomId = "" then (c, [])
  else
    let message : QJsonObject :=
      QJsonObject.insert (QJsonObject.insert (QJsonObject.insert []
        "type" (JsonValue.string "leave")) "roomId" (JsonValue.string c.m_roomId))
        "oderId" (JsonValue.string c.m_oderId)
    ({ c with m_roomId := "" }, c.sendMessage message)

/-- Model of `SyncClient::disconnect`. -/
def disconnect (c : SyncClient) : SyncClient × List ClientEffect :=
  let c1 := { c with pingTimerActive := false, reconnectTimerActive := false }
  if c1.socketState = SocketState.connected then
    let r := c1.leaveRoom
    ({ r.1 with socketState := SocketState.closing }, r.2 ++ [ClientEffect.socketClose])
  else (c1, [])

/-- Model of `SyncClient::onConnected`. -/
def onConnected (c : SyncClient) : SyncClient × List ClientEffect :=
  ({ c with m_reconnectAttempts := 0, reconnectTimerActive := false, pingTimerActive := true },
   [ClientEffect.connected])

/-- Model of `SyncClient::onDisconnected`. -/
def onDisconnected (c : SyncClient) : SyncClient × List ClientEffect :=
  let c1 := { c with pingTimerActive := false }
  if c1.m_serverUrl ≠ "" ∧ c1.m_reconnectAttempts < MAX_RECONNECT_ATTEMPTS then
    ({ c1 with reconnectTimerActive := true }, [ClientEffect.disconnected])
  else (c1, [ClientEffect.disconnected])

/-- The slot connected to `m_reconnectTimer`'s `timeout` in the constructor. -/
def onReconnectTimeout (c : SyncClient) : SyncClient × List ClientEffect :=
  if c.m_reconnectAttempts < MAX_RECONNECT_ATTEMPTS ∧ c.m_serverUrl ≠ "" then
    ({ c with m_reconnectAttempts := c.m_reconnectAttempts + 1,
              socketState := SocketState.connecting },
     [ClientEffect.socketOpen c.m_serverUrl])
  else
    ({ c with reconnectTimerActive := false }, [ClientEffect.errorOccurred reconnectFailedText])

/-- Model of `SyncClient::onTextMessageReceived`, on the document the frame parses to. -/
def onTextMessageReceived (c : SyncClient) (doc : JsonValue) : SyncClient × List ClientEffect :=
  match doc with
  | JsonValue.object message => (c, [ClientEffect.messageReceived message])
  | _ => (c, [])

/-- Model of `SyncClient::sendPing`. -/
def sendPing (c : SyncClient) : SyncClient × List ClientEffect :=
  (c, c.sendMessage (QJsonObject.insert (QJsonObject.insert []
    "type" (JsonValue.string "ping")) "oderId" (JsonValue.string c.m_oderId)))

/-- One turn of the event loop for the client: the socket's state change, if any, and
the slot connected to the signal.  A timer that is not running does not time out. -/
def step (c : SyncClient) : ClientEvent → SyncClient × List ClientEffect
  | ClientEvent.socketConnected => onConnected { c with socketState := SocketState.connected }
  | ClientEvent.socketDisconnected =>
      onDisconnected { c with socketState := SocketState.unconnected }
  | ClientEvent.socketError errorString => (c, [ClientEffect.errorOccurred errorString])
  | ClientEvent.textMessageReceived doc => c.onTextMessageReceived doc
  | ClientEvent.pingTimeout => if c.pingTimerActive then c.sendPing else (c, [])
  | ClientEvent.reconnectTimeout =>
      if c.reconnectTimerActive then c.onReconnectTimeout else (c, [])

/-- The client's reaction to a sequence of events, with the effects in order. -/
def run (c : SyncClient) : List ClientEvent → SyncClient × List ClientEffect
  | [] => (c, [])
  | e :: rest => ((run (c.step e).1 rest).1, (c.step e).2 ++ (run (c.step e).1 rest).2)

end SyncClient

/-- What an endpoint that refuses every connection makes the event loop deliver to the
client, `n` times over: the socket's error, the socket closing, and the next timeout of
the reconnect timer. -/
def refusedRounds (n : Nat) : List ClientEvent :=
  (List.replicate n [ClientEvent.socketError "Connection refused",
    ClientEvent.socketDisconnected, ClientEvent.reconnectTimeout]).flatten

/-- Whether an effect is a connection attempt (`m_socket->open`). -/
def ClientEffect.isOpen : ClientEffect → Bool
  | ClientEffect.socketOpen _ => true
  | _ => false

/-- Whether an effect is the terminal error of the reconnect timer. -/
def ClientEffect.isReconnectFailed : ClientEffect → Bool
  | ClientEffect.errorOccurred error => decide (error = reconnectFailedText)
  | _ => false

/-- Whether an event is the socket reporting an established connection. -/
def ClientEvent.isConnected : ClientEvent → Bool
  | ClientEvent.socketConnected => true
  | _ => false

/-! ## The canvas as the orchestrator sees it (`CanvasScene`) -/

/-- QByteArray. -/
abbrev QByteArray := List Nat

/-- QImage: whether it is the null image, and its raster. -/
structure QImage where
  isNull : Bool
  raster : List Nat

/-- The Qt and operating-system services the orchestrator calls, as functions of the
host it runs on. -/
structure Platform where
  /-- Decoding `QByteArray::fromBase64(str.toUtf8())`. -/
  fromBase64 : String → QByteArray
  /-- Encoding `QString::fromUtf8(bytes.toBase64())`. -/
  toBase64 : QByteArray → String
  /-- Decoding `image.loadFromData(bytes)`, and the first frame a `QMovie` or `QImage`
  reads from a file with these bytes; the null image when the bytes do not decode. -/
  loadFromData : QByteArray → QImage
  /-- Encoding `image.save(&buffer, "PNG")`. -/
  savePng : QImage → QByteArray
  /-- Test `!sourcePath.isEmpty() && sourcePath.toLower().endsWith(".gif")`. -/
  isGifPath : String → Bool
  /-- Reading `file.open(QIODevice::ReadOnly)` then `file.readAll()`, for a file this
  orchestrator has not written; `none` when the file cannot be opened. -/
  readFile : String → Option QByteArray
  /-- Whether `tempFile.open(QIODevice::WriteOnly)` succeeds. -/
  canWrite : String → Bool
  /-- The n-th temporary path `tempDir + "/collabref_" + uuid + ".gif"` generated. -/
  tempPath : Nat → String
  /-- Whether `QColor(name).isValid()`. -/
  colorIsValid : String → Bool
  /-- The n-th value drawn by `QRandomGenerator::global()->bounded(8)`. -/
  randomBounded : Nat → Nat

/-- The state of an `ImageItem` the synchronisation code reads and writes. -/
structure ImageItem where
  id : String
  image : QImage
  sourcePath : String
  x : Rat
  y : Rat
  rotation : Rat
  scale : Rat
  zValue : Rat

/-- The state of a `TextItem` the synchronisation code reads and writes. -/
structure TextItem where
  id : String
  text : String
  x : Rat
  y : Rat
  rotation : Rat
  zValue : Rat
  fontFamily : String
  fontSize : Int
  textColor : String

/-- The signals of `CanvasScene` that `CollabManager::setScene` connects to its slots. -/
inductive SceneSignal where
  | imageAdded (item : ImageItem)
  | imageRemoved (id : String)
  | imageChanged (item : ImageItem)
  | textAdded (item : TextItem)
  | textRemoved (id : String)
  | textChanged (item : TextItem)

/-- RemoteCursor, without the widget that draws it. -/
structure RemoteCursor where
  oderId : String
  userName : String
  color : String
  position : Rat × Rat

/-- The tables of `CanvasScene`: `m_items`, `m_textItems` and `m_remoteCursors`. -/
structure CanvasScene where
  m_items : List (String × ImageItem)
  m_textItems : List (String × TextItem)
  m_remoteCursors : List (String × RemoteCursor)

namespace CanvasScene

/-- Model of `CanvasScene::findImageItem`. -/
def findImageItem (sc : CanvasScene) (id : String) : Option ImageItem :=
  QHash.value sc.m_items id

/-- Model of `CanvasScene::findTextItem`. -/
def findTextItem (sc : CanvasScene) (id : String) : Option TextItem :=
  QHash.value sc.m_textItems id

/-- Model of `CanvasScene::imageItems`: `m_items.values()`. -/
def imageItems (sc : CanvasScene) : List ImageItem := sc.m_items.map Prod.snd

/-- Model of `CanvasScene::textItems`: `m_textItems.values()`. -/
def textItems (sc : CanvasScene) : List TextItem := sc.m_textItems.map Prod.snd

/-- The value a 32-bit `int` holds for the mathematical result `z`: `z` itself when it lies
in `[-2^31, 2^31)`, and outside that range the value congruent to `z` modulo `2^32` that
does.  (C++ leaves the conversion of an out-of-range `double` and the overflow of
`maxZ + 1` undefined; the model takes the two's-complement wrap.) -/
def toInt32 (z : Int) : Int := (z + 2147483648) % 4294967296 - 2147483648

/-- Model of `static_cast<int>(double)`: truncation towards zero, held in an `int`. -/
def truncToInt (q : Rat) : Int := toInt32 (Int.tdiv q.num q.den)

/-- Model of `CanvasScene::nextZValue`: `int maxZ = 0`, the maximum over the image items of
`static_cast<int>(item->zValue())`, and `maxZ + 1` as an `int`. -/
def nextZValue (sc : CanvasScene) : Int :=
  toInt32 (sc.m_items.foldl (fun maxZ kv => max maxZ (truncToInt kv.2.zValue)) 0 + 1)

/-- Model of `CanvasScene::addImageItem(id, image, pos, rotation, scale)`. -/
def addImageItem (sc : CanvasScene) (id : String) (image : QImage) (x y rotation scale : Rat) :
    CanvasScene × List SceneSignal :=
  if (QHash.value sc.m_items id).isSome then (sc, [])
  else
    let item : ImageItem :=
      { id := id, image := image, sourcePath := "", x := x, y := y, rotation := rotation,
        scale := scale, zValue := (sc.nextZValue : Rat) }
    ({ sc with m_items := QHash.insert sc.m_items id item }, [SceneSignal.imageAdded item])

/-- Model of `CanvasScene::addImageItemFromFile(id, filePath, pos, rotation, scale)`; `image` is
the frame the item's constructor reads from the file. -/
def addImageItemFromFile (sc : CanvasScene) (id filePath : String) (image : QImage)
    (x y rotation scale : Rat) : CanvasScene × List SceneSignal :=
  if (QHash.value sc.m_items id).isSome then (sc, [])
  else
    let item : ImageItem :=
      { id := id, image := image, sourcePath := filePath, x := x, y := y,
        rotation := rotation, scale := scale, zValue := (sc.nextZValue : Rat) }
    ({ sc with m_items := QHash.insert sc.m_items id item }, [SceneSignal.imageAdded item])

/-- Model of `CanvasScene::removeImageItem(id)`. -/
def removeImageItem (sc : CanvasScene) (id : String) : CanvasScene × List SceneSignal :=
  match QHash.value sc.m_items id with
  | some _ => ({ sc with m_items := QHash.remove sc.m_items id }, [SceneSignal.imageRemoved id])
  | none => (sc, [])

/-- Model of `CanvasScene::addTextItem(id, text, pos, rotation)`; the item gets the font and colour
set by `TextItem`'s constructor. -/
def addTextItem (sc : CanvasScene) (id text : String) (x y rotation : Rat) :
    CanvasScene × List SceneSignal :=
  let item : TextItem :=
    { id := id, text := text, x := x, y := y, rotation := rotation,
      zValue := (sc.nextZValue : Rat), fontFamily := "Arial", fontSize := 14,
      textColor := "#ffffff" }
  ({ sc with m_textItems := QHash.insert sc.m_textItems id item }, [SceneSignal.textAdded item])

/-- Model of `CanvasScene::removeTextItem(id)`. -/
def removeTextItem (sc : CanvasScene) (id : String) : CanvasScene × List SceneSignal :=
  match QHash.value sc.m_textItems id with
  | some item =>
      ({ sc with m_textItems := QHash.remove sc.m_textItems item.id },
       [SceneSignal.textRemoved item.id])
  | none => (sc, [])

/-- Model of `CanvasScene::updateRemoteCursor`. -/
def updateRemoteCursor (sc : CanvasScene) (oderId userName : String) (pos : Rat × Rat)
    (color : String) : CanvasScene :=
  match QHash.value sc.m_remoteCursors oderId with
  | none =>
      { sc with m_remoteCursors := (QHash.insert sc.m_remoteCursors oderId
          { oderId := oderId, userName := userName, color := color, position := pos }) }
  | some cursor =>
      { sc with m_remoteCursors := (QHash.insert sc.m_remoteCursors oderId
          { cursor with position := pos }) }

/-- Model of `CanvasScene::removeRemoteCursor`. -/
def removeRemoteCursor (sc : CanvasScene) (oderId : String) : CanvasScene :=
  { sc with m_remoteCursors := QHash.remove sc.m_remoteCursors oderId }

end CanvasScene

/-! ## The synchronisation orchestrator (`CollabManager`) -/

/-- Collaborator: what the orchestrator holds for another participant. -/
structure Collaborator where
  oderId : String
  userName : String
  color : String
  cursorPos : Rat × Rat
  isActive : Bool

/-- The palette of `CollabManager::generateUserColor`, as `QColor::name()` strings. -/
def userColors : List String :=
  ["#e74c3c", "#2ecc71", "#3498db", "#9b59b6", "#f1c40f", "#e67e22", "#1abc9c", "#ec7063"]

/-- Model of `CollabManager::CURSOR_THROTTLE_MS`. -/
def CURSOR_THROTTLE_MS : Nat := 50

/-- The state of a `CollabManager`: its transport client, the scene it is attached to
(`none` for a null `m_scene`), its fields, the time at which the single-shot timer
`m_cursorThrottle` is due (`none` when it is not running), whether `m_syncTimer` is
running, the temporary files it has written, and how many paths and random numbers it
has drawn. -/
structure CollabManager where
  m_client : SyncClient
  m_scene : Option CanvasScene
  m_localUserName : String
  m_localColor : String
  m_collaborators : List (String × Collaborator)
  rngCount : Nat
  cursorThrottleDue : Option Nat
  syncTimerActive : Bool
  m_pendingCursorPos : Rat × Rat
  m_hasPendingCursor : Bool
  m_isSyncing : Bool
  tempFiles : List (String × QByteArray)
  uuidCount : Nat

namespace CollabManager

/-- Model of `CollabManager::isConnected`. -/
def isConnected (m : CollabManager) : Bool := m.m_client.isConnected

/-- The frames `m_client->sendMessage(message)` puts on the wire. -/
def send (m : CollabManager) (message : QJsonObject) : List QJsonObject :=
  if m.m_client.isConnected then [message] else []

/-- Opening and reading a file: one this orchestrator wrote, else one of the host. -/
def readFile (P : Platform) (m : CollabManager) (path : String) : Option QByteArray :=
  match QHash.value m.tempFiles path with
  | some bytes => some bytes
  | none => P.readFile path

/-- The geometry fields common to the image messages and records. -/
def imageGeometry (item : ImageItem) (o : QJsonObject) : QJsonObject :=
  QJsonObject.insert (QJsonObject.insert (QJsonObject.insert (QJsonObject.insert
    (QJsonObject.insert (QJsonObject.insert o "imageId" (JsonValue.string item.id))
    "x" (JsonValue.double item.x)) "y" (JsonValue.double item.y))
    "rotation" (JsonValue.double item.rotation)) "scale" (JsonValue.double item.scale))
    "zIndex" (JsonValue.double item.zValue)

/-- The PNG payload: `imageData` and `isGif = false`. -/
def pngPayload (P : Platform) (item : ImageItem) (o : QJsonObject) : QJsonObject :=
  QJsonObject.insert (QJsonObject.insert o "imageData"
    (JsonValue.string (P.toBase64 (P.savePng item.image)))) "isGif" (JsonValue.bool false)

/-- The GIF payload: `imageData` and `isGif = true`. -/
def gifPayload (P : Platform) (gifData : QByteArray) (o : QJsonObject) : QJsonObject :=
  QJsonObject.insert (QJsonObject.insert o "imageData"
    (JsonValue.string (P.toBase64 gifData))) "isGif" (JsonValue.bool true)

/-- The message `CollabManager::sendImageAdd` builds. -/
def imageAddMsg (P : Platform) (m : CollabManager) (item : ImageItem) : QJsonObject :=
  let message := imageGeometry item (QJsonObject.insert (QJsonObject.insert []
    "type" (JsonValue.string "imageAdd")) "oderId" (JsonValue.string m.m_client.m_oderId))
  if P.isGifPath item.sourcePath then
    match readFile P m item.sourcePath with
    | some gifData => gifPayload P gifData message
    | none => pngPayload P item message
  else pngPayload P item message

/-- The message `CollabManager::sendImageUpdate` builds. -/
def imageUpdateMsg (m : CollabManager) (item : ImageItem) : QJsonObject :=
  imageGeometry item (QJsonObject.insert (QJsonObject.insert []
    "type" (JsonValue.string "imageUpdate")) "oderId" (JsonValue.string m.m_client.m_oderId))

/-- The message `CollabManager::sendImageRemove` builds. -/
def imageRemoveMsg (m : CollabManager) (id : String) : QJsonObject :=
  QJsonObject.insert (QJsonObject.insert (QJsonObject.insert []
    "type" (JsonValue.string "imageRemove")) "oderId" (JsonValue.string m.m_client.m_oderId))
    "imageId" (JsonValue.string id)

/-- The fields `textId`, `text`, `x`, `y`, `rotation` common to the text messages and records. -/
def textFields (item : TextItem) (o : QJsonObject) : QJsonObject :=
  QJsonObject.insert (QJsonObject.insert (QJsonObject.insert (QJsonObject.insert
    (QJsonObject.insert o "textId" (JsonValue.string item.id))
    "text" (JsonValue.string item.text)) "x" (JsonValue.double item.x))
    "y" (JsonValue.double item.y)) "rotation" (JsonValue.double item.rotation)

/-- The message `CollabManager::sendTextAdd` builds. -/
def textAddMsg (m : CollabManager) (item : TextItem) : QJsonObject :=
  QJsonObject.insert (QJsonObject.insert (QJsonObject.insert
    (textFields item (QJsonObject.insert (QJsonObject.insert []
      "type" (JsonValue.string "textAdd")) "oderId" (JsonValue.string m.m_client.m_oderId)))
    "fontFamily" (JsonValue.string item.fontFamily))
    "fontSize" (JsonValue.double (item.fontSize : Rat)))
    "textColor" (JsonValue.string item.textColor)

/-- The message `CollabManager::sendTextUpdate` builds. -/
def textUpdateMsg (m : CollabManager) (item : TextItem) : QJsonObject :=
  textFields item (QJsonObject.insert (QJsonObject.insert []
    "type" (JsonValue.string "textUpdate")) "oderId" (JsonValue.string m.m_client.m_oderId))

/-- The message `CollabManager::sendTextRemove` builds. -/
def textRemoveMsg (m : CollabManager) (id : String) : QJsonObject :=
  QJsonObject.insert (QJsonObject.insert (QJsonObject.insert []
    "type" (JsonValue.string "textRemove")) "oderId" (JsonValue.string m.m_client.m_oderId))
    "textId" (JsonValue.string id)

/-- The slots `onImageAdded` .. `onTextRemoved`: the frames put on the wire for one
scene signal, none while `m_isSyncing` is set or the client is not connected. -/
def onSceneSignal (P : Platform) (m : CollabManager) : SceneSignal → List QJsonObject
  | SceneSignal.imageAdded item =>
      if !m.m_isSyncing && m.isConnected then m.send (imageAddMsg P m item) else []
  | SceneSignal.imageChanged item =>
      if !m.m_isSyncing && m.isConnected then m.send (imageUpdateMsg m item) else []
  | SceneSignal.imageRemoved id =>
      if !m.m_isSyncing && m.isConnected then m.send (imageRemoveMsg m id) else []
  | SceneSignal.textAdded item =>
      if !m.m_isSyncing && m.isConnected then m.send (textAddMsg m item) else []
  | SceneSignal.textChanged item =>
      if !m.m_isSyncing && m.isConnected then m.send (textUpdateMsg m item) else []
  | SceneSignal.textRemoved id =>
      if !m.m_isSyncing && m.isConnected then m.send (textRemoveMsg m id) else []

/-- The frames put on the wire for the signals a scene operation emitted, in order. -/
def emitAll (P : Platform) (m : CollabManager) : List SceneSignal → List QJsonObject
  | [] => []
  | sig :: rest => onSceneSignal P m sig ++ emitAll P m rest

/-- The outcome of an orchestrator handler: the new state and the frames put on the wire. -/
abbrev Handled := CollabManager × List QJsonObject

/-- The part of `handleImageAdd` and of one round of `handleFullSync` that creates the
item once the payload bytes are known: the animated branch writes the bytes to a fresh
temporary file and creates the item from it, the other branch decodes the bytes and
creates the item unless the image is null.  Signals are delivered to the slots as they
are emitted. -/
def createImage (P : Platform) (m : CollabManager) (sc : CanvasScene) (isGif : Bool)
    (imageId : String) (imageData : QByteArray) (x y rotation scale : Rat) : Handled :=
  if isGif then
    let tempPath := P.tempPath m.uuidCount
    let m1 := { m with uuidCount := m.uuidCount + 1 }
    if P.canWrite tempPath then
      let m2 := { m1 with tempFiles := QHash.insert m1.tempFiles tempPath imageData }
      let added := sc.addImageItemFromFile imageId tempPath (P.loadFromData imageData)
        x y rotation scale
      ({ m2 with m_scene := some added.1 }, emitAll P m2 added.2)
    else (m1, [])
  else
    let image := P.loadFromData imageData
    if !image.isNull then
      let added := sc.addImageItem imageId image x y rotation scale
      ({ m with m_scene := some added.1 }, emitAll P m added.2)
    else (m, [])

/-- Model of `CollabManager::handleImageAdd`. -/
def handleImageAdd (P : Platform) (m : CollabManager) (message : QJsonObject) : Handled :=
  let senderId := (QJsonObject.value message "oderId").toString
  if senderId = m.m_client.m_oderId then (m, [])
  else
    let imageId := (QJsonObject.value message "imageId").toString
    let found : Bool :=
      match m.m_scene with
      | some sc => (sc.findImageItem imageId).isSome
      | none => false
    if found then (m, [])
    else
      let imageData := P.fromBase64 (QJsonObject.value message "imageData").toString
      let x := (QJsonObject.value message "x").toDouble
      let y := (QJsonObject.value message "y").toDouble
      let rotation := (QJsonObject.value message "rotation").toDouble
      let scale := (QJsonObject.value message "scale").toDouble 1
      let m1 := { m with m_isSyncing := true }
      let isGif := (QJsonObject.value message "isGif").toBool false
      let r : Handled :=
        match m1.m_scene with
        | some sc => createImage P m1 sc isGif imageId imageData x y rotation scale
        | none => (m1, [])
      ({ r.1 with m_isSyncing := false }, r.2)

/-- Model of `item->setPos(pos)` on the image the scene holds under `key`: nothing happens for an
unchanged position, else the item moves and the scene emits `imageChanged`. -/
def setImagePos (sc : CanvasScene) (key : String) (item : ImageItem) (x y : Rat) :
    CanvasScene × ImageItem × List SceneSignal :=
  if item.x = x ∧ item.y = y then (sc, item, [])
  else
    let item1 := { item with x := x, y := y }
    ({ sc with m_items := QHash.insert sc.m_items key item1 }, item1,
     [SceneSignal.imageChanged item1])

/-- Model of `CollabManager::handleImageUpdate`. -/
def handleImageUpdate (P : Platform) (m : CollabManager) (message : QJsonObject) : Handled :=
  let senderId := (QJsonObject.value message "oderId").toString
  if senderId = m.m_client.m_oderId then (m, [])
  else
    let imageId := (QJsonObject.value message "imageId").toString
    match m.m_scene with
    | none => (m, [])
    | some sc =>
      match sc.findImageItem imageId with
      | none => (m, [])
      | some item =>
        let m1 := { m with m_isSyncing := true }
        let moved : CanvasScene × ImageItem × List SceneSignal :=
          if QJsonObject.contains message "x" && QJsonObject.contains message "y" then
            setImagePos sc imageId item (QJsonObject.value message "x").toDouble
              (QJsonObject.value message "y").toDouble
          else (sc, item, [])
        let sent := emitAll P m1 moved.2.2
        let item2 : ImageItem :=
          if QJsonObject.contains message "rotation" then
            { moved.2.1 with rotation := (QJsonObject.value message "rotation").toDouble }
          else moved.2.1
        let item3 : ImageItem :=
          if QJsonObject.contains message "scale" then
            { item2 with scale := (QJsonObject.value message "scale").toDouble }
          else item2
        let item4 : ImageItem :=
          if QJsonObject.contains message "zIndex" then
            { item3 with zValue := (QJsonObject.value message "zIndex").toDouble }
          else item3
        let sc1 := { moved.1 with m_items := QHash.insert moved.1.m_items imageId item4 }
        ({ m1 with m_scene := some sc1, m_isSyncing := false }, sent)

/-- Model of `CollabManager::handleImageRemove`. -/
def handleImageRemove (P : Platform) (m : CollabManager) (message : QJsonObject) : Handled :=
  let senderId := (QJsonObject.value message "oderId").toString
  if senderId = m.m_client.m_oderId then (m, [])
  else
    let imageId := (QJsonObject.value message "imageId").toString
    let m1 := { m with m_isSyncing := true }
    match m1.m_scene with
    | some sc =>
        let removed := sc.removeImageItem imageId
        ({ m1 with m_scene := some removed.1, m_isSyncing := false }, emitAll P m1 removed.2)
    | none => ({ m1 with m_isSyncing := false }, [])

/-- Model of `CollabManager::handleTextAdd`. -/
def handleTextAdd (P : Platform) (m : CollabManager) (message : QJsonObject) : Handled :=
  match m.m_scene with
  | none => (m, [])
  | some sc =>
    let senderId := (QJsonObject.value message "oderId").toString
    if senderId = m.m_client.m_oderId then (m, [])
    else
      let textId := (QJsonObject.value message "textId").toString
      let text := (QJsonObject.value message "text").toString
      let x := (QJsonObject.value message "x").toDouble
      let y := (QJsonObject.value message "y").toDouble
      let rotation := (QJsonObject.value message "rotation").toDouble
      if (sc.findTextItem textId).isSome then (m, [])
      else
        let m1 := { m with m_isSyncing := true }
        let added := sc.addTextItem textId text x y rotation
        ({ m1 with m_scene := some added.1, m_isSyncing := false }, emitAll P m1 added.2)

/-- Model of `CollabManager::handleTextUpdate`: `setText` raises no signal of the scene, `setPos`
and `setRotation` make the scene emit `textChanged` when the value changes. -/
def handleTextUpdate (P : Platform) (m : CollabManager) (message : QJsonObject) : Handled :=
  match m.m_scene with
  | none => (m, [])
  | some sc =>
    let senderId := (QJsonObject.value message "oderId").toString
    if senderId = m.m_client.m_oderId then (m, [])
    else
      let textId := (QJsonObject.value message "textId").toString
      match sc.findTextItem textId with
      | none => (m, [])
      | some item =>
        let m1 := { m with m_isSyncing := true }
        let item1 : TextItem :=
          if QJsonObject.contains message "text" then
            { item with text := (QJsonObject.value message "text").toString }
          else item
        let item2 : TextItem :=
          if QJsonObject.contains message "x" && QJsonObject.contains message "y" then
            { item1 with x := (QJsonObject.value message "x").toDouble,
                         y := (QJsonObject.value message "y").toDouble }
          else item1
        let sig2 : List SceneSignal :=
          if item2.x = item1.x ∧ item2.y = item1.y then [] else [SceneSignal.textChanged item2]
        let item3 : TextItem :=
          if QJsonObject.contains message "rotation" then
            { item2 with rotation := (QJsonObject.value message "rotation").toDouble }
          else item2
        let sig3 : List SceneSignal :=
          if item3.rotation = item2.rotation then [] else [SceneSignal.textChanged item3]
        let sc1 := { sc with m_textItems := QHash.insert sc.m_textItems textId item3 }
        ({ m1 with m_scene := some sc1, m_isSyncing := false }, emitAll P m1 (sig2 ++ sig3))

/-- Model of `CollabManager::handleTextRemove`. -/
def handleTextRemove (P : Platform) (m : CollabManager) (message : QJsonObject) : Handled :=
  match m.m_scene with
  | none => (m, [])
  | some sc =>
    let senderId := (QJsonObject.value message "oderId").toString
    if senderId = m.m_client.m_oderId then (m, [])
    else
      let textId := (QJsonObject.value message "textId").toString
      let m1 := { m with m_isSyncing := true }
      let removed := sc.removeTextItem textId
      ({ m1 with m_scene := some removed.1, m_isSyncing := false }, emitAll P m1 removed.2)

/-- One round of the image loop of `handleFullSync`. -/
def fullSyncImage (P : Platform) (acc : Handled) (value : JsonValue) : Handled :=
  match acc.1.m_scene with
  | none => acc
  | some sc =>
    let imgObj := value.toObject
    let imageId := (QJsonObject.value imgObj "imageId").toString
    if imageId = "" then acc
    else if (sc.findImageItem imageId).isSome then acc
    else
      let imageDataStr := (QJsonObject.value imgObj "imageData").toString
      if imageDataStr = "" then acc
      else
        let imageData := P.fromBase64 imageDataStr
        if imageData = [] then acc
        else
          let r := createImage P acc.1 sc ((QJsonObject.value imgObj "isGif").toBool false)
            imageId imageData (QJsonObject.value imgObj "x").toDouble
            (QJsonObject.value imgObj "y").toDouble
            (QJsonObject.value imgObj "rotation").toDouble
            ((QJsonObject.value imgObj "scale").toDouble 1)
          (r.1, acc.2 ++ r.2)

/-- One round of the text loop of `handleFullSync`. -/
def fullSyncText (P : Platform) (acc : Handled) (value : JsonValue) : Handled :=
  match acc.1.m_scene with
  | none => acc
  | some sc =>
    let txtObj := value.toObject
    let textId := (QJsonObject.value txtObj "textId").toString
    if textId = "" then acc
    else if (sc.findTextItem textId).isSome then acc
    else
      let added := sc.addTextItem textId (QJsonObject.value txtObj "text").toString
        (QJsonObject.value txtObj "x").toDouble (QJsonObject.value txtObj "y").toDouble
        (QJsonObject.value txtObj "rotation").toDouble
      ({ acc.1 with m_scene := some added.1 }, acc.2 ++ emitAll P acc.1 added.2)

/-- Model of `CollabManager::handleFullSync`. -/
def handleFullSync (P : Platform) (m : CollabManager) (message : QJsonObject) : Handled :=
  match m.m_scene with
  | none => (m, [])
  | some _ =>
    let m1 := { m with m_isSyncing := true }
    let images := (QJsonObject.value message "images").toArray
    let r1 := images.foldl (fullSyncImage P) (m1, [])
    let texts := (QJsonObject.value message "texts").toArray
    let r2 := texts.foldl (fullSyncText P) r1
    ({ r2.1 with m_isSyncing := false }, r2.2)

/-- The record `pushLocalState` builds for one local image. -/
def imageRecord (P : Platform) (m : CollabManager) (item : ImageItem) : QJsonObject :=
  let imgObj := imageGeometry item []
  if P.isGifPath item.sourcePath then
    match readFile P m item.sourcePath with
    | some gifData => gifPayload P gifData imgObj
    | none => imgObj
  else pngPayload P item imgObj

/-- The record `pushLocalState` builds for one local text. -/
def textRecord (item : TextItem) : QJsonObject := textFields item []

/-- The `pushSync` message `pushLocalState` builds from the scene. -/
def pushSyncMsg (P : Platform) (m : CollabManager) (sc : CanvasScene) : QJsonObject :=
  QJsonObject.insert (QJsonObject.insert (QJsonObject.insert (QJsonObject.insert []
    "type" (JsonValue.string "pushSync")) "oderId" (JsonValue.string m.m_client.m_oderId))
    "images" (JsonValue.array (sc.imageItems.map
      (fun item => JsonValue.object (imageRecord P m item)))))
    "texts" (JsonValue.array (sc.textItems.map (fun item => JsonValue.object (textRecord item))))

/-- Model of `CollabManager::pushLocalState`. -/
def pushLocalState (P : Platform) (m : CollabManager) : Handled :=
  match m.m_scene with
  | none => (m, [])
  | some sc => if !m.isConnected then (m, []) else (m, m.send (pushSyncMsg P m sc))

/-- The colour of a new collaborator: the one named in the message when it is valid, else
one drawn by `generateUserColor`; the second component is the new count of draws. -/
def collaboratorColor (P : Platform) (m : CollabManager) (name : String) : String × Nat :=
  if P.colorIsValid name then (name, m.rngCount)
  else (userColors.getD (P.randomBounded m.rngCount) "", m.rngCount + 1)

/-- Model of `CollabManager::handleJoin`. -/
def handleJoin (P : Platform) (m : CollabManager) (message : QJsonObject) : Handled :=
  let oderId := (QJsonObject.value message "oderId").toString
  if oderId = m.m_client.m_oderId then pushLocalState P m
  else
    let userName := (QJsonObject.value message "userName").toString
    let color := collaboratorColor P m (QJsonObject.value message "color").toString
    let collab : Collaborator :=
      { oderId := oderId, userName := userName, color := color.1, cursorPos := (0, 0),
        isActive := true }
    ({ m with m_collaborators := QHash.insert m.m_collaborators oderId collab,
              rngCount := color.2 }, [])

/-- Model of `CollabManager::handleLeave`. -/
def handleLeave (m : CollabManager) (message : QJsonObject) : Handled :=
  let oderId := (QJsonObject.value message "oderId").toString
  if (QHash.value m.m_collaborators oderId).isSome then
    ({ m with m_collaborators := QHash.remove m.m_collaborators oderId,
              m_scene := m.m_scene.map (fun sc => sc.removeRemoteCursor oderId) }, [])
  else (m, [])

/-- One round of the loop of `handleUserList`. -/
def userListEntry (P : Platform) (m : CollabManager) (value : JsonValue) : CollabManager :=
  let user := value.toObject
  let oderId := (QJsonObject.value user "oderId").toString
  if oderId = m.m_client.m_oderId then m
  else
    let color := collaboratorColor P m (QJsonObject.value user "color").toString
    let collab : Collaborator :=
      { oderId := oderId, userName := (QJsonObject.value user "userName").toString,
        color := color.1, cursorPos := (0, 0), isActive := true }
    { m with m_collaborators := QHash.insert m.m_collaborators oderId collab,
             rngCount := color.2 }

/-- Model of `CollabManager::handleUserList`. -/
def handleUserList (P : Platform) (m : CollabManager) (message : QJsonObject) : Handled :=
  ((QJsonObject.value message "users").toArray.foldl (userListEntry P) m, [])

/-- Model of `CollabManager::handleCursor`. -/
def handleCursor (m : CollabManager) (message : QJsonObject) : Handled :=
  let oderId := (QJsonObject.value message "oderId").toString
  if oderId = m.m_client.m_oderId then (m, [])
  else
    let pos : Rat × Rat :=
      ((QJsonObject.value message "x").toDouble, (QJsonObject.value message "y").toDouble)
    match QHash.value m.m_collaborators oderId with
    | some collab =>
        ({ m with m_collaborators :=
                    (QHash.insert m.m_collaborators oderId { collab with cursorPos := pos }),
                  m_scene := (m.m_scene.map
                    (fun sc => sc.updateRemoteCursor oderId collab.userName pos collab.color)) },
         [])
    | none => (m, [])

/-- Model of `CollabManager::onMessageReceived`. -/
def onMessageReceived (P : Platform) (m : CollabManager) (message : QJsonObject) : Handled :=
  let type := (QJsonObject.value message "type").toString
  if type = "join" then handleJoin P m message
  else if type = "leave" then handleLeave m message
  else if type = "userList" then handleUserList P m message
  else if type = "cursor" then handleCursor m message
  else if type = "imageAdd" then handleImageAdd P m message
  else if type = "imageUpdate" then handleImageUpdate P m message
  else if type = "imageRemove" then handleImageRemove P m message
  else if type = "textAdd" then handleTextAdd P m message
  else if type = "textUpdate" then handleTextUpdate P m message
  else if type = "textRemove" then handleTextRemove P m message
  else if type = "sync" then handleImageUpdate P m message
  else if type = "fullSync" then handleFullSync P m message
  else (m, [])

/-- Model of `CollabManager::requestFullSync`. -/
def requestFullSync (m : CollabManager) : Handled :=
  (m, m.send (QJsonObject.insert (QJsonObject.insert []
    "type" (JsonValue.string "requestSync")) "oderId" (JsonValue.string m.m_client.m_oderId)))

/-- The `cursor` message `sendCursorUpdate` builds for the pending position. -/
def cursorMsg (m : CollabManager) (pos : Rat × Rat) : QJsonObject :=
  QJsonObject.insert (QJsonObject.insert (QJsonObject.insert (QJsonObject.insert
    (QJsonObject.insert [] "type" (JsonValue.string "cursor"))
    "oderId" (JsonValue.string m.m_client.m_oderId)) "x" (JsonValue.double pos.1))
    "y" (JsonValue.double pos.2)) "color" (JsonValue.string m.m_localColor)

/-- Model of `CollabManager::sendCursorUpdate`. -/
def sendCursorUpdate (m : CollabManager) : Handled :=
  if m.m_hasPendingCursor && m.isConnected then
    ({ m with m_hasPendingCursor := false }, m.send (cursorMsg m m.m_pendingCursorPos))
  else (m, [])

/-- Model of `CollabManager::onLocalCursorMoved` at time `now` (milliseconds): `start()` arms the
single-shot throttle timer for `now + CURSOR_THROTTLE_MS`. -/
def onLocalCursorMoved (m : CollabManager) (now : Nat) (pos : Rat × Rat) : Handled :=
  let m1 := { m with m_pendingCursorPos := pos, m_hasPendingCursor := true }
  if m1.cursorThrottleDue.isNone then
    let r := m1.sendCursorUpdate
    ({ r.1 with cursorThrottleDue := some (now + CURSOR_THROTTLE_MS) }, r.2)
  else (m1, [])

/-- The timeout of `m_cursorThrottle`: a single-shot timer stops, then its slot
`sendCursorUpdate` runs. -/
def onCursorThrottleTimeout (m : CollabManager) : Handled :=
  sendCursorUpdate { m with cursorThrottleDue := none }

/-- A frame put on the wire, with the time at which it was sent. -/
abbrev TimedFrame := Nat × QJsonObject

/-- The event loop reaching time `now`: the throttle timer times out if it is due. -/
def advanceTo (m : CollabManager) (now : Nat) : CollabManager × List TimedFrame :=
  match m.cursorThrottleDue with
  | some due =>
      if due ≤ now then
        ((onCursorThrottleTimeout m).1, (onCursorThrottleTimeout m).2.map (fun f => (due, f)))
      else (m, [])
  | none => (m, [])

/-- Local pointer moves, each with the time at which it arrives, handled in order; the
throttle timer times out in between when it is due. -/
def cursorMoves (m : CollabManager) : List (Nat × (Rat × Rat)) → CollabManager × List TimedFrame
  | [] => (m, [])
  | (t, pos) :: rest =>
      let a := advanceTo m t
      let r := onLocalCursorMoved a.1 t pos
      let rs := cursorMoves r.1 rest
      (rs.1, a.2 ++ r.2.map (fun f => (t, f)) ++ rs.2)

/-- Model of `CollabManager::userCount`: `m_collaborators.size() + 1`. -/
def userCount (m : CollabManager) : Nat := m.m_collaborators.length + 1

/-- Inbound messages handled one after the other by `onMessageReceived`, with the frames
put on the wire in order. -/
def receiveAll (P : Platform) (m : CollabManager) : List QJsonObject → Handled
  | [] => (m, [])
  | message :: rest =>
      let r := onMessageReceived P m message
      let rs := receiveAll P r.1 rest
      (rs.1, r.2 ++ rs.2)

/-- The times, in order, at which the frames of a trace were sent. -/
def sendTimes (frames : List TimedFrame) : List Nat := frames.map Prod.fst

/-- A session of pointer moves observed until `tEnd`: the moves in order, then the event
loop reaching `tEnd`. -/
def cursorSession (m : CollabManager) (moves : List (Nat × (Rat × Rat))) (tEnd : Nat) :
    List TimedFrame :=
  (cursorMoves m moves).2 ++ (advanceTo (cursorMoves m moves).1 tEnd).2

end CollabManager

/-- Every send time is at least `lo` for the next frame, `lo2` for the one after it, and
at least `gap` after the send time two places before it. -/
def SpacedFrom (gap : Nat) : Nat → Nat → List Nat → Prop
  | _, _, [] => True
  | lo, lo2, t :: rest => lo ≤ t ∧ SpacedFrom gap lo2 (t + gap) rest

/-! ## A hub and two orchestrators -/

/-- The two orchestrators of the reconciliation scenario. -/
inductive Peer where
  | X
  | Y
  deriving DecidableEq

/-- What can happen next in the scenario: an orchestrator pushes its local state, the
hub handles the oldest frame it has received, or an orchestrator handles the oldest
frame it has received. -/
inductive NetAction where
  | push (p : Peer)
  | hubHandle (now : String)
  | deliver (p : Peer)

/-- A hub with its storage, the orchestrators with the platform each runs on and the
hub's socket for each, and the frames in flight in each direction, oldest first. -/
structure Network where
  hub : SyncServer
  disk : Disk
  platform : Peer → Platform
  mgr : Peer → CollabManager
  sock : Peer → Socket
  toHub : List (Socket × QJsonObject)
  inbox : Peer → List QJsonObject

namespace Network

/-- One action of the scenario.  Frames an orchestrator sends go to the end of `toHub`
tagged with its socket; frames the hub sends go to the end of the addressee's inbox. -/
def step (net : Network) : NetAction → Network
  | NetAction.push p =>
      let r := CollabManager.pushLocalState (net.platform p) (net.mgr p)
      { net with mgr := fun q => if q = p then r.1 else net.mgr q,
                 toHub := net.toHub ++ r.2.map (fun f => (net.sock p, f)) }
  | NetAction.hubHandle now =>
      match net.toHub with
      | [] => net
      | (sock, f) :: rest =>
          let r := net.hub.onTextMessageReceived net.disk now sock (JsonValue.object f)
          { net with hub := r.server, disk := r.disk, toHub := rest,
                     inbox := fun q => net.inbox q ++ SyncServer.framesFor (net.sock q) r.sent }
  | NetAction.deliver p =>
      match net.inbox p with
      | [] => net
      | f :: rest =>
          let r := CollabManager.onMessageReceived (net.platform p) (net.mgr p) f
          { net with mgr := fun q => if q = p then r.1 else net.mgr q,
                     inbox := fun q => if q = p then rest else net.inbox q,
                     toHub := net.toHub ++ r.2.map (fun f => (net.sock p, f)) }

/-- A sequence of actions, in order. -/
def run (net : Network) (acts : List NetAction) : Network := acts.foldl step net

end Network

/-- The ids of the images in an orchestrator's mirror. -/
def CollabManager.imageIds (m : CollabManager) : List String :=
  match m.m_scene with
  | some sc => sc.imageItems.map ImageItem.id
  | none => []

/-- The ids of the texts in an orchestrator's mirror. -/
def CollabManager.textIds (m : CollabManager) : List String :=
  match m.m_scene with
  | some sc => sc.textItems.map TextItem.id
  | none => []

/-- A record that `handleFullSync` on platform `P` turns into an image whenever the
mirror has no image with its id: the payload text is not empty, it decodes to at least
one byte, and the temporary file can be written (animated) or the bytes decode to an
image (otherwise). -/
def DecodableBy (P : Platform) (rec : QJsonObject) : Prop :=
  (QJsonObject.value rec "imageData").toString ≠ "" ∧
  P.fromBase64 (QJsonObject.value rec "imageData").toString ≠ [] ∧
  (if (QJsonObject.value rec "isGif").toBool false then ∀ n, P.canWrite (P.tempPath n) = true
   else (P.loadFromData (P.fromBase64 (QJsonObject.value rec "imageData").toString)).isNull
     = false)

/-- An orchestrator about to reconcile local items with a hub, on platform `P`: it is
connected, attached to a scene whose tables hold every item under its own, non-empty
id, and has written no temporary file; the paths of its images are not names the
platform generates for temporary files. -/
def ReadyToSync (P : Platform) (m : CollabManager) : Prop :=
  m.isConnected = true ∧ m.tempFiles = [] ∧
  ∃ sc, m.m_scene = some sc ∧
    (∀ kv ∈ sc.m_items, kv.2.id = kv.1 ∧ kv.1 ≠ "" ∧ ∀ n, P.tempPath n ≠ kv.2.sourcePath) ∧
    (∀ kv ∈ sc.m_textItems, kv.2.id = kv.1 ∧ kv.1 ≠ "")

/-- Every local image of `m`, as `m` pushes it from platform `P`, is decodable on
platform `Q`. -/
def PayloadsDecodableOn (P Q : Platform) (m : CollabManager) : Prop :=
  ∀ sc, m.m_scene = some sc →
    ∀ item ∈ sc.imageItems, DecodableBy Q (CollabManager.imageRecord P m item)

/-- The temporary files an orchestrator has written all carry generated names. -/
def CollabManager.TempNamesOnly (P : Platform) (m : CollabManager) : Prop :=
  ∀ x ∈ m.tempFiles.map Prod.fst, ∃ n, x = P.tempPath n

/-- The keys of `m_items` in an orchestrator's scene. -/
def CollabManager.imageKeys (m : CollabManager) : List String :=
  match m.m_scene with
  | some sc => sc.m_items.map Prod.fst
  | none => []

/-- The keys of `m_textItems` in an orchestrator's scene. -/
def CollabManager.textKeys (m : CollabManager) : List String :=
  match m.m_scene with
  | some sc => sc.m_textItems.map Prod.fst
  | none => []

/-- The orchestrator `m2` is `m1` with the same client and items added at the end of the
item tables, each under its own id, the image ids taken from `imgs` and the text ids
from `txts`; temporary files keep generated names. -/
def CollabManager.GrownFrom (P : Platform) (m1 m2 : CollabManager) (imgs txts : List String) :
    Prop :=
  m2.m_client = m1.m_client ∧
  (CollabManager.TempNamesOnly P m1 → CollabManager.TempNamesOnly P m2) ∧
  ∃ sc1 sc2 addI addT, m1.m_scene = some sc1 ∧ m2.m_scene = some sc2 ∧
    sc2.m_items = sc1.m_items ++ addI ∧ sc2.m_textItems = sc1.m_textItems ++ addT ∧
    (∀ kv ∈ addI, kv.2.id = kv.1 ∧ kv.1 ∈ imgs) ∧
    (∀ kv ∈ addT, kv.2.id = kv.1 ∧ kv.1 ∈ txts)

/-- An image made from the snapshot record `v`: the item has the record's id, its position
and rotation, and its scale, 1 when the record has none, as `handleFullSync` reads them. -/
def CollabManager.FromRecord (item : ImageItem) (v : JsonValue) : Prop :=
  item.id = SyncServer.recordId "imageId" v ∧
  item.x = (QJsonObject.value v.toObject "x").toDouble ∧
  item.y = (QJsonObject.value v.toObject "y").toDouble ∧
  item.rotation = (QJsonObject.value v.toObject "rotation").toDouble ∧
  item.scale = (QJsonObject.value v.toObject "scale").toDouble 1

/-- The hub routes by connection identity: each orchestrator's socket is connected, its
identity leads back to it, and the two identities differ. -/
def RoutesTo (hub : SyncServer) (sock : Peer → Socket) : Prop :=
  (∀ p, sock p ∈ hub.m_clients ∧
    QHash.value hub.m_clientsById (hub.clientId (sock p)) = some (sock p)) ∧
  hub.clientId (sock Peer.X) ≠ hub.clientId (sock Peer.Y)

/-- The image ids stored by the hub. -/
def Network.hubImageIds (net : Network) : List String :=
  net.hub.m_boardState.map (SyncServer.recordId "imageId")

/-- The text ids stored by the hub. -/
def Network.hubTextIds (net : Network) : List String :=
  net.hub.m_textState.map (SyncServer.recordId "textId")

/-- The image ids carried by a pushSync or fullSync frame. -/
def frameImageIds (f : QJsonObject) : List String :=
  (QJsonObject.value f "images").toArray.map (SyncServer.recordId "imageId")

/-- The text ids carried by a pushSync or fullSync frame. -/
def frameTextIds (f : QJsonObject) : List String :=
  (QJsonObject.value f "texts").toArray.map (SyncServer.recordId "textId")

/-- A record some orchestrator pushes for an image it holds when the scenario starts. -/
def OriginImage (net0 : Network) (r : JsonValue) : Prop :=
  ∃ p sc kv, (net0.mgr p).m_scene = some sc ∧ kv ∈ sc.m_items ∧
    r = JsonValue.object (CollabManager.imageRecord (net0.platform p) (net0.mgr p) kv.2)

/-- A record some orchestrator pushes for a text it holds when the scenario starts. -/
def OriginText (net0 : Network) (r : JsonValue) : Prop :=
  ∃ p sc kv, (net0.mgr p).m_scene = some sc ∧ kv ∈ sc.m_textItems ∧
    r = JsonValue.object (CollabManager.textRecord kv.2)

/-- The start of the reconciliation scenario: both orchestrators are ready to sync, the
images of each are decodable on the other's platform, the hub routes to both, the room
is empty and no frame is in flight. -/
structure Scenario (net0 : Network) : Prop where
  ready : ∀ p, ReadyToSync (net0.platform p) (net0.mgr p)
  decodable : ∀ p q, p ≠ q →
    PayloadsDecodableOn (net0.platform p) (net0.platform q) (net0.mgr p)
  routes : RoutesTo net0.hub net0.sock
  emptyImages : net0.hub.m_boardState = []
  emptyTexts : net0.hub.m_textState = []
  noneToHub : net0.toHub = []
  noneToPeers : ∀ p, net0.inbox p = []

/-- What holds throughout the scenario started in `net0`; `pushed p` tells whether
orchestrator `p` has pushed.  The hub stores only records pushed for initial items;
each mirror is the initial one plus items under ids the hub stores; frames in flight
carry such records; every id the hub stores is in each mirror or on its way to it; and
what an orchestrator has pushed is stored or on its way to the hub. -/
structure NetInv (net0 net : Network) (pushed : Peer → Bool) : Prop where
  platform_eq : net.platform = net0.platform
  sock_eq : net.sock = net0.sock
  clients_eq : net.hub.m_clients = net0.hub.m_clients
  clientIds_eq : net.hub.m_clientIds = net0.hub.m_clientIds
  byId_eq : net.hub.m_clientsById = net0.hub.m_clientsById
  hubImages : ∀ r ∈ net.hub.m_boardState, OriginImage net0 r
  hubTexts : ∀ r ∈ net.hub.m_textState, OriginText net0 r
  grown : ∀ p, CollabManager.GrownFrom (net0.platform p) (net0.mgr p) (net.mgr p)
    net.hubImageIds net.hubTextIds
  toHubOk : ∀ sf ∈ net.toHub, (∃ p, sf.1 = net0.sock p) ∧
    (QJsonObject.value sf.2 "type").toString = "pushSync" ∧
    (∀ r ∈ (QJsonObject.value sf.2 "images").toArray,
      OriginImage net0 r ∨ SyncServer.recordId "imageId" r ∈ net.hubImageIds) ∧
    (∀ r ∈ (QJsonObject.value sf.2 "texts").toArray,
      OriginText net0 r ∨ SyncServer.recordId "textId" r ∈ net.hubTextIds)
  inboxOk : ∀ p, ∀ f ∈ net.inbox p,
    (QJsonObject.value f "type").toString = "fullSync" ∧
    (∀ r ∈ (QJsonObject.value f "images").toArray,
      OriginImage net0 r ∧ SyncServer.recordId "imageId" r ∈ net.hubImageIds) ∧
    (∀ r ∈ (QJsonObject.value f "texts").toArray,
      OriginText net0 r ∧ SyncServer.recordId "textId" r ∈ net.hubTextIds)
  coverImages : ∀ p, ∀ id ∈ net.hubImageIds,
    id ∈ (net.mgr p).imageKeys ∨ ∃ f ∈ net.inbox p, id ∈ frameImageIds f
  coverTexts : ∀ p, ∀ id ∈ net.hubTextIds,
    id ∈ (net.mgr p).textKeys ∨ ∃ f ∈ net.inbox p, id ∈ frameTextIds f
  pushedImages : ∀ p, pushed p = true → ∀ id ∈ (net0.mgr p).imageKeys,
    id ∈ net.hubImageIds ∨ ∃ sf ∈ net.toHub, id ∈ frameImageIds sf.2
  pushedTexts : ∀ p, pushed p = true → ∀ id ∈ (net0.mgr p).textKeys,
    id ∈ net.hubTextIds ∨ ∃ sf ∈ net.toHub, id ∈ frameTextIds sf.2

/-- Whether an action is orchestrator `p` pushing its local state. -/
def NetAction.isPush (p : Peer) : NetAction → Bool
  | NetAction.push q => decide (q = p)
  | _ => false

/-! ## Concrete instances -/

/-- The stored record of the image `B`. -/
def exampleRecord : JsonValue :=
  JsonValue.object [("type", JsonValue.string "imageAdd"),
    ("imageId", JsonValue.string "B"), ("x", JsonValue.double 0), ("y", JsonValue.double 0),
    ("rotation", JsonValue.double 30), ("scale", JsonValue.double 2)]

/-- A hub with two connections and one stored image. -/
def exampleServer : SyncServer :=
  { m_clients := [1, 2], m_clientIds := [(1, "c1"), (2, "c2")],
    m_clientsById := [("c1", 1), ("c2", 2)],
    m_boardState := [exampleRecord],
    m_textState := [], m_saveFilePath := "shared_board.json" }

/-- An empty storage on which every file can be opened. -/
def exampleDisk : Disk := { files := [], denied := [] }

/-- An imageAdd message for the image `A`. -/
def exampleImageAdd : QJsonObject :=
  [("type", JsonValue.string "imageAdd"), ("oderId", JsonValue.string "u1"),
   ("imageId", JsonValue.string "A"), ("x", JsonValue.double 1), ("y", JsonValue.double 2),
   ("rotation", JsonValue.double 0), ("scale", JsonValue.double 1),
   ("imageData", JsonValue.string "QUJD"), ("isGif", JsonValue.bool false)]

/-- The message `imageUpdate{imageId: "B", x: 5}`. -/
def exampleUpdateX : QJsonObject :=
  [("type", JsonValue.string "imageUpdate"), ("imageId", JsonValue.string "B"),
   ("x", JsonValue.double 5)]

/-- The message `imageUpdate{imageId: "B", y: 9}`. -/
def exampleUpdateY : QJsonObject :=
  [("type", JsonValue.string "imageUpdate"), ("imageId", JsonValue.string "B"),
   ("y", JsonValue.double 9)]

/-- A pushSync message carrying the stored image `B`, a new image `C` twice and a text. -/
def examplePush : QJsonObject :=
  [("type", JsonValue.string "pushSync"), ("oderId", JsonValue.string "u1"),
   ("images", JsonValue.array
     [JsonValue.object [("imageId", JsonValue.string "B"), ("x", JsonValue.double 7)],
      JsonValue.object [("imageId", JsonValue.string "C"), ("x", JsonValue.double 1)],
      JsonValue.object [("imageId", JsonValue.string "C"), ("x", JsonValue.double 2)]]),
   ("texts", JsonValue.array
     [JsonValue.object [("textId", JsonValue.string "T"), ("text", JsonValue.string "note")]])]

/-- A room state with three images and two texts. -/
def exampleRoom : SyncServer :=
  { m_clients := [], m_clientIds := [], m_clientsById := [],
    m_boardState := [JsonValue.object [("imageId", JsonValue.string "i1")],
      JsonValue.object [("imageId", JsonValue.string "i2")],
      JsonValue.object [("imageId", JsonValue.string "i3")]],
    m_textState := [JsonValue.object [("textId", JsonValue.string "t1")],
      JsonValue.object [("textId", JsonValue.string "t2")]],
    m_saveFilePath := "shared_board.json" }

/-- A client whose endpoint refuses every connection: eleven rounds of a socket error,
the socket closing, and the reconnect timer timing out. -/
def exampleFailures : List ClientEvent := refusedRounds 11

/-- A platform with a one-byte codec: every non-empty text decodes to one byte, every
non-empty byte string is an image, no path is animated, files are writable. -/
def examplePlatform : Platform :=
  { fromBase64 := fun str => if str = "" then [] else [1],
    toBase64 := fun bytes => if bytes = [] then "" else "AQ==",
    loadFromData := fun bytes => { isNull := decide (bytes = []), raster := bytes },
    savePng := fun image => image.raster,
    isGifPath := fun _ => false,
    readFile := fun _ => none,
    canWrite := fun _ => true,
    tempPath := fun _ => "/tmp/collabref_0.gif",
    colorIsValid := fun _ => true,
    randomBounded := fun _ => 0 }

/-- A connected orchestrator with participant id `oderId` attached to the scene `sc`. -/
def exampleManager (oderId : String) (sc : CanvasScene) : CollabManager :=
  { m_client := { socketState := SocketState.connected, m_serverUrl := "ws://hub:8080",
                  m_roomId := "", m_oderId := oderId, pingTimerActive := true,
                  reconnectTimerActive := false, m_reconnectAttempts := 0 },
    m_scene := some sc, m_localUserName := "User", m_localColor := "#3498db",
    m_collaborators := [], rngCount := 0, cursorThrottleDue := none, syncTimerActive := true,
    m_pendingCursorPos := (0, 0), m_hasPendingCursor := false, m_isSyncing := false,
    tempFiles := [], uuidCount := 0 }

/-- A scene holding one image with the given id. -/
def exampleScene (id : String) : CanvasScene :=
  { m_items := [(id, { id := id, image := { isNull := false, raster := [1] },
                       sourcePath := "", x := 0, y := 0, rotation := 0, scale := 1,
                       zValue := 1 })],
    m_textItems := [], m_remoteCursors := [] }

/-- The scenario of the specification: X holds `img1`, Y holds `img2`, both are connected
to a fresh hub. -/
def exampleNet : Network :=
  { hub := ((SyncServer.onNewConnection (SyncServer.fresh "shared_board.json") exampleDisk
      1 "c1").server.onNewConnection exampleDisk 2 "c2").server,
    disk := exampleDisk,
    platform := fun _ => examplePlatform,
    mgr := fun p =>
      match p with
      | Peer.X => exampleManager "x" (exampleScene "img1")
      | Peer.Y => exampleManager "y" (exampleScene "img2"),
    sock := fun p =>
      match p with
      | Peer.X => 1
      | Peer.Y => 2,
    toHub := [],
    inbox := fun _ => [] }

/-- Both push, the hub handles both pushes, then every frame is delivered. -/
def exampleActs : List NetAction :=
  [NetAction.push Peer.X, NetAction.hubHandle "t1", NetAction.push Peer.Y,
   NetAction.hubHandle "t2", NetAction.deliver Peer.X, NetAction.deliver Peer.X,
   NetAction.deliver Peer.Y, NetAction.deliver Peer.Y]

/-- A scene holding the image `img1` and the text `t1`. -/
def exampleBoard : CanvasScene :=
  { m_items := [("img1", { id := "img1", image := { isNull := false, raster := [1] },
                           sourcePath := "", x := 0, y := 0, rotation := 0, scale := 1,
                           zValue := 1 })],
    m_textItems := [("t1", { id := "t1", text := "note", x := 0, y := 0, rotation := 0,
                             zValue := 2, fontFamily := "Arial", fontSize := 14,
                             textColor := "#ffffff" })],
    m_remoteCursors := [] }

/-- An add message of participant `u1` that carries the image id `A` and the text id `T`. -/
def exampleAddFirst : QJsonObject :=
  [("type", JsonValue.string "imageAdd"), ("oderId", JsonValue.string "u1"),
   ("imageId", JsonValue.string "A"), ("textId", JsonValue.string "T"),
   ("text", JsonValue.string "first"), ("x", JsonValue.double 1), ("y", JsonValue.double 2),
   ("rotation", JsonValue.double 0), ("scale", JsonValue.double 1),
   ("imageData", JsonValue.string "QUJD"), ("isGif", JsonValue.bool false)]

/-- A second add message with the ids of `exampleAddFirst` and another text, position,
rotation, scale and payload. -/
def exampleAddSecond : QJsonObject :=
  [("type", JsonValue.string "imageAdd"), ("oderId", JsonValue.string "u2"),
   ("imageId", JsonValue.string "A"), ("textId", JsonValue.string "T"),
   ("text", JsonValue.string "second"), ("x", JsonValue.double 7), ("y", JsonValue.double 8),
   ("rotation", JsonValue.double 90), ("scale", JsonValue.double 3),
   ("imageData", JsonValue.string "REVG"), ("isGif", JsonValue.bool false)]

/-- An imageAdd of participant `u1` for the image `A` whose payload is the empty text. -/
def exampleEmptyAdd : QJsonObject :=
  [("type", JsonValue.string "imageAdd"), ("oderId", JsonValue.string "u1"),
   ("imageId", JsonValue.string "A"), ("x", JsonValue.double 1), ("y", JsonValue.double 2),
   ("rotation", JsonValue.double 0), ("scale", JsonValue.double 1),
   ("imageData", JsonValue.string ""), ("isGif", JsonValue.bool false)]

/-- The message `imageUpdate{oderId: "u1", imageId: "img1", x: 5}`: an `x` without a `y`. -/
def exampleMoveX : QJsonObject :=
  [("type", JsonValue.string "imageUpdate"), ("oderId", JsonValue.string "u1"),
   ("imageId", JsonValue.string "img1"), ("x", JsonValue.double 5)]

/-- The message `imageUpdate{oderId: "u1", imageId: "img1", x: 5, y: 9, scale: 2}`. -/
def exampleMoveXY : QJsonObject :=
  [("type", JsonValue.string "imageUpdate"), ("oderId", JsonValue.string "u1"),
   ("imageId", JsonValue.string "img1"), ("x", JsonValue.double 5),
   ("y", JsonValue.double 9), ("scale", JsonValue.double 2)]

/-- A remove message of participant `u1` for the image `img1` and the text `ghost`, an id
no scene of the examples holds. -/
def exampleRemoveImg1 : QJsonObject :=
  [("type", JsonValue.string "imageRemove"), ("oderId", JsonValue.string "u1"),
   ("imageId", JsonValue.string "img1"), ("textId", JsonValue.string "ghost")]

/-- The message `imageRemove{oderId: "u1", imageId: "i2"}`. -/
def exampleRemoveI2 : QJsonObject :=
  [("type", JsonValue.string "imageRemove"), ("oderId", JsonValue.string "u1"),
   ("imageId", JsonValue.string "i2")]

/-- The message `imageRemove{oderId: "u1", imageId: "B"}`. -/
def exampleRemoveB : QJsonObject :=
  [("type", JsonValue.string "imageRemove"), ("oderId", JsonValue.string "u1"),
   ("imageId", JsonValue.string "B")]

/-- The storage after `exampleServer` has saved its room, the image `B` at `x = 0`. -/
def exampleSavedDisk : Disk := exampleServer.saveState exampleDisk "t0"

/-- A hub session: two connections, the image `A` added twice, the image `B` never
added but updated, a push, a removal and a pull. -/
def exampleEvents : List HubEvent :=
  [HubEvent.newConnection 1 "c1", HubEvent.newConnection 2 "c2",
   HubEvent.textMessage "t1" 1 (JsonValue.object exampleImageAdd),
   HubEvent.textMessage "t2" 2 (JsonValue.object exampleImageAdd),
   HubEvent.textMessage "t3" 1 (JsonValue.object exampleUpdateX),
   HubEvent.textMessage "t4" 2 (JsonValue.object examplePush),
   HubEvent.textMessage "t5" 1 (JsonValue.object exampleRemoveI2),
   HubEvent.saveTimeout "t6", HubEvent.clientDisconnected 2]

/-- A connected transport client in a room. -/
def exampleClient : SyncClient :=
  { socketState := SocketState.connected, m_serverUrl := "ws://hub:8080",
    m_roomId := "room1", m_oderId := "u1", pingTimerActive := true,
    reconnectTimerActive := false, m_reconnectAttempts := 0 }

/-- Three pointer moves: at 0 ms, at 10 ms, and at 51 ms, right after the flush at 50 ms. -/
def exampleFlushMoves : List (Nat × (Rat × Rat)) :=
  [(0, (1, 0)), (10, (2, 0)), (51, (3, 0))]

/-- The image `B` as participant `x` holds it after moving it to `x = 5`. -/
def exampleMovedB : ImageItem :=
  { id := "B", image := { isNull := false, raster := [1] }, sourcePath := "",
    x := 5, y := 0, rotation := 30, scale := 2, zValue := 1 }

/-- The image `B` as participant `y` holds it after rotating it to 90 degrees. -/
def exampleRotatedB : ImageItem :=
  { id := "B", image := { isNull := false, raster := [1] }, sourcePath := "",
    x := 0, y := 0, rotation := 90, scale := 2, zValue := 1 }

/-- The join message of participant `x`, as `SyncClient::joinRoom` builds it. -/
def exampleJoinX : QJsonObject :=
  [("type", JsonValue.string "join"), ("roomId", JsonValue.string "room1"),
   ("oderId", JsonValue.string "x"), ("userName", JsonValue.string "Xavier")]

/-- A cursor message of participant `x`. -/
def exampleCursorX : QJsonObject :=
  [("type", JsonValue.string "cursor"), ("oderId", JsonValue.string "x"),
   ("x", JsonValue.double 1), ("y", JsonValue.double 2), ("color", JsonValue.string "#e74c3c")]

/-- The join message of participant `u3`. -/
def exampleJoin3 : QJsonObject :=
  [("type", JsonValue.string "join"), ("roomId", JsonValue.string "room1"),
   ("oderId", JsonValue.string "u3"), ("userName", JsonValue.string "Zoe")]

/-- The hub of `exampleServer` after a third connection, socket 3 with identity `c3`. -/
def exampleHub3 : SyncServer := (exampleServer.onNewConnection exampleDisk 3 "c3").server

/-- A ping of participant `u1`, as `SyncClient::sendPing` builds it. -/
def examplePing : QJsonObject :=
  [("type", JsonValue.string "ping"), ("oderId", JsonValue.string "u1")]

/-- A requestSync of participant `u1`, as `CollabManager::requestFullSync` builds it. -/
def exampleRequest : QJsonObject :=
  [("type", JsonValue.string "requestSync"), ("oderId", JsonValue.string "u1")]

/-- A fullSync that lists the image `A` twice, the image `img1`, the image `E` twice
without payload, and the text `T` twice. -/
def exampleFullSync : QJsonObject :=
  [("type", JsonValue.string "fullSync"),
   ("images", JsonValue.array
     [JsonValue.object [("imageId", JsonValue.string "A"), ("x", JsonValue.double 1),
        ("imageData", JsonValue.string "QUJD"), ("isGif", JsonValue.bool false)],
      JsonValue.object [("imageId", JsonValue.string "img1"), ("x", JsonValue.double 9),
        ("imageData", JsonValue.string "QUJD"), ("isGif", JsonValue.bool false)],
      JsonValue.object [("imageId", JsonValue.string "A"), ("x", JsonValue.double 2),
        ("imageData", JsonValue.string "REVG"), ("isGif", JsonValue.bool true)],
      JsonValue.object [("imageId", JsonValue.string "E"), ("x", JsonValue.double 3),
        ("imageData", JsonValue.string ""), ("isGif", JsonValue.bool false)],
      JsonValue.object [("imageId", JsonValue.string "E"), ("x", JsonValue.double 4),
        ("imageData", JsonValue.string ""), ("isGif", JsonValue.bool false)]]),
   ("texts", JsonValue.array
     [JsonValue.object [("textId", JsonValue.string "T"), ("text", JsonValue.string "one")],
      JsonValue.object [("textId", JsonValue.string "T"), ("text", JsonValue.string "two")]])]

/-- A hub session without a message that stores: a connection, a join, a ping, a cursor,
a pull, a frame that is not an object, a save-timer timeout, and two disconnections. -/
def exampleQuietEvents : List HubEvent :=
  [HubEvent.newConnection 3 "c3",
   HubEvent.textMessage "t1" 3 (JsonValue.object exampleJoin3),
   HubEvent.textMessage "t2" 1 (JsonValue.object examplePing),
   HubEvent.textMessage "t3" 1 (JsonValue.object exampleCursorX),
   HubEvent.textMessage "t4" 2 (JsonValue.object exampleRequest),
   HubEvent.textMessage "t5" 2 (JsonValue.string "not an object"),
   HubEvent.saveTimeout "t6", HubEvent.clientDisconnected 3, HubEvent.clientDisconnected 1]

/-- Inbound messages of every kind of early return: an add, the same add again, an add
with an unusable payload, an update without `y`, a remove, a remove of an unknown id, a
snapshot, a ping. -/
def exampleInbound : List QJsonObject :=
  [exampleAddFirst, exampleAddSecond, exampleEmptyAdd, exampleMoveX, exampleRemoveImg1,
   exampleRemoveImg1, exampleFullSync, examplePing]

/-- An imageAdd that binds no `imageId`: `{type: "imageAdd", x: 7}`. -/
def exampleBareAdd : QJsonObject :=
  [("type", JsonValue.string "imageAdd"), ("x", JsonValue.double 7)]

/-- A frame that binds no `type`: `{oderId: "u1"}`. -/
def exampleNoType : QJsonObject := [("oderId", JsonValue.string "u1")]

/-- A pushed image item that binds no `imageId`: `{x: 3}`. -/
def exampleBareItem : JsonValue := JsonValue.object [("x", JsonValue.double 3)]

/-- A pushSync message carrying `exampleBareItem` and no text. -/
def exampleBarePush : QJsonObject :=
  [("type", JsonValue.string "pushSync"), ("images", JsonValue.array [exampleBareItem])]

/-! ## Lemmas on JSON objects -/

namespace QJsonObject

theorem value_replace_self (o : QJsonObject) (k : String) (v : JsonValue) :
    value (replace o k v) k = v := by
  induction o with
  | nil => simp [replace, value]
  | cons kv rest ih =>
      obtain ⟨k1, w⟩ := kv
      by_cases h : k1 = k
      · simp [replace, value, h]
      · simp [replace, value, h, ih]

theorem value_replace_ne (o : QJsonObject) (k k2 : String) (v : JsonValue) (hne : k ≠ k2) :
    value (replace o k v) k2 = value o k2 := by
  induction o with
  | nil => simp [replace, value, hne]
  | cons kv rest ih =>
      obtain ⟨k1, w⟩ := kv
      by_cases h : k1 = k
      · subst h
        simp [replace, value, hne]
      · by_cases h2 : k1 = k2
        · subst h2
          simp [replace, value, h]
        · simp [replace, value, h, h2, ih]

theorem value_remove_self (o : QJsonObject) (k : String) :
    value (remove o k) k = JsonValue.undefined := by
  induction o with
  | nil => simp [remove, value]
  | cons kv rest ih =>
      obtain ⟨k1, w⟩ := kv
      by_cases h : k1 = k
      · simp [remove, h, ih]
      · simp [remove, value, h, ih]

theorem value_remove_ne (o : QJsonObject) (k k2 : String) (hne : k ≠ k2) :
    value (remove o k) k2 = value o k2 := by
  induction o with
  | nil => simp [remove, value]
  | cons kv rest ih =>
      obtain ⟨k1, w⟩ := kv
      by_cases h : k1 = k
      · subst h
        simp [remove, value, hne, ih]
      · by_cases h2 : k1 = k2
        · subst h2
          simp [remove, value, h]
        · simp [remove, value, h, h2, ih]

theorem isUndefined_eq_true (v : JsonValue) (h : v.isUndefined = true) :
    v = JsonValue.undefined := by
  cases v <;> simp [JsonValue.isUndefined] at h ⊢

theorem value_insert_self (o : QJsonObject) (k : String) (v : JsonValue) :
    value (insert o k v) k = v := by
  unfold insert
  split
  · next h => rw [value_remove_self, isUndefined_eq_true v h]
  · exact value_replace_self o k v

theorem value_insert_ne (o : QJsonObject) (k k2 : String) (v : JsonValue) (hne : k ≠ k2) :
    value (insert o k v) k2 = value o k2 := by
  unfold insert
  split
  · exact value_remove_ne o k k2 hne
  · exact value_replace_ne o k k2 v hne

theorem contains_eq_true_iff (o : QJsonObject) (k : String) :
    contains o k = true ↔ k ∈ keys o := by
  induction o with
  | nil => simp [contains, keys]
  | cons kv rest ih =>
      obtain ⟨k1, w⟩ := kv
      by_cases h : k1 = k
      · simp [contains, keys, h]
      · have h2 : ¬ k = k1 := fun e => h e.symm
        simp only [contains, h, if_false, ih]
        simp [keys, h2]

theorem value_of_not_contains (o : QJsonObject) (k : String) (h : contains o k = false) :
    value o k = JsonValue.undefined := by
  induction o with
  | nil => simp [value]
  | cons kv rest ih =>
      obtain ⟨k1, w⟩ := kv
      by_cases h1 : k1 = k
      · simp [contains, h1] at h
      · simp only [contains, h1, if_false] at h
        simp [value, h1, ih h]

theorem contains_replace_self (o : QJsonObject) (k : String) (v : JsonValue) :
    contains (replace o k v) k = true := by
  induction o with
  | nil => simp [replace, contains]
  | cons kv rest ih =>
      obtain ⟨k1, w⟩ := kv
      by_cases h : k1 = k
      · simp [replace, contains, h]
      · simp [replace, contains, h, ih]

theorem contains_replace_ne (o : QJsonObject) (k k2 : String) (v : JsonValue) (hne : k ≠ k2) :
    contains (replace o k v) k2 = contains o k2 := by
  induction o with
  | nil => simp [replace, contains, hne]
  | cons kv rest ih =>
      obtain ⟨k1, w⟩ := kv
      by_cases h : k1 = k
      · subst h
        simp [replace, contains, hne]
      · by_cases h2 : k1 = k2
        · subst h2
          simp [replace, contains, h]
        · simp [replace, contains, h, h2, ih]

theorem replace_of_absent (o : QJsonObject) (k : String) (v : JsonValue)
    (h : contains o k = false) : replace o k v = o ++ [(k, v)] := by
  induction o with
  | nil => rfl
  | cons kv rest ih =>
      obtain ⟨k1, w⟩ := kv
      by_cases h1 : k1 = k
      · simp [contains, h1] at h
      · simp only [contains, h1, if_false] at h
        simp [replace, h1, ih h]

/-- A key whose value reads as a non-empty text is bound. -/
theorem contains_of_toString (o : QJsonObject) (k : String)
    (h : (value o k).toString ≠ "") : contains o k = true := by
  cases hc : contains o k with
  | true => rfl
  | false =>
      rw [value_of_not_contains o k hc] at h
      exact absurd rfl h

/-- Reading a bound key through the non-const `operator[]` leaves the object as it is. -/
theorem ref_of_contains (o : QJsonObject) (k : String) (h : contains o k = true) :
    ref o k = o := by
  simp [ref, h]

/-- Reading a key that is not bound through the non-const `operator[]` appends the
binding of the key to `Null`. -/
theorem ref_of_absent (o : QJsonObject) (k : String) (h : contains o k = false) :
    ref o k = o ++ [(k, JsonValue.null)] := by
  simp only [ref, h, insert, JsonValue.isUndefined, if_false, Bool.false_eq_true]
  exact replace_of_absent o k _ h

theorem ref_of_toString (o : QJsonObject) (k : String) (h : (value o k).toString ≠ "") :
    ref o k = o :=
  ref_of_contains o k (contains_of_toString o k h)

theorem contains_ref_self (o : QJsonObject) (k : String) : contains (ref o k) k = true := by
  cases hc : contains o k with
  | true => rw [ref_of_contains o k hc, hc]
  | false =>
      simp only [ref, hc, insert, JsonValue.isUndefined, if_false, Bool.false_eq_true]
      exact contains_replace_self o k _

theorem contains_ref_ne (o : QJsonObject) (k k2 : String) (hne : k ≠ k2) :
    contains (ref o k) k2 = contains o k2 := by
  cases hc : contains o k with
  | true => rw [ref_of_contains o k hc]
  | false =>
      simp only [ref, hc, insert, JsonValue.isUndefined, if_false, Bool.false_eq_true]
      exact contains_replace_ne o k k2 _ hne

theorem value_ref_ne (o : QJsonObject) (k k2 : String) (hne : k ≠ k2) :
    value (ref o k) k2 = value o k2 := by
  cases hc : contains o k with
  | true => rw [ref_of_contains o k hc]
  | false =>
      simp only [ref, hc, if_false, Bool.false_eq_true]
      exact value_insert_ne o k k2 _ hne

/-- The value read by `obj[key]` on an object that is not `const`: the value bound, or
`Null` for a key that was not bound. -/
theorem value_ref_self (o : QJsonObject) (k : String) :
    value (ref o k) k = if contains o k then value o k else JsonValue.null := by
  cases hc : contains o k with
  | true => rw [ref_of_contains o k hc]; rfl
  | false =>
      simp only [ref, hc, if_false, Bool.false_eq_true]
      exact value_insert_self o k _

/-- As a text, the value read through the non-const `operator[]` is the one `value`
reads: a key that is not bound reads as the empty text either way. -/
theorem toString_value_ref (o : QJsonObject) (k : String) :
    (value (ref o k) k).toString = (value o k).toString := by
  rw [value_ref_self]
  cases hc : contains o k with
  | true => rfl
  | false => rw [value_of_not_contains o k hc]; rfl

theorem ref_ref (o : QJsonObject) (k : String) : ref (ref o k) k = ref o k :=
  ref_of_contains _ k (contains_ref_self o k)

theorem wellFormed_ref (o : QJsonObject) (k : String) (h : WellFormed o) :
    WellFormed (ref o k) := by
  cases hc : contains o k with
  | true => rw [ref_of_contains o k hc]; exact h
  | false =>
      rw [ref_of_absent o k hc]
      unfold WellFormed keys at h ⊢
      rw [List.map_append, List.nodup_append]
      refine ⟨h, by simp, ?_⟩
      intro a ha hb
      simp only [List.map_cons, List.map_nil, List.mem_singleton] at hb
      subst hb
      have : contains o a = true := (contains_eq_true_iff o a).2 ha
      rw [hc] at this
      exact Bool.false_ne_true this

end QJsonObject

namespace SyncServer

/-- Field-level merge: after `mergeFields img msg`, a key bound by `msg` has `msg`'s
value and every other key keeps the value it had in `img`. -/
theorem value_mergeFields (msg : QJsonObject) (hwf : QJsonObject.WellFormed msg)
    (img : QJsonObject) (k : String) :
    QJsonObject.value (mergeFields img msg) k =
      if QJsonObject.contains msg k then QJsonObject.value msg k else QJsonObject.value img k := by
  induction msg generalizing img with
  | nil => simp [mergeFields, QJsonObject.contains]
  | cons kv rest ih =>
      obtain ⟨k1, v1⟩ := kv
      have hnd : k1 ∉ QJsonObject.keys rest ∧ QJsonObject.WellFormed rest := by
        simpa [QJsonObject.WellFormed, QJsonObject.keys] using hwf
      have hstep : mergeFields img ((k1, v1) :: rest) =
          mergeFields (QJsonObject.insert img k1 v1) rest := by
        simp [mergeFields]
      rw [hstep, ih hnd.2]
      by_cases h : k1 = k
      · subst h
        have hc : QJsonObject.contains rest k1 = false := by
          cases hx : QJsonObject.contains rest k1 with
          | false => rfl
          | true => exact absurd ((QJsonObject.contains_eq_true_iff rest k1).1 hx) hnd.1
        simp [hc, QJsonObject.contains, QJsonObject.value, QJsonObject.value_insert_self]
      · simp [QJsonObject.contains, QJsonObject.value, h, QJsonObject.value_insert_ne img k1 k v1 h]

theorem containsId_append (key : String) (a b : QJsonArray) (id : String) :
    containsId key (a ++ b) id = (containsId key a id || containsId key b id) := by
  induction a with
  | nil => simp [containsId]
  | cons rec rest ih =>
      by_cases h : recordId key rec = id
      · simp [containsId, h]
      · simp [containsId, h, ih]

theorem containsId_eq_true_iff (key : String) (state : QJsonArray) (id : String) :
    containsId key state id = true ↔ id ∈ state.map (recordId key) := by
  induction state with
  | nil => simp [containsId]
  | cons rec rest ih =>
      by_cases h : recordId key rec = id
      · simp [containsId, h]
      · have h2 : ¬ id = recordId key rec := fun e => h e.symm
        simp [containsId, h, h2, ih]

theorem containsId_eq_false_iff (key : String) (state : QJsonArray) (id : String) :
    containsId key state id = false ↔ id ∉ state.map (recordId key) := by
  rw [← containsId_eq_true_iff]
  cases containsId key state id <;> simp

theorem count_id_of_contains (key : String) (state : QJsonArray) (id : String)
    (hnd : (state.map (recordId key)).Nodup) (hc : containsId key state id = true) :
    (state.map (recordId key)).count id = 1 :=
  List.count_eq_one_of_mem hnd ((containsId_eq_true_iff key state id).1 hc)

theorem nodup_append_new (key : String) (state : QJsonArray) (rec : JsonValue)
    (hnd : (state.map (recordId key)).Nodup)
    (hc : containsId key state (recordId key rec) = false) :
    ((state ++ [rec]).map (recordId key)).Nodup := by
  have hnot := (containsId_eq_false_iff key state _).1 hc
  rw [List.map_append, List.nodup_append]
  refine ⟨hnd, by simp, ?_⟩
  intro a ha hb
  simp only [List.map_cons, List.map_nil, List.mem_singleton] at hb
  exact hnot (hb ▸ ha)

/-- The `type` field a handler dispatches on. -/
theorem onText_imageAdd (s : SyncServer) (d : Disk) (now : String) (client : Socket)
    (msg : QJsonObject) (h : (QJsonObject.value msg "type").toString = "imageAdd") :
    onTextMessageReceived s d now client (JsonValue.object msg) =
      if containsId "imageId" s.m_boardState (QJsonObject.value msg "imageId").toString then
        relay s d (QJsonObject.ref msg "imageId") (s.clientId client)
      else
        relay { s with m_boardState :=
                  (s.m_boardState ++ [JsonValue.object (QJsonObject.ref msg "imageId")]) }
          (saveState { s with m_boardState :=
                  (s.m_boardState ++ [JsonValue.object (QJsonObject.ref msg "imageId")]) } d now)
          (QJsonObject.ref msg "imageId") (s.clientId client) := by
  have ht : QJsonObject.ref msg "type" = msg :=
    QJsonObject.ref_of_toString msg "type" (by rw [h]; decide)
  simp [onTextMessageReceived, ht, h, QJsonObject.toString_value_ref]

theorem onText_textAdd (s : SyncServer) (d : Disk) (now : String) (client : Socket)
    (msg : QJsonObject) (h : (QJsonObject.value msg "type").toString = "textAdd") :
    onTextMessageReceived s d now client (JsonValue.object msg) =
      if containsId "textId" s.m_textState (QJsonObject.value msg "textId").toString then
        relay s d (QJsonObject.ref msg "textId") (s.clientId client)
      else
        relay { s with m_textState :=
                  (s.m_textState ++ [JsonValue.object (QJsonObject.ref msg "textId")]) }
          (saveState { s with m_textState :=
                  (s.m_textState ++ [JsonValue.object (QJsonObject.ref msg "textId")]) } d now)
          (QJsonObject.ref msg "textId") (s.clientId client) := by
  have ht : QJsonObject.ref msg "type" = msg :=
    QJsonObject.ref_of_toString msg "type" (by rw [h]; decide)
  simp [onTextMessageReceived, ht, h, QJsonObject.toString_value_ref]

theorem onText_imageUpdate (s : SyncServer) (d : Disk) (now : String) (client : Socket)
    (msg : QJsonObject) (h : (QJsonObject.value msg "type").toString = "imageUpdate") :
    onTextMessageReceived s d now client (JsonValue.object msg) =
      relay { s with m_boardState :=
                (mergeUpdate "imageId" (QJsonObject.ref msg "imageId") s.m_boardState
                  (QJsonObject.value msg "imageId").toString) }
        d (QJsonObject.ref msg "imageId") (s.clientId client) := by
  have ht : QJsonObject.ref msg "type" = msg :=
    QJsonObject.ref_of_toString msg "type" (by rw [h]; decide)
  simp [onTextMessageReceived, ht, h, QJsonObject.toString_value_ref]

theorem onText_textUpdate (s : SyncServer) (d : Disk) (now : String) (client : Socket)
    (msg : QJsonObject) (h : (QJsonObject.value msg "type").toString = "textUpdate") :
    onTextMessageReceived s d now client (JsonValue.object msg) =
      relay { s with m_textState :=
                (mergeUpdate "textId" (QJsonObject.ref msg "textId") s.m_textState
                  (QJsonObject.value msg "textId").toString) }
        d (QJsonObject.ref msg "textId") (s.clientId client) := by
  have ht : QJsonObject.ref msg "type" = msg :=
    QJsonObject.ref_of_toString msg "type" (by rw [h]; decide)
  simp [onTextMessageReceived, ht, h, QJsonObject.toString_value_ref]

theorem onText_pushSync (s : SyncServer) (d : Disk) (now : String) (client : Socket)
    (msg : QJsonObject) (h : (QJsonObject.value msg "type").toString = "pushSync") :
    onTextMessageReceived s d now client (JsonValue.object msg) =
      onPushSync s d msg (s.clientId client) := by
  have ht : QJsonObject.ref msg "type" = msg :=
    QJsonObject.ref_of_toString msg "type" (by rw [h]; decide)
  simp [onTextMessageReceived, ht, h]

/-- C1. Hub add idempotence: in a room state without duplicate ids, handling the same
imageAdd (or textAdd) message twice in a row leaves the room state and the storage as
they were after the first handling, the state then holds exactly one record with the
message's id, and the second handling still sends the message to every connection whose
identity differs from the sender's.  The frame sent is the message as the handler holds
it after reading the id, stamped with the sender's connection identity in `userId`: the
message received when it binds the id key, and the message received followed by the id
key bound to null when it does not. -/
theorem hub_add_idempotent (s : SyncServer) (d : Disk) (now now2 : String)
    (client client2 : Socket) (msg : QJsonObject)
    (htype : (QJsonObject.value msg "type").toString = "imageAdd" ∨
      (QJsonObject.value msg "type").toString = "textAdd")
    (himg : (s.m_boardState.map (recordId "imageId")).Nodup)
    (htxt : (s.m_textState.map (recordId "textId")).Nodup) :
    let r1 := onTextMessageReceived s d now client (JsonValue.object msg)
    let r2 := onTextMessageReceived r1.server r1.disk now2 client2 (JsonValue.object msg)
    let key := if (QJsonObject.value msg "type").toString = "imageAdd" then "imageId" else "textId"
    let held := QJsonObject.ref msg key
    let stamped := QJsonObject.insert held "userId" (JsonValue.string (r1.server.clientId client2))
    (r2.server = r1.server ∧ r2.disk = r1.disk) ∧
    ((QJsonObject.value msg "type").toString = "imageAdd" →
      (r1.server.m_boardState.map (recordId "imageId")).count
        (QJsonObject.value msg "imageId").toString = 1) ∧
    ((QJsonObject.value msg "type").toString = "textAdd" →
      (r1.server.m_textState.map (recordId "textId")).count
        (QJsonObject.value msg "textId").toString = 1) ∧
    r2.sent = (r1.server.m_clients.filter
        (fun c => decide (r1.server.clientId c ≠ r1.server.clientId client2))).map
        (fun c => (c, stamped)) ∧
    (∀ c ∈ r1.server.m_clients, r1.server.clientId c ≠ r1.server.clientId client2 →
      (c, stamped) ∈ r2.sent) ∧
    (∀ k, k ≠ "userId" → QJsonObject.value stamped k = QJsonObject.value held k) ∧
    (QJsonObject.contains msg key = true → held = msg) ∧
    (QJsonObject.contains msg key = false → held = msg ++ [(key, JsonValue.null)]) := by
  intro r1 r2 key held stamped
  have hstamp : ∀ k, k ≠ "userId" → QJsonObject.value stamped k = QJsonObject.value held k :=
    fun k hk => QJsonObject.value_insert_ne held "userId" k _ (fun e => hk e.symm)
  have hheld1 : QJsonObject.contains msg key = true → held = msg :=
    QJsonObject.ref_of_contains msg key
  have hheld2 : QJsonObject.contains msg key = false → held = msg ++ [(key, JsonValue.null)] :=
    QJsonObject.ref_of_absent msg key
  rcases htype with h | h
  · -- imageAdd
    have hne : ¬ (QJsonObject.value msg "type").toString = "textAdd" := by rw [h]; decide
    have hkey : key = "imageId" := if_pos h
    have hk : held = QJsonObject.ref msg "imageId" := by
      show QJsonObject.ref msg key = _
      rw [hkey]
    have hs : stamped = QJsonObject.insert (QJsonObject.ref msg "imageId") "userId"
        (JsonValue.string (r1.server.clientId client2)) := by
      show QJsonObject.insert held _ _ = _
      rw [hk]
    have hid : recordId "imageId" (JsonValue.object (QJsonObject.ref msg "imageId")) =
        (QJsonObject.value msg "imageId").toString :=
      QJsonObject.toString_value_ref msg "imageId"
    have hr1 : containsId "imageId" r1.server.m_boardState
        (QJsonObject.value msg "imageId").toString = true ∧
        (r1.server.m_boardState.map (recordId "imageId")).Nodup := by
      have hst : r1.server.m_boardState =
          if containsId "imageId" s.m_boardState (QJsonObject.value msg "imageId").toString then
            s.m_boardState
          else s.m_boardState ++ [JsonValue.object (QJsonObject.ref msg "imageId")] := by
        show (onTextMessageReceived s d now client (JsonValue.object msg)).server.m_boardState = _
        rw [onText_imageAdd s d now client msg h]
        split <;> rfl
      rw [hst]
      by_cases hc : containsId "imageId" s.m_boardState
          (QJsonObject.value msg "imageId").toString = true
      · simp [hc, himg]
      · have hc2 : containsId "imageId" s.m_boardState
            (recordId "imageId" (JsonValue.object (QJsonObject.ref msg "imageId"))) = false := by
          rw [hid]; simpa using hc
        have := nodup_append_new "imageId" s.m_boardState _ himg hc2
        rw [if_neg hc]
        refine ⟨?_, this⟩
        simp [containsId_append, containsId, hid]
    have hr2 : r2 = relay r1.server r1.disk (QJsonObject.ref msg "imageId")
        (r1.server.clientId client2) := by
      show onTextMessageReceived r1.server r1.disk now2 client2 (JsonValue.object msg) = _
      rw [onText_imageAdd r1.server r1.disk now2 client2 msg h, if_pos hr1.1]
    refine ⟨?_, ?_, ?_, ?_, ?_, hstamp, hheld1, hheld2⟩
    · rw [hr2]; exact ⟨rfl, rfl⟩
    · intro _
      exact count_id_of_contains "imageId" _ _ hr1.2 hr1.1
    · intro h2; exact absurd h2 hne
    · rw [hr2, hs]; rfl
    · intro c hc hcne
      rw [hr2, hs]
      simp only [relay, broadcast, List.mem_map, List.mem_filter]
      exact ⟨c, ⟨hc, by simpa using hcne⟩, rfl⟩
  · -- textAdd
    have hne : ¬ (QJsonObject.value msg "type").toString = "imageAdd" := by rw [h]; decide
    have hkey : key = "textId" := if_neg hne
    have hk : held = QJsonObject.ref msg "textId" := by
      show QJsonObject.ref msg key = _
      rw [hkey]
    have hs : stamped = QJsonObject.insert (QJsonObject.ref msg "textId") "userId"
        (JsonValue.string (r1.server.clientId client2)) := by
      show QJsonObject.insert held _ _ = _
      rw [hk]
    have hid : recordId "textId" (JsonValue.object (QJsonObject.ref msg "textId")) =
        (QJsonObject.value msg "textId").toString :=
      QJsonObject.toString_value_ref msg "textId"
    have hr1 : containsId "textId" r1.server.m_textState
        (QJsonObject.value msg "textId").toString = true ∧
        (r1.server.m_textState.map (recordId "textId")).Nodup := by
      have hst : r1.server.m_textState =
          if containsId "textId" s.m_textState (QJsonObject.value msg "textId").toString then
            s.m_textState
          else s.m_textState ++ [JsonValue.object (QJsonObject.ref msg "textId")] := by
        show (onTextMessageReceived s d now client (JsonValue.object msg)).server.m_textState = _
        rw [onText_textAdd s d now client msg h]
        split <;> rfl
      rw [hst]
      by_cases hc : containsId "textId" s.m_textState
          (QJsonObject.value msg "textId").toString = true
      · simp [hc, htxt]
      · have hc2 : containsId "textId" s.m_textState
            (recordId "textId" (JsonValue.object (QJsonObject.ref msg "textId"))) = false := by
          rw [hid]; simpa using hc
        have := nodup_append_new "textId" s.m_textState _ htxt hc2
        rw [if_neg hc]
        refine ⟨?_, this⟩
        simp [containsId_append, containsId, hid]
    have hr2 : r2 = relay r1.server r1.disk (QJsonObject.ref msg "textId")
        (r1.server.clientId client2) := by
      show onTextMessageReceived r1.server r1.disk now2 client2 (JsonValue.object msg) = _
      rw [onText_textAdd r1.server r1.disk now2 client2 msg h, if_pos hr1.1]
    refine ⟨?_, ?_, ?_, ?_, ?_, hstamp, hheld1, hheld2⟩
    · rw [hr2]; exact ⟨rfl, rfl⟩
    · intro h2; exact absurd h2 hne
    · intro _
      exact count_id_of_contains "textId" _ _ hr1.2 hr1.1
    · rw [hr2, hs]; rfl
    · intro c hc hcne
      rw [hr2, hs]
      simp only [relay, broadcast, List.mem_map, List.mem_filter]
      exact ⟨c, ⟨hc, by simpa using hcne⟩, rfl⟩

theorem mergeUpdate_at (key : String) (msg : QJsonObject) (pre : QJsonArray) (rec : JsonValue)
    (post : QJsonArray) (id : String) (hid : recordId key rec = id)
    (hpre : ∀ p ∈ pre, recordId key p ≠ id) :
    mergeUpdate key msg (pre ++ rec :: post) id =
      pre ++ JsonValue.object (mergeFields (QJsonObject.ref rec.toObject key) msg) :: post := by
  induction pre with
  | nil => simp [mergeUpdate, hid]
  | cons p rest ih =>
      have hp : recordId key p ≠ id := hpre p (List.mem_cons_self p rest)
      have hrest : ∀ q ∈ rest, recordId key q ≠ id :=
        fun q hq => hpre q (List.mem_cons_of_mem p hq)
      simp [mergeUpdate, hp, ih hrest]

theorem recordId_merged (key : String) (msg : QJsonObject) (hwf : QJsonObject.WellFormed msg)
    (rec : JsonValue) (hid : (QJsonObject.value msg key).toString = recordId key rec) :
    recordId key (JsonValue.object (mergeFields (QJsonObject.ref rec.toObject key) msg)) =
      recordId key rec := by
  show (QJsonObject.value (mergeFields (QJsonObject.ref rec.toObject key) msg) key).toString =
    recordId key rec
  rw [value_mergeFields msg hwf]
  split
  · exact hid
  · exact QJsonObject.toString_value_ref rec.toObject key

/-- The record an update leaves behind, field by field, in terms of the message as the
handler holds it after reading the id (`QJsonObject.ref msg key`): a field of that message
has the message's value, every other field the record's previous value. -/
theorem value_merged (key : String) (msg : QJsonObject) (hwf : QJsonObject.WellFormed msg)
    (rec : QJsonObject) (k : String) :
    QJsonObject.value (mergeFields (QJsonObject.ref rec key) (QJsonObject.ref msg key)) k =
      if QJsonObject.contains (QJsonObject.ref msg key) k then
        QJsonObject.value (QJsonObject.ref msg key) k
      else QJsonObject.value rec k := by
  rw [value_mergeFields _ (QJsonObject.wellFormed_ref msg key hwf)]
  split
  · rfl
  · next h =>
      have hne : key ≠ k := by
        intro e
        subst e
        exact h (QJsonObject.contains_ref_self msg key)
      exact QJsonObject.value_ref_ne rec key k hne

/-- The record an update leaves behind, field by field, in terms of the message received:
a field other than the id key has the message's value if the message binds it and the
record's previous value if not; the id key has the message's value if the message binds
it, and is bound to null if not. -/
theorem value_merged_received (key : String) (msg : QJsonObject)
    (hwf : QJsonObject.WellFormed msg) (rec : QJsonObject) :
    (∀ k, k ≠ key →
      QJsonObject.value (mergeFields (QJsonObject.ref rec key) (QJsonObject.ref msg key)) k =
        if QJsonObject.contains msg k then QJsonObject.value msg k
        else QJsonObject.value rec k) ∧
    (QJsonObject.contains msg key = true →
      ∀ k, QJsonObject.value (mergeFields (QJsonObject.ref rec key) (QJsonObject.ref msg key)) k =
        if QJsonObject.contains msg k then QJsonObject.value msg k
        else QJsonObject.value rec k) ∧
    (QJsonObject.contains msg key = false →
      QJsonObject.value (mergeFields (QJsonObject.ref rec key) (QJsonObject.ref msg key)) key =
        JsonValue.null) := by
  refine ⟨fun k hk => ?_, fun hc k => ?_, fun hc => ?_⟩
  · rw [value_merged key msg hwf rec k,
      QJsonObject.contains_ref_ne msg key k (fun e => hk e.symm),
      QJsonObject.value_ref_ne msg key k (fun e => hk e.symm)]
  · rw [value_merged key msg hwf rec k, QJsonObject.ref_of_contains msg key hc]
  · rw [value_merged key msg hwf rec key, if_pos (QJsonObject.contains_ref_self msg key),
      QJsonObject.value_ref_self, hc]
    rfl

/-- Two imageUpdate messages for the same stored record, handled one after the other:
the record stays in place and every field has the value of the later message that binds
it, else of the earlier one, else its previous value. -/
theorem two_updates_at (s : SyncServer) (d : Disk) (now1 now2 : String) (c1 c2 : Socket)
    (u1 u2 : QJsonObject) (pre : QJsonArray) (rec : JsonValue) (post : QJsonArray)
    (hwf1 : QJsonObject.WellFormed u1) (hwf2 : QJsonObject.WellFormed u2)
    (ht1 : (QJsonObject.value u1 "type").toString = "imageUpdate")
    (ht2 : (QJsonObject.value u2 "type").toString = "imageUpdate")
    (hid1 : (QJsonObject.value u1 "imageId").toString = recordId "imageId" rec)
    (hid2 : (QJsonObject.value u2 "imageId").toString = recordId "imageId" rec)
    (hst : s.m_boardState = pre ++ rec :: post)
    (hpre : ∀ p ∈ pre, recordId "imageId" p ≠ recordId "imageId" rec) :
    ∃ merged,
      (onTextMessageReceived (onTextMessageReceived s d now1 c1 (JsonValue.object u1)).server
        (onTextMessageReceived s d now1 c1 (JsonValue.object u1)).disk now2 c2
        (JsonValue.object u2)).server.m_boardState = pre ++ JsonValue.object merged :: post ∧
      ∀ k, k ≠ "imageId" → QJsonObject.value merged k =
        if QJsonObject.contains u2 k then QJsonObject.value u2 k
        else if QJsonObject.contains u1 k then QJsonObject.value u1 k
        else QJsonObject.value rec.toObject k := by
  have hid1r : (QJsonObject.value (QJsonObject.ref u1 "imageId") "imageId").toString =
      recordId "imageId" rec := by
    rw [QJsonObject.toString_value_ref, hid1]
  refine ⟨mergeFields (QJsonObject.ref (mergeFields (QJsonObject.ref rec.toObject "imageId")
    (QJsonObject.ref u1 "imageId")) "imageId") (QJsonObject.ref u2 "imageId"), ?_, ?_⟩
  · rw [onText_imageUpdate s d now1 c1 u1 ht1, onText_imageUpdate _ _ now2 c2 u2 ht2]
    show mergeUpdate "imageId" _ (mergeUpdate "imageId" _ s.m_boardState _) _ = _
    rw [hst, hid1, hid2, mergeUpdate_at "imageId" _ pre rec post _ rfl hpre,
      mergeUpdate_at "imageId" _ pre _ post _
        (recordId_merged "imageId" _ (QJsonObject.wellFormed_ref u1 "imageId" hwf1) rec hid1r)
        hpre]
    rfl
  · intro k hk
    rw [(value_merged_received "imageId" u2 hwf2 _).1 k hk,
      (value_merged_received "imageId" u1 hwf1 _).1 k hk]

/-- C3. Last-writer-wins per field on the hub: two imageUpdate messages `u1`, `u2` for the
stored record `rec` that bind disjoint sets of geometry fields, handled in either order,
leave at the record's place a record in which every geometry field has `u1`'s value if
`u1` binds it, `u2`'s value if `u2` binds it, and the record's previous value if
neither does. -/
theorem hub_disjoint_updates_both_survive (s : SyncServer) (d : Disk) (now1 now2 : String)
    (c1 c2 : Socket) (u1 u2 : QJsonObject) (pre : QJsonArray) (rec : JsonValue)
    (post : QJsonArray)
    (hwf1 : QJsonObject.WellFormed u1) (hwf2 : QJsonObject.WellFormed u2)
    (ht1 : (QJsonObject.value u1 "type").toString = "imageUpdate")
    (ht2 : (QJsonObject.value u2 "type").toString = "imageUpdate")
    (hid1 : (QJsonObject.value u1 "imageId").toString = recordId "imageId" rec)
    (hid2 : (QJsonObject.value u2 "imageId").toString = recordId "imageId" rec)
    (hst : s.m_boardState = pre ++ rec :: post)
    (hpre : ∀ p ∈ pre, recordId "imageId" p ≠ recordId "imageId" rec)
    (hdisj : ∀ k ∈ geometryFields,
      ¬ (QJsonObject.contains u1 k = true ∧ QJsonObject.contains u2 k = true)) :
    let r1 := onTextMessageReceived s d now1 c1 (JsonValue.object u1)
    let r12 := onTextMessageReceived r1.server r1.disk now2 c2 (JsonValue.object u2)
    let r2 := onTextMessageReceived s d now1 c2 (JsonValue.object u2)
    let r21 := onTextMessageReceived r2.server r2.disk now2 c1 (JsonValue.object u1)
    ∃ m12 m21,
      r12.server.m_boardState = pre ++ JsonValue.object m12 :: post ∧
      r21.server.m_boardState = pre ++ JsonValue.object m21 :: post ∧
      ∀ k ∈ geometryFields,
        (QJsonObject.contains u1 k = true →
          QJsonObject.value m12 k = QJsonObject.value u1 k ∧
          QJsonObject.value m21 k = QJsonObject.value u1 k) ∧
        (QJsonObject.contains u2 k = true →
          QJsonObject.value m12 k = QJsonObject.value u2 k ∧
          QJsonObject.value m21 k = QJsonObject.value u2 k) ∧
        (QJsonObject.contains u1 k = false → QJsonObject.contains u2 k = false →
          QJsonObject.value m12 k = QJsonObject.value rec.toObject k ∧
          QJsonObject.value m21 k = QJsonObject.value rec.toObject k) := by
  intro r1 r12 r2 r21
  obtain ⟨m12, h12, v12⟩ :=
    two_updates_at s d now1 now2 c1 c2 u1 u2 pre rec post hwf1 hwf2 ht1 ht2 hid1 hid2 hst hpre
  obtain ⟨m21, h21, v21⟩ :=
    two_updates_at s d now1 now2 c2 c1 u2 u1 pre rec post hwf2 hwf1 ht2 ht1 hid2 hid1 hst hpre
  refine ⟨m12, m21, h12, h21, ?_⟩
  intro k hk
  have hd := hdisj k hk
  have hkey : k ≠ "imageId" := by
    intro e
    subst e
    simp [geometryFields] at hk
  rw [v12 k hkey, v21 k hkey]
  refine ⟨fun a => ?_, fun b => ?_, fun a b => ?_⟩
  · have b : QJsonObject.contains u2 k = false := by
      cases hb : QJsonObject.contains u2 k with
      | false => rfl
      | true => exact absurd ⟨a, hb⟩ hd
    simp [a, b]
  · have a : QJsonObject.contains u1 k = false := by
      cases ha : QJsonObject.contains u1 k with
      | false => rfl
      | true => exact absurd ⟨ha, b⟩ hd
    simp [a, b]
  · simp [a, b]

/-! ### pushSync -/

theorem pushMerge_nil (key : String) (state : QJsonArray) (changed : Bool) :
    pushMerge key state changed [] = (state, changed) := rfl

theorem pushMerge_cons (key : String) (state : QJsonArray) (changed : Bool) (val : JsonValue)
    (rest : QJsonArray) :
    pushMerge key state changed (val :: rest) =
      pushMerge key (pushOne key (state, changed) val).1 (pushOne key (state, changed) val).2
        rest := rfl

theorem pushMerge_append (key : String) (state : QJsonArray) (changed : Bool)
    (a b : QJsonArray) :
    pushMerge key state changed (a ++ b) =
      pushMerge key (pushMerge key state changed a).1 (pushMerge key state changed a).2 b := by
  simp [pushMerge, List.foldl_append]

theorem pushOne_fst (key : String) (state : QJsonArray) (changed : Bool) (val : JsonValue) :
    (pushOne key (state, changed) val).1 =
      if containsId key state (recordId key val) then state
      else state ++ [JsonValue.object (QJsonObject.ref val.toObject key)] := by
  have hid : (QJsonObject.value (QJsonObject.ref val.toObject key) key).toString =
      recordId key val := QJsonObject.toString_value_ref val.toObject key
  by_cases h : containsId key state (recordId key val) = true
  · simp [pushOne, hid, h]
  · simp [pushOne, hid, h]

theorem pushOne_snd (key : String) (state : QJsonArray) (changed : Bool) (val : JsonValue) :
    (pushOne key (state, changed) val).2 =
      if containsId key state (recordId key val) then changed else true := by
  have hid : (QJsonObject.value (QJsonObject.ref val.toObject key) key).toString =
      recordId key val := QJsonObject.toString_value_ref val.toObject key
  by_cases h : containsId key state (recordId key val) = true
  · simp [pushOne, hid, h]
  · simp [pushOne, hid, h]

theorem pushMerge_fst_flag (key : String) (pushed : QJsonArray) (state : QJsonArray)
    (c1 c2 : Bool) :
    (pushMerge key state c1 pushed).1 = (pushMerge key state c2 pushed).1 := by
  induction pushed generalizing state c1 c2 with
  | nil => rfl
  | cons val rest ih =>
      rw [pushMerge_cons, pushMerge_cons, pushOne_fst, pushOne_fst]
      exact ih _ _ _

theorem pushMerge_extends (key : String) (pushed : QJsonArray) (state : QJsonArray)
    (changed : Bool) :
    ∃ added, (pushMerge key state changed pushed).1 = state ++ added := by
  induction pushed generalizing state changed with
  | nil => exact ⟨[], by simp [pushMerge_nil]⟩
  | cons val rest ih =>
      rw [pushMerge_cons, pushOne_fst]
      split
      · exact ih _ _
      · obtain ⟨added, h⟩ := ih (state ++ [JsonValue.object (QJsonObject.ref val.toObject key)])
          (pushOne key (state, changed) val).2
        exact ⟨JsonValue.object (QJsonObject.ref val.toObject key) :: added, by rw [h]; simp⟩

theorem pushMerge_flag_of_true (key : String) (pushed : QJsonArray) (state : QJsonArray) :
    (pushMerge key state true pushed).2 = true := by
  induction pushed generalizing state with
  | nil => rfl
  | cons val rest ih =>
      rw [pushMerge_cons, pushOne_snd]
      simp [ih]

/-- The `stateChanged` flag after a merge loop is set exactly when it was set before or
the loop appended a record. -/
theorem pushMerge_flag (key : String) (pushed : QJsonArray) (state : QJsonArray)
    (changed : Bool) :
    (pushMerge key state changed pushed).2 = true ↔
      changed = true ∨ (pushMerge key state changed pushed).1 ≠ state := by
  induction pushed generalizing state changed with
  | nil => simp [pushMerge_nil]
  | cons val rest ih =>
      rw [pushMerge_cons, pushOne_fst, pushOne_snd]
      by_cases hc : containsId key state (recordId key val) = true
      · simp only [if_pos hc]
        exact ih state changed
      · simp only [if_neg hc]
        rw [pushMerge_flag_of_true]
        obtain ⟨added, h⟩ := pushMerge_extends key rest
          (state ++ [JsonValue.object (QJsonObject.ref val.toObject key)]) true
        have hne : (pushMerge key (state ++ [JsonValue.object (QJsonObject.ref val.toObject key)]) true rest).1 ≠
            state := by
          rw [h]
          intro e
          have := congrArg List.length e
          simp at this
        simp [hne]

/-- The ids stored after a merge loop are duplicate-free when they were before. -/
theorem pushMerge_nodup (key : String) (pushed : QJsonArray) (state : QJsonArray)
    (changed : Bool) (hnd : (state.map (recordId key)).Nodup) :
    ((pushMerge key state changed pushed).1.map (recordId key)).Nodup := by
  induction pushed generalizing state changed with
  | nil => exact hnd
  | cons val rest ih =>
      rw [pushMerge_cons, pushOne_fst]
      by_cases hc : containsId key state (recordId key val) = true
      · simp only [if_pos hc]
        exact ih state _ hnd
      · simp only [if_neg hc]
        apply ih
        apply nodup_append_new key state _ hnd
        have : recordId key (JsonValue.object (QJsonObject.ref val.toObject key)) =
            recordId key val := QJsonObject.toString_value_ref val.toObject key
        rw [this]
        simpa using hc

/-- Every pushed id is stored after a merge loop, and so is every id stored before. -/
theorem pushMerge_contains (key : String) (pushed : QJsonArray) (state : QJsonArray)
    (changed : Bool) (id : String)
    (h : containsId key state id = true ∨ id ∈ pushed.map (recordId key)) :
    containsId key (pushMerge key state changed pushed).1 id = true := by
  induction pushed generalizing state changed with
  | nil =>
      rcases h with h | h
      · exact h
      · simp at h
  | cons val rest ih =>
      rw [pushMerge_cons, pushOne_fst]
      apply ih
      by_cases hc : containsId key state (recordId key val) = true
      · simp only [if_pos hc]
        rcases h with h | h
        · exact Or.inl h
        · simp only [List.map_cons, List.mem_cons] at h
          rcases h with h | h
          · exact Or.inl (h ▸ hc)
          · exact Or.inr h
      · simp only [if_neg hc]
        rcases h with h | h
        · exact Or.inl (by simp [containsId_append, h])
        · simp only [List.map_cons, List.mem_cons] at h
          rcases h with h | h
          · left
            have : recordId key (JsonValue.object (QJsonObject.ref val.toObject key)) =
            recordId key val := QJsonObject.toString_value_ref val.toObject key
            simp [containsId_append, containsId, this, h]
          · exact Or.inr h

theorem pushMerge_contains_iff (key : String) (pushed : QJsonArray) (state : QJsonArray)
    (changed : Bool) (id : String) :
    containsId key (pushMerge key state changed pushed).1 id = true ↔
      (containsId key state id = true ∨ id ∈ pushed.map (recordId key)) := by
  refine ⟨?_, pushMerge_contains key pushed state changed id⟩
  induction pushed generalizing state changed with
  | nil => exact fun h => Or.inl h
  | cons val rest ih =>
      rw [pushMerge_cons, pushOne_fst]
      intro h
      rcases ih _ _ h with h1 | h1
      · by_cases hc : containsId key state (recordId key val) = true
        · rw [if_pos hc] at h1
          exact Or.inl h1
        · rw [if_neg hc] at h1
          have hid : recordId key (JsonValue.object (QJsonObject.ref val.toObject key)) =
              recordId key val := QJsonObject.toString_value_ref val.toObject key
          simp only [containsId_append, Bool.or_eq_true, containsId, hid] at h1
          rcases h1 with h1 | h1
          · exact Or.inl h1
          · right
            by_cases he : recordId key val = id
            · simp [he]
            · simp [he] at h1
      · right
        simp only [List.map_cons, List.mem_cons]
        exact Or.inr h1

/-- One merge loop of pushSync, item by item: with `reached` the stored array when `item`
is reached, the item (the local copy left by reading its id) is appended when `reached`
has no record with its id and skipped otherwise; a record with its id is present exactly when one was stored before the push
or an earlier pushed item had the id; and what is stored at that point is still stored,
unchanged and in order, when the loop ends. -/
theorem pushMerge_step (key : String) (state : QJsonArray) (changed : Bool)
    (done : QJsonArray) (item : JsonValue) (todo : QJsonArray) :
    (containsId key (pushMerge key state false done).1 (recordId key item) = false →
      (pushMerge key state false (done ++ [item])).1 =
        (pushMerge key state false done).1 ++
          [JsonValue.object (QJsonObject.ref item.toObject key)]) ∧
    (containsId key (pushMerge key state false done).1 (recordId key item) = true →
      (pushMerge key state false (done ++ [item])).1 = (pushMerge key state false done).1) ∧
    (containsId key (pushMerge key state false done).1 (recordId key item) = true ↔
      (containsId key state (recordId key item) = true ∨
        recordId key item ∈ done.map (recordId key))) ∧
    ∃ later, (pushMerge key state changed (done ++ item :: todo)).1 =
      (pushMerge key state false (done ++ [item])).1 ++ later := by
  have hstep : (pushMerge key state false (done ++ [item])).1 =
      if containsId key (pushMerge key state false done).1 (recordId key item) then
        (pushMerge key state false done).1
      else (pushMerge key state false done).1 ++
          [JsonValue.object (QJsonObject.ref item.toObject key)] := by
    rw [pushMerge_append, pushMerge_cons, pushMerge_nil, pushOne_fst]
  refine ⟨fun h => ?_, fun h => ?_, pushMerge_contains_iff key done state false _, ?_⟩
  · rw [hstep, h]; rfl
  · rw [hstep, h]; rfl
  · have hsplit : done ++ item :: todo = (done ++ [item]) ++ todo := by simp
    rw [hsplit, pushMerge_append, pushMerge_fst_flag key (done ++ [item]) state changed false]
    exact pushMerge_extends key todo _ _

/-- C6. pushSync merge-if-absent: after the hub handles a pushSync, the images (texts)
stored before are a prefix of the stored images (texts), so every stored record is kept
unchanged and in order; going through the pushed images (texts) in order, an item is
appended if and only if no record with its id is stored when it is reached, which is
the case exactly when no record with that id was stored before the push and no earlier
pushed item had the id; hence every pushed id is stored afterwards, once if ids were
unique before.  The record appended is the item as the loop holds it after reading its
id: the pushed object when it binds the id key, and the pushed object followed by the id
key bound to null when it does not. -/
theorem hub_push_merge_if_absent (s : SyncServer) (d : Disk) (now : String) (client : Socket)
    (msg : QJsonObject) (ht : (QJsonObject.value msg "type").toString = "pushSync") :
    let r := onTextMessageReceived s d now client (JsonValue.object msg)
    let images := (QJsonObject.value msg "images").toArray
    let texts := (QJsonObject.value msg "texts").toArray
    (∃ added, r.server.m_boardState = s.m_boardState ++ added) ∧
    (∃ added, r.server.m_textState = s.m_textState ++ added) ∧
    (∀ done item todo, images = done ++ item :: todo →
      (containsId "imageId" (pushMerge "imageId" s.m_boardState false done).1
          (recordId "imageId" item) = false →
        (pushMerge "imageId" s.m_boardState false (done ++ [item])).1 =
          (pushMerge "imageId" s.m_boardState false done).1 ++
            [JsonValue.object (QJsonObject.ref item.toObject "imageId")]) ∧
      (containsId "imageId" (pushMerge "imageId" s.m_boardState false done).1
          (recordId "imageId" item) = true →
        (pushMerge "imageId" s.m_boardState false (done ++ [item])).1 =
          (pushMerge "imageId" s.m_boardState false done).1) ∧
      (containsId "imageId" (pushMerge "imageId" s.m_boardState false done).1
          (recordId "imageId" item) = true ↔
        (containsId "imageId" s.m_boardState (recordId "imageId" item) = true ∨
          recordId "imageId" item ∈ done.map (recordId "imageId"))) ∧
      ∃ later, r.server.m_boardState =
        (pushMerge "imageId" s.m_boardState false (done ++ [item])).1 ++ later) ∧
    (∀ done item todo, texts = done ++ item :: todo →
      (containsId "textId" (pushMerge "textId" s.m_textState false done).1
          (recordId "textId" item) = false →
        (pushMerge "textId" s.m_textState false (done ++ [item])).1 =
          (pushMerge "textId" s.m_textState false done).1 ++
            [JsonValue.object (QJsonObject.ref item.toObject "textId")]) ∧
      (containsId "textId" (pushMerge "textId" s.m_textState false done).1
          (recordId "textId" item) = true →
        (pushMerge "textId" s.m_textState false (done ++ [item])).1 =
          (pushMerge "textId" s.m_textState false done).1) ∧
      (containsId "textId" (pushMerge "textId" s.m_textState false done).1
          (recordId "textId" item) = true ↔
        (containsId "textId" s.m_textState (recordId "textId" item) = true ∨
          recordId "textId" item ∈ done.map (recordId "textId"))) ∧
      ∃ later, r.server.m_textState =
        (pushMerge "textId" s.m_textState false (done ++ [item])).1 ++ later) ∧
    (∀ item ∈ images,
      containsId "imageId" r.server.m_boardState (recordId "imageId" item) = true) ∧
    (∀ item ∈ texts,
      containsId "textId" r.server.m_textState (recordId "textId" item) = true) ∧
    ((s.m_boardState.map (recordId "imageId")).Nodup →
      (r.server.m_boardState.map (recordId "imageId")).Nodup) ∧
    ((s.m_textState.map (recordId "textId")).Nodup →
      (r.server.m_textState.map (recordId "textId")).Nodup) ∧
    (∀ (item : JsonValue) (key : String),
      (QJsonObject.contains item.toObject key = true →
        QJsonObject.ref item.toObject key = item.toObject) ∧
      (QJsonObject.contains item.toObject key = false →
        QJsonObject.ref item.toObject key = item.toObject ++ [(key, JsonValue.null)])) := by
  intro r images texts
  have hr : r = _ := onText_pushSync s d now client msg ht
  have hb : r.server.m_boardState = (pushMerge "imageId" s.m_boardState false images).1 := by
    rw [hr]; rfl
  have htx : r.server.m_textState =
      (pushMerge "textId" s.m_textState
        (pushMerge "imageId" s.m_boardState false images).2 texts).1 := by
    rw [hr]; rfl
  refine ⟨?_, ?_, ?_, ?_, ?_, ?_, ?_, ?_, fun item key =>
    ⟨QJsonObject.ref_of_contains _ key, QJsonObject.ref_of_absent _ key⟩⟩
  · rw [hb]; exact pushMerge_extends _ _ _ _
  · rw [htx]; exact pushMerge_extends _ _ _ _
  · intro done item todo himg
    rw [hb, himg]
    exact pushMerge_step "imageId" s.m_boardState false done item todo
  · intro done item todo htxt
    rw [htx, htxt]
    exact pushMerge_step "textId" s.m_textState _ done item todo
  · intro item hi
    rw [hb]
    exact pushMerge_contains _ _ _ _ _ (Or.inr (List.mem_map_of_mem _ hi))
  · intro item hi
    rw [htx]
    exact pushMerge_contains _ _ _ _ _ (Or.inr (List.mem_map_of_mem _ hi))
  · intro h
    rw [hb]; exact pushMerge_nodup _ _ _ _ h
  · intro h
    rw [htx]; exact pushMerge_nodup _ _ _ _ h

/-- The frames addressed to `c` among one frame per socket of a duplicate-free list. -/
theorem frames_to (l : List Socket) (msg : QJsonObject) (c : Socket) (hnd : l.Nodup) :
    (l.map (fun x => ((x, msg) : Frame))).filter (fun f => decide (f.1 = c)) =
      if c ∈ l then [(c, msg)] else [] := by
  induction l with
  | nil => simp
  | cons x rest ih =>
      have hx : x ∉ rest ∧ rest.Nodup := by simpa using hnd
      by_cases h : x = c
      · subst h
        simp [ih hx.2, hx.1]
      · have h2 : ¬ c = x := fun e => h e.symm
        simp [h, h2, ih hx.2]

theorem broadcast_to (s : SyncServer) (msg : QJsonObject) (exclude : String) (c : Socket)
    (hnd : s.m_clients.Nodup) :
    (s.broadcast msg exclude).filter (fun f => decide (f.1 = c)) =
      if c ∈ s.m_clients ∧ s.clientId c ≠ exclude then [(c, msg)] else [] := by
  unfold broadcast
  rw [frames_to _ msg c (hnd.filter _)]
  simp [List.mem_filter]

theorem fullSyncMsg_fields (s : SyncServer) :
    QJsonObject.value s.fullSyncMsg "type" = JsonValue.string "fullSync" ∧
    QJsonObject.value s.fullSyncMsg "images" = JsonValue.array s.m_boardState ∧
    QJsonObject.value s.fullSyncMsg "texts" = JsonValue.array s.m_textState := by
  refine ⟨?_, ?_, ?_⟩ <;> rfl

/-- C7. pushSync replies: when connection identities identify connections (the pusher's
identity is routed to the pusher and no other connection has it), handling a pushSync
sends the pusher exactly one frame, a fullSync whose images and texts are the merged
room state; every other connection receives exactly that one frame if the push added a
record and nothing if it added none; nothing is sent to a socket that is not connected. -/
theorem hub_push_replies (s : SyncServer) (d : Disk) (now : String) (client : Socket)
    (msg : QJsonObject) (ht : (QJsonObject.value msg "type").toString = "pushSync")
    (hnd : s.m_clients.Nodup)
    (hback : QHash.value s.m_clientsById (s.clientId client) = some client)
    (hinj : ∀ c ∈ s.m_clients, c ≠ client → s.clientId c ≠ s.clientId client) :
    let r := onTextMessageReceived s d now client (JsonValue.object msg)
    let sync := r.server.fullSyncMsg
    (QJsonObject.value sync "type" = JsonValue.string "fullSync" ∧
      QJsonObject.value sync "images" = JsonValue.array r.server.m_boardState ∧
      QJsonObject.value sync "texts" = JsonValue.array r.server.m_textState) ∧
    r.sent.filter (fun f => decide (f.1 = client)) = [(client, sync)] ∧
    (∀ c ∈ s.m_clients, c ≠ client →
      ((r.server.m_boardState ≠ s.m_boardState ∨ r.server.m_textState ≠ s.m_textState) →
        r.sent.filter (fun f => decide (f.1 = c)) = [(c, sync)]) ∧
      (r.server.m_boardState = s.m_boardState → r.server.m_textState = s.m_textState →
        r.sent.filter (fun f => decide (f.1 = c)) = [])) ∧
    (∀ c, c ∉ s.m_clients → c ≠ client → r.sent.filter (fun f => decide (f.1 = c)) = []) := by
  intro r sync
  have hr : r = onPushSync s d msg (s.clientId client) :=
    onText_pushSync s d now client msg ht
  obtain ⟨images, himages⟩ : ∃ x, x = pushMerge "imageId" s.m_boardState false
      (QJsonObject.value msg "images").toArray := ⟨_, rfl⟩
  obtain ⟨texts, htexts⟩ : ∃ x, x = pushMerge "textId" s.m_textState images.2
      (QJsonObject.value msg "texts").toArray := ⟨_, rfl⟩
  have hb : r.server.m_boardState = images.1 := by rw [hr, himages]; rfl
  have htx : r.server.m_textState = texts.1 := by rw [hr, htexts, himages]; rfl
  have hcl : r.server.m_clients = s.m_clients := by rw [hr]; rfl
  have hid : ∀ c, r.server.clientId c = s.clientId c := by
    intro c; rw [hr]; rfl
  have hby : r.server.m_clientsById = s.m_clientsById := by rw [hr]; rfl
  have hsent : r.sent = r.server.sendToClient (s.clientId client) sync ++
      (if texts.2 then r.server.broadcast sync (s.clientId client) else []) := by
    show r.sent = r.server.sendToClient _ r.server.fullSyncMsg ++
      (if texts.2 then r.server.broadcast r.server.fullSyncMsg _ else [])
    rw [htexts, himages, hr]
    rfl
  have hreply : r.server.sendToClient (s.clientId client) sync = [(client, sync)] := by
    unfold sendToClient
    rw [hby, hback]
  have hflag : texts.2 = true ↔
      (r.server.m_boardState ≠ s.m_boardState ∨ r.server.m_textState ≠ s.m_textState) := by
    rw [hb, htx, htexts, pushMerge_flag, himages, pushMerge_flag]
    simp
  have hnd2 : r.server.m_clients.Nodup := by rw [hcl]; exact hnd
  have hto : ∀ c, r.sent.filter (fun f => decide (f.1 = c)) =
      (if client = c then [(client, sync)] else []) ++
      (if texts.2 then
        (if c ∈ s.m_clients ∧ s.clientId c ≠ s.clientId client then [(c, sync)] else [])
       else []) := by
    intro c
    rw [hsent, hreply, List.filter_append]
    congr 1
    · by_cases h : client = c <;> simp [h]
    · by_cases hf : texts.2 = true
      · simp only [hf, if_true]
        rw [broadcast_to r.server sync _ c hnd2, hcl, hid]
      · simp [hf]
  refine ⟨fullSyncMsg_fields r.server, ?_, ?_, ?_⟩
  · rw [hto client]
    simp
  · intro c hc hne
    have hne2 : ¬ client = c := fun e => hne e.symm
    have hidne := hinj c hc hne
    rw [hto c]
    refine ⟨fun hadd => ?_, fun h1 h2 => ?_⟩
    · simp [hne2, hflag.2 hadd, hc, hidne]
    · have hf : ¬ texts.2 = true := fun hf => by
        rcases hflag.1 hf with h | h
        · exact h h1
        · exact h h2
      simp [hne2, hf]
  · intro c hc hne
    have hne2 : ¬ client = c := fun e => hne e.symm
    rw [hto c]
    by_cases hf : texts.2 = true <;> simp [hne2, hf, hc]

/-! ### Persistence -/

theorem qhash_value_insert {κ α : Type} [DecidableEq κ] (h : List (κ × α)) (k : κ) (v : α) :
    QHash.value (QHash.insert h k v) k = some v := by
  induction h with
  | nil => simp [QHash.insert, QHash.value]
  | cons kv rest ih =>
      obtain ⟨k1, w⟩ := kv
      by_cases hk : k1 = k
      · simp [QHash.insert, QHash.value, hk]
      · simp [QHash.insert, QHash.value, hk, ih]

/-- C10. Persistence round-trip: for a room state with at least one record, a non-empty
save path and a save file that can be opened, `saveState` followed by `loadState` in a
freshly started hub using the same save file yields the same images and the same texts. -/
theorem persistence_roundtrip (s : SyncServer) (d : Disk) (now : String)
    (hne : s.m_boardState ≠ [] ∨ s.m_textState ≠ [])
    (hpath : s.m_saveFilePath ≠ "")
    (hopen : d.canOpen s.m_saveFilePath = true) :
    let restarted := (fresh s.m_saveFilePath).loadState (s.saveState d now)
    restarted.m_boardState = s.m_boardState ∧ restarted.m_textState = s.m_textState := by
  intro restarted
  have hempty : (s.m_boardState.isEmpty && s.m_textState.isEmpty) = false := by
    rcases hne with h | h
    · cases hb : s.m_boardState with
      | nil => exact absurd hb h
      | cons a l => simp
    · cases hb : s.m_textState with
      | nil => exact absurd hb h
      | cons a l => simp
  have hsave : s.saveState d now = d.write s.m_saveFilePath (JsonValue.object
      (QJsonObject.insert (QJsonObject.insert (QJsonObject.insert [] "images"
        (JsonValue.array s.m_boardState)) "texts" (JsonValue.array s.m_textState))
        "savedAt" (JsonValue.string now))) := by
    simp [saveState, hpath, hempty, hopen]
  have hload : restarted = { fresh s.m_saveFilePath with
      m_boardState := s.m_boardState, m_textState := s.m_textState } := by
    show (fresh s.m_saveFilePath).loadState (s.saveState d now) = _
    rw [hsave]
    unfold loadState
    have hp : (fresh s.m_saveFilePath).m_saveFilePath = s.m_saveFilePath := rfl
    simp only [hp, hpath, if_false, Disk.write, qhash_value_insert]
    have hopen2 : Disk.canOpen { files := QHash.insert d.files s.m_saveFilePath (JsonValue.object
        (QJsonObject.insert (QJsonObject.insert (QJsonObject.insert [] "images"
          (JsonValue.array s.m_boardState)) "texts" (JsonValue.array s.m_textState))
          "savedAt" (JsonValue.string now))), denied := d.denied } s.m_saveFilePath = true :=
      hopen
    rw [if_pos hopen2]
    rfl
  rw [hload]
  exact ⟨rfl, rfl⟩

end SyncServer

/-! ## Transport client: reconnection -/

namespace SyncClient

/-- One event other than a successful connection keeps the attempt counter within the
cap, counts each connection attempt, and leaves the reconnect timer running at the cap
unless it raises the terminal error. -/
theorem step_failing (c : SyncClient) (e : ClientEvent) (E0 : Prop)
    (hurl : c.m_serverUrl ≠ "") (hle : c.m_reconnectAttempts ≤ MAX_RECONNECT_ATTEMPTS)
    (hP : c.m_reconnectAttempts = MAX_RECONNECT_ATTEMPTS → c.reconnectTimerActive = true ∨ E0)
    (hfail : e.isConnected = false) :
    (c.step e).1.m_serverUrl = c.m_serverUrl ∧
    (c.step e).1.m_reconnectAttempts ≤ MAX_RECONNECT_ATTEMPTS ∧
    (c.step e).1.m_reconnectAttempts =
      c.m_reconnectAttempts + (c.step e).2.countP ClientEffect.isOpen ∧
    ((c.step e).1.m_reconnectAttempts = MAX_RECONNECT_ATTEMPTS →
      (c.step e).1.reconnectTimerActive = true ∨ E0 ∨
        ∃ x ∈ (c.step e).2, x.isReconnectFailed = true) := by
  cases e with
  | socketConnected => simp [ClientEvent.isConnected] at hfail
  | socketDisconnected =>
      by_cases h : c.m_reconnectAttempts < MAX_RECONNECT_ATTEMPTS
      · simp [step, onDisconnected, hurl, h, hle, ClientEffect.isOpen]
      · simp only [step, onDisconnected, hurl, h, and_false, if_false, ne_eq, not_false_eq_true]
        refine ⟨trivial, hle, by simp [ClientEffect.isOpen], fun h10 => ?_⟩
        rcases hP h10 with h1 | h1
        · exact Or.inl h1
        · exact Or.inr (Or.inl h1)
  | socketError errorString =>
      refine ⟨rfl, hle, by simp [step, ClientEffect.isOpen], fun h10 => ?_⟩
      rcases hP h10 with h1 | h1
      · exact Or.inl h1
      · exact Or.inr (Or.inl h1)
  | textMessageReceived doc =>
      have hst : (c.step (ClientEvent.textMessageReceived doc)).1 = c := by
        cases doc <;> rfl
      have hop : (c.step (ClientEvent.textMessageReceived doc)).2.countP ClientEffect.isOpen
          = 0 := by
        cases doc <;> simp [step, onTextMessageReceived, ClientEffect.isOpen]
      rw [hst, hop]
      refine ⟨rfl, hle, rfl, fun h10 => ?_⟩
      rcases hP h10 with h1 | h1
      · exact Or.inl h1
      · exact Or.inr (Or.inl h1)
  | pingTimeout =>
      have hst : (c.step ClientEvent.pingTimeout).1 = c := by
        simp only [step]
        split <;> rfl
      have hop : (c.step ClientEvent.pingTimeout).2.countP ClientEffect.isOpen = 0 := by
        simp only [step]
        split
        · simp only [sendPing, sendMessage]
          split <;> simp [ClientEffect.isOpen]
        · rfl
      rw [hst, hop]
      refine ⟨rfl, hle, rfl, fun h10 => ?_⟩
      rcases hP h10 with h1 | h1
      · exact Or.inl h1
      · exact Or.inr (Or.inl h1)
  | reconnectTimeout =>
      by_cases ht : c.reconnectTimerActive = true
      · by_cases h : c.m_reconnectAttempts < MAX_RECONNECT_ATTEMPTS
        · have h2 : c.m_reconnectAttempts + 1 ≤ MAX_RECONNECT_ATTEMPTS := h
          simp [step, onReconnectTimeout, ht, h, hurl, h2, ClientEffect.isOpen]
        · simp [step, onReconnectTimeout, ht, h, hle, ClientEffect.isOpen,
            ClientEffect.isReconnectFailed]
      · simp only [step, ht, if_false, Bool.false_eq_true]
        refine ⟨trivial, hle, by simp, fun h10 => ?_⟩
        rcases hP h10 with h1 | h1
        · exact absurd h1 ht
        · exact Or.inr (Or.inl h1)

theorem run_failing (evs : List ClientEvent) (c : SyncClient) (E0 : Prop)
    (hurl : c.m_serverUrl ≠ "") (hle : c.m_reconnectAttempts ≤ MAX_RECONNECT_ATTEMPTS)
    (hP : c.m_reconnectAttempts = MAX_RECONNECT_ATTEMPTS → c.reconnectTimerActive = true ∨ E0)
    (hfail : ∀ e ∈ evs, e.isConnected = false) :
    (c.run evs).1.m_serverUrl = c.m_serverUrl ∧
    (c.run evs).1.m_reconnectAttempts ≤ MAX_RECONNECT_ATTEMPTS ∧
    (c.run evs).1.m_reconnectAttempts =
      c.m_reconnectAttempts + (c.run evs).2.countP ClientEffect.isOpen ∧
    ((c.run evs).1.m_reconnectAttempts = MAX_RECONNECT_ATTEMPTS →
      (c.run evs).1.reconnectTimerActive = true ∨ E0 ∨
        ∃ x ∈ (c.run evs).2, x.isReconnectFailed = true) := by
  induction evs generalizing c E0 with
  | nil =>
      refine ⟨rfl, hle, by simp [run], fun h10 => ?_⟩
      rcases hP h10 with h1 | h1
      · exact Or.inl h1
      · exact Or.inr (Or.inl h1)
  | cons e rest ih =>
      obtain ⟨s1, s2, s3, s4⟩ := step_failing c e E0 hurl hle hP
        (hfail e (List.mem_cons_self e rest))
      obtain ⟨r1, r2, r3, r4⟩ := ih (c.step e).1
        (E0 ∨ ∃ x ∈ (c.step e).2, x.isReconnectFailed = true)
        (by rw [s1]; exact hurl) s2 s4
        (fun x hx => hfail x (List.mem_cons_of_mem e hx))
      refine ⟨?_, ?_, ?_, ?_⟩
      · show (run (c.step e).1 rest).1.m_serverUrl = _
        rw [r1, s1]
      · exact r2
      · show (run (c.step e).1 rest).1.m_reconnectAttempts =
          c.m_reconnectAttempts +
            ((c.step e).2 ++ (run (c.step e).1 rest).2).countP ClientEffect.isOpen
        rw [r3, s3, List.countP_append]
        omega
      · intro h10
        show (run (c.step e).1 rest).1.reconnectTimerActive = true ∨ E0 ∨
          ∃ x ∈ (c.step e).2 ++ (run (c.step e).1 rest).2, x.isReconnectFailed = true
        rcases r4 h10 with h1 | (h1 | ⟨x, hx, hxf⟩) | ⟨x, hx, hxf⟩
        · exact Or.inl h1
        · exact Or.inr (Or.inl h1)
        · exact Or.inr (Or.inr ⟨x, List.mem_append_left _ hx, hxf⟩)
        · exact Or.inr (Or.inr ⟨x, List.mem_append_right _ hx, hxf⟩)

theorem run_append (a b : List ClientEvent) (c : SyncClient) :
    c.run (a ++ b) = ((run (c.run a).1 b).1, (c.run a).2 ++ (run (c.run a).1 b).2) := by
  induction a generalizing c with
  | nil => simp [run]
  | cons e rest ih =>
      show ((run (c.step e).1 (rest ++ b)).1, (c.step e).2 ++ (run (c.step e).1 (rest ++ b)).2) = _
      rw [ih]
      simp [run, List.append_assoc]

theorem refusedRounds_succ (n : Nat) :
    refusedRounds (n + 1) = refusedRounds n ++ [ClientEvent.socketError "Connection refused",
      ClientEvent.socketDisconnected, ClientEvent.reconnectTimeout] := by
  simp [refusedRounds, List.replicate_succ']

/-- One refused round below the cap: the timer is (re)started, its timeout counts one
attempt and opens the socket. -/
theorem round_attempt (c : SyncClient) (hurl : c.m_serverUrl ≠ "")
    (hlt : c.m_reconnectAttempts < MAX_RECONNECT_ATTEMPTS) :
    c.run [ClientEvent.socketError "Connection refused", ClientEvent.socketDisconnected,
        ClientEvent.reconnectTimeout] =
      ({ c with socketState := SocketState.connecting, pingTimerActive := false,
                reconnectTimerActive := true,
                m_reconnectAttempts := c.m_reconnectAttempts + 1 },
       [ClientEffect.errorOccurred "Connection refused", ClientEffect.disconnected,
        ClientEffect.socketOpen c.m_serverUrl]) := by
  simp [run, step, onDisconnected, onReconnectTimeout, hurl, hlt]

/-- One refused round at the cap with the timer still running: no attempt, the timer is
stopped and the terminal error is emitted. -/
theorem round_giveup (c : SyncClient) (hurl : c.m_serverUrl ≠ "")
    (hcap : c.m_reconnectAttempts = MAX_RECONNECT_ATTEMPTS)
    (hact : c.reconnectTimerActive = true) :
    c.run [ClientEvent.socketError "Connection refused", ClientEvent.socketDisconnected,
        ClientEvent.reconnectTimeout] =
      ({ c with socketState := SocketState.unconnected, pingTimerActive := false,
                reconnectTimerActive := false },
       [ClientEffect.errorOccurred "Connection refused", ClientEffect.disconnected,
        ClientEffect.errorOccurred reconnectFailedText]) := by
  simp [run, step, onDisconnected, onReconnectTimeout, hurl, hcap, hact]

/-- One refused round at the cap with the timer stopped: nothing but the socket's own
signals. -/
theorem round_idle (c : SyncClient)
    (hcap : c.m_reconnectAttempts = MAX_RECONNECT_ATTEMPTS)
    (hact : c.reconnectTimerActive = false) :
    c.run [ClientEvent.socketError "Connection refused", ClientEvent.socketDisconnected,
        ClientEvent.reconnectTimeout] =
      ({ c with socketState := SocketState.unconnected, pingTimerActive := false },
       [ClientEffect.errorOccurred "Connection refused", ClientEffect.disconnected]) := by
  simp [run, step, onDisconnected, hcap, hact]

/-- The client facing an endpoint that refuses every connection, after `n` rounds: it
has made `min n 10` reconnect attempts, all to its server URL; up to round 10 the
reconnect timer is running and no terminal error has been emitted; from round 11 on the
timer is stopped and the terminal error has been emitted exactly once. -/
theorem refused_rounds (c : SyncClient) (hurl : c.m_serverUrl ≠ "")
    (h0 : c.m_reconnectAttempts = 0) (n : Nat) :
    (c.run (refusedRounds n)).1.m_serverUrl = c.m_serverUrl ∧
    (c.run (refusedRounds n)).1.m_reconnectAttempts = min n MAX_RECONNECT_ATTEMPTS ∧
    (c.run (refusedRounds n)).2.filter ClientEffect.isOpen =
      List.replicate (min n MAX_RECONNECT_ATTEMPTS) (ClientEffect.socketOpen c.m_serverUrl) ∧
    (c.run (refusedRounds n)).2.countP ClientEffect.isReconnectFailed =
      (if n ≤ MAX_RECONNECT_ATTEMPTS then 0 else 1) ∧
    (1 ≤ n → n ≤ MAX_RECONNECT_ATTEMPTS →
      (c.run (refusedRounds n)).1.reconnectTimerActive = true) ∧
    (MAX_RECONNECT_ATTEMPTS < n → (c.run (refusedRounds n)).1.reconnectTimerActive = false) := by
  induction n with
  | zero =>
      refine ⟨rfl, ?_, rfl, rfl, fun h => absurd h (by decide), fun h => absurd h (by decide)⟩
      show c.m_reconnectAttempts = _
      rw [h0]; rfl
  | succ n ih =>
      obtain ⟨i1, i2, i3, i4, i5, i6⟩ := ih
      rw [refusedRounds_succ, run_append]
      have hurl2 : (c.run (refusedRounds n)).1.m_serverUrl ≠ "" := by rw [i1]; exact hurl
      have hnotf : ClientEffect.isReconnectFailed
          (ClientEffect.errorOccurred "Connection refused") = false := by decide
      rcases Nat.lt_trichotomy n MAX_RECONNECT_ATTEMPTS with hlt | heq | hgt
      · -- below the cap: one more attempt
        have hmin : min n MAX_RECONNECT_ATTEMPTS = n := Nat.min_eq_left (Nat.le_of_lt hlt)
        have hmin2 : min (n + 1) MAX_RECONNECT_ATTEMPTS = n + 1 := Nat.min_eq_left hlt
        have hle : n ≤ MAX_RECONNECT_ATTEMPTS := Nat.le_of_lt hlt
        have hlt2 : (c.run (refusedRounds n)).1.m_reconnectAttempts < MAX_RECONNECT_ATTEMPTS := by
          rw [i2, hmin]; exact hlt
        rw [round_attempt _ hurl2 hlt2]
        refine ⟨i1, ?_, ?_, ?_, fun _ _ => rfl, fun h => ?_⟩
        · show (c.run (refusedRounds n)).1.m_reconnectAttempts + 1 = _
          rw [i2, hmin, hmin2]
        · show List.filter ClientEffect.isOpen ((c.run (refusedRounds n)).2 ++ _) = _
          rw [List.filter_append, i3, hmin, hmin2, i1, List.replicate_succ']
          rfl
        · show List.countP ClientEffect.isReconnectFailed ((c.run (refusedRounds n)).2 ++ _) = _
          rw [List.countP_append, i4, if_pos hle, if_pos (show n + 1 ≤ MAX_RECONNECT_ATTEMPTS from hlt)]
          rfl
        · exact absurd h (by simp only [MAX_RECONNECT_ATTEMPTS] at hlt ⊢; omega)
      · -- at the cap with the timer running: give up
        have hmin : min n MAX_RECONNECT_ATTEMPTS = MAX_RECONNECT_ATTEMPTS := by
          rw [heq]; exact Nat.min_self _
        have hmin2 : min (n + 1) MAX_RECONNECT_ATTEMPTS = MAX_RECONNECT_ATTEMPTS :=
          Nat.min_eq_right (by rw [heq]; exact Nat.le_succ _)
        have hle : n ≤ MAX_RECONNECT_ATTEMPTS := Nat.le_of_eq heq
        have hnle2 : ¬ n + 1 ≤ MAX_RECONNECT_ATTEMPTS := by
          rw [heq]; exact Nat.not_succ_le_self _
        have hcap : (c.run (refusedRounds n)).1.m_reconnectAttempts = MAX_RECONNECT_ATTEMPTS := by
          rw [i2, hmin]
        have hact := i5 (by rw [heq]; decide) hle
        rw [round_giveup _ hurl2 hcap hact]
        refine ⟨i1, ?_, ?_, ?_, fun _ h => absurd h hnle2, fun _ => rfl⟩
        · show (c.run (refusedRounds n)).1.m_reconnectAttempts = _
          rw [hcap, hmin2]
        · show List.filter ClientEffect.isOpen ((c.run (refusedRounds n)).2 ++ _) = _
          rw [List.filter_append, i3, hmin, hmin2]
          simp [ClientEffect.isOpen]
        · show List.countP ClientEffect.isReconnectFailed ((c.run (refusedRounds n)).2 ++ _) = _
          rw [List.countP_append, i4, if_pos hle, if_neg hnle2]
          rfl
      · -- past the cap: the timer is stopped
        have hmin : min n MAX_RECONNECT_ATTEMPTS = MAX_RECONNECT_ATTEMPTS :=
          Nat.min_eq_right (Nat.le_of_lt hgt)
        have hmin2 : min (n + 1) MAX_RECONNECT_ATTEMPTS = MAX_RECONNECT_ATTEMPTS :=
          Nat.min_eq_right (Nat.le_succ_of_le (Nat.le_of_lt hgt))
        have hcap : (c.run (refusedRounds n)).1.m_reconnectAttempts = MAX_RECONNECT_ATTEMPTS := by
          rw [i2, hmin]
        have hnle : ¬ n ≤ MAX_RECONNECT_ATTEMPTS := Nat.not_le_of_gt hgt
        have hnle2 : ¬ n + 1 ≤ MAX_RECONNECT_ATTEMPTS := fun h => hnle (Nat.le_of_succ_le h)
        rw [round_idle _ hcap (i6 hgt)]
        refine ⟨i1, ?_, ?_, ?_, fun _ h => absurd h hnle2, fun _ => i6 hgt⟩
        · show (c.run (refusedRounds n)).1.m_reconnectAttempts = _
          rw [hcap, hmin2]
        · show List.filter ClientEffect.isOpen ((c.run (refusedRounds n)).2 ++ _) = _
          rw [List.filter_append, i3, hmin, hmin2]
          simp [ClientEffect.isOpen]
        · show List.countP ClientEffect.isReconnectFailed ((c.run (refusedRounds n)).2 ++ _) = _
          rw [List.countP_append, i4, if_neg hnle, if_neg hnle2]
          rfl

/-- C8. Reconnect bound: after `connectToServer` with a non-empty URL, for every
sequence of socket signals and timer timeouts in which the socket never reports a
connection, the attempt counter never exceeds MAX_RECONNECT_ATTEMPTS = 10 and equals the
number of connection attempts the reconnect timer has made, so there is no 11th
attempt; once the counter is 10 the reconnect timer is still running or the terminal
error has been emitted, and the timer's next timeout makes no attempt, stops the timer
and emits the terminal error; while the counter is below 10, a timeout of the running
timer counts one attempt and opens the socket on the URL.  Against an endpoint that
refuses every connection, after `n` rounds of error, close and timeout the client has
made exactly `min n 10` attempts, all on the URL; through round 10 the timer is running
and no terminal error has been emitted; from round 11 on the timer is stopped and the
terminal error has been emitted exactly once. -/
theorem reconnect_bound (c0 : SyncClient) (url : String) (evs : List ClientEvent)
    (hurl : url ≠ "") (hfail : ∀ e ∈ evs, e.isConnected = false) :
    let r := (c0.connectToServer url).1.run evs
    r.1.m_reconnectAttempts ≤ MAX_RECONNECT_ATTEMPTS ∧
    r.2.countP ClientEffect.isOpen = r.1.m_reconnectAttempts ∧
    r.2.countP ClientEffect.isOpen ≤ 10 ∧
    (r.1.m_reconnectAttempts = MAX_RECONNECT_ATTEMPTS →
      (r.1.reconnectTimerActive = true ∨ ∃ x ∈ r.2, x.isReconnectFailed = true) ∧
      (r.1.reconnectTimerActive = true →
        r.1.step ClientEvent.reconnectTimeout =
          ({ r.1 with reconnectTimerActive := false },
            [ClientEffect.errorOccurred reconnectFailedText]))) ∧
    (r.1.m_reconnectAttempts < MAX_RECONNECT_ATTEMPTS → r.1.reconnectTimerActive = true →
      r.1.step ClientEvent.reconnectTimeout =
        ({ r.1 with m_reconnectAttempts := r.1.m_reconnectAttempts + 1,
                    socketState := SocketState.connecting },
          [ClientEffect.socketOpen url])) ∧
    (∀ n : Nat,
      ((c0.connectToServer url).1.run (refusedRounds n)).1.m_reconnectAttempts =
        min n MAX_RECONNECT_ATTEMPTS ∧
      ((c0.connectToServer url).1.run (refusedRounds n)).2.filter ClientEffect.isOpen =
        List.replicate (min n MAX_RECONNECT_ATTEMPTS) (ClientEffect.socketOpen url) ∧
      ((c0.connectToServer url).1.run (refusedRounds n)).2.countP
        ClientEffect.isReconnectFailed = (if n ≤ MAX_RECONNECT_ATTEMPTS then 0 else 1) ∧
      (1 ≤ n → n ≤ MAX_RECONNECT_ATTEMPTS →
        ((c0.connectToServer url).1.run (refusedRounds n)).1.reconnectTimerActive = true) ∧
      (MAX_RECONNECT_ATTEMPTS < n →
        ((c0.connectToServer url).1.run (refusedRounds n)).1.reconnectTimerActive = false)) := by
  intro r
  obtain ⟨r1, r2, r3, r4⟩ := run_failing evs (c0.connectToServer url).1 False hurl
    (Nat.zero_le _) (fun h => by simp [connectToServer, MAX_RECONNECT_ATTEMPTS] at h) hfail
  have h0 : (c0.connectToServer url).1.m_reconnectAttempts = 0 := rfl
  have hu : r.1.m_serverUrl = url := r1
  rw [h0, Nat.zero_add] at r3
  refine ⟨r2, r3.symm, ?_, fun h10 => ⟨?_, fun ht => ?_⟩, fun hlt ht => ?_, fun n => ?_⟩
  · rw [← r3]; exact r2
  · rcases r4 h10 with h1 | h1 | h1
    · exact Or.inl h1
    · exact absurd h1 id
    · exact Or.inr h1
  · have hge : ¬ r.1.m_reconnectAttempts < MAX_RECONNECT_ATTEMPTS := by omega
    simp [step, onReconnectTimeout, ht, hge]
  · simp [step, onReconnectTimeout, ht, hlt, hu, hurl]
  · obtain ⟨_, q2, q3, q4, q5, q6⟩ := refused_rounds (c0.connectToServer url).1 hurl h0 n
    exact ⟨q2, q3, q4, q5, q6⟩

end SyncClient

/-! ## Orchestrator: self-echo and cursor throttling -/

namespace CollabManager

/-- C4. Self-echo suppression: an inbound imageAdd, imageUpdate, imageRemove, textAdd,
textUpdate or textRemove message whose `oderId` is the local participant id leaves the
whole orchestrator state as it is, so no local item is created, patched or deleted, and
puts no frame on the wire. -/
theorem self_echo_suppressed (P : Platform) (m : CollabManager) (message : QJsonObject)
    (hself : (QJsonObject.value message "oderId").toString = m.m_client.m_oderId) :
    handleImageAdd P m message = (m, []) ∧
    handleImageUpdate P m message = (m, []) ∧
    handleImageRemove P m message = (m, []) ∧
    handleTextAdd P m message = (m, []) ∧
    handleTextUpdate P m message = (m, []) ∧
    handleTextRemove P m message = (m, []) := by
  refine ⟨?_, ?_, ?_, ?_, ?_, ?_⟩
  · simp [handleImageAdd, hself]
  · simp [handleImageUpdate, hself]
  · simp [handleImageRemove, hself]
  · cases hs : m.m_scene <;> simp [handleTextAdd, hself, hs]
  · cases hs : m.m_scene <;> simp [handleTextUpdate, hself, hs]
  · cases hs : m.m_scene <;> simp [handleTextRemove, hself, hs]

theorem cursorMsg_congr (m m2 : CollabManager) (pos : Rat × Rat)
    (h1 : m2.m_client = m.m_client) (h2 : m2.m_localColor = m.m_localColor) :
    cursorMsg m2 pos = cursorMsg m pos := by
  simp [cursorMsg, h1, h2]

end CollabManager

/-! ## Orchestrator: applying a full snapshot -/

theorem qhash_insert_new {κ α : Type} [DecidableEq κ] (h : List (κ × α)) (k : κ) (v : α)
    (hk : QHash.value h k = none) : QHash.insert h k v = h ++ [(k, v)] := by
  induction h with
  | nil => rfl
  | cons kv rest ih =>
      obtain ⟨k1, w⟩ := kv
      by_cases h1 : k1 = k
      · simp [QHash.value, h1] at hk
      · simp only [QHash.value, h1, if_false] at hk
        simp [QHash.insert, h1, ih hk]

theorem qhash_insert_keys {κ α : Type} [DecidableEq κ] (h : List (κ × α)) (k : κ) (v : α)
    (x : κ) (hx : x ∈ (QHash.insert h k v).map Prod.fst) : x = k ∨ x ∈ h.map Prod.fst := by
  induction h with
  | nil =>
      simp [QHash.insert] at hx
      exact Or.inl hx
  | cons kv rest ih =>
      obtain ⟨k1, w⟩ := kv
      by_cases h1 : k1 = k
      · simp only [QHash.insert, h1, if_true, List.map_cons, List.mem_cons] at hx
        rcases hx with hx | hx
        · exact Or.inl hx
        · exact Or.inr (by simp [hx])
      · simp only [QHash.insert, h1, if_false, List.map_cons, List.mem_cons] at hx
        rcases hx with hx | hx
        · exact Or.inr (by simp [hx])
        · rcases ih hx with h2 | h2
          · exact Or.inl h2
          · exact Or.inr (by simp [h2])

theorem qhash_value_isSome_iff {κ α : Type} [DecidableEq κ] (h : List (κ × α)) (k : κ) :
    (QHash.value h k).isSome = true ↔ k ∈ h.map Prod.fst := by
  induction h with
  | nil => simp [QHash.value]
  | cons kv rest ih =>
      obtain ⟨k1, w⟩ := kv
      by_cases h1 : k1 = k
      · simp [QHash.value, h1]
      · have h2 : ¬ k = k1 := fun e => h1 e.symm
        simp [QHash.value, h1, h2, ih]

theorem qhash_value_none_iff {κ α : Type} [DecidableEq κ] (h : List (κ × α)) (k : κ) :
    QHash.value h k = none ↔ k ∉ h.map Prod.fst := by
  rw [← qhash_value_isSome_iff]
  cases QHash.value h k <;> simp

namespace CollabManager

/-- While the guard is set, no scene signal puts a frame on the wire. -/
theorem emitAll_syncing (P : Platform) (m : CollabManager) (sigs : List SceneSignal)
    (hsync : m.m_isSyncing = true) : emitAll P m sigs = [] := by
  induction sigs with
  | nil => rfl
  | cons sig rest ih =>
      cases sig <;> simp [emitAll, onSceneSignal, hsync, ih]

/-- The effect of `createImage` for an id the scene does not hold, under the guard:
nothing is sent, and either the scene is unchanged or one item with that id is added
at the end of `m_items`; the item is added when the temporary file can be written
(animated) or the bytes decode (otherwise). -/
theorem createImage_spec (P : Platform) (m : CollabManager) (sc : CanvasScene) (isGif : Bool)
    (id : String) (data : QByteArray) (x y rotation scale : Rat)
    (hsync : m.m_isSyncing = true) (hscene : m.m_scene = some sc)
    (habsent : QHash.value sc.m_items id = none) :
    (createImage P m sc isGif id data x y rotation scale).2 = [] ∧
    (createImage P m sc isGif id data x y rotation scale).1.m_isSyncing = true ∧
    (createImage P m sc isGif id data x y rotation scale).1.m_client = m.m_client ∧
    (TempNamesOnly P m →
      TempNamesOnly P (createImage P m sc isGif id data x y rotation scale).1) ∧
    ((createImage P m sc isGif id data x y rotation scale).1.m_scene = some sc ∨
      ∃ item : ImageItem, item.id = id ∧
        (createImage P m sc isGif id data x y rotation scale).1.m_scene =
          some { sc with m_items := sc.m_items ++ [(id, item)] }) ∧
    ((if isGif then P.canWrite (P.tempPath m.uuidCount) = true
      else (P.loadFromData data).isNull = false) →
      ∃ item : ImageItem, item.id = id ∧
        (createImage P m sc isGif id data x y rotation scale).1.m_scene =
          some { sc with m_items := sc.m_items ++ [(id, item)] }) := by
  cases isGif with
  | true =>
      by_cases hw : P.canWrite (P.tempPath m.uuidCount) = true
      · have hr : createImage P m sc true id data x y rotation scale =
            ({ m with uuidCount := m.uuidCount + 1,
                      tempFiles := QHash.insert m.tempFiles (P.tempPath m.uuidCount) data,
                      m_scene := some { sc with m_items := sc.m_items ++
                        [(id, { id := id, image := P.loadFromData data,
                                sourcePath := P.tempPath m.uuidCount, x := x, y := y,
                                rotation := rotation, scale := scale,
                                zValue := (sc.nextZValue : Rat) })] } }, []) := by
          simp [createImage, hw, CanvasScene.addImageItemFromFile, habsent, qhash_insert_new,
            emitAll_syncing, hsync]
        rw [hr]
        refine ⟨rfl, hsync, rfl, ?_, Or.inr ⟨_, rfl, rfl⟩, fun _ => ⟨_, rfl, rfl⟩⟩
        intro ht a ha
        rcases qhash_insert_keys m.tempFiles _ data a ha with h1 | h1
        · exact ⟨m.uuidCount, h1⟩
        · exact ht a h1
      · have hr : createImage P m sc true id data x y rotation scale =
            ({ m with uuidCount := m.uuidCount + 1 }, []) := by
          simp [createImage, hw]
        rw [hr]
        refine ⟨rfl, hsync, rfl, fun ht => ht, Or.inl hscene, fun h => ?_⟩
        exact absurd h hw
  | false =>
      by_cases hn : (P.loadFromData data).isNull = true
      · have hr : createImage P m sc false id data x y rotation scale = (m, []) := by
          simp [createImage, hn]
        rw [hr]
        refine ⟨rfl, hsync, rfl, fun ht => ht, Or.inl hscene, fun h => ?_⟩
        simp [hn] at h
      · have hr : createImage P m sc false id data x y rotation scale =
            ({ m with m_scene := some { sc with m_items := sc.m_items ++
                        [(id, { id := id, image := P.loadFromData data, sourcePath := "",
                                x := x, y := y, rotation := rotation, scale := scale,
                                zValue := (sc.nextZValue : Rat) })] } }, []) := by
          simp [createImage, hn, CanvasScene.addImageItem, habsent, qhash_insert_new,
            emitAll_syncing, hsync]
        rw [hr]
        exact ⟨rfl, hsync, rfl, fun ht => ht, Or.inr ⟨_, rfl, rfl⟩, fun _ => ⟨_, rfl, rfl⟩⟩

theorem GrownFrom.refl (P : Platform) (m : CollabManager) (sc : CanvasScene)
    (hs : m.m_scene = some sc) (imgs txts : List String) : GrownFrom P m m imgs txts :=
  ⟨rfl, fun h => h, sc, sc, [], [], hs, hs, by simp, by simp, by simp, by simp⟩

theorem GrownFrom.trans (P : Platform) (m1 m2 m3 : CollabManager) (i1 i2 t1 t2 : List String)
    (h12 : GrownFrom P m1 m2 i1 t1) (h23 : GrownFrom P m2 m3 i2 t2) :
    GrownFrom P m1 m3 (i1 ++ i2) (t1 ++ t2) := by
  obtain ⟨c12, tmp12, sc1, sc2, aI, aT, hs1, hs2, hi, ht, hai, hat⟩ := h12
  obtain ⟨c23, tmp23, sc2b, sc3, bI, bT, hs2b, hs3, hi2, ht2, hbi, hbt⟩ := h23
  have he : sc2b = sc2 := by
    rw [hs2] at hs2b
    exact (Option.some.inj hs2b).symm
  subst he
  refine ⟨c23.trans c12, fun h => tmp23 (tmp12 h), sc1, sc3, aI ++ bI, aT ++ bT, hs1, hs3,
    ?_, ?_, ?_, ?_⟩
  · rw [hi2, hi, List.append_assoc]
  · rw [ht2, ht, List.append_assoc]
  · intro kv hkv
    rcases List.mem_append.1 hkv with h | h
    · exact ⟨(hai kv h).1, List.mem_append_left _ (hai kv h).2⟩
    · exact ⟨(hbi kv h).1, List.mem_append_right _ (hbi kv h).2⟩
  · intro kv hkv
    rcases List.mem_append.1 hkv with h | h
    · exact ⟨(hat kv h).1, List.mem_append_left _ (hat kv h).2⟩
    · exact ⟨(hbt kv h).1, List.mem_append_right _ (hbt kv h).2⟩

theorem GrownFrom.imageKeys_mono (P : Platform) (m1 m2 : CollabManager) (i t : List String)
    (h : GrownFrom P m1 m2 i t) (x : String) (hx : x ∈ m1.imageKeys) : x ∈ m2.imageKeys := by
  obtain ⟨_, _, sc1, sc2, aI, aT, hs1, hs2, hi, _, _, _⟩ := h
  simp only [imageKeys, hs1, hs2, hi] at hx ⊢
  simp [hx]

theorem GrownFrom.textKeys_mono (P : Platform) (m1 m2 : CollabManager) (i t : List String)
    (h : GrownFrom P m1 m2 i t) (x : String) (hx : x ∈ m1.textKeys) : x ∈ m2.textKeys := by
  obtain ⟨_, _, sc1, sc2, aI, aT, hs1, hs2, _, ht, _, _⟩ := h
  simp only [textKeys, hs1, hs2, ht] at hx ⊢
  simp [hx]

/-- One round of the image loop of `handleFullSync`, under the guard. -/
theorem fullSyncImage_step (P : Platform) (acc : Handled) (v : JsonValue) (sc : CanvasScene)
    (hsync : acc.1.m_isSyncing = true) (hs : acc.1.m_scene = some sc) :
    (fullSyncImage P acc v).2 = acc.2 ∧
    (fullSyncImage P acc v).1.m_isSyncing = true ∧
    GrownFrom P acc.1 (fullSyncImage P acc v).1 [SyncServer.recordId "imageId" v] [] ∧
    (SyncServer.recordId "imageId" v ≠ "" → DecodableBy P v.toObject →
      SyncServer.recordId "imageId" v ∈ (fullSyncImage P acc v).1.imageKeys) := by
  have hid : SyncServer.recordId "imageId" v =
      (QJsonObject.value v.toObject "imageId").toString := rfl
  have hsame : fullSyncImage P acc v = acc →
      ((fullSyncImage P acc v).2 = acc.2 ∧
      (fullSyncImage P acc v).1.m_isSyncing = true ∧
      GrownFrom P acc.1 (fullSyncImage P acc v).1 [SyncServer.recordId "imageId" v] []) := by
    intro h
    rw [h]
    exact ⟨rfl, hsync, GrownFrom.refl P acc.1 sc hs _ _⟩
  by_cases h1 : (QJsonObject.value v.toObject "imageId").toString = ""
  · have hr : fullSyncImage P acc v = acc := by simp [fullSyncImage, hs, h1]
    obtain ⟨a, b, c⟩ := hsame hr
    exact ⟨a, b, c, fun hne => absurd (hid ▸ h1) hne⟩
  by_cases h2 : (sc.findImageItem (QJsonObject.value v.toObject "imageId").toString).isSome = true
  · have hr : fullSyncImage P acc v = acc := by simp [fullSyncImage, hs, h1, h2]
    obtain ⟨a, b, c⟩ := hsame hr
    refine ⟨a, b, c, fun _ _ => ?_⟩
    rw [hr, hid]
    simp only [imageKeys, hs]
    exact (qhash_value_isSome_iff sc.m_items _).1 h2
  by_cases h3 : (QJsonObject.value v.toObject "imageData").toString = ""
  · have hr : fullSyncImage P acc v = acc := by simp [fullSyncImage, hs, h1, h2, h3]
    obtain ⟨a, b, c⟩ := hsame hr
    exact ⟨a, b, c, fun _ hd => absurd h3 hd.1⟩
  by_cases h4 : P.fromBase64 (QJsonObject.value v.toObject "imageData").toString = []
  · have hr : fullSyncImage P acc v = acc := by simp [fullSyncImage, hs, h1, h2, h3, h4]
    obtain ⟨a, b, c⟩ := hsame hr
    exact ⟨a, b, c, fun _ hd => absurd h4 hd.2.1⟩
  have habsent : QHash.value sc.m_items (QJsonObject.value v.toObject "imageId").toString
      = none := by
    cases hq : QHash.value sc.m_items (QJsonObject.value v.toObject "imageId").toString with
    | none => rfl
    | some it => simp [CanvasScene.findImageItem, hq] at h2
  obtain ⟨c1, c2, c3, c4, c5, c6⟩ := createImage_spec P acc.1 sc
    ((QJsonObject.value v.toObject "isGif").toBool false)
    (QJsonObject.value v.toObject "imageId").toString
    (P.fromBase64 (QJsonObject.value v.toObject "imageData").toString)
    (QJsonObject.value v.toObject "x").toDouble (QJsonObject.value v.toObject "y").toDouble
    (QJsonObject.value v.toObject "rotation").toDouble
    ((QJsonObject.value v.toObject "scale").toDouble 1) hsync hs habsent
  have hr : fullSyncImage P acc v =
      ((createImage P acc.1 sc ((QJsonObject.value v.toObject "isGif").toBool false)
        (QJsonObject.value v.toObject "imageId").toString
        (P.fromBase64 (QJsonObject.value v.toObject "imageData").toString)
        (QJsonObject.value v.toObject "x").toDouble (QJsonObject.value v.toObject "y").toDouble
        (QJsonObject.value v.toObject "rotation").toDouble
        ((QJsonObject.value v.toObject "scale").toDouble 1)).1, acc.2) := by
    simp [fullSyncImage, hs, h1, h2, h3, h4, c1]
  rw [hr]
  refine ⟨rfl, c2, ⟨c3, c4, ?_⟩, ?_⟩
  · rcases c5 with h | ⟨item, hitem, h⟩
    · exact ⟨sc, sc, [], [], hs, h, by simp, by simp, by simp, by simp⟩
    · refine ⟨sc, _, [(_, item)], [], hs, h, rfl, by simp, ?_, by simp⟩
      intro kv hkv
      simp only [List.mem_singleton] at hkv
      subst hkv
      exact ⟨hitem, by simp [hid]⟩
  · intro _ hd
    have hok : (if (QJsonObject.value v.toObject "isGif").toBool false = true then
        P.canWrite (P.tempPath acc.1.uuidCount) = true
        else (P.loadFromData (P.fromBase64
          (QJsonObject.value v.toObject "imageData").toString)).isNull = false) := by
      have h3 := hd.2.2
      split
      · next hg => rw [if_pos hg] at h3; exact h3 _
      · next hg => rw [if_neg hg] at h3; exact h3
    obtain ⟨item, _, h⟩ := c6 hok
    simp [imageKeys, h, hid]

/-- The image loop of `handleFullSync`, under the guard. -/
theorem fullSyncImages_spec (P : Platform) (vals : QJsonArray) (acc : Handled)
    (sc : CanvasScene) (hsync : acc.1.m_isSyncing = true) (hs : acc.1.m_scene = some sc) :
    (vals.foldl (fullSyncImage P) acc).2 = acc.2 ∧
    (vals.foldl (fullSyncImage P) acc).1.m_isSyncing = true ∧
    GrownFrom P acc.1 (vals.foldl (fullSyncImage P) acc).1
      (vals.map (SyncServer.recordId "imageId")) [] ∧
    (∀ v ∈ vals, SyncServer.recordId "imageId" v ≠ "" → DecodableBy P v.toObject →
      SyncServer.recordId "imageId" v ∈ (vals.foldl (fullSyncImage P) acc).1.imageKeys) := by
  induction vals generalizing acc sc with
  | nil => exact ⟨rfl, hsync, GrownFrom.refl P acc.1 sc hs _ _, by simp⟩
  | cons v rest ih =>
      obtain ⟨s1, s2, s3, s4⟩ := fullSyncImage_step P acc v sc hsync hs
      obtain ⟨_, _, _, sc2, _, _, _, hs2, _⟩ := s3
      obtain ⟨r1, r2, r3, r4⟩ := ih (fullSyncImage P acc v) sc2 s2 hs2
      have s3 := (fullSyncImage_step P acc v sc hsync hs).2.2.1
      refine ⟨by rw [List.foldl_cons, r1, s1], r2, ?_, ?_⟩
      · have := GrownFrom.trans P _ _ _ _ _ _ _ s3 r3
        simpa using this
      · intro w hw hne hd
        rcases List.mem_cons.1 hw with h | h
        · subst h
          exact GrownFrom.imageKeys_mono P _ _ _ _ r3 _ (s4 hne hd)
        · exact r4 w h hne hd

/-- One round of the text loop of `handleFullSync`, under the guard. -/
theorem fullSyncText_step (P : Platform) (acc : Handled) (v : JsonValue) (sc : CanvasScene)
    (hsync : acc.1.m_isSyncing = true) (hs : acc.1.m_scene = some sc) :
    (fullSyncText P acc v).2 = acc.2 ∧
    (fullSyncText P acc v).1.m_isSyncing = true ∧
    GrownFrom P acc.1 (fullSyncText P acc v).1 [] [SyncServer.recordId "textId" v] ∧
    (SyncServer.recordId "textId" v ≠ "" →
      SyncServer.recordId "textId" v ∈ (fullSyncText P acc v).1.textKeys) := by
  have hid : SyncServer.recordId "textId" v =
      (QJsonObject.value v.toObject "textId").toString := rfl
  have hsame : fullSyncText P acc v = acc →
      ((fullSyncText P acc v).2 = acc.2 ∧
      (fullSyncText P acc v).1.m_isSyncing = true ∧
      GrownFrom P acc.1 (fullSyncText P acc v).1 [] [SyncServer.recordId "textId" v]) := by
    intro h
    rw [h]
    exact ⟨rfl, hsync, GrownFrom.refl P acc.1 sc hs _ _⟩
  by_cases h1 : (QJsonObject.value v.toObject "textId").toString = ""
  · have hr : fullSyncText P acc v = acc := by simp [fullSyncText, hs, h1]
    obtain ⟨a, b, c⟩ := hsame hr
    exact ⟨a, b, c, fun hne => absurd (hid ▸ h1) hne⟩
  by_cases h2 : (sc.findTextItem (QJsonObject.value v.toObject "textId").toString).isSome = true
  · have hr : fullSyncText P acc v = acc := by simp [fullSyncText, hs, h1, h2]
    obtain ⟨a, b, c⟩ := hsame hr
    refine ⟨a, b, c, fun _ => ?_⟩
    rw [hr, hid]
    simp only [textKeys, hs]
    exact (qhash_value_isSome_iff sc.m_textItems _).1 h2
  have habsent : QHash.value sc.m_textItems (QJsonObject.value v.toObject "textId").toString
      = none := by
    cases hq : QHash.value sc.m_textItems (QJsonObject.value v.toObject "textId").toString with
    | none => rfl
    | some it => simp [CanvasScene.findTextItem, hq] at h2
  have hr : fullSyncText P acc v =
      ({ acc.1 with m_scene := some { sc with m_textItems := sc.m_textItems ++
          [((QJsonObject.value v.toObject "textId").toString,
            { id := (QJsonObject.value v.toObject "textId").toString,
              text := (QJsonObject.value v.toObject "text").toString,
              x := (QJsonObject.value v.toObject "x").toDouble,
              y := (QJsonObject.value v.toObject "y").toDouble,
              rotation := (QJsonObject.value v.toObject "rotation").toDouble,
              zValue := (sc.nextZValue : Rat), fontFamily := "Arial", fontSize := 14,
              textColor := "#ffffff" })] } }, acc.2) := by
    simp [fullSyncText, hs, h1, h2, CanvasScene.addTextItem, habsent, qhash_insert_new,
      emitAll_syncing, hsync]
  rw [hr]
  refine ⟨rfl, hsync, ⟨rfl, fun h => h, sc, _, [], _, hs, rfl, by simp, rfl, by simp, ?_⟩, ?_⟩
  · intro kv hkv
    simp only [List.mem_singleton] at hkv
    subst hkv
    exact ⟨rfl, by simp [hid]⟩
  · intro _
    simp [textKeys, hid]

/-- The text loop of `handleFullSync`, under the guard. -/
theorem fullSyncTexts_spec (P : Platform) (vals : QJsonArray) (acc : Handled)
    (sc : CanvasScene) (hsync : acc.1.m_isSyncing = true) (hs : acc.1.m_scene = some sc) :
    (vals.foldl (fullSyncText P) acc).2 = acc.2 ∧
    (vals.foldl (fullSyncText P) acc).1.m_isSyncing = true ∧
    GrownFrom P acc.1 (vals.foldl (fullSyncText P) acc).1 []
      (vals.map (SyncServer.recordId "textId")) ∧
    (∀ v ∈ vals, SyncServer.recordId "textId" v ≠ "" →
      SyncServer.recordId "textId" v ∈ (vals.foldl (fullSyncText P) acc).1.textKeys) := by
  induction vals generalizing acc sc with
  | nil => exact ⟨rfl, hsync, GrownFrom.refl P acc.1 sc hs _ _, by simp⟩
  | cons v rest ih =>
      obtain ⟨s1, s2, s3, s4⟩ := fullSyncText_step P acc v sc hsync hs
      obtain ⟨_, _, _, sc2, _, _, _, hs2, _⟩ := s3
      obtain ⟨r1, r2, r3, r4⟩ := ih (fullSyncText P acc v) sc2 s2 hs2
      have s3 := (fullSyncText_step P acc v sc hsync hs).2.2.1
      refine ⟨by rw [List.foldl_cons, r1, s1], r2, ?_, ?_⟩
      · have := GrownFrom.trans P _ _ _ _ _ _ _ s3 r3
        simpa using this
      · intro w hw hne
        rcases List.mem_cons.1 hw with h | h
        · subst h
          exact GrownFrom.textKeys_mono P _ _ _ _ r3 _ (s4 hne)
        · exact r4 w h hne

theorem GrownFrom.of_same (P : Platform) (m1 m2 : CollabManager) (sc : CanvasScene)
    (hc : m2.m_client = m1.m_client) (ht : m2.tempFiles = m1.tempFiles)
    (hs1 : m1.m_scene = some sc) (hs2 : m2.m_scene = some sc) : GrownFrom P m1 m2 [] [] :=
  ⟨hc, fun h => by unfold TempNamesOnly at h ⊢; rw [ht]; exact h, sc, sc, [], [], hs1, hs2,
    by simp, by simp, by simp, by simp⟩

/-- Applying a full snapshot to an orchestrator attached to a scene: nothing is put on
the wire, the guard is released, the mirror keeps every item and gains items only under
ids of the snapshot, and afterwards it holds every non-empty image id of the snapshot
whose record is decodable and every non-empty text id of the snapshot. -/
theorem handleFullSync_spec (P : Platform) (m : CollabManager) (message : QJsonObject)
    (sc : CanvasScene) (hs : m.m_scene = some sc) :
    (handleFullSync P m message).2 = [] ∧
    (handleFullSync P m message).1.m_isSyncing = false ∧
    GrownFrom P m (handleFullSync P m message).1
      ((QJsonObject.value message "images").toArray.map (SyncServer.recordId "imageId"))
      ((QJsonObject.value message "texts").toArray.map (SyncServer.recordId "textId")) ∧
    (∀ v ∈ (QJsonObject.value message "images").toArray,
      SyncServer.recordId "imageId" v ≠ "" → DecodableBy P v.toObject →
      SyncServer.recordId "imageId" v ∈ (handleFullSync P m message).1.imageKeys) ∧
    (∀ v ∈ (QJsonObject.value message "texts").toArray,
      SyncServer.recordId "textId" v ≠ "" →
      SyncServer.recordId "textId" v ∈ (handleFullSync P m message).1.textKeys) := by
  obtain ⟨m1, hm1⟩ : ∃ x : CollabManager, x = { m with m_isSyncing := true } := ⟨_, rfl⟩
  have hs1 : m1.m_scene = some sc := by rw [hm1]; exact hs
  have hy1 : m1.m_isSyncing = true := by rw [hm1]
  have g01 : GrownFrom P m m1 [] [] :=
    GrownFrom.of_same P m m1 sc (by rw [hm1]) (by rw [hm1]) hs hs1
  obtain ⟨a1, a2, a3, a4⟩ := fullSyncImages_spec P (QJsonObject.value message "images").toArray
    (m1, []) sc hy1 hs1
  obtain ⟨_, _, _, sc2, _, _, _, hs2, _⟩ := a3
  have a3 := (fullSyncImages_spec P (QJsonObject.value message "images").toArray
    (m1, []) sc hy1 hs1).2.2.1
  obtain ⟨b1, b2, b3, b4⟩ := fullSyncTexts_spec P (QJsonObject.value message "texts").toArray
    ((QJsonObject.value message "images").toArray.foldl (fullSyncImage P) (m1, [])) sc2 a2 hs2
  obtain ⟨_, _, _, sc3, _, _, _, hs3, _⟩ := b3
  have b3 := (fullSyncTexts_spec P (QJsonObject.value message "texts").toArray
    ((QJsonObject.value message "images").toArray.foldl (fullSyncImage P) (m1, [])) sc2 a2
    hs2).2.2.1
  obtain ⟨r2, hr2⟩ : ∃ x : Handled, x = (QJsonObject.value message "texts").toArray.foldl
      (fullSyncText P) ((QJsonObject.value message "images").toArray.foldl (fullSyncImage P)
        (m1, [])) := ⟨_, rfl⟩
  rw [← hr2] at b1 b2 b3 b4 hs3
  have hres : handleFullSync P m message = ({ r2.1 with m_isSyncing := false }, r2.2) := by
    rw [hr2, hm1]
    simp [handleFullSync, hs]
  have g23 : GrownFrom P r2.1 { r2.1 with m_isSyncing := false } [] [] :=
    GrownFrom.of_same P _ _ sc3 rfl rfl hs3 hs3
  have gall := GrownFrom.trans P _ _ _ _ _ _ _
    (GrownFrom.trans P _ _ _ _ _ _ _ (GrownFrom.trans P _ _ _ _ _ _ _ g01 a3) b3) g23
  rw [hres]
  refine ⟨?_, rfl, by simpa using gall, ?_, ?_⟩
  · show r2.2 = []
    rw [b1, a1]
  · intro v hv hne hd
    exact GrownFrom.imageKeys_mono P _ _ _ _ b3 _ (a4 v hv hne hd)
  · intro v hv hne
    exact b4 v hv hne

theorem GrownFrom.weaken (P : Platform) (m1 m2 : CollabManager) (i t i2 t2 : List String)
    (h : GrownFrom P m1 m2 i t) (hi : ∀ x ∈ i, x ∈ i2) (ht : ∀ x ∈ t, x ∈ t2) :
    GrownFrom P m1 m2 i2 t2 := by
  obtain ⟨c, tmp, sc1, sc2, aI, aT, hs1, hs2, e1, e2, hai, hat⟩ := h
  exact ⟨c, tmp, sc1, sc2, aI, aT, hs1, hs2, e1, e2,
    fun kv hkv => ⟨(hai kv hkv).1, hi _ (hai kv hkv).2⟩,
    fun kv hkv => ⟨(hat kv hkv).1, ht _ (hat kv hkv).2⟩⟩

theorem recordId_imageRecord (P : Platform) (m : CollabManager) (item : ImageItem) :
    SyncServer.recordId "imageId" (JsonValue.object (imageRecord P m item)) = item.id := by
  have hgeo : (QJsonObject.value (imageGeometry item []) "imageId").toString = item.id := by
    simp [imageGeometry, QJsonObject.value_insert_ne, QJsonObject.value_insert_self,
      JsonValue.toString]
  have hpng : ∀ o, QJsonObject.value (pngPayload P item o) "imageId" =
      QJsonObject.value o "imageId" := by
    intro o
    simp [pngPayload, QJsonObject.value_insert_ne]
  have hgif : ∀ data o, QJsonObject.value (gifPayload P data o) "imageId" =
      QJsonObject.value o "imageId" := by
    intro data o
    simp [gifPayload, QJsonObject.value_insert_ne]
  show (QJsonObject.value (imageRecord P m item) "imageId").toString = item.id
  unfold imageRecord
  split
  · split
    · rw [hgif]; exact hgeo
    · exact hgeo
  · rw [hpng]; exact hgeo

theorem recordId_textRecord (item : TextItem) :
    SyncServer.recordId "textId" (JsonValue.object (textRecord item)) = item.id := by
  show (QJsonObject.value (textRecord item) "textId").toString = item.id
  simp [textRecord, textFields, QJsonObject.value_insert_ne, QJsonObject.value_insert_self,
    JsonValue.toString]

theorem readFile_stable (P : Platform) (m : CollabManager) (path : String)
    (ht : TempNamesOnly P m) (hp : ∀ n, P.tempPath n ≠ path) :
    readFile P m path = P.readFile path := by
  have hnone : QHash.value m.tempFiles path = none := by
    rw [qhash_value_none_iff]
    intro hmem
    obtain ⟨n, hn⟩ := ht path hmem
    exact hp n hn.symm
  simp [readFile, hnone]

theorem imageRecord_stable (P : Platform) (m0 m : CollabManager) (item : ImageItem)
    (h0 : TempNamesOnly P m0) (ht : TempNamesOnly P m)
    (hp : ∀ n, P.tempPath n ≠ item.sourcePath) :
    imageRecord P m item = imageRecord P m0 item := by
  unfold imageRecord
  rw [readFile_stable P m _ ht hp, readFile_stable P m0 _ h0 hp]

theorem pushSyncMsg_fields (P : Platform) (m : CollabManager) (sc : CanvasScene) :
    (QJsonObject.value (pushSyncMsg P m sc) "type").toString = "pushSync" ∧
    (QJsonObject.value (pushSyncMsg P m sc) "images").toArray =
      sc.imageItems.map (fun item => JsonValue.object (imageRecord P m item)) ∧
    (QJsonObject.value (pushSyncMsg P m sc) "texts").toArray =
      sc.textItems.map (fun item => JsonValue.object (textRecord item)) := by
  refine ⟨?_, ?_, ?_⟩ <;>
    simp [pushSyncMsg, QJsonObject.value_insert_ne, QJsonObject.value_insert_self,
      JsonValue.toString, JsonValue.toArray]

end CollabManager

namespace SyncServer

/-- Every record stored after a merge loop was stored before or is a pushed value, as an
object, whose id was not stored before. -/
theorem pushMerge_mem (key : String) (pushed : QJsonArray) (state : QJsonArray)
    (changed : Bool) (r : JsonValue) (hr : r ∈ (pushMerge key state changed pushed).1) :
    r ∈ state ∨ ∃ v ∈ pushed, r = JsonValue.object (QJsonObject.ref v.toObject key) ∧
      containsId key state (recordId key v) = false := by
  induction pushed generalizing state changed with
  | nil => exact Or.inl hr
  | cons val rest ih =>
      rw [pushMerge_cons, pushOne_fst] at hr
      by_cases hc : containsId key state (recordId key val) = true
      · rw [if_pos hc] at hr
        rcases ih _ _ hr with h | ⟨v, hv, h1, h2⟩
        · exact Or.inl h
        · exact Or.inr ⟨v, List.mem_cons_of_mem _ hv, h1, h2⟩
      · rw [if_neg hc] at hr
        have hc2 : containsId key state (recordId key val) = false := by simpa using hc
        rcases ih _ _ hr with h | ⟨v, hv, h1, h2⟩
        · rcases List.mem_append.1 h with h | h
          · exact Or.inl h
          · simp only [List.mem_singleton] at h
            exact Or.inr ⟨val, List.mem_cons_self _ _, h, hc2⟩
        · refine Or.inr ⟨v, List.mem_cons_of_mem _ hv, h1, ?_⟩
          simp only [containsId_append, Bool.or_eq_false_iff] at h2
          exact h2.1

theorem mem_framesFor (sock : Socket) (sent : List Frame) (f : QJsonObject) :
    f ∈ framesFor sock sent ↔ (sock, f) ∈ sent := by
  simp only [framesFor, List.mem_map, List.mem_filter, decide_eq_true_eq]
  constructor
  · rintro ⟨a, ⟨ha, hs⟩, hf⟩
    obtain ⟨a1, a2⟩ := a
    simp only at hs hf
    subst hs hf
    exact ha
  · intro h
    exact ⟨(sock, f), ⟨h, rfl⟩, rfl⟩

/-- The frames of a handled pushSync: every frame is the fullSync of the merged state;
the pusher gets it when its identity leads back to its socket, and any connection with
another identity gets it when the push added a record. -/
theorem onPushSync_frames (s : SyncServer) (d : Disk) (msg : QJsonObject) (cid : String) :
    (∀ fr ∈ (onPushSync s d msg cid).sent, fr.2 = (onPushSync s d msg cid).server.fullSyncMsg) ∧
    (∀ c, QHash.value s.m_clientsById cid = some c →
      (c, (onPushSync s d msg cid).server.fullSyncMsg) ∈ (onPushSync s d msg cid).sent) ∧
    (∀ c ∈ s.m_clients, s.clientId c ≠ cid →
      ((onPushSync s d msg cid).server.m_boardState ≠ s.m_boardState ∨
        (onPushSync s d msg cid).server.m_textState ≠ s.m_textState) →
      (c, (onPushSync s d msg cid).server.fullSyncMsg) ∈ (onPushSync s d msg cid).sent) := by
  obtain ⟨images, himages⟩ : ∃ x, x = pushMerge "imageId" s.m_boardState false
      (QJsonObject.value msg "images").toArray := ⟨_, rfl⟩
  obtain ⟨texts, htexts⟩ : ∃ x, x = pushMerge "textId" s.m_textState images.2
      (QJsonObject.value msg "texts").toArray := ⟨_, rfl⟩
  obtain ⟨s1, hs1⟩ : ∃ x : SyncServer, x =
      { s with m_boardState := images.1, m_textState := texts.1 } := ⟨_, rfl⟩
  have hr : onPushSync s d msg cid =
      { server := s1
        disk := d
        sent := (s1.sendToClient cid s1.fullSyncMsg ++
          (if texts.2 then s1.broadcast s1.fullSyncMsg cid else [])) } := by
    rw [hs1, htexts, himages]; rfl
  have hby : s1.m_clientsById = s.m_clientsById := by rw [hs1]
  have hcl : s1.m_clients = s.m_clients := by rw [hs1]
  have hid : ∀ c, s1.clientId c = s.clientId c := by intro c; rw [hs1]; rfl
  have hflag : texts.2 = true ↔
      (s1.m_boardState ≠ s.m_boardState ∨ s1.m_textState ≠ s.m_textState) := by
    rw [hs1]
    show texts.2 = true ↔ (images.1 ≠ s.m_boardState ∨ texts.1 ≠ s.m_textState)
    rw [htexts, pushMerge_flag, himages, pushMerge_flag]
    simp
  rw [hr]
  refine ⟨?_, ?_, ?_⟩
  · intro fr hfr
    simp only [List.mem_append] at hfr
    rcases hfr with h | h
    · unfold sendToClient at h
      split at h
      · simp only [List.mem_singleton] at h
        rw [h]
      · simp at h
    · split at h
      · simp only [broadcast, List.mem_map] at h
        obtain ⟨c, _, hc⟩ := h
        rw [← hc]
      · simp at h
  · intro c hc
    apply List.mem_append_left
    simp [sendToClient, hby, hc]
  · intro c hc hne hch
    apply List.mem_append_right
    rw [if_pos (hflag.2 hch)]
    simp only [broadcast, List.mem_map, List.mem_filter]
    exact ⟨c, ⟨by rw [hcl]; exact hc, by rw [hid]; simpa using hne⟩, rfl⟩

end SyncServer

/-! ## Reconciliation of two orchestrators through the hub -/

namespace Network

theorem inv_initial (net0 : Network) (h0 : Scenario net0) :
    NetInv net0 net0 (fun _ => false) := by
  obtain ⟨ready, _, _, eI, eT, nH, nP⟩ := h0
  refine
    { platform_eq := rfl, sock_eq := rfl, clients_eq := rfl, clientIds_eq := rfl,
      byId_eq := rfl, hubImages := ?_, hubTexts := ?_, grown := ?_, toHubOk := ?_,
      inboxOk := ?_, coverImages := ?_, coverTexts := ?_, pushedImages := ?_,
      pushedTexts := ?_ }
  · rw [eI]; simp
  · rw [eT]; simp
  · intro p
    obtain ⟨_, _, sc, hs, _⟩ := ready p
    exact CollabManager.GrownFrom.refl _ _ sc hs _ _
  · rw [nH]; simp
  · intro p; rw [nP p]; simp
  · intro p id hid
    simp [hubImageIds, eI] at hid
  · intro p id hid
    simp [hubTextIds, eT] at hid
  · intro p hp; simp at hp
  · intro p hp; simp at hp

theorem tempNamesOnly_of_nil (P : Platform) (m : CollabManager) (h : m.tempFiles = []) :
    CollabManager.TempNamesOnly P m := by
  intro x hx
  rw [h] at hx
  simp at hx

/-- The frame an orchestrator of the scenario pushes carries, for every image and text
of its mirror, a record pushed for an initial item or a record whose id the hub
stores, and it carries the ids of all its initial items. -/
theorem push_frame (net0 net : Network) (pushed : Peer → Bool) (h0 : Scenario net0)
    (hinv : NetInv net0 net pushed) (p : Peer) :
    ∃ sc, (net.mgr p).m_scene = some sc ∧ (net.mgr p).isConnected = true ∧
      (∀ r ∈ (QJsonObject.value
          (CollabManager.pushSyncMsg (net.platform p) (net.mgr p) sc) "images").toArray,
        OriginImage net0 r ∨ SyncServer.recordId "imageId" r ∈ net.hubImageIds) ∧
      (∀ r ∈ (QJsonObject.value
          (CollabManager.pushSyncMsg (net.platform p) (net.mgr p) sc) "texts").toArray,
        OriginText net0 r ∨ SyncServer.recordId "textId" r ∈ net.hubTextIds) ∧
      (∀ id ∈ (net0.mgr p).imageKeys,
        id ∈ frameImageIds (CollabManager.pushSyncMsg (net.platform p) (net.mgr p) sc)) ∧
      (∀ id ∈ (net0.mgr p).textKeys,
        id ∈ frameTextIds (CollabManager.pushSyncMsg (net.platform p) (net.mgr p) sc)) := by
  obtain ⟨hconn0, htemp0, sc0, hsc0, hitems0, htexts0⟩ := h0.ready p
  obtain ⟨hc, htmp, sc1, sc2, aI, aT, hs1, hs2, hi, ht, hai, hat⟩ := hinv.grown p
  have he : sc1 = sc0 := by
    rw [hsc0] at hs1
    exact (Option.some.inj hs1).symm
  subst he
  have hP : net.platform p = net0.platform p := by rw [hinv.platform_eq]
  have hconn : (net.mgr p).isConnected = true := by
    unfold CollabManager.isConnected at hconn0 ⊢
    rw [hc]; exact hconn0
  have hT0 : CollabManager.TempNamesOnly (net0.platform p) (net0.mgr p) :=
    tempNamesOnly_of_nil _ _ htemp0
  have hT : CollabManager.TempNamesOnly (net0.platform p) (net.mgr p) := htmp hT0
  obtain ⟨_, fI, fT⟩ := CollabManager.pushSyncMsg_fields (net.platform p) (net.mgr p) sc2
  refine ⟨sc2, hs2, hconn, ?_, ?_, ?_, ?_⟩
  · intro r hr
    rw [fI] at hr
    simp only [CanvasScene.imageItems, List.map_map, List.mem_map, hi, List.mem_append,
      Function.comp] at hr
    obtain ⟨kv, hkv, hr⟩ := hr
    rcases hkv with hkv | hkv
    · left
      refine ⟨p, sc1, kv, hsc0, hkv, ?_⟩
      rw [← hr, hP, CollabManager.imageRecord_stable (net0.platform p) (net0.mgr p) (net.mgr p)
        kv.2 hT0 hT (hitems0 kv hkv).2.2]
    · right
      rw [← hr, CollabManager.recordId_imageRecord, (hai kv hkv).1]
      exact (hai kv hkv).2
  · intro r hr
    rw [fT] at hr
    simp only [CanvasScene.textItems, List.map_map, List.mem_map, ht, List.mem_append,
      Function.comp] at hr
    obtain ⟨kv, hkv, hr⟩ := hr
    rcases hkv with hkv | hkv
    · left
      exact ⟨p, sc1, kv, hsc0, hkv, hr.symm⟩
    · right
      rw [← hr, CollabManager.recordId_textRecord, (hat kv hkv).1]
      exact (hat kv hkv).2
  · intro id hid
    simp only [CollabManager.imageKeys, hsc0, List.mem_map] at hid
    obtain ⟨kv, hkv, hk⟩ := hid
    simp only [frameImageIds, fI, CanvasScene.imageItems, List.map_map, List.mem_map, hi,
      List.mem_append, Function.comp]
    refine ⟨kv, Or.inl hkv, ?_⟩
    rw [CollabManager.recordId_imageRecord, (hitems0 kv hkv).1, hk]
  · intro id hid
    simp only [CollabManager.textKeys, hsc0, List.mem_map] at hid
    obtain ⟨kv, hkv, hk⟩ := hid
    simp only [frameTextIds, fT, CanvasScene.textItems, List.map_map, List.mem_map, ht,
      List.mem_append, Function.comp]
    refine ⟨kv, Or.inl hkv, ?_⟩
    rw [CollabManager.recordId_textRecord, (htexts0 kv hkv).1, hk]

theorem inv_push (net0 net : Network) (pushed : Peer → Bool) (h0 : Scenario net0)
    (hinv : NetInv net0 net pushed) (p : Peer) :
    NetInv net0 (net.step (NetAction.push p)) (fun q => pushed q || decide (q = p)) := by
  obtain ⟨sc, hs, hconn, fI, fT, kI, kT⟩ := push_frame net0 net pushed h0 hinv p
  have hm : (fun q => if q = p then net.mgr p else net.mgr q) = net.mgr := by
    funext q
    split
    · next h => rw [h]
    · rfl
  have hconn2 : (net.mgr p).m_client.isConnected = true := hconn
  have hstep : net.step (NetAction.push p) =
      { net with toHub := net.toHub ++
          [(net.sock p, CollabManager.pushSyncMsg (net.platform p) (net.mgr p) sc)] } := by
    simp [step, CollabManager.pushLocalState, hs, hconn, CollabManager.send, hconn2, hm]
  rw [hstep]
  refine
    { platform_eq := hinv.platform_eq, sock_eq := hinv.sock_eq, clients_eq := hinv.clients_eq,
      clientIds_eq := hinv.clientIds_eq, byId_eq := hinv.byId_eq,
      hubImages := hinv.hubImages, hubTexts := hinv.hubTexts, grown := hinv.grown,
      toHubOk := ?_, inboxOk := hinv.inboxOk, coverImages := hinv.coverImages,
      coverTexts := hinv.coverTexts, pushedImages := ?_, pushedTexts := ?_ }
  · intro sf hsf
    rcases List.mem_append.1 hsf with h | h
    · exact hinv.toHubOk sf h
    · simp only [List.mem_singleton] at h
      rw [h]
      refine ⟨⟨p, by rw [hinv.sock_eq]⟩, (CollabManager.pushSyncMsg_fields _ _ _).1, fI, fT⟩
  · intro q hq id hid
    by_cases hpq : pushed q = true
    · rcases hinv.pushedImages q hpq id hid with h | ⟨sf, hsf, h⟩
      · exact Or.inl h
      · exact Or.inr ⟨sf, List.mem_append_left _ hsf, h⟩
    · have hqp : q = p := by simpa [hpq] using hq
      subst hqp
      exact Or.inr ⟨_, List.mem_append_right _ (List.mem_singleton.2 rfl), kI id hid⟩
  · intro q hq id hid
    by_cases hpq : pushed q = true
    · rcases hinv.pushedTexts q hpq id hid with h | ⟨sf, hsf, h⟩
      · exact Or.inl h
      · exact Or.inr ⟨sf, List.mem_append_left _ hsf, h⟩
    · have hqp : q = p := by simpa [hpq] using hq
      subst hqp
      exact Or.inr ⟨_, List.mem_append_right _ (List.mem_singleton.2 rfl), kT id hid⟩

theorem onMessageReceived_fullSync (P : Platform) (m : CollabManager) (f : QJsonObject)
    (h : (QJsonObject.value f "type").toString = "fullSync") :
    CollabManager.onMessageReceived P m f = CollabManager.handleFullSync P m f := by
  simp [CollabManager.onMessageReceived, h]

/-- What a record pushed for an initial image is: an object whose id is the non-empty key
of the initial item of some orchestrator, decodable on the other orchestrator's
platform. -/
theorem originImage_props (net0 : Network) (h0 : Scenario net0) (r : JsonValue)
    (hr : OriginImage net0 r) :
    ∃ p, SyncServer.recordId "imageId" r ∈ (net0.mgr p).imageKeys ∧
      SyncServer.recordId "imageId" r ≠ "" ∧ r = JsonValue.object r.toObject ∧
      ∀ q, q ≠ p → DecodableBy (net0.platform q) r.toObject := by
  obtain ⟨p, sc, kv, hs, hkv, hr⟩ := hr
  obtain ⟨_, _, sc0, hsc0, hitems0, _⟩ := h0.ready p
  have he : sc = sc0 := by
    rw [hsc0] at hs
    exact (Option.some.inj hs).symm
  subst he
  have hid : SyncServer.recordId "imageId" r = kv.1 := by
    rw [hr, CollabManager.recordId_imageRecord, (hitems0 kv hkv).1]
  refine ⟨p, ?_, ?_, ?_, ?_⟩
  · rw [hid]
    simp only [CollabManager.imageKeys, hs, List.mem_map]
    exact ⟨kv, hkv, rfl⟩
  · rw [hid]; exact (hitems0 kv hkv).2.1
  · rw [hr]; rfl
  · intro q hq
    rw [hr]
    exact h0.decodable p q (fun e => hq e.symm) sc hs kv.2
      (by simp only [CanvasScene.imageItems, List.mem_map]; exact ⟨kv, hkv, rfl⟩)

theorem originText_props (net0 : Network) (h0 : Scenario net0) (r : JsonValue)
    (hr : OriginText net0 r) :
    ∃ p, SyncServer.recordId "textId" r ∈ (net0.mgr p).textKeys ∧
      SyncServer.recordId "textId" r ≠ "" ∧ r = JsonValue.object r.toObject := by
  obtain ⟨p, sc, kv, hs, hkv, hr⟩ := hr
  obtain ⟨_, _, sc0, hsc0, _, htexts0⟩ := h0.ready p
  have he : sc = sc0 := by
    rw [hsc0] at hs
    exact (Option.some.inj hs).symm
  subst he
  have hid : SyncServer.recordId "textId" r = kv.1 := by
    rw [hr, CollabManager.recordId_textRecord, (htexts0 kv hkv).1]
  refine ⟨p, ?_, ?_, ?_⟩
  · rw [hid]
    simp only [CollabManager.textKeys, hs, List.mem_map]
    exact ⟨kv, hkv, rfl⟩
  · rw [hid]; exact (htexts0 kv hkv).2
  · rw [hr]; rfl

theorem inv_deliver (net0 net : Network) (pushed : Peer → Bool) (h0 : Scenario net0)
    (hinv : NetInv net0 net pushed) (p : Peer) :
    NetInv net0 (net.step (NetAction.deliver p)) pushed := by
  cases hin : net.inbox p with
  | nil =>
      have hstep : net.step (NetAction.deliver p) = net := by simp [step, hin]
      rw [hstep]; exact hinv
  | cons f rest =>
      have hf := hinv.inboxOk p f (by rw [hin]; exact List.mem_cons_self _ _)
      obtain ⟨hc, htmp, sc1, sc2, aI, aT, hs1, hs2, hi, ht, hai, hat⟩ := hinv.grown p
      have hP : net.platform p = net0.platform p := by rw [hinv.platform_eq]
      obtain ⟨g1, _, g3, g4, g5⟩ :=
        CollabManager.handleFullSync_spec (net0.platform p) (net.mgr p) f sc2 hs2
      obtain ⟨m2, hm2⟩ : ∃ x, x = (CollabManager.handleFullSync (net0.platform p)
        (net.mgr p) f).1 := ⟨_, rfl⟩
      rw [← hm2] at g3 g4 g5
      have hstep : net.step (NetAction.deliver p) =
          { net with mgr := fun q => if q = p then m2 else net.mgr q,
                     inbox := fun q => if q = p then rest else net.inbox q } := by
        simp [step, hin, onMessageReceived_fullSync _ _ _ hf.1, hP, g1, hm2]
      rw [hstep]
      have hgrow : CollabManager.GrownFrom (net0.platform p) (net0.mgr p) m2
          net.hubImageIds net.hubTextIds := by
        refine CollabManager.GrownFrom.weaken _ _ _ _ _ _ _
          (CollabManager.GrownFrom.trans _ _ _ _ _ _ _ _ (hinv.grown p) g3) ?_ ?_
        · intro x hx
          rcases List.mem_append.1 hx with h | h
          · exact h
          · obtain ⟨r, hr, hrx⟩ := List.mem_map.1 h
            rw [← hrx]; exact (hf.2.1 r hr).2
        · intro x hx
          rcases List.mem_append.1 hx with h | h
          · exact h
          · obtain ⟨r, hr, hrx⟩ := List.mem_map.1 h
            rw [← hrx]; exact (hf.2.2 r hr).2
      refine
        { platform_eq := hinv.platform_eq, sock_eq := hinv.sock_eq,
          clients_eq := hinv.clients_eq, clientIds_eq := hinv.clientIds_eq,
          byId_eq := hinv.byId_eq, hubImages := hinv.hubImages, hubTexts := hinv.hubTexts,
          grown := ?_, toHubOk := hinv.toHubOk, inboxOk := ?_, coverImages := ?_,
          coverTexts := ?_, pushedImages := hinv.pushedImages,
          pushedTexts := hinv.pushedTexts }
      · intro q
        by_cases hq : q = p
        · subst hq
          simpa using hgrow
        · simpa [hq] using hinv.grown q
      · intro q f2 hf2
        by_cases hq : q = p
        · subst hq
          simp only [if_true] at hf2
          exact hinv.inboxOk q f2 (by rw [hin]; exact List.mem_cons_of_mem _ hf2)
        · simp only [hq, if_false] at hf2
          exact hinv.inboxOk q f2 hf2
      · intro q id hid
        by_cases hq : q = p
        · subst hq
          simp only [if_true]
          rcases hinv.coverImages q id hid with h | ⟨f2, hf2, h⟩
          · exact Or.inl (CollabManager.GrownFrom.imageKeys_mono _ _ _ _ _ g3 _ h)
          · rw [hin] at hf2
            rcases List.mem_cons.1 hf2 with he | he
            · subst he
              left
              obtain ⟨r, hr, hrid⟩ := List.mem_map.1 h
              obtain ⟨p2, k1, k2, _, k4⟩ := originImage_props net0 h0 r (hf.2.1 r hr).1
              rw [← hrid]
              by_cases hp2 : q = p2
              · subst hp2
                exact CollabManager.GrownFrom.imageKeys_mono _ _ _ _ _ hgrow _ k1
              · exact g4 r hr k2 (k4 q hp2)
            · exact Or.inr ⟨f2, he, h⟩
        · simp only [hq, if_false]
          exact hinv.coverImages q id hid
      · intro q id hid
        by_cases hq : q = p
        · subst hq
          simp only [if_true]
          rcases hinv.coverTexts q id hid with h | ⟨f2, hf2, h⟩
          · exact Or.inl (CollabManager.GrownFrom.textKeys_mono _ _ _ _ _ g3 _ h)
          · rw [hin] at hf2
            rcases List.mem_cons.1 hf2 with he | he
            · subst he
              left
              obtain ⟨r, hr, hrid⟩ := List.mem_map.1 h
              obtain ⟨p2, _, k2, _⟩ := originText_props net0 h0 r (hf.2.2 r hr).1
              rw [← hrid]
              exact g5 r hr k2
            · exact Or.inr ⟨f2, he, h⟩
        · simp only [hq, if_false]
          exact hinv.coverTexts q id hid

theorem routes_ne (hub : SyncServer) (sock : Peer → Socket) (h : RoutesTo hub sock)
    (p q : Peer) (hpq : q ≠ p) : hub.clientId (sock q) ≠ hub.clientId (sock p) := by
  cases p <;> cases q
  · exact absurd rfl hpq
  · exact fun e => h.2 e.symm
  · exact h.2
  · exact absurd rfl hpq

theorem inv_hub (net0 net : Network) (pushed : Peer → Bool) (h0 : Scenario net0)
    (hinv : NetInv net0 net pushed) (now : String) :
    NetInv net0 (net.step (NetAction.hubHandle now)) pushed := by
  cases hq : net.toHub with
  | nil =>
      have hstep : net.step (NetAction.hubHandle now) = net := by simp [step, hq]
      rw [hstep]; exact hinv
  | cons sf rest =>
      obtain ⟨sock, f⟩ := sf
      obtain ⟨⟨p, hsock⟩, htype, hfI, hfT⟩ :=
        hinv.toHubOk (sock, f) (by rw [hq]; exact List.mem_cons_self _ _)
      simp only at hsock htype hfI hfT
      obtain ⟨res, hres⟩ : ∃ x, x = SyncServer.onPushSync net.hub net.disk f
        (net.hub.clientId sock) := ⟨_, rfl⟩
      have hstep : net.step (NetAction.hubHandle now) =
          { net with hub := res.server, disk := res.disk, toHub := rest,
                     inbox := fun q => net.inbox q ++
                       SyncServer.framesFor (net.sock q) res.sent } := by
        simp [step, hq, SyncServer.onText_pushSync _ _ _ _ _ htype, hres]
      have hB : res.server.m_boardState = (SyncServer.pushMerge "imageId" net.hub.m_boardState
          false (QJsonObject.value f "images").toArray).1 := by rw [hres]; rfl
      have hT : res.server.m_textState = (SyncServer.pushMerge "textId" net.hub.m_textState
          (SyncServer.pushMerge "imageId" net.hub.m_boardState false
            (QJsonObject.value f "images").toArray).2
          (QJsonObject.value f "texts").toArray).1 := by rw [hres]; rfl
      have hcl : res.server.m_clients = net.hub.m_clients := by rw [hres]; rfl
      have hci : res.server.m_clientIds = net.hub.m_clientIds := by rw [hres]; rfl
      have hby : res.server.m_clientsById = net.hub.m_clientsById := by rw [hres]; rfl
      have monoI : ∀ x ∈ net.hubImageIds,
          x ∈ res.server.m_boardState.map (SyncServer.recordId "imageId") := by
        intro x hx
        obtain ⟨added, ha⟩ := SyncServer.pushMerge_extends "imageId"
          (QJsonObject.value f "images").toArray net.hub.m_boardState false
        rw [hB, ha, List.map_append]
        exact List.mem_append_left _ hx
      have monoT : ∀ x ∈ net.hubTextIds,
          x ∈ res.server.m_textState.map (SyncServer.recordId "textId") := by
        intro x hx
        obtain ⟨added, ha⟩ := SyncServer.pushMerge_extends "textId"
          (QJsonObject.value f "texts").toArray net.hub.m_textState
          (SyncServer.pushMerge "imageId" net.hub.m_boardState false
            (QJsonObject.value f "images").toArray).2
        rw [hT, ha, List.map_append]
        exact List.mem_append_left _ hx
      have origI : ∀ r ∈ res.server.m_boardState, OriginImage net0 r := by
        intro r hr
        rw [hB] at hr
        rcases SyncServer.pushMerge_mem _ _ _ _ r hr with h | ⟨v, hv, h1, h2⟩
        · exact hinv.hubImages r h
        · rcases hfI v hv with ho | ho
          · have hp := (originImage_props net0 h0 v ho).choose_spec
            rw [h1, QJsonObject.ref_of_toString v.toObject "imageId" hp.2.1, ← hp.2.2.1]
            exact ho
          · exact absurd ho ((SyncServer.containsId_eq_false_iff _ _ _).1 h2)
      have origT : ∀ r ∈ res.server.m_textState, OriginText net0 r := by
        intro r hr
        rw [hT] at hr
        rcases SyncServer.pushMerge_mem _ _ _ _ r hr with h | ⟨v, hv, h1, h2⟩
        · exact hinv.hubTexts r h
        · rcases hfT v hv with ho | ho
          · have hp := (originText_props net0 h0 v ho).choose_spec
            rw [h1, QJsonObject.ref_of_toString v.toObject "textId" hp.2.1, ← hp.2.2]
            exact ho
          · exact absurd ho ((SyncServer.containsId_eq_false_iff _ _ _).1 h2)
      obtain ⟨fr1, fr2, fr3⟩ := SyncServer.onPushSync_frames net.hub net.disk f
        (net.hub.clientId sock)
      rw [← hres] at fr1 fr2 fr3
      obtain ⟨sI, sT⟩ := (SyncServer.fullSyncMsg_fields res.server).2
      have hid : ∀ c, net.hub.clientId c = net0.hub.clientId c := by
        intro c
        unfold SyncServer.clientId
        rw [hinv.clientIds_eq]
      have hsent : ∀ q, (res.server.m_boardState ≠ net.hub.m_boardState ∨
          res.server.m_textState ≠ net.hub.m_textState) →
          res.server.fullSyncMsg ∈ SyncServer.framesFor (net.sock q) res.sent := by
        intro q hch
        rw [SyncServer.mem_framesFor, hinv.sock_eq]
        by_cases hqp : q = p
        · subst hqp
          apply fr2
          rw [hsock, hinv.byId_eq, hid]
          exact (h0.routes.1 q).2
        · apply fr3 _ (by rw [hinv.clients_eq]; exact (h0.routes.1 q).1) _ hch
          rw [hsock, hid, hid]
          exact routes_ne _ _ h0.routes p q hqp
      have newI : ∀ q, ∀ id ∈ res.server.m_boardState.map (SyncServer.recordId "imageId"),
          id ∉ net.hubImageIds →
          ∃ f2 ∈ SyncServer.framesFor (net.sock q) res.sent, id ∈ frameImageIds f2 := by
        intro q id hid2 hnew
        have hch : res.server.m_boardState ≠ net.hub.m_boardState := by
          intro e
          rw [e] at hid2
          exact hnew hid2
        refine ⟨_, hsent q (Or.inl hch), ?_⟩
        simp only [frameImageIds, sI, JsonValue.toArray]
        exact hid2
      have newT : ∀ q, ∀ id ∈ res.server.m_textState.map (SyncServer.recordId "textId"),
          id ∉ net.hubTextIds →
          ∃ f2 ∈ SyncServer.framesFor (net.sock q) res.sent, id ∈ frameTextIds f2 := by
        intro q id hid2 hnew
        have hch : res.server.m_textState ≠ net.hub.m_textState := by
          intro e
          rw [e] at hid2
          exact hnew hid2
        refine ⟨_, hsent q (Or.inr hch), ?_⟩
        simp only [frameTextIds, sT, JsonValue.toArray]
        exact hid2
      rw [hstep]
      refine
        { platform_eq := hinv.platform_eq, sock_eq := hinv.sock_eq,
          clients_eq := hcl.trans hinv.clients_eq, clientIds_eq := hci.trans hinv.clientIds_eq,
          byId_eq := hby.trans hinv.byId_eq, hubImages := origI, hubTexts := origT,
          grown := ?_, toHubOk := ?_, inboxOk := ?_, coverImages := ?_,
          coverTexts := ?_, pushedImages := ?_, pushedTexts := ?_ }
      · intro q
        exact CollabManager.GrownFrom.weaken _ _ _ _ _ _ _ (hinv.grown q) monoI monoT
      · intro sf hsf
        obtain ⟨a, b, c, d⟩ := hinv.toHubOk sf (by rw [hq]; exact List.mem_cons_of_mem _ hsf)
        refine ⟨a, b, fun r hr => ?_, fun r hr => ?_⟩
        · rcases c r hr with h | h
          · exact Or.inl h
          · exact Or.inr (monoI _ h)
        · rcases d r hr with h | h
          · exact Or.inl h
          · exact Or.inr (monoT _ h)
      · intro q f2 hf2
        rcases List.mem_append.1 hf2 with h | h
        · obtain ⟨a, b, c⟩ := hinv.inboxOk q f2 h
          exact ⟨a, fun r hr => ⟨(b r hr).1, monoI _ (b r hr).2⟩,
            fun r hr => ⟨(c r hr).1, monoT _ (c r hr).2⟩⟩
        · rw [SyncServer.mem_framesFor] at h
          have he : f2 = res.server.fullSyncMsg := fr1 _ h
          rw [he]
          refine ⟨?_, ?_, ?_⟩
          · rw [(SyncServer.fullSyncMsg_fields res.server).1]; rfl
          · intro r hr
            rw [sI] at hr
            exact ⟨origI r hr, List.mem_map_of_mem _ hr⟩
          · intro r hr
            rw [sT] at hr
            exact ⟨origT r hr, List.mem_map_of_mem _ hr⟩
      · intro q id hid2
        by_cases hold : id ∈ net.hubImageIds
        · rcases hinv.coverImages q id hold with h | ⟨f2, hf2, h⟩
          · exact Or.inl h
          · exact Or.inr ⟨f2, List.mem_append_left _ hf2, h⟩
        · obtain ⟨f2, hf2, h⟩ := newI q id hid2 hold
          exact Or.inr ⟨f2, List.mem_append_right _ hf2, h⟩
      · intro q id hid2
        by_cases hold : id ∈ net.hubTextIds
        · rcases hinv.coverTexts q id hold with h | ⟨f2, hf2, h⟩
          · exact Or.inl h
          · exact Or.inr ⟨f2, List.mem_append_left _ hf2, h⟩
        · obtain ⟨f2, hf2, h⟩ := newT q id hid2 hold
          exact Or.inr ⟨f2, List.mem_append_right _ hf2, h⟩
      · intro q hpq id hid2
        rcases hinv.pushedImages q hpq id hid2 with h | ⟨sf, hsf, h⟩
        · exact Or.inl (monoI _ h)
        · rw [hq] at hsf
          rcases List.mem_cons.1 hsf with he | he
          · left
            subst he
            obtain ⟨v, hv, hvid⟩ := List.mem_map.1 h
            show id ∈ res.server.m_boardState.map (SyncServer.recordId "imageId")
            rw [hB, ← SyncServer.containsId_eq_true_iff]
            exact SyncServer.pushMerge_contains _ _ _ _ _
              (Or.inr (hvid ▸ List.mem_map_of_mem _ hv))
          · exact Or.inr ⟨sf, he, h⟩
      · intro q hpq id hid2
        rcases hinv.pushedTexts q hpq id hid2 with h | ⟨sf, hsf, h⟩
        · exact Or.inl (monoT _ h)
        · rw [hq] at hsf
          rcases List.mem_cons.1 hsf with he | he
          · left
            subst he
            obtain ⟨v, hv, hvid⟩ := List.mem_map.1 h
            show id ∈ res.server.m_textState.map (SyncServer.recordId "textId")
            rw [hT, ← SyncServer.containsId_eq_true_iff]
            exact SyncServer.pushMerge_contains _ _ _ _ _
              (Or.inr (hvid ▸ List.mem_map_of_mem _ hv))
          · exact Or.inr ⟨sf, he, h⟩

theorem inv_step (net0 net : Network) (pushed : Peer → Bool) (h0 : Scenario net0)
    (hinv : NetInv net0 net pushed) (a : NetAction) :
    NetInv net0 (net.step a) (fun q => pushed q || NetAction.isPush q a) := by
  cases a with
  | push p =>
      have he : (fun q => pushed q || NetAction.isPush q (NetAction.push p)) =
          (fun q => pushed q || decide (q = p)) := by
        funext q
        by_cases h : q = p
        · simp [NetAction.isPush, h]
        · have h2 : ¬ p = q := fun e => h e.symm
          simp [NetAction.isPush, h, h2]
      rw [he]
      exact inv_push net0 net pushed h0 hinv p
  | hubHandle now =>
      have he : (fun q => pushed q || NetAction.isPush q (NetAction.hubHandle now)) = pushed := by
        funext q
        simp [NetAction.isPush]
      rw [he]
      exact inv_hub net0 net pushed h0 hinv now
  | deliver p =>
      have he : (fun q => pushed q || NetAction.isPush q (NetAction.deliver p)) = pushed := by
        funext q
        simp [NetAction.isPush]
      rw [he]
      exact inv_deliver net0 net pushed h0 hinv p

theorem inv_run (net0 : Network) (h0 : Scenario net0) (acts : List NetAction) (net : Network)
    (pushed : Peer → Bool) (hinv : NetInv net0 net pushed) :
    NetInv net0 (net.run acts) (fun q => pushed q || acts.any (NetAction.isPush q)) := by
  induction acts generalizing net pushed with
  | nil =>
      have he : (fun q => pushed q || ([] : List NetAction).any (NetAction.isPush q)) = pushed := by
        funext q
        simp
      rw [he]
      exact hinv
  | cons a rest ih =>
      have h1 := ih (net.step a) _ (inv_step net0 net pushed h0 hinv a)
      have he : (fun q => (pushed q || NetAction.isPush q a) ||
          rest.any (NetAction.isPush q)) =
          (fun q => pushed q || (a :: rest).any (NetAction.isPush q)) := by
        funext q
        simp [Bool.or_assoc]
      rw [← he]
      exact h1

theorem keys_eq_ids_images (l : List (String × ImageItem)) (h : ∀ kv ∈ l, kv.2.id = kv.1) :
    l.map Prod.fst = (l.map Prod.snd).map ImageItem.id := by
  induction l with
  | nil => rfl
  | cons kv rest ih =>
      simp only [List.map_cons]
      rw [ih (fun x hx => h x (List.mem_cons_of_mem _ hx)), h kv (List.mem_cons_self _ _)]

theorem keys_eq_ids_texts (l : List (String × TextItem)) (h : ∀ kv ∈ l, kv.2.id = kv.1) :
    l.map Prod.fst = (l.map Prod.snd).map TextItem.id := by
  induction l with
  | nil => rfl
  | cons kv rest ih =>
      simp only [List.map_cons]
      rw [ih (fun x hx => h x (List.mem_cons_of_mem _ hx)), h kv (List.mem_cons_self _ _)]

/-- In the scenario every mirror holds each item under its id: keys and ids agree, at
the start and in every state reached. -/
theorem keys_are_ids (net0 net : Network) (pushed : Peer → Bool) (h0 : Scenario net0)
    (hinv : NetInv net0 net pushed) (p : Peer) :
    (net0.mgr p).imageKeys = (net0.mgr p).imageIds ∧
    (net0.mgr p).textKeys = (net0.mgr p).textIds ∧
    (net.mgr p).imageKeys = (net.mgr p).imageIds ∧
    (net.mgr p).textKeys = (net.mgr p).textIds := by
  obtain ⟨_, _, sc0, hsc0, hitems0, htexts0⟩ := h0.ready p
  obtain ⟨_, _, sc1, sc2, aI, aT, hs1, hs2, hi, ht, hai, hat⟩ := hinv.grown p
  have he : sc1 = sc0 := by
    rw [hsc0] at hs1
    exact (Option.some.inj hs1).symm
  subst he
  refine ⟨?_, ?_, ?_, ?_⟩
  · simp only [CollabManager.imageKeys, CollabManager.imageIds, hsc0, CanvasScene.imageItems]
    exact keys_eq_ids_images _ (fun kv hkv => (hitems0 kv hkv).1)
  · simp only [CollabManager.textKeys, CollabManager.textIds, hsc0, CanvasScene.textItems]
    exact keys_eq_ids_texts _ (fun kv hkv => (htexts0 kv hkv).1)
  · simp only [CollabManager.imageKeys, CollabManager.imageIds, hs2, CanvasScene.imageItems]
    apply keys_eq_ids_images
    intro kv hkv
    rw [hi] at hkv
    rcases List.mem_append.1 hkv with h | h
    · exact (hitems0 kv h).1
    · exact (hai kv h).1
  · simp only [CollabManager.textKeys, CollabManager.textIds, hs2, CanvasScene.textItems]
    apply keys_eq_ids_texts
    intro kv hkv
    rw [ht] at hkv
    rcases List.mem_append.1 hkv with h | h
    · exact (htexts0 kv h).1
    · exact (hat kv h).1

/-- C5. Reconciliation convergence: two orchestrators ready to sync, whose local images
are decodable on the other's platform, are connected to a hub with an empty room; for
every interleaving of pushes, hub handling and deliveries in which both have pushed
their local state and after which no frame is left in flight, each mirror holds exactly
the image ids, and exactly the text ids, that the two held at the start, so the two
mirrors hold the same ids. -/
theorem reconciliation_converges (net0 : Network) (acts : List NetAction)
    (h0 : Scenario net0) (hpush : ∀ p, NetAction.push p ∈ acts)
    (hToHub : (net0.run acts).toHub = []) (hInbox : ∀ p, (net0.run acts).inbox p = []) :
    (∀ p id, id ∈ ((net0.run acts).mgr p).imageIds ↔
      (id ∈ (net0.mgr Peer.X).imageIds ∨ id ∈ (net0.mgr Peer.Y).imageIds)) ∧
    (∀ p id, id ∈ ((net0.run acts).mgr p).textIds ↔
      (id ∈ (net0.mgr Peer.X).textIds ∨ id ∈ (net0.mgr Peer.Y).textIds)) ∧
    (∀ id, id ∈ ((net0.run acts).mgr Peer.X).imageIds ↔
      id ∈ ((net0.run acts).mgr Peer.Y).imageIds) ∧
    (∀ id, id ∈ ((net0.run acts).mgr Peer.X).textIds ↔
      id ∈ ((net0.run acts).mgr Peer.Y).textIds) := by
  have hinv := inv_run net0 h0 acts net0 _ (inv_initial net0 h0)
  have hpushed : ∀ q, ((fun _ => false) q || acts.any (NetAction.isPush q)) = true := by
    intro q
    simp only [Bool.false_or, List.any_eq_true]
    exact ⟨NetAction.push q, hpush q, by simp [NetAction.isPush]⟩
  have hex : ∀ (F : Peer → List String) (id : String),
      (∃ q, id ∈ F q) ↔ (id ∈ F Peer.X ∨ id ∈ F Peer.Y) := by
    intro F id
    constructor
    · rintro ⟨q, hq⟩
      cases q
      · exact Or.inl hq
      · exact Or.inr hq
    · rintro (h | h)
      · exact ⟨Peer.X, h⟩
      · exact ⟨Peer.Y, h⟩
  have himg : ∀ p id, id ∈ ((net0.run acts).mgr p).imageIds ↔
      ∃ q, id ∈ (net0.mgr q).imageIds := by
    intro p id
    obtain ⟨_, _, k3, _⟩ := keys_are_ids net0 _ _ h0 hinv p
    rw [← k3]
    constructor
    · intro hid
      obtain ⟨_, _, sc1, sc2, aI, aT, hs1, hs2, hi, ht, hai, hat⟩ := hinv.grown p
      simp only [CollabManager.imageKeys, hs2, hi, List.map_append, List.mem_append] at hid
      rcases hid with h | h
      · refine ⟨p, ?_⟩
        rw [← (keys_are_ids net0 _ _ h0 hinv p).1]
        simpa [CollabManager.imageKeys, hs1] using h
      · obtain ⟨kv, hkv, hk⟩ := List.mem_map.1 h
        have hhub := (hai kv hkv).2
        rw [hk] at hhub
        obtain ⟨r, hr, hrid⟩ := List.mem_map.1 hhub
        obtain ⟨q, hq, _⟩ := originImage_props net0 h0 r (hinv.hubImages r hr)
        refine ⟨q, ?_⟩
        rw [← (keys_are_ids net0 _ _ h0 hinv q).1, ← hrid]
        exact hq
    · rintro ⟨q, hq⟩
      rw [← (keys_are_ids net0 _ _ h0 hinv q).1] at hq
      rcases hinv.pushedImages q (hpushed q) id hq with h | ⟨sf, hsf, _⟩
      · rcases hinv.coverImages p id h with h2 | ⟨f, hf, _⟩
        · exact h2
        · rw [hInbox p] at hf
          simp at hf
      · rw [hToHub] at hsf
        simp at hsf
  have htxt : ∀ p id, id ∈ ((net0.run acts).mgr p).textIds ↔
      ∃ q, id ∈ (net0.mgr q).textIds := by
    intro p id
    obtain ⟨_, _, _, k4⟩ := keys_are_ids net0 _ _ h0 hinv p
    rw [← k4]
    constructor
    · intro hid
      obtain ⟨_, _, sc1, sc2, aI, aT, hs1, hs2, hi, ht, hai, hat⟩ := hinv.grown p
      simp only [CollabManager.textKeys, hs2, ht, List.map_append, List.mem_append] at hid
      rcases hid with h | h
      · refine ⟨p, ?_⟩
        rw [← (keys_are_ids net0 _ _ h0 hinv p).2.1]
        simpa [CollabManager.textKeys, hs1] using h
      · obtain ⟨kv, hkv, hk⟩ := List.mem_map.1 h
        have hhub := (hat kv hkv).2
        rw [hk] at hhub
        obtain ⟨r, hr, hrid⟩ := List.mem_map.1 hhub
        obtain ⟨q, hq, _⟩ := originText_props net0 h0 r (hinv.hubTexts r hr)
        refine ⟨q, ?_⟩
        rw [← (keys_are_ids net0 _ _ h0 hinv q).2.1, ← hrid]
        exact hq
    · rintro ⟨q, hq⟩
      rw [← (keys_are_ids net0 _ _ h0 hinv q).2.1] at hq
      rcases hinv.pushedTexts q (hpushed q) id hq with h | ⟨sf, hsf, _⟩
      · rcases hinv.coverTexts p id h with h2 | ⟨f, hf, _⟩
        · exact h2
        · rw [hInbox p] at hf
          simp at hf
      · rw [hToHub] at hsf
        simp at hsf
  refine ⟨fun p id => (himg p id).trans (hex (fun q => (net0.mgr q).imageIds) id),
    fun p id => (htxt p id).trans (hex (fun q => (net0.mgr q).textIds) id), ?_, ?_⟩
  · intro id
    exact (himg Peer.X id).trans (himg Peer.Y id).symm
  · intro id
    exact (htxt Peer.X id).trans (htxt Peer.Y id).symm

end Network

/-! ## Orchestrator: applying inbound edits -/

theorem qhash_value_insert_ne {κ α : Type} [DecidableEq κ] (h : List (κ × α)) (k k2 : κ)
    (v : α) (hne : k2 ≠ k) : QHash.value (QHash.insert h k v) k2 = QHash.value h k2 := by
  induction h with
  | nil =>
      have h2 : ¬ k = k2 := fun e => hne e.symm
      simp [QHash.insert, QHash.value, h2]
  | cons kv rest ih =>
      obtain ⟨k1, w⟩ := kv
      by_cases h1 : k1 = k
      · subst h1
        have h2 : ¬ k1 = k2 := fun e => hne e.symm
        simp [QHash.insert, QHash.value, h2]
      · by_cases h3 : k1 = k2
        · subst h3
          simp [QHash.insert, QHash.value, h1]
        · simp [QHash.insert, QHash.value, h1, h3, ih]

theorem qhash_value_remove_self {κ α : Type} [DecidableEq κ] (h : List (κ × α)) (k : κ) :
    QHash.value (QHash.remove h k) k = none := by
  induction h with
  | nil => rfl
  | cons kv rest ih =>
      obtain ⟨k1, w⟩ := kv
      by_cases h1 : k1 = k
      · simp [QHash.remove, h1, ih]
      · simp [QHash.remove, QHash.value, h1, ih]

theorem qhash_value_remove_ne {κ α : Type} [DecidableEq κ] (h : List (κ × α)) (k k2 : κ)
    (hne : k2 ≠ k) : QHash.value (QHash.remove h k) k2 = QHash.value h k2 := by
  induction h with
  | nil => rfl
  | cons kv rest ih =>
      obtain ⟨k1, w⟩ := kv
      by_cases h1 : k1 = k
      · subst h1
        have h2 : ¬ k1 = k2 := fun e => hne e.symm
        simp [QHash.remove, QHash.value, h2, ih]
      · by_cases h3 : k1 = k2
        · subst h3
          simp [QHash.remove, QHash.value, h1]
        · simp [QHash.remove, QHash.value, h1, h3, ih]

/-- A binding found under a key is a member of the table. -/
theorem qhash_value_mem {κ α : Type} [DecidableEq κ] (h : List (κ × α)) (k : κ) (v : α)
    (hv : QHash.value h k = some v) : (k, v) ∈ h := by
  induction h with
  | nil => simp [QHash.value] at hv
  | cons kv rest ih =>
      obtain ⟨k1, w⟩ := kv
      by_cases h1 : k1 = k
      · simp only [QHash.value, h1, if_true, Option.some.injEq] at hv
        simp [h1, hv]
      · simp only [QHash.value, h1, if_false] at hv
        exact List.mem_cons_of_mem _ (ih hv)

/-- Removing a key the table does not hold changes nothing. -/
theorem qhash_remove_absent {κ α : Type} [DecidableEq κ] (h : List (κ × α)) (k : κ)
    (hk : QHash.value h k = none) : QHash.remove h k = h := by
  induction h with
  | nil => rfl
  | cons kv rest ih =>
      obtain ⟨k1, w⟩ := kv
      by_cases h1 : k1 = k
      · simp [QHash.value, h1] at hk
      · simp only [QHash.value, h1, if_false] at hk
        simp [QHash.remove, h1, ih hk]

namespace CollabManager

/-- The scene after `handleImageRemove` for a message of another participant. -/
theorem handleImageRemove_scene (P : Platform) (m : CollabManager) (message : QJsonObject)
    (sc : CanvasScene) (hs : m.m_scene = some sc)
    (hother : (QJsonObject.value message "oderId").toString ≠ m.m_client.m_oderId) :
    ∃ sc1, (handleImageRemove P m message).1.m_scene = some sc1 ∧
      sc1.m_items = QHash.remove sc.m_items (QJsonObject.value message "imageId").toString ∧
      sc1.m_textItems = sc.m_textItems ∧ sc1.m_remoteCursors = sc.m_remoteCursors := by
  cases hf : QHash.value sc.m_items (QJsonObject.value message "imageId").toString with
  | none =>
      refine ⟨sc, ?_, (qhash_remove_absent _ _ hf).symm, rfl, rfl⟩
      simp [handleImageRemove, hother, hs, CanvasScene.removeImageItem, hf]
  | some item =>
      refine ⟨{ sc with m_items := (QHash.remove sc.m_items
        (QJsonObject.value message "imageId").toString) }, ?_, rfl, rfl, rfl⟩
      simp [handleImageRemove, hother, hs, CanvasScene.removeImageItem, hf]

/-- The scene after `handleTextRemove` for a message of another participant, when every
text is stored under its own id. -/
theorem handleTextRemove_scene (P : Platform) (m : CollabManager) (message : QJsonObject)
    (sc : CanvasScene) (hs : m.m_scene = some sc)
    (hother : (QJsonObject.value message "oderId").toString ≠ m.m_client.m_oderId)
    (hkeys : ∀ kv ∈ sc.m_textItems, kv.2.id = kv.1) :
    ∃ sc1, (handleTextRemove P m message).1.m_scene = some sc1 ∧
      sc1.m_textItems = QHash.remove sc.m_textItems (QJsonObject.value message "textId").toString ∧
      sc1.m_items = sc.m_items ∧ sc1.m_remoteCursors = sc.m_remoteCursors := by
  cases hf : QHash.value sc.m_textItems (QJsonObject.value message "textId").toString with
  | none =>
      refine ⟨sc, ?_, (qhash_remove_absent _ _ hf).symm, rfl, rfl⟩
      simp [handleTextRemove, hother, hs, CanvasScene.removeTextItem, hf]
  | some item =>
      have hid : item.id = (QJsonObject.value message "textId").toString :=
        hkeys _ (qhash_value_mem _ _ _ hf)
      refine ⟨{ sc with m_textItems := (QHash.remove sc.m_textItems
        (QJsonObject.value message "textId").toString) }, ?_, rfl, rfl, rfl⟩
      simp [handleTextRemove, hother, hs, CanvasScene.removeTextItem, hf, hid]


/-- Under the guard, creating an image puts no frame on the wire. -/
theorem createImage_sent (P : Platform) (m : CollabManager) (sc : CanvasScene) (isGif : Bool)
    (id : String) (data : QByteArray) (x y rotation scale : Rat)
    (hsync : m.m_isSyncing = true) :
    (createImage P m sc isGif id data x y rotation scale).2 = [] := by
  unfold createImage
  split
  · dsimp only
    split
    · exact emitAll_syncing P _ _ hsync
    · rfl
  · dsimp only
    split
    · exact emitAll_syncing P _ _ hsync
    · rfl

theorem handleImageAdd_sent (P : Platform) (m : CollabManager) (message : QJsonObject) :
    (handleImageAdd P m message).2 = [] := by
  unfold handleImageAdd
  simp only []
  split
  · rfl
  · split
    · rfl
    · cases hs : m.m_scene with
      | none => rfl
      | some sc => exact createImage_sent P _ sc _ _ _ _ _ _ _ rfl

theorem handleImageUpdate_sent (P : Platform) (m : CollabManager) (message : QJsonObject) :
    (handleImageUpdate P m message).2 = [] := by
  unfold handleImageUpdate
  simp only []
  split
  · rfl
  · split
    · rfl
    · split
      · rfl
      · exact emitAll_syncing P _ _ rfl

theorem handleImageRemove_sent (P : Platform) (m : CollabManager) (message : QJsonObject) :
    (handleImageRemove P m message).2 = [] := by
  unfold handleImageRemove
  simp only []
  split
  · rfl
  · split
    · exact emitAll_syncing P _ _ rfl
    · rfl

theorem handleTextAdd_sent (P : Platform) (m : CollabManager) (message : QJsonObject) :
    (handleTextAdd P m message).2 = [] := by
  unfold handleTextAdd
  split
  · rfl
  · simp only []
    split
    · rfl
    · split
      · rfl
      · exact emitAll_syncing P _ _ rfl

theorem handleTextUpdate_sent (P : Platform) (m : CollabManager) (message : QJsonObject) :
    (handleTextUpdate P m message).2 = [] := by
  unfold handleTextUpdate
  split
  · rfl
  · simp only []
    split
    · rfl
    · split
      · rfl
      · exact emitAll_syncing P _ _ rfl

theorem handleTextRemove_sent (P : Platform) (m : CollabManager) (message : QJsonObject) :
    (handleTextRemove P m message).2 = [] := by
  unfold handleTextRemove
  split
  · rfl
  · simp only []
    split
    · rfl
    · exact emitAll_syncing P _ _ rfl

theorem handleFullSync_sent (P : Platform) (m : CollabManager) (message : QJsonObject) :
    (handleFullSync P m message).2 = [] := by
  cases hs : m.m_scene with
  | none => simp [handleFullSync, hs]
  | some sc => exact (handleFullSync_spec P m message sc hs).1


/-- Model-level facts on `setImagePos`: the item it returns, and the tables it leaves. -/
theorem setImagePos_spec (sc : CanvasScene) (key : String) (item : ImageItem) (x y : Rat) :
    (setImagePos sc key item x y).2.1 = { item with x := x, y := y } ∧
    (setImagePos sc key item x y).1.m_textItems = sc.m_textItems ∧
    ∀ k, k ≠ key →
      QHash.value (setImagePos sc key item x y).1.m_items k = QHash.value sc.m_items k := by
  unfold setImagePos
  split
  · next h =>
    refine ⟨?_, rfl, fun _ _ => rfl⟩
    cases item
    simp only at h
    simp [h.1, h.2]
  · refine ⟨rfl, rfl, fun k hk => ?_⟩
    exact qhash_value_insert_ne _ _ _ _ hk

/-- The scene after `handleImageUpdate` for a message of another participant that targets
an image the scene holds. -/
theorem handleImageUpdate_scene (P : Platform) (m : CollabManager) (message : QJsonObject)
    (sc : CanvasScene) (item : ImageItem) (hs : m.m_scene = some sc)
    (hother : (QJsonObject.value message "oderId").toString ≠ m.m_client.m_oderId)
    (hf : QHash.value sc.m_items (QJsonObject.value message "imageId").toString = some item) :
    ∃ sc1 item1, (handleImageUpdate P m message).1.m_scene = some sc1 ∧
      QHash.value sc1.m_items (QJsonObject.value message "imageId").toString = some item1 ∧
      (item1.id = item.id ∧ item1.image = item.image ∧ item1.sourcePath = item.sourcePath) ∧
      item1.x = (if QJsonObject.contains message "x" && QJsonObject.contains message "y" then
        (QJsonObject.value message "x").toDouble else item.x) ∧
      item1.y = (if QJsonObject.contains message "x" && QJsonObject.contains message "y" then
        (QJsonObject.value message "y").toDouble else item.y) ∧
      item1.rotation = (if QJsonObject.contains message "rotation" then
        (QJsonObject.value message "rotation").toDouble else item.rotation) ∧
      item1.scale = (if QJsonObject.contains message "scale" then
        (QJsonObject.value message "scale").toDouble else item.scale) ∧
      item1.zValue = (if QJsonObject.contains message "zIndex" then
        (QJsonObject.value message "zIndex").toDouble else item.zValue) ∧
      (∀ k, k ≠ (QJsonObject.value message "imageId").toString →
        QHash.value sc1.m_items k = QHash.value sc.m_items k) ∧
      sc1.m_textItems = sc.m_textItems := by
  have hf2 : sc.findImageItem (QJsonObject.value message "imageId").toString = some item := hf
  obtain ⟨p1, p2, p3⟩ := setImagePos_spec sc (QJsonObject.value message "imageId").toString item
    (QJsonObject.value message "x").toDouble (QJsonObject.value message "y").toDouble
  simp only [handleImageUpdate, if_neg hother, hs, hf2]
  refine ⟨_, _, rfl, SyncServer.qhash_value_insert _ _ _, ?_, ?_, ?_, ?_, ?_, ?_, ?_, ?_⟩
  · cases bxy : (QJsonObject.contains message "x" && QJsonObject.contains message "y") <;>
      simp only [Bool.false_eq_true, if_false, if_true, p1] <;>
      refine ⟨?_, ?_, ?_⟩ <;> split_ifs <;> rfl
  · cases bxy : (QJsonObject.contains message "x" && QJsonObject.contains message "y") <;>
      simp only [Bool.false_eq_true, if_false, if_true, p1] <;> split_ifs <;> rfl
  · cases bxy : (QJsonObject.contains message "x" && QJsonObject.contains message "y") <;>
      simp only [Bool.false_eq_true, if_false, if_true, p1] <;> split_ifs <;> rfl
  · cases bxy : (QJsonObject.contains message "x" && QJsonObject.contains message "y") <;>
      simp only [Bool.false_eq_true, if_false, if_true, p1] <;> split_ifs <;> rfl
  · cases bxy : (QJsonObject.contains message "x" && QJsonObject.contains message "y") <;>
      simp only [Bool.false_eq_true, if_false, if_true, p1] <;> split_ifs <;> rfl
  · cases bxy : (QJsonObject.contains message "x" && QJsonObject.contains message "y") <;>
      simp only [Bool.false_eq_true, if_false, if_true, p1] <;> split_ifs <;> rfl
  · intro k hk
    rw [qhash_value_insert_ne _ _ _ _ hk]
    split
    · exact p3 k hk
    · rfl
  · split
    · exact p2
    · rfl

/-- The scene after `handleTextUpdate` for a message of another participant that targets a
text the scene holds. -/
theorem handleTextUpdate_scene (P : Platform) (m : CollabManager) (message : QJsonObject)
    (sc : CanvasScene) (item : TextItem) (hs : m.m_scene = some sc)
    (hother : (QJsonObject.value message "oderId").toString ≠ m.m_client.m_oderId)
    (hf : QHash.value sc.m_textItems (QJsonObject.value message "textId").toString = some item) :
    ∃ sc1 item1, (handleTextUpdate P m message).1.m_scene = some sc1 ∧
      QHash.value sc1.m_textItems (QJsonObject.value message "textId").toString = some item1 ∧
      (item1.id = item.id ∧ item1.zValue = item.zValue ∧ item1.fontFamily = item.fontFamily ∧
        item1.fontSize = item.fontSize ∧ item1.textColor = item.textColor) ∧
      item1.text = (if QJsonObject.contains message "text" then
        (QJsonObject.value message "text").toString else item.text) ∧
      item1.x = (if QJsonObject.contains message "x" && QJsonObject.contains message "y" then
        (QJsonObject.value message "x").toDouble else item.x) ∧
      item1.y = (if QJsonObject.contains message "x" && QJsonObject.contains message "y" then
        (QJsonObject.value message "y").toDouble else item.y) ∧
      item1.rotation = (if QJsonObject.contains message "rotation" then
        (QJsonObject.value message "rotation").toDouble else item.rotation) ∧
      (∀ k, k ≠ (QJsonObject.value message "textId").toString →
        QHash.value sc1.m_textItems k = QHash.value sc.m_textItems k) ∧
      sc1.m_items = sc.m_items := by
  have hf2 : sc.findTextItem (QJsonObject.value message "textId").toString = some item := hf
  simp only [handleTextUpdate, if_neg hother, hs, hf2]
  refine ⟨_, _, rfl, SyncServer.qhash_value_insert _ _ _, ?_, ?_, ?_, ?_, ?_, ?_, rfl⟩
  · refine ⟨?_, ?_, ?_, ?_, ?_⟩ <;> split_ifs <;> rfl
  · split_ifs <;> rfl
  · split_ifs <;> rfl
  · split_ifs <;> rfl
  · split_ifs <;> rfl
  · intro k hk
    exact qhash_value_insert_ne _ _ _ _ hk

/-- The scene after `handleImageAdd`: the tables are as before, or one image has been added
under the message's id, which no image had, at the end of `m_items`; the image is added
when the message comes from another participant, no image has the id, and the temporary
file can be written (animated) or the payload decodes (otherwise). -/
theorem handleImageAdd_scene (P : Platform) (m : CollabManager) (message : QJsonObject)
    (sc : CanvasScene) (hs : m.m_scene = some sc) :
    ((handleImageAdd P m message).1.m_scene = some sc ∨
      (QHash.value sc.m_items (QJsonObject.value message "imageId").toString = none ∧
       ∃ item : ImageItem, (handleImageAdd P m message).1.m_scene =
        some { sc with m_items := sc.m_items ++
          [((QJsonObject.value message "imageId").toString, item)] })) ∧
    ((QJsonObject.value message "oderId").toString ≠ m.m_client.m_oderId →
      QHash.value sc.m_items (QJsonObject.value message "imageId").toString = none →
      (if (QJsonObject.value message "isGif").toBool false then
          P.canWrite (P.tempPath m.uuidCount) = true
        else (P.loadFromData (P.fromBase64
          (QJsonObject.value message "imageData").toString)).isNull = false) →
      ∃ item : ImageItem, (handleImageAdd P m message).1.m_scene =
        some { sc with m_items := sc.m_items ++
          [((QJsonObject.value message "imageId").toString, item)] }) := by
  by_cases hself : (QJsonObject.value message "oderId").toString = m.m_client.m_oderId
  · have hr : handleImageAdd P m message = (m, []) := by simp [handleImageAdd, hself]
    rw [hr]
    exact ⟨Or.inl hs, fun h => absurd hself h⟩
  · cases hf : QHash.value sc.m_items (QJsonObject.value message "imageId").toString with
    | some item =>
        have hr : handleImageAdd P m message = (m, []) := by
          simp [handleImageAdd, hself, hs, CanvasScene.findImageItem, hf]
        rw [hr]
        exact ⟨Or.inl hs, fun _ h => by simp at h⟩
    | none =>
        obtain ⟨_, _, _, _, c5, c6⟩ := createImage_spec P { m with m_isSyncing := true } sc
          ((QJsonObject.value message "isGif").toBool false)
          (QJsonObject.value message "imageId").toString
          (P.fromBase64 (QJsonObject.value message "imageData").toString)
          (QJsonObject.value message "x").toDouble (QJsonObject.value message "y").toDouble
          (QJsonObject.value message "rotation").toDouble
          ((QJsonObject.value message "scale").toDouble 1) rfl hs hf
        have hr : (handleImageAdd P m message).1.m_scene =
            (createImage P { m with m_isSyncing := true } sc
              ((QJsonObject.value message "isGif").toBool false)
              (QJsonObject.value message "imageId").toString
              (P.fromBase64 (QJsonObject.value message "imageData").toString)
              (QJsonObject.value message "x").toDouble (QJsonObject.value message "y").toDouble
              (QJsonObject.value message "rotation").toDouble
              ((QJsonObject.value message "scale").toDouble 1)).1.m_scene := by
          simp [handleImageAdd, hself, hs, CanvasScene.findImageItem, hf]
        rw [hr]
        refine ⟨?_, fun _ _ hd => ?_⟩
        · rcases c5 with h | ⟨item, _, h⟩
          · exact Or.inl h
          · exact Or.inr ⟨rfl, item, h⟩
        · obtain ⟨item, _, h⟩ := c6 hd
          exact ⟨item, h⟩

/-- The scene after `handleTextAdd` for a message of another participant: unchanged when a
text has the message's id, else one text added under that id at the end of `m_textItems`. -/
theorem handleTextAdd_scene (P : Platform) (m : CollabManager) (message : QJsonObject)
    (sc : CanvasScene) (hs : m.m_scene = some sc)
    (hother : (QJsonObject.value message "oderId").toString ≠ m.m_client.m_oderId) :
    ((QHash.value sc.m_textItems (QJsonObject.value message "textId").toString).isSome = true ∧
      handleTextAdd P m message = (m, [])) ∨
    (QHash.value sc.m_textItems (QJsonObject.value message "textId").toString = none ∧
      ∃ item : TextItem, (handleTextAdd P m message).1.m_scene =
        some { sc with m_textItems := sc.m_textItems ++
          [((QJsonObject.value message "textId").toString, item)] }) := by
  cases hf : QHash.value sc.m_textItems (QJsonObject.value message "textId").toString with
  | some item =>
      left
      refine ⟨rfl, ?_⟩
      simp [handleTextAdd, hother, hs, CanvasScene.findTextItem, hf]
  | none =>
      right
      refine ⟨rfl, ?_⟩
      simp only [handleTextAdd, hs, if_neg hother, CanvasScene.findTextItem, hf,
        CanvasScene.addTextItem, qhash_insert_new _ _ _ hf]
      exact ⟨_, rfl⟩

/-- An add for an id the mirror holds returns the state as it was and sends nothing. -/
theorem handleImageAdd_present (P : Platform) (m : CollabManager) (message : QJsonObject)
    (hin : (QJsonObject.value message "imageId").toString ∈ m.imageKeys) :
    handleImageAdd P m message = (m, []) := by
  cases hs : m.m_scene with
  | none => simp [imageKeys, hs] at hin
  | some sc =>
      simp only [imageKeys, hs] at hin
      have hf := (qhash_value_isSome_iff sc.m_items _).2 hin
      by_cases hself : (QJsonObject.value message "oderId").toString = m.m_client.m_oderId
      · simp [handleImageAdd, hself]
      · simp [handleImageAdd, hself, hs, CanvasScene.findImageItem, hf]

theorem handleTextAdd_present (P : Platform) (m : CollabManager) (message : QJsonObject)
    (hin : (QJsonObject.value message "textId").toString ∈ m.textKeys) :
    handleTextAdd P m message = (m, []) := by
  cases hs : m.m_scene with
  | none => simp [textKeys, hs] at hin
  | some sc =>
      simp only [textKeys, hs] at hin
      have hf := (qhash_value_isSome_iff sc.m_textItems _).2 hin
      by_cases hself : (QJsonObject.value message "oderId").toString = m.m_client.m_oderId
      · simp [handleTextAdd, hself, hs]
      · simp [handleTextAdd, hself, hs, CanvasScene.findTextItem, hf]

/-- The keys of `m_items` stay pairwise distinct across `handleImageAdd`. -/
theorem handleImageAdd_nodup (P : Platform) (m : CollabManager) (message : QJsonObject)
    (hnodup : m.imageKeys.Nodup) : (handleImageAdd P m message).1.imageKeys.Nodup := by
  cases hs : m.m_scene with
  | none =>
      have hr : (handleImageAdd P m message).1.m_scene = none := by
        by_cases hself : (QJsonObject.value message "oderId").toString = m.m_client.m_oderId
        · simp [handleImageAdd, hself, hs]
        · simp [handleImageAdd, hself, hs]
      simp [imageKeys, hr]
  | some sc =>
      simp only [imageKeys, hs] at hnodup
      rcases (handleImageAdd_scene P m message sc hs).1 with h | ⟨habs, item, h⟩
      · simp only [imageKeys, h]
        exact hnodup
      · simp only [imageKeys, h, List.map_append, List.map_cons, List.map_nil]
        refine List.Nodup.append hnodup (List.nodup_singleton _) ?_
        intro a ha hb
        rw [List.mem_singleton] at hb
        subst hb
        exact (qhash_value_none_iff sc.m_items _).1 habs ha

/-- C11 (amended). Orchestrator add dedup, on a mirror whose tables bind no id twice: after
an imageAdd is applied and then a second imageAdd with the same id, whatever else it
carries, at most one image has that id; once an image has the id the second application
returns the state as it was and sends nothing; exactly one image has the id after the
first application when an image had it before or when the message comes from another
participant and its payload is usable (the temporary file can be written when animated,
the bytes decode to an image otherwise).  For a textAdd of another participant exactly
one text has the id after the first application and the second changes nothing. -/
theorem add_dedup (P : Platform) (m : CollabManager) (sc : CanvasScene)
    (message message2 : QJsonObject) (hs : m.m_scene = some sc)
    (hnodupI : (sc.m_items.map Prod.fst).Nodup) (hnodupT : (sc.m_textItems.map Prod.fst).Nodup)
    (hother : (QJsonObject.value message "oderId").toString ≠ m.m_client.m_oderId)
    (hid : (QJsonObject.value message2 "imageId").toString =
      (QJsonObject.value message "imageId").toString)
    (htid : (QJsonObject.value message2 "textId").toString =
      (QJsonObject.value message "textId").toString) :
    (handleImageAdd P (handleImageAdd P m message).1 message2).1.imageKeys.count
      (QJsonObject.value message "imageId").toString ≤ 1 ∧
    ((QJsonObject.value message "imageId").toString ∈ (handleImageAdd P m message).1.imageKeys →
      handleImageAdd P (handleImageAdd P m message).1 message2 =
        ((handleImageAdd P m message).1, [])) ∧
    (((QJsonObject.value message "imageId").toString ∈ m.imageKeys ∨
      (if (QJsonObject.value message "isGif").toBool false then
          P.canWrite (P.tempPath m.uuidCount) = true
        else (P.loadFromData (P.fromBase64
          (QJsonObject.value message "imageData").toString)).isNull = false)) →
      (handleImageAdd P m message).1.imageKeys.count
        (QJsonObject.value message "imageId").toString = 1) ∧
    (handleTextAdd P m message).1.textKeys.count (QJsonObject.value message "textId").toString
      = 1 ∧
    handleTextAdd P (handleTextAdd P m message).1 message2 = ((handleTextAdd P m message).1, []) := by
  have hk : m.imageKeys.Nodup := by
    simp only [imageKeys, hs]
    exact hnodupI
  have hn1 := handleImageAdd_nodup P m message hk
  have hn2 := handleImageAdd_nodup P _ message2 hn1
  have htext : (QJsonObject.value message "textId").toString ∈
      (handleTextAdd P m message).1.textKeys ∧ (handleTextAdd P m message).1.textKeys.Nodup := by
    rcases handleTextAdd_scene P m message sc hs hother with ⟨hf, hr⟩ | ⟨hf, item, hr⟩
    · rw [hr]
      simp only [textKeys, hs]
      exact ⟨(qhash_value_isSome_iff _ _).1 hf, hnodupT⟩
    · simp only [textKeys, hr, List.map_append, List.map_cons, List.map_nil]
      refine ⟨by simp, List.Nodup.append hnodupT (List.nodup_singleton _) ?_⟩
      intro a ha hb
      rw [List.mem_singleton] at hb
      subst hb
      exact (qhash_value_none_iff sc.m_textItems _).1 hf ha
  refine ⟨List.nodup_iff_count_le_one.1 hn2 _, ?_, ?_, ?_, ?_⟩
  · intro hin
    exact handleImageAdd_present P _ message2 (by rw [hid]; exact hin)
  · intro h
    refine List.count_eq_one_of_mem hn1 ?_
    by_cases hf : (QJsonObject.value message "imageId").toString ∈ m.imageKeys
    · rw [handleImageAdd_present P m message hf]
      exact hf
    · have hd : (if (QJsonObject.value message "isGif").toBool false then
          P.canWrite (P.tempPath m.uuidCount) = true
        else (P.loadFromData (P.fromBase64
          (QJsonObject.value message "imageData").toString)).isNull = false) := by
        rcases h with h | h
        · exact absurd h hf
        · exact h
      have habs : QHash.value sc.m_items (QJsonObject.value message "imageId").toString
          = none := by
        rw [qhash_value_none_iff]
        simpa [imageKeys, hs] using hf
      obtain ⟨item, hr⟩ := (handleImageAdd_scene P m message sc hs).2 hother habs hd
      simp [imageKeys, hr]
  · exact List.count_eq_one_of_mem htext.2 htext.1
  · exact handleTextAdd_present P _ message2 (by rw [htid]; exact htext.1)

/-- C14. Echo-suppression guard: handling an inbound imageAdd, imageUpdate, imageRemove,
textAdd, textUpdate, textRemove or fullSync puts no frame on the wire, whatever the state
and the message; and a slot that runs for a scene signal while the guard is set sends
nothing, whichever of the six signals it is. -/
theorem inbound_edits_send_nothing (P : Platform) (m : CollabManager) (message : QJsonObject) :
    (handleImageAdd P m message).2 = [] ∧
    (handleImageUpdate P m message).2 = [] ∧
    (handleImageRemove P m message).2 = [] ∧
    (handleTextAdd P m message).2 = [] ∧
    (handleTextUpdate P m message).2 = [] ∧
    (handleTextRemove P m message).2 = [] ∧
    (handleFullSync P m message).2 = [] ∧
    ∀ sig : SceneSignal, onSceneSignal P { m with m_isSyncing := true } sig = [] :=
  ⟨handleImageAdd_sent P m message, handleImageUpdate_sent P m message,
   handleImageRemove_sent P m message, handleTextAdd_sent P m message,
   handleTextUpdate_sent P m message, handleTextRemove_sent P m message,
   handleFullSync_sent P m message, fun sig => by cases sig <;> simp [onSceneSignal]⟩

/-- C13. Orchestrator remove and unknown targets: for a message of another participant,
on a mirror that holds every text under its own id, imageRemove (textRemove) leaves no
image (text) under the message's id and leaves every other item as it was; when the
mirror holds no item under the target id, imageUpdate and textUpdate return the state
as it was and imageRemove and textRemove return it with the guard released, and none of
the four sends a frame. -/
theorem remove_and_unknown_targets (P : Platform) (m : CollabManager) (message : QJsonObject)
    (sc : CanvasScene) (hs : m.m_scene = some sc)
    (hother : (QJsonObject.value message "oderId").toString ≠ m.m_client.m_oderId)
    (hkeys : ∀ kv ∈ sc.m_textItems, kv.2.id = kv.1) :
    (∃ sc1, (handleImageRemove P m message).1.m_scene = some sc1 ∧
      sc1.findImageItem (QJsonObject.value message "imageId").toString = none ∧
      (∀ k, k ≠ (QJsonObject.value message "imageId").toString →
        sc1.findImageItem k = sc.findImageItem k) ∧
      sc1.m_textItems = sc.m_textItems) ∧
    (∃ sc1, (handleTextRemove P m message).1.m_scene = some sc1 ∧
      sc1.findTextItem (QJsonObject.value message "textId").toString = none ∧
      (∀ k, k ≠ (QJsonObject.value message "textId").toString →
        sc1.findTextItem k = sc.findTextItem k) ∧
      sc1.m_items = sc.m_items) ∧
    (sc.findImageItem (QJsonObject.value message "imageId").toString = none →
      handleImageUpdate P m message = (m, []) ∧
      handleImageRemove P m message = ({ m with m_isSyncing := false }, [])) ∧
    (sc.findTextItem (QJsonObject.value message "textId").toString = none →
      handleTextUpdate P m message = (m, []) ∧
      handleTextRemove P m message = ({ m with m_isSyncing := false }, [])) := by
  refine ⟨?_, ?_, ?_, ?_⟩
  · obtain ⟨sc1, h1, h2, h3, _⟩ := handleImageRemove_scene P m message sc hs hother
    refine ⟨sc1, h1, ?_, ?_, h3⟩
    · show QHash.value sc1.m_items _ = none
      rw [h2]
      exact qhash_value_remove_self _ _
    · intro k hk
      show QHash.value sc1.m_items k = QHash.value sc.m_items k
      rw [h2]
      exact qhash_value_remove_ne _ _ _ hk
  · obtain ⟨sc1, h1, h2, h3, _⟩ := handleTextRemove_scene P m message sc hs hother hkeys
    refine ⟨sc1, h1, ?_, ?_, h3⟩
    · show QHash.value sc1.m_textItems _ = none
      rw [h2]
      exact qhash_value_remove_self _ _
    · intro k hk
      show QHash.value sc1.m_textItems k = QHash.value sc.m_textItems k
      rw [h2]
      exact qhash_value_remove_ne _ _ _ hk
  · intro hf
    have hf2 : QHash.value sc.m_items (QJsonObject.value message "imageId").toString = none := hf
    refine ⟨?_, ?_⟩
    · simp [handleImageUpdate, hother, hs, hf]
    · cases m
      simp only at hs
      subst hs
      simp [handleImageRemove, hother, CanvasScene.removeImageItem, hf2, emitAll]
  · intro hf
    have hf2 : QHash.value sc.m_textItems (QJsonObject.value message "textId").toString = none :=
      hf
    refine ⟨?_, ?_⟩
    · simp [handleTextUpdate, hother, hs, hf]
    · cases m
      simp only at hs
      subst hs
      simp [handleTextRemove, hother, CanvasScene.removeTextItem, hf2, emitAll]

end CollabManager

namespace CollabManager

/-- C12 (amended). Orchestrator update, for a message of another participant on a mirror
that holds the target: after imageUpdate the image under the message's id has `x` and
`y` both from the message when the message contains both `x` and `y`, and both as
before otherwise; rotation, scale and z-value each from the message when the message
contains `rotation`, `scale`, `zIndex`, and as before otherwise; a value is read as a
number, 0 when it is not one; id, picture and path are as before.  After textUpdate the
text under the id has its text from the message when it contains `text`, position and
rotation patched in the same way, the rest as before.  Every item under another id, of
either kind, is as it was. -/
theorem update_patches_fields (P : Platform) (m : CollabManager) (message : QJsonObject)
    (sc : CanvasScene) (hs : m.m_scene = some sc)
    (hother : (QJsonObject.value message "oderId").toString ≠ m.m_client.m_oderId) :
    (∀ item, sc.findImageItem (QJsonObject.value message "imageId").toString = some item →
      ∃ sc1 item1, (handleImageUpdate P m message).1.m_scene = some sc1 ∧
        sc1.findImageItem (QJsonObject.value message "imageId").toString = some item1 ∧
        (item1.id = item.id ∧ item1.image = item.image ∧ item1.sourcePath = item.sourcePath) ∧
        item1.x = (if QJsonObject.contains message "x" && QJsonObject.contains message "y" then
          (QJsonObject.value message "x").toDouble else item.x) ∧
        item1.y = (if QJsonObject.contains message "x" && QJsonObject.contains message "y" then
          (QJsonObject.value message "y").toDouble else item.y) ∧
        item1.rotation = (if QJsonObject.contains message "rotation" then
          (QJsonObject.value message "rotation").toDouble else item.rotation) ∧
        item1.scale = (if QJsonObject.contains message "scale" then
          (QJsonObject.value message "scale").toDouble else item.scale) ∧
        item1.zValue = (if QJsonObject.contains message "zIndex" then
          (QJsonObject.value message "zIndex").toDouble else item.zValue) ∧
        (∀ k, k ≠ (QJsonObject.value message "imageId").toString →
          sc1.findImageItem k = sc.findImageItem k) ∧
        sc1.m_textItems = sc.m_textItems) ∧
    (∀ item, sc.findTextItem (QJsonObject.value message "textId").toString = some item →
      ∃ sc1 item1, (handleTextUpdate P m message).1.m_scene = some sc1 ∧
        sc1.findTextItem (QJsonObject.value message "textId").toString = some item1 ∧
        (item1.id = item.id ∧ item1.zValue = item.zValue ∧ item1.fontFamily = item.fontFamily ∧
          item1.fontSize = item.fontSize ∧ item1.textColor = item.textColor) ∧
        item1.text = (if QJsonObject.contains message "text" then
          (QJsonObject.value message "text").toString else item.text) ∧
        item1.x = (if QJsonObject.contains message "x" && QJsonObject.contains message "y" then
          (QJsonObject.value message "x").toDouble else item.x) ∧
        item1.y = (if QJsonObject.contains message "x" && QJsonObject.contains message "y" then
          (QJsonObject.value message "y").toDouble else item.y) ∧
        item1.rotation = (if QJsonObject.contains message "rotation" then
          (QJsonObject.value message "rotation").toDouble else item.rotation) ∧
        (∀ k, k ≠ (QJsonObject.value message "textId").toString →
          sc1.findTextItem k = sc.findTextItem k) ∧
        sc1.m_items = sc.m_items) :=
  ⟨fun item hf => handleImageUpdate_scene P m message sc item hs hother hf,
   fun item hf => handleTextUpdate_scene P m message sc item hs hother hf⟩

end CollabManager

/-! ## Hub: removal and uniqueness of ids -/

namespace SyncServer

/-- In a state without duplicate ids, the remove scan keeps exactly the records with
another id, in order. -/
theorem removeFirst_eq_filter (key : String) (state : QJsonArray) (id : String)
    (hnd : (state.map (recordId key)).Nodup) :
    removeFirst key state id = state.filter (fun rec => decide (recordId key rec ≠ id)) := by
  induction state with
  | nil => rfl
  | cons rec rest ih =>
      rw [List.map_cons, List.nodup_cons] at hnd
      by_cases hr : recordId key rec = id
      · have hrest : ∀ q ∈ rest, decide (recordId key q ≠ id) = true := by
          intro q hq
          have hne : recordId key q ≠ id := by
            intro e
            exact hnd.1 (hr ▸ e ▸ List.mem_map_of_mem _ hq)
          simpa using hne
        simp only [removeFirst, hr, if_true]
        rw [List.filter_cons_of_neg (by simp [hr]), List.filter_eq_self.2 hrest]
      · simp only [removeFirst, hr, if_false]
        rw [List.filter_cons_of_pos (by simpa using hr), ih hnd.2]

theorem removeFirst_absent (key : String) (state : QJsonArray) (id : String)
    (h : containsId key state id = false) : removeFirst key state id = state := by
  induction state with
  | nil => rfl
  | cons rec rest ih =>
      by_cases hr : recordId key rec = id
      · simp [containsId, hr] at h
      · simp only [containsId, hr, if_false] at h
        simp [removeFirst, hr, ih h]

theorem removeFirst_sublist (key : String) (state : QJsonArray) (id : String) :
    List.Sublist (removeFirst key state id) state := by
  induction state with
  | nil => exact List.Sublist.refl _
  | cons rec rest ih =>
      by_cases hr : recordId key rec = id
      · simp only [removeFirst, hr, if_true]
        exact List.sublist_cons_self rec rest
      · simp only [removeFirst, hr, if_false]
        exact List.Sublist.cons₂ rec ih

theorem removeFirst_nodup (key : String) (state : QJsonArray) (id : String)
    (hnd : (state.map (recordId key)).Nodup) :
    ((removeFirst key state id).map (recordId key)).Nodup :=
  List.Nodup.sublist (List.Sublist.map _ (removeFirst_sublist key state id)) hnd

/-- An update with a message that binds no key twice leaves the ids of the records, and
their order, as they were. -/
theorem mergeUpdate_ids (key : String) (msg : QJsonObject) (hwf : QJsonObject.WellFormed msg)
    (state : QJsonArray) (id : String) (hid : (QJsonObject.value msg key).toString = id) :
    (mergeUpdate key msg state id).map (recordId key) = state.map (recordId key) := by
  induction state with
  | nil => rfl
  | cons rec rest ih =>
      by_cases hr : recordId key rec = id
      · simp only [mergeUpdate, hr, if_true, List.map_cons]
        rw [recordId_merged key msg hwf rec (hid.trans hr.symm), hr]
      · simp only [mergeUpdate, hr, if_false, List.map_cons, ih]

theorem onText_imageRemove (s : SyncServer) (d : Disk) (now : String) (client : Socket)
    (msg : QJsonObject) (h : (QJsonObject.value msg "type").toString = "imageRemove") :
    onTextMessageReceived s d now client (JsonValue.object msg) =
      if containsId "imageId" s.m_boardState (QJsonObject.value msg "imageId").toString then
        relay { s with m_boardState := (removeFirst "imageId" s.m_boardState
                  (QJsonObject.value msg "imageId").toString) }
          (saveState { s with m_boardState := (removeFirst "imageId" s.m_boardState
                  (QJsonObject.value msg "imageId").toString) }
            d now)
          (QJsonObject.ref msg "imageId") (s.clientId client)
      else relay s d (QJsonObject.ref msg "imageId") (s.clientId client) := by
  have ht : QJsonObject.ref msg "type" = msg :=
    QJsonObject.ref_of_toString msg "type" (by rw [h]; decide)
  simp [onTextMessageReceived, ht, h, QJsonObject.toString_value_ref]

theorem onText_textRemove (s : SyncServer) (d : Disk) (now : String) (client : Socket)
    (msg : QJsonObject) (h : (QJsonObject.value msg "type").toString = "textRemove") :
    onTextMessageReceived s d now client (JsonValue.object msg) =
      if containsId "textId" s.m_textState (QJsonObject.value msg "textId").toString then
        relay { s with m_textState := (removeFirst "textId" s.m_textState
                  (QJsonObject.value msg "textId").toString) }
          (saveState { s with m_textState := (removeFirst "textId" s.m_textState
                  (QJsonObject.value msg "textId").toString) }
            d now)
          (QJsonObject.ref msg "textId") (s.clientId client)
      else relay s d (QJsonObject.ref msg "textId") (s.clientId client) := by
  have ht : QJsonObject.ref msg "type" = msg :=
    QJsonObject.ref_of_toString msg "type" (by rw [h]; decide)
  simp [onTextMessageReceived, ht, h, QJsonObject.toString_value_ref]

/-- A message of a type that does not touch the room state leaves the hub as it was. -/
theorem onText_other (s : SyncServer) (d : Disk) (now : String) (client : Socket)
    (msg : QJsonObject)
    (h1 : (QJsonObject.value msg "type").toString ≠ "imageAdd")
    (h2 : (QJsonObject.value msg "type").toString ≠ "imageUpdate")
    (h3 : (QJsonObject.value msg "type").toString ≠ "imageRemove")
    (h4 : (QJsonObject.value msg "type").toString ≠ "textAdd")
    (h5 : (QJsonObject.value msg "type").toString ≠ "textUpdate")
    (h6 : (QJsonObject.value msg "type").toString ≠ "textRemove")
    (h7 : (QJsonObject.value msg "type").toString ≠ "pushSync") :
    (onTextMessageReceived s d now client (JsonValue.object msg)).server = s ∧
    (onTextMessageReceived s d now client (JsonValue.object msg)).disk = d := by
  simp only [onTextMessageReceived, QJsonObject.toString_value_ref, h1, h2, h3, h4, h5, h6, h7,
    if_false]
  split_ifs <;> exact ⟨rfl, rfl⟩

/-- One message keeps the ids of the stored records pairwise distinct. -/
theorem onText_unique (s : SyncServer) (d : Disk) (now : String) (client : Socket)
    (doc : JsonValue)
    (hwf : ∀ msg, doc = JsonValue.object msg → QJsonObject.WellFormed msg)
    (hb : (s.m_boardState.map (recordId "imageId")).Nodup)
    (ht : (s.m_textState.map (recordId "textId")).Nodup) :
    ((onTextMessageReceived s d now client doc).server.m_boardState.map
      (recordId "imageId")).Nodup ∧
    ((onTextMessageReceived s d now client doc).server.m_textState.map
      (recordId "textId")).Nodup := by
  cases doc with
  | object msg =>
      have hw := hwf msg rfl
      by_cases h1 : (QJsonObject.value msg "type").toString = "imageAdd"
      · rw [onText_imageAdd s d now client msg h1]
        split
        · exact ⟨hb, ht⟩
        · next hc =>
          exact ⟨nodup_append_new "imageId" s.m_boardState _ hb
            (by rw [show recordId "imageId" (JsonValue.object (QJsonObject.ref msg "imageId")) = _
                  from QJsonObject.toString_value_ref msg "imageId"]
                simpa using hc), ht⟩
      by_cases h2 : (QJsonObject.value msg "type").toString = "imageUpdate"
      · rw [onText_imageUpdate s d now client msg h2]
        refine ⟨?_, ht⟩
        show ((mergeUpdate "imageId" _ s.m_boardState _).map (recordId "imageId")).Nodup
        rw [mergeUpdate_ids "imageId" _ (QJsonObject.wellFormed_ref msg "imageId" hw) _ _
          (QJsonObject.toString_value_ref msg "imageId")]
        exact hb
      by_cases h3 : (QJsonObject.value msg "type").toString = "imageRemove"
      · rw [onText_imageRemove s d now client msg h3]
        split
        · exact ⟨removeFirst_nodup "imageId" s.m_boardState _ hb, ht⟩
        · exact ⟨hb, ht⟩
      by_cases h4 : (QJsonObject.value msg "type").toString = "textAdd"
      · rw [onText_textAdd s d now client msg h4]
        split
        · exact ⟨hb, ht⟩
        · next hc =>
          exact ⟨hb, nodup_append_new "textId" s.m_textState _ ht
            (by rw [show recordId "textId" (JsonValue.object (QJsonObject.ref msg "textId")) = _
                  from QJsonObject.toString_value_ref msg "textId"]
                simpa using hc)⟩
      by_cases h5 : (QJsonObject.value msg "type").toString = "textUpdate"
      · rw [onText_textUpdate s d now client msg h5]
        refine ⟨hb, ?_⟩
        show ((mergeUpdate "textId" _ s.m_textState _).map (recordId "textId")).Nodup
        rw [mergeUpdate_ids "textId" _ (QJsonObject.wellFormed_ref msg "textId" hw) _ _
          (QJsonObject.toString_value_ref msg "textId")]
        exact ht
      by_cases h6 : (QJsonObject.value msg "type").toString = "textRemove"
      · rw [onText_textRemove s d now client msg h6]
        split
        · exact ⟨hb, removeFirst_nodup "textId" s.m_textState _ ht⟩
        · exact ⟨hb, ht⟩
      by_cases h7 : (QJsonObject.value msg "type").toString = "pushSync"
      · rw [onText_pushSync s d now client msg h7]
        exact ⟨pushMerge_nodup "imageId" _ _ _ hb, pushMerge_nodup "textId" _ _ _ ht⟩
      · rw [(onText_other s d now client msg h1 h2 h3 h4 h5 h6 h7).1]
        exact ⟨hb, ht⟩
  | undefined => exact ⟨hb, ht⟩
  | null => exact ⟨hb, ht⟩
  | bool b => exact ⟨hb, ht⟩
  | double q => exact ⟨hb, ht⟩
  | string str => exact ⟨hb, ht⟩
  | array items => exact ⟨hb, ht⟩

/-- One turn of the event loop keeps the ids of the stored records pairwise distinct. -/
theorem handleEvent_unique (s : SyncServer) (d : Disk) (e : HubEvent)
    (hwf : ∀ now client msg, e = HubEvent.textMessage now client (JsonValue.object msg) →
      QJsonObject.WellFormed msg)
    (hb : (s.m_boardState.map (recordId "imageId")).Nodup)
    (ht : (s.m_textState.map (recordId "textId")).Nodup) :
    (((s.handleEvent d e).server.m_boardState.map (recordId "imageId")).Nodup) ∧
    (((s.handleEvent d e).server.m_textState.map (recordId "textId")).Nodup) := by
  cases e with
  | newConnection client newId => exact ⟨hb, ht⟩
  | textMessage now client doc =>
      exact onText_unique s d now client doc (fun msg h => hwf now client msg (by rw [h])) hb ht
  | clientDisconnected client => exact ⟨hb, ht⟩
  | saveTimeout now => exact ⟨hb, ht⟩

theorem runEvents_unique (events : List HubEvent) (s : SyncServer) (d : Disk)
    (hwf : ∀ e ∈ events, ∀ now client msg,
      e = HubEvent.textMessage now client (JsonValue.object msg) → QJsonObject.WellFormed msg)
    (hb : (s.m_boardState.map (recordId "imageId")).Nodup)
    (ht : (s.m_textState.map (recordId "textId")).Nodup) :
    (((s.runEvents d events).server.m_boardState.map (recordId "imageId")).Nodup) ∧
    (((s.runEvents d events).server.m_textState.map (recordId "textId")).Nodup) := by
  induction events generalizing s d with
  | nil => exact ⟨hb, ht⟩
  | cons e rest ih =>
      obtain ⟨h1, h2⟩ := handleEvent_unique s d e (hwf e (List.mem_cons_self e rest)) hb ht
      exact ih (s.handleEvent d e).server (s.handleEvent d e).disk
        (fun e2 he2 => hwf e2 (List.mem_cons_of_mem e he2)) h1 h2

/-- C15. Unique item ids in RoomState: starting from a hub with an empty room, after any
sequence of connections, disconnections, save-timer timeouts and messages of any type,
each message an object that binds no key twice or not an object at all, no two stored
image records have the same imageId and no two stored text records have the same
textId. -/
theorem roomstate_ids_unique (path : String) (d : Disk) (events : List HubEvent)
    (hwf : ∀ e ∈ events, ∀ now client msg,
      e = HubEvent.textMessage now client (JsonValue.object msg) → QJsonObject.WellFormed msg) :
    ((((fresh path).runEvents d events).server.m_boardState.map (recordId "imageId")).Nodup) ∧
    ((((fresh path).runEvents d events).server.m_textState.map (recordId "textId")).Nodup) :=
  runEvents_unique events (fresh path) d hwf List.nodup_nil List.nodup_nil

/-- C16. Hub remove: in a room state without duplicate ids, handling an imageRemove
(textRemove) message leaves exactly the image (text) records whose id differs from the
message's, unchanged and in their order, so none with the message's id, and leaves the
records of the other kind as they were; when no record has the id the hub state and the
storage are unchanged. -/
theorem hub_remove (s : SyncServer) (d : Disk) (now : String) (client : Socket)
    (msg : QJsonObject)
    (hb : (s.m_boardState.map (recordId "imageId")).Nodup)
    (ht : (s.m_textState.map (recordId "textId")).Nodup) :
    ((QJsonObject.value msg "type").toString = "imageRemove" →
      (onTextMessageReceived s d now client (JsonValue.object msg)).server.m_boardState =
        s.m_boardState.filter (fun rec => decide
          (recordId "imageId" rec ≠ (QJsonObject.value msg "imageId").toString)) ∧
      (QJsonObject.value msg "imageId").toString ∉
        (onTextMessageReceived s d now client (JsonValue.object msg)).server.m_boardState.map
          (recordId "imageId") ∧
      (onTextMessageReceived s d now client (JsonValue.object msg)).server.m_textState =
        s.m_textState ∧
      (containsId "imageId" s.m_boardState (QJsonObject.value msg "imageId").toString = false →
        (onTextMessageReceived s d now client (JsonValue.object msg)).server = s ∧
        (onTextMessageReceived s d now client (JsonValue.object msg)).disk = d)) ∧
    ((QJsonObject.value msg "type").toString = "textRemove" →
      (onTextMessageReceived s d now client (JsonValue.object msg)).server.m_textState =
        s.m_textState.filter (fun rec => decide
          (recordId "textId" rec ≠ (QJsonObject.value msg "textId").toString)) ∧
      (QJsonObject.value msg "textId").toString ∉
        (onTextMessageReceived s d now client (JsonValue.object msg)).server.m_textState.map
          (recordId "textId") ∧
      (onTextMessageReceived s d now client (JsonValue.object msg)).server.m_boardState =
        s.m_boardState ∧
      (containsId "textId" s.m_textState (QJsonObject.value msg "textId").toString = false →
        (onTextMessageReceived s d now client (JsonValue.object msg)).server = s ∧
        (onTextMessageReceived s d now client (JsonValue.object msg)).disk = d)) := by
  refine ⟨fun h => ?_, fun h => ?_⟩
  · have hst : (onTextMessageReceived s d now client (JsonValue.object msg)).server.m_boardState
        = removeFirst "imageId" s.m_boardState (QJsonObject.value msg "imageId").toString := by
      rw [onText_imageRemove s d now client msg h]
      split
      · rfl
      · next hc =>
        exact (removeFirst_absent "imageId" _ _ (by simpa using hc)).symm
    rw [hst, removeFirst_eq_filter "imageId" _ _ hb]
    refine ⟨rfl, ?_, ?_, ?_⟩
    · simp [List.mem_filter]
    · rw [onText_imageRemove s d now client msg h]
      split <;> rfl
    · intro hc
      rw [onText_imageRemove s d now client msg h, hc]
      exact ⟨rfl, rfl⟩
  · have hst : (onTextMessageReceived s d now client (JsonValue.object msg)).server.m_textState
        = removeFirst "textId" s.m_textState (QJsonObject.value msg "textId").toString := by
      rw [onText_textRemove s d now client msg h]
      split
      · rfl
      · next hc =>
        exact (removeFirst_absent "textId" _ _ (by simpa using hc)).symm
    rw [hst, removeFirst_eq_filter "textId" _ _ ht]
    refine ⟨rfl, ?_, ?_, ?_⟩
    · simp [List.mem_filter]
    · rw [onText_textRemove s d now client msg h]
      split <;> rfl
    · intro hc
      rw [onText_textRemove s d now client msg h, hc]
      exact ⟨rfl, rfl⟩

/-- The update branches never write: whatever the state and the message, an imageUpdate
or a textUpdate leaves the storage as it was. -/
theorem update_leaves_storage (s : SyncServer) (d : Disk) (now : String) (client : Socket)
    (msg : QJsonObject)
    (htype : (QJsonObject.value msg "type").toString = "imageUpdate" ∨
      (QJsonObject.value msg "type").toString = "textUpdate") :
    (onTextMessageReceived s d now client (JsonValue.object msg)).disk = d := by
  rcases htype with h | h
  · rw [onText_imageUpdate s d now client msg h]
    rfl
  · rw [onText_textUpdate s d now client msg h]
    rfl

/-- The save is skipped for an empty room: an imageRemove or a textRemove after which the
hub holds no record leaves the storage as it was. -/
theorem remove_last_leaves_storage (s : SyncServer) (d : Disk) (now : String)
    (client : Socket) (msg : QJsonObject)
    (htype : (QJsonObject.value msg "type").toString = "imageRemove" ∨
      (QJsonObject.value msg "type").toString = "textRemove")
    (hb : (onTextMessageReceived s d now client (JsonValue.object msg)).server.m_boardState = [])
    (ht : (onTextMessageReceived s d now client (JsonValue.object msg)).server.m_textState = []) :
    (onTextMessageReceived s d now client (JsonValue.object msg)).disk = d := by
  rcases htype with h | h
  · rw [onText_imageRemove s d now client msg h] at hb ht ⊢
    split
    · next hc =>
      rw [if_pos hc] at hb ht
      simp only [relay] at hb ht
      simp [relay, saveState, hb, ht]
    · rfl
  · rw [onText_textRemove s d now client msg h] at hb ht ⊢
    split
    · next hc =>
      rw [if_pos hc] at hb ht
      simp only [relay] at hb ht
      simp [relay, saveState, hb, ht]
    · rfl

/-- A save that is not skipped, followed by the start of a hub on the same save file: the
started hub holds the images and the texts that were saved. -/
theorem saveState_then_restart (s : SyncServer) (d : Disk) (now : String)
    (hne : s.m_boardState ≠ [] ∨ s.m_textState ≠ [])
    (hpath : s.m_saveFilePath ≠ "")
    (hopen : d.canOpen s.m_saveFilePath = true) :
    (restart s.m_saveFilePath (s.saveState d now)).m_boardState = s.m_boardState ∧
    (restart s.m_saveFilePath (s.saveState d now)).m_textState = s.m_textState := by
  have hempty : (s.m_boardState.isEmpty && s.m_textState.isEmpty) = false := by
    rcases hne with h | h
    · cases hb : s.m_boardState with
      | nil => exact absurd hb h
      | cons a l => simp
    · cases hb : s.m_textState with
      | nil => exact absurd hb h
      | cons a l => simp
  have hsave : s.saveState d now = d.write s.m_saveFilePath (JsonValue.object
      (QJsonObject.insert (QJsonObject.insert (QJsonObject.insert [] "images"
        (JsonValue.array s.m_boardState)) "texts" (JsonValue.array s.m_textState))
        "savedAt" (JsonValue.string now))) := by
    simp [saveState, hpath, hempty, hopen]
  have hload : restart s.m_saveFilePath (s.saveState d now) = { fresh s.m_saveFilePath with
      m_boardState := s.m_boardState, m_textState := s.m_textState } := by
    show (fresh s.m_saveFilePath).loadState (s.saveState d now) = _
    rw [hsave]
    unfold loadState
    have hp : (fresh s.m_saveFilePath).m_saveFilePath = s.m_saveFilePath := rfl
    simp only [hp, hpath, if_false, Disk.write, qhash_value_insert]
    have hopen2 : Disk.canOpen { files := QHash.insert d.files s.m_saveFilePath (JsonValue.object
        (QJsonObject.insert (QJsonObject.insert (QJsonObject.insert [] "images"
          (JsonValue.array s.m_boardState)) "texts" (JsonValue.array s.m_textState))
          "savedAt" (JsonValue.string now))), denied := d.denied } s.m_saveFilePath = true :=
      hopen
    rw [if_pos hopen2]
    rfl
  rw [hload]
  exact ⟨rfl, rfl⟩

theorem mergeUpdate_length (key : String) (msg : QJsonObject) (state : QJsonArray)
    (id : String) : (mergeUpdate key msg state id).length = state.length := by
  induction state with
  | nil => rfl
  | cons rec rest ih =>
      by_cases hr : recordId key rec = id
      · simp [mergeUpdate, hr]
      · simp [mergeUpdate, hr, ih]

theorem ne_nil_of_containsId (key : String) (state : QJsonArray) (id : String)
    (h : containsId key state id = true) : state ≠ [] := by
  intro e
  rw [e] at h
  exact Bool.false_ne_true h

/-- C17 (amended). Updates reach the storage with the next save: handling an imageUpdate or
a textUpdate that matches a stored record leaves the storage as it was, so a hub started
right after it loads what a hub started right before the message would have loaded; the
next call of `saveState` (the slot of the 30 s save timer, also called before the hub
stops), with a save path that is set and a save file that can be opened, writes the
room state with the merged record, and a hub started after it loads that room state. -/
theorem update_saved_by_next_save (s : SyncServer) (d : Disk) (now now2 : String)
    (client : Socket) (msg : QJsonObject)
    (hmatch : ((QJsonObject.value msg "type").toString = "imageUpdate" ∧
        containsId "imageId" s.m_boardState (QJsonObject.value msg "imageId").toString = true) ∨
      ((QJsonObject.value msg "type").toString = "textUpdate" ∧
        containsId "textId" s.m_textState (QJsonObject.value msg "textId").toString = true))
    (hpath : s.m_saveFilePath ≠ "")
    (hopen : d.canOpen s.m_saveFilePath = true) :
    let r := onTextMessageReceived s d now client (JsonValue.object msg)
    r.disk = d ∧
    restart s.m_saveFilePath r.disk = restart s.m_saveFilePath d ∧
    (r.server.handleEvent r.disk (HubEvent.saveTimeout now2)).server = r.server ∧
    (r.server.handleEvent r.disk (HubEvent.saveTimeout now2)).disk =
      r.server.saveState r.disk now2 ∧
    (restart s.m_saveFilePath (r.server.saveState r.disk now2)).m_boardState =
      r.server.m_boardState ∧
    (restart s.m_saveFilePath (r.server.saveState r.disk now2)).m_textState =
      r.server.m_textState := by
  intro r
  have hdisk : r.disk = d :=
    update_leaves_storage s d now client msg
      (hmatch.elim (fun h => Or.inl h.1) (fun h => Or.inr h.1))
  have hp : r.server.m_saveFilePath = s.m_saveFilePath := by
    rcases hmatch with h | h
    · show (onTextMessageReceived s d now client (JsonValue.object msg)).server.m_saveFilePath = _
      rw [onText_imageUpdate s d now client msg h.1]
      rfl
    · show (onTextMessageReceived s d now client (JsonValue.object msg)).server.m_saveFilePath = _
      rw [onText_textUpdate s d now client msg h.1]
      rfl
  have hne : r.server.m_boardState ≠ [] ∨ r.server.m_textState ≠ [] := by
    rcases hmatch with h | h
    · left
      have hb : r.server.m_boardState = mergeUpdate "imageId" (QJsonObject.ref msg "imageId")
          s.m_boardState (QJsonObject.value msg "imageId").toString := by
        show (onTextMessageReceived s d now client (JsonValue.object msg)).server.m_boardState = _
        rw [onText_imageUpdate s d now client msg h.1]
        rfl
      intro e
      have hl := mergeUpdate_length "imageId" (QJsonObject.ref msg "imageId") s.m_boardState
        (QJsonObject.value msg "imageId").toString
      rw [← hb, e] at hl
      exact ne_nil_of_containsId _ _ _ h.2 (List.length_eq_zero.1 hl.symm)
    · right
      have hb : r.server.m_textState = mergeUpdate "textId" (QJsonObject.ref msg "textId")
          s.m_textState (QJsonObject.value msg "textId").toString := by
        show (onTextMessageReceived s d now client (JsonValue.object msg)).server.m_textState = _
        rw [onText_textUpdate s d now client msg h.1]
        rfl
      intro e
      have hl := mergeUpdate_length "textId" (QJsonObject.ref msg "textId") s.m_textState
        (QJsonObject.value msg "textId").toString
      rw [← hb, e] at hl
      exact ne_nil_of_containsId _ _ _ h.2 (List.length_eq_zero.1 hl.symm)
  have hrt := saveState_then_restart r.server r.disk now2 hne (by rw [hp]; exact hpath)
    (by rw [hp, hdisk]; exact hopen)
  rw [hp] at hrt
  exact ⟨hdisk, by rw [hdisk], rfl, rfl, hrt.1, hrt.2⟩

end SyncServer

/-! ## Orchestrator: spacing of cursor messages -/

/-- What `SpacedFrom` says position by position. -/
theorem SpacedFrom.get (gap : Nat) (times : List Nat) (lo lo2 : Nat)
    (h : SpacedFrom gap lo lo2 times) :
    (∀ a, times.get? 0 = some a → lo ≤ a) ∧
    (∀ a, times.get? 1 = some a → lo2 ≤ a) ∧
    (∀ i a c, times.get? i = some a → times.get? (i + 2) = some c → a + gap ≤ c) := by
  induction times generalizing lo lo2 with
  | nil => simp
  | cons t rest ih =>
      obtain ⟨ha, hb⟩ := h
      obtain ⟨i0, i1, i2⟩ := ih lo2 (t + gap) hb
      refine ⟨?_, ?_, ?_⟩
      · intro a h0
        simp only [List.get?_cons_zero, Option.some.injEq] at h0
        exact h0 ▸ ha
      · intro a h1
        exact i0 a h1
      · intro i a c hi hc
        cases i with
        | zero =>
            simp only [List.get?_cons_zero, Option.some.injEq] at hi
            subst hi
            exact i1 c hc
        | succ j => exact i2 j a c hi hc

namespace CollabManager

theorem sendCursorUpdate_spec (m : CollabManager) :
    (sendCursorUpdate m).1.cursorThrottleDue = m.cursorThrottleDue ∧
    ((sendCursorUpdate m).2 = [] ∨ ∃ f, (sendCursorUpdate m).2 = [f]) := by
  unfold sendCursorUpdate
  split
  · refine ⟨rfl, ?_⟩
    unfold send
    split
    · exact Or.inr ⟨_, rfl⟩
    · exact Or.inl rfl
  · exact ⟨rfl, Or.inl rfl⟩

/-- The event loop reaching `now`: nothing happens unless the throttle timer is due, and
then the timer is stopped and at most one frame is sent, stamped with the due time. -/
theorem advanceTo_spec (m : CollabManager) (now : Nat) :
    ((advanceTo m now = (m, [])) ∧
      (m.cursorThrottleDue = none ∨ ∃ due, m.cursorThrottleDue = some due ∧ now < due)) ∨
    (∃ due, m.cursorThrottleDue = some due ∧ due ≤ now ∧
      (advanceTo m now).1.cursorThrottleDue = none ∧
      (sendTimes (advanceTo m now).2 = [] ∨ sendTimes (advanceTo m now).2 = [due])) := by
  cases hd : m.cursorThrottleDue with
  | none =>
      left
      exact ⟨by simp [advanceTo, hd], Or.inl rfl⟩
  | some due =>
      by_cases hle : due ≤ now
      · right
        obtain ⟨s1, s2⟩ := sendCursorUpdate_spec { m with cursorThrottleDue := none }
        refine ⟨due, rfl, hle, ?_, ?_⟩
        · simp only [advanceTo, hd, if_pos hle, onCursorThrottleTimeout]
          exact s1
        · simp only [advanceTo, hd, if_pos hle, onCursorThrottleTimeout, sendTimes]
          rcases s2 with h | ⟨f, h⟩
          · left
            rw [h]
            rfl
          · right
            rw [h]
            rfl
      · left
        exact ⟨by simp [advanceTo, hd, hle], Or.inr ⟨due, rfl, Nat.lt_of_not_le hle⟩⟩

/-- A pointer move at `now`: with the timer idle the timer is armed for `now + 50` and at
most one frame is sent; with the timer running nothing is sent and the timer is as before. -/
theorem onLocalCursorMoved_spec (m : CollabManager) (now : Nat) (pos : Rat × Rat) :
    (m.cursorThrottleDue = none →
      (onLocalCursorMoved m now pos).1.cursorThrottleDue = some (now + CURSOR_THROTTLE_MS) ∧
      ((onLocalCursorMoved m now pos).2 = [] ∨ ∃ f, (onLocalCursorMoved m now pos).2 = [f])) ∧
    (∀ due, m.cursorThrottleDue = some due →
      (onLocalCursorMoved m now pos).1.cursorThrottleDue = some due ∧
      (onLocalCursorMoved m now pos).2 = []) := by
  refine ⟨fun hd => ?_, fun due hd => ?_⟩
  · simp only [onLocalCursorMoved, hd, Option.isNone_none, if_true]
    exact ⟨trivial, (sendCursorUpdate_spec _).2⟩
  · simp [onLocalCursorMoved, hd]

theorem cursorSession_nil (m : CollabManager) (tEnd : Nat) :
    cursorSession m [] tEnd = (advanceTo m tEnd).2 := by
  simp [cursorSession, cursorMoves]

theorem cursorSession_cons (m : CollabManager) (t : Nat) (pos : Rat × Rat)
    (rest : List (Nat × (Rat × Rat))) (tEnd : Nat) :
    sendTimes (cursorSession m ((t, pos) :: rest) tEnd) =
      sendTimes (advanceTo m t).2 ++
        ((onLocalCursorMoved (advanceTo m t).1 t pos).2.map (fun _ => t) ++
          sendTimes (cursorSession (onLocalCursorMoved (advanceTo m t).1 t pos).1 rest tEnd)) := by
  simp [cursorSession, cursorMoves, sendTimes, List.append_assoc, Function.comp]

/-- The throttle invariant along a session: with `lo` and `lo2` the earliest times allowed
for the next frame and the one after it, neither later than the due time of a running
timer, nor (for an idle timer) than the current time and the current time plus the
throttle interval, every frame of the session is sent at least the interval after the
frame two places before it. -/
theorem cursorSession_spaced (moves : List (Nat × (Rat × Rat))) (m : CollabManager)
    (T lo lo2 tEnd : Nat)
    (hsorted : moves.Pairwise (fun a b => a.1 ≤ b.1))
    (hT : ∀ e ∈ moves, T ≤ e.1)
    (hsome : ∀ due, m.cursorThrottleDue = some due → lo ≤ due ∧ lo2 ≤ due)
    (hnone : m.cursorThrottleDue = none → lo ≤ T ∧ lo2 ≤ T + CURSOR_THROTTLE_MS) :
    SpacedFrom CURSOR_THROTTLE_MS lo lo2 (sendTimes (cursorSession m moves tEnd)) := by
  induction moves generalizing m T lo lo2 with
  | nil =>
      rw [cursorSession_nil]
      rcases advanceTo_spec m tEnd with ⟨h, _⟩ | ⟨due, hd, _, _, h | h⟩
      · rw [h]
        trivial
      · rw [h]
        trivial
      · rw [h]
        exact ⟨(hsome due hd).1, trivial⟩
  | cons e rest ih =>
      obtain ⟨t, pos⟩ := e
      rw [cursorSession_cons]
      have hTt : T ≤ t := hT (t, pos) (List.mem_cons_self _ _)
      have hrest : ∀ e ∈ rest, t ≤ e.1 := fun e he => (List.pairwise_cons.1 hsorted).1 e he
      have hsorted2 := (List.pairwise_cons.1 hsorted).2
      -- the rest of the session, from a state whose timer is due at `x`
      have key : ∀ (m2 : CollabManager) (x a b : Nat), m2.cursorThrottleDue = some x →
          a ≤ x → b ≤ x →
          SpacedFrom CURSOR_THROTTLE_MS a b (sendTimes (cursorSession m2 rest tEnd)) := by
        intro m2 x a b hx ha hb
        refine ih m2 t a b hsorted2 hrest ?_ ?_
        · intro due hd
          rw [hx] at hd
          cases hd
          exact ⟨ha, hb⟩
        · intro hn
          rw [hx] at hn
          cases hn
      obtain ⟨mv1, mv2⟩ := onLocalCursorMoved_spec (advanceTo m t).1 t pos
      rcases advanceTo_spec m t with ⟨ha, hidle | ⟨due, hd, hlt⟩⟩ | ⟨due, hd, hle, hstop, hfl⟩
      · -- timer idle: the move is sent at once
        rw [ha] at mv1 ⊢
        obtain ⟨hdue, hsent⟩ := mv1 hidle
        obtain ⟨n1, n2⟩ := hnone hidle
        rcases hsent with h | ⟨f, h⟩
        · rw [h]
          exact key _ _ lo lo2 hdue (by omega) (by omega)
        · rw [h]
          show SpacedFrom _ lo lo2 (t :: _)
          exact ⟨by omega, key _ _ lo2 (t + CURSOR_THROTTLE_MS) hdue (by omega) (Nat.le_refl _)⟩
      · -- timer running: the move is only recorded
        rw [ha] at mv2 ⊢
        obtain ⟨hdue, hsent⟩ := mv2 due hd
        obtain ⟨s1, s2⟩ := hsome due hd
        rw [hsent]
        exact key _ due lo lo2 hdue s1 s2
      · -- timer due: it times out, then the move is sent at once
        obtain ⟨hdue, hsent⟩ := mv1 hstop
        obtain ⟨s1, s2⟩ := hsome due hd
        rcases hfl with hf | hf <;> rcases hsent with h | ⟨f, h⟩
        · rw [hf, h]
          exact key _ _ lo lo2 hdue (by omega) (by omega)
        · rw [hf, h]
          show SpacedFrom _ lo lo2 (t :: _)
          exact ⟨by omega, key _ _ lo2 (t + CURSOR_THROTTLE_MS) hdue (by omega) (Nat.le_refl _)⟩
        · rw [hf, h]
          exact ⟨s1, key _ _ lo2 (due + CURSOR_THROTTLE_MS) hdue (by omega) (by omega)⟩
        · rw [hf, h]
          show SpacedFrom _ lo lo2 (due :: t :: _)
          exact ⟨s1, by omega, key _ _ (due + CURSOR_THROTTLE_MS) (t + CURSOR_THROTTLE_MS) hdue
            (by omega) (Nat.le_refl _)⟩

/-- C20 (amended). Cursor throttling: for every sequence of local pointer moves arriving
in time order, the event loop then reaching any time `tEnd`, every cursor message is
sent at least 50 ms after the cursor message sent two places before it, so any window
shorter than 50 ms holds at most two of them. -/
theorem cursor_messages_spaced (m : CollabManager) (moves : List (Nat × (Rat × Rat)))
    (tEnd : Nat) (hsorted : moves.Pairwise (fun a b => a.1 ≤ b.1)) :
    ∀ i a c, (sendTimes (cursorSession m moves tEnd)).get? i = some a →
      (sendTimes (cursorSession m moves tEnd)).get? (i + 2) = some c →
      a + CURSOR_THROTTLE_MS ≤ c :=
  (SpacedFrom.get CURSOR_THROTTLE_MS _ 0 0
    (cursorSession_spaced moves m 0 0 0 tEnd hsorted (fun _ _ => Nat.zero_le _)
      (fun _ _ => ⟨Nat.zero_le _, Nat.zero_le _⟩)
      (fun _ => ⟨Nat.zero_le _, Nat.zero_le _⟩))).2.2

end CollabManager

/-! ## Concrete runs: unusable payloads, partial moves, unsaved changes, reconnection -/

/-- C11 (counterexample). An imageAdd of another participant whose payload does not
decode, applied twice to a mirror without the image `A`: no image has the id `A`
afterwards. -/
theorem undecodable_add_leaves_no_item :
    (QJsonObject.value exampleEmptyAdd "oderId").toString ≠
      (exampleManager "x" exampleBoard).m_client.m_oderId ∧
    (CollabManager.handleImageAdd examplePlatform
      (CollabManager.handleImageAdd examplePlatform (exampleManager "x" exampleBoard)
        exampleEmptyAdd).1 exampleEmptyAdd).1.imageKeys.count
      (QJsonObject.value exampleEmptyAdd "imageId").toString = 0 :=
  ⟨by decide, by decide⟩

/-- C12 (counterexample). An imageUpdate of another participant that contains `x = 5`
and no `y`, for the image `img1` held at `x = 0`: the image is still at `x = 0`
afterwards. -/
theorem update_x_without_y_ignored :
    (QJsonObject.value exampleMoveX "oderId").toString ≠
      (exampleManager "x" exampleBoard).m_client.m_oderId ∧
    QJsonObject.contains exampleMoveX "x" = true ∧
    (QJsonObject.value exampleMoveX "x").toDouble = 5 ∧
    ∃ item, ((CollabManager.handleImageUpdate examplePlatform (exampleManager "x" exampleBoard)
        exampleMoveX).1.m_scene.bind
        (fun sc => sc.findImageItem (QJsonObject.value exampleMoveX "imageId").toString))
        = some item ∧
      item.x = 0 ∧ item.x ≠ (QJsonObject.value exampleMoveX "x").toDouble :=
  ⟨by decide, rfl, rfl, _, rfl, rfl, by decide⟩

/-- C20 (counterexample). Moves at 0 ms, 10 ms and 51 ms on a connected orchestrator:
cursor messages are sent at 0 ms, at 50 ms (the flush) and at 51 ms, the last two 1 ms
apart. -/
theorem cursor_move_after_flush_sent_at_once :
    (exampleManager "x" exampleBoard).isConnected = true ∧
    CollabManager.sendTimes
      (CollabManager.cursorSession (exampleManager "x" exampleBoard) exampleFlushMoves 200) =
      [0, 50, 51] ∧
    ∃ i a b, (CollabManager.sendTimes (CollabManager.cursorSession
        (exampleManager "x" exampleBoard) exampleFlushMoves 200)).get? i = some a ∧
      (CollabManager.sendTimes (CollabManager.cursorSession
        (exampleManager "x" exampleBoard) exampleFlushMoves 200)).get? (i + 1) = some b ∧
      b < a + CURSOR_THROTTLE_MS :=
  ⟨rfl, rfl, 1, 50, 51, rfl, rfl, by decide⟩

/-- C17 (counterexample). The hub holds the image `B` at `x = 0`, saved; an imageUpdate
with `x = 5` arrives.  The stored record then has `x = 5`, the storage is what it was
before the message, and a hub started on it loads `x = 0`. -/
theorem hub_update_not_saved :
    (exampleServer.onTextMessageReceived exampleSavedDisk "t1" 1
      (JsonValue.object exampleUpdateX)).server.m_boardState.map
        (fun rec => QJsonObject.value rec.toObject "x") = [JsonValue.double 5] ∧
    (exampleServer.onTextMessageReceived exampleSavedDisk "t1" 1
      (JsonValue.object exampleUpdateX)).disk = exampleSavedDisk ∧
    (SyncServer.restart "shared_board.json"
      (exampleServer.onTextMessageReceived exampleSavedDisk "t1" 1
        (JsonValue.object exampleUpdateX)).disk).m_boardState.map
        (fun rec => QJsonObject.value rec.toObject "x") = [JsonValue.double 0] :=
  ⟨rfl, rfl, rfl⟩

/-- C18. The hub holds the image `B` and nothing else, saved; an imageRemove for `B`
arrives.  The room is then empty, the storage is what it was before the message, and a
hub started on it holds `B` again. -/
theorem hub_last_remove_not_saved :
    (exampleServer.onTextMessageReceived exampleSavedDisk "t1" 1
      (JsonValue.object exampleRemoveB)).server.m_boardState = [] ∧
    (exampleServer.onTextMessageReceived exampleSavedDisk "t1" 1
      (JsonValue.object exampleRemoveB)).server.m_textState = [] ∧
    (exampleServer.onTextMessageReceived exampleSavedDisk "t1" 1
      (JsonValue.object exampleRemoveB)).disk = exampleSavedDisk ∧
    (SyncServer.restart "shared_board.json"
      (exampleServer.onTextMessageReceived exampleSavedDisk "t1" 1
        (JsonValue.object exampleRemoveB)).disk).m_boardState = [exampleRecord] :=
  ⟨rfl, rfl, rfl, rfl⟩

/-- C19. A connected client is told to `disconnect()`, its socket then reports that it
has closed, and 5 s later the reconnect timer times out: after `disconnect()` the
reconnect timer is stopped, after the socket's report it is running, and at its timeout
the client opens a connection to the hub again, though `connectToServer` was not called. -/
theorem disconnect_then_reconnects :
    exampleClient.disconnect.1.reconnectTimerActive = false ∧
    (exampleClient.disconnect.1.step ClientEvent.socketDisconnected).1.reconnectTimerActive
      = true ∧
    ((exampleClient.disconnect.1.run
      [ClientEvent.socketDisconnected, ClientEvent.reconnectTimeout]).2.filter
        ClientEffect.isOpen).length = 1 ∧
    (exampleClient.disconnect.1.run
      [ClientEvent.socketDisconnected, ClientEvent.reconnectTimeout]).1.socketState
      = SocketState.connecting :=
  ⟨rfl, rfl, rfl, rfl⟩

/-! ## Hub: routing of relayed messages -/

namespace SyncServer

/-- The frames for one socket among those of a broadcast, as `framesFor` lists them. -/
theorem framesFor_broadcast (s : SyncServer) (msg : QJsonObject) (exclude : String)
    (c : Socket) (hnd : s.m_clients.Nodup) :
    framesFor c (s.broadcast msg exclude) =
      if c ∈ s.m_clients ∧ s.clientId c ≠ exclude then [msg] else [] := by
  unfold framesFor
  rw [broadcast_to s msg exclude c hnd]
  split <;> rfl

theorem framesFor_append (c : Socket) (a b : List Frame) :
    framesFor c (a ++ b) = framesFor c a ++ framesFor c b := by
  simp [framesFor]

theorem framesFor_sendToClient (s : SyncServer) (cid : String) (msg : QJsonObject)
    (client c : Socket) (hback : QHash.value s.m_clientsById cid = some client) :
    framesFor c (s.sendToClient cid msg) = if c = client then [msg] else [] := by
  unfold framesFor sendToClient
  rw [hback]
  by_cases h : c = client
  · subst h
    simp
  · have h2 : ¬ client = c := fun e => h e.symm
    simp [h, h2]

/-- The message a relaying branch holds, for a message with a type: the message received,
after the read of the branch's id key if it has one. -/
theorem relayedMsg_of_type (msg : QJsonObject) (t : String)
    (h : (QJsonObject.value msg "type").toString = t) (hne : t ≠ "") :
    relayedMsg msg = (idKeyOf t).elim msg (QJsonObject.ref msg) := by
  have ht : QJsonObject.ref msg "type" = msg :=
    QJsonObject.ref_of_toString msg "type" (by rw [h]; exact hne)
  unfold relayedMsg
  simp only [ht, h]
  cases idKeyOf t <;> rfl

/-- What the relaying branches send: for each of the eight relayed types, the broadcast
of the stamped message, followed for `join` by the user list for the sender. -/
theorem onText_relayed_sent (s : SyncServer) (d : Disk) (now : String) (client : Socket)
    (msg : QJsonObject)
    (htype : (QJsonObject.value msg "type").toString ∈ relayedTypes) :
    (onTextMessageReceived s d now client (JsonValue.object msg)).sent =
      s.broadcast (QJsonObject.insert (relayedMsg msg) "userId"
        (JsonValue.string (s.clientId client))) (s.clientId client) ++
      (if (QJsonObject.value msg "type").toString = "join" then
        s.sendToClient (s.clientId client) (s.userListMsg (s.clientId client)) else []) := by
  simp only [relayedTypes, List.mem_cons, List.mem_singleton, List.not_mem_nil,
    or_false] at htype
  have ht : QJsonObject.ref msg "type" = msg :=
    QJsonObject.ref_of_toString msg "type" (by
      rcases htype with h | h | h | h | h | h | h | h <;> rw [h] <;> decide)
  rcases htype with h | h | h | h | h | h | h | h
  · rw [relayedMsg_of_type msg _ h (by decide)]
    simp [onTextMessageReceived, ht, h, idKeyOf]
  · rw [relayedMsg_of_type msg _ h (by decide)]
    simp [onTextMessageReceived, ht, h, relay, idKeyOf]
  · rw [relayedMsg_of_type msg _ h (by decide), onText_imageAdd s d now client msg h]
    split <;> simp [relay, broadcast, clientId, h, idKeyOf]
  · rw [relayedMsg_of_type msg _ h (by decide), onText_imageUpdate s d now client msg h]
    simp [relay, broadcast, clientId, h, idKeyOf]
  · rw [relayedMsg_of_type msg _ h (by decide), onText_imageRemove s d now client msg h]
    split <;> simp [relay, broadcast, clientId, h, idKeyOf]
  · rw [relayedMsg_of_type msg _ h (by decide), onText_textAdd s d now client msg h]
    split <;> simp [relay, broadcast, clientId, h, idKeyOf]
  · rw [relayedMsg_of_type msg _ h (by decide), onText_textUpdate s d now client msg h]
    simp [relay, broadcast, clientId, h, idKeyOf]
  · rw [relayedMsg_of_type msg _ h (by decide), onText_textRemove s d now client msg h]
    split <;> simp [relay, broadcast, clientId, h, idKeyOf]

/-- C21. Broadcast to all but sender: when the connections are pairwise distinct, the
sender's identity leads back to the sender and no other connection has it, then for a
message of type join, cursor, imageAdd, imageUpdate, imageRemove, textAdd, textUpdate or
textRemove, in every room state, each connection other than the sender receives exactly
one frame, the message with `userId` set to the sender's identity; the sender receives
nothing, except for a join its user list, a frame of type `userList`; a socket that is
not connected receives nothing.  The message stamped is the one the branch holds
(`relayedMsg`): the message received for a join or a cursor and for a message that binds
the id key of its branch (`imageId` or `textId`), and the message received followed by
that key bound to null for a message that does not bind it. -/
theorem broadcast_all_but_sender (s : SyncServer) (d : Disk) (now : String) (client : Socket)
    (msg : QJsonObject)
    (htype : (QJsonObject.value msg "type").toString ∈ relayedTypes)
    (hnd : s.m_clients.Nodup)
    (hback : QHash.value s.m_clientsById (s.clientId client) = some client)
    (hinj : ∀ c ∈ s.m_clients, c ≠ client → s.clientId c ≠ s.clientId client) :
    (∀ c ∈ s.m_clients, c ≠ client →
      framesFor c (onTextMessageReceived s d now client (JsonValue.object msg)).sent =
        [QJsonObject.insert (relayedMsg msg) "userId" (JsonValue.string (s.clientId client))]) ∧
    framesFor client (onTextMessageReceived s d now client (JsonValue.object msg)).sent =
      (if (QJsonObject.value msg "type").toString = "join" then
        [s.userListMsg (s.clientId client)] else []) ∧
    QJsonObject.value (s.userListMsg (s.clientId client)) "type" =
      JsonValue.string "userList" ∧
    (∀ c, c ∉ s.m_clients → c ≠ client →
      framesFor c (onTextMessageReceived s d now client (JsonValue.object msg)).sent = []) ∧
    (idKeyOf (QJsonObject.value msg "type").toString = none → relayedMsg msg = msg) ∧
    (∀ key, idKeyOf (QJsonObject.value msg "type").toString = some key →
      (QJsonObject.contains msg key = true → relayedMsg msg = msg) ∧
      (QJsonObject.contains msg key = false →
        relayedMsg msg = msg ++ [(key, JsonValue.null)])) := by
  have hne : (QJsonObject.value msg "type").toString ≠ "" := by
    intro e
    rw [e] at htype
    exact absurd htype (by decide)
  have hrel := relayedMsg_of_type msg _ rfl hne
  rw [onText_relayed_sent s d now client msg htype]
  refine ⟨?_, ?_, rfl, ?_, ?_, ?_⟩
  · intro c hc hne
    rw [framesFor_append, framesFor_broadcast _ _ _ _ hnd, if_pos ⟨hc, hinj c hc hne⟩]
    split
    · rw [framesFor_sendToClient s _ _ client c hback, if_neg hne]
      rfl
    · rfl
  · rw [framesFor_append, framesFor_broadcast _ _ _ _ hnd, if_neg (fun h => h.2 rfl)]
    split
    · rw [framesFor_sendToClient s _ _ client client hback, if_pos rfl]
      rfl
    · rfl
  · intro c hc hne
    rw [framesFor_append, framesFor_broadcast _ _ _ _ hnd, if_neg (fun h => hc h.1)]
    split
    · rw [framesFor_sendToClient s _ _ client c hback, if_neg hne]
      rfl
    · rfl
  · intro hk
    rw [hrel, hk]
    rfl
  · intro key hk
    rw [hrel, hk]
    exact ⟨QJsonObject.ref_of_contains msg key, QJsonObject.ref_of_absent msg key⟩

/-- C22. A requestSync is reply-only: when the requester's identity leads back to the
requester, handling a requestSync leaves the hub state and the storage as they were and
sends exactly one frame, to the requester: a fullSync whose images are the stored image
records and whose texts are the stored text records. -/
theorem request_sync_reply_only (s : SyncServer) (d : Disk) (now : String) (client : Socket)
    (msg : QJsonObject) (htype : (QJsonObject.value msg "type").toString = "requestSync")
    (hback : QHash.value s.m_clientsById (s.clientId client) = some client) :
    (onTextMessageReceived s d now client (JsonValue.object msg)).server = s ∧
    (onTextMessageReceived s d now client (JsonValue.object msg)).disk = d ∧
    (onTextMessageReceived s d now client (JsonValue.object msg)).sent =
      [(client, s.fullSyncMsg)] ∧
    QJsonObject.value s.fullSyncMsg "type" = JsonValue.string "fullSync" ∧
    QJsonObject.value s.fullSyncMsg "images" = JsonValue.array s.m_boardState ∧
    QJsonObject.value s.fullSyncMsg "texts" = JsonValue.array s.m_textState := by
  have hr : onTextMessageReceived s d now client (JsonValue.object msg) =
      { server := s, disk := d, sent := s.sendToClient (s.clientId client) s.fullSyncMsg } := by
    have ht : QJsonObject.ref msg "type" = msg :=
      QJsonObject.ref_of_toString msg "type" (by rw [htype]; decide)
    simp [onTextMessageReceived, ht, htype]
  rw [hr]
  refine ⟨rfl, rfl, ?_, rfl, rfl, rfl⟩
  show s.sendToClient (s.clientId client) s.fullSyncMsg = _
  unfold sendToClient
  rw [hback]

end SyncServer

/-! ## Hub: what changes the room state -/

namespace SyncServer

/-- An event that carries no message of a storing type leaves the stored records as they
were. -/
theorem handleEvent_frame (s : SyncServer) (d : Disk) (e : HubEvent)
    (h : ∀ t, e.messageType = some t → t ∉ storingTypes) :
    (s.handleEvent d e).server.m_boardState = s.m_boardState ∧
    (s.handleEvent d e).server.m_textState = s.m_textState := by
  cases e with
  | newConnection client newId => exact ⟨rfl, rfl⟩
  | clientDisconnected client => exact ⟨rfl, rfl⟩
  | saveTimeout now => exact ⟨rfl, rfl⟩
  | textMessage now client doc =>
      cases doc with
      | object msg =>
          have ht := h _ rfl
          simp only [storingTypes, List.mem_cons, List.mem_singleton, List.not_mem_nil,
            or_false, not_or] at ht
          obtain ⟨h1, h2, h3, h4, h5, h6, h7⟩ := ht
          have hs := (onText_other s d now client msg h1 h2 h3 h4 h5 h6 h7).1
          exact ⟨congrArg SyncServer.m_boardState hs, congrArg SyncServer.m_textState hs⟩
      | undefined => exact ⟨rfl, rfl⟩
      | null => exact ⟨rfl, rfl⟩
      | bool b => exact ⟨rfl, rfl⟩
      | double q => exact ⟨rfl, rfl⟩
      | string str => exact ⟨rfl, rfl⟩
      | array items => exact ⟨rfl, rfl⟩

/-- An event other than a remove message keeps every stored id, in place: the ids after
it are the ids before it followed by those of the records it added. -/
theorem handleEvent_keeps (s : SyncServer) (d : Disk) (e : HubEvent)
    (hwf : ∀ now client msg, e = HubEvent.textMessage now client (JsonValue.object msg) →
      QJsonObject.WellFormed msg)
    (h : ∀ t, e.messageType = some t → t ≠ "imageRemove" ∧ t ≠ "textRemove") :
    (∃ added, (s.handleEvent d e).server.m_boardState.map (recordId "imageId") =
      s.m_boardState.map (recordId "imageId") ++ added) ∧
    (∃ added, (s.handleEvent d e).server.m_textState.map (recordId "textId") =
      s.m_textState.map (recordId "textId") ++ added) := by
  have hsame : ∀ r : HubResult, r.server = s →
      (∃ added, r.server.m_boardState.map (recordId "imageId") =
        s.m_boardState.map (recordId "imageId") ++ added) ∧
      (∃ added, r.server.m_textState.map (recordId "textId") =
        s.m_textState.map (recordId "textId") ++ added) := by
    intro r hr
    rw [hr]
    exact ⟨⟨[], by simp⟩, ⟨[], by simp⟩⟩
  cases e with
  | newConnection client newId => exact ⟨⟨[], by simp [handleEvent, onNewConnection]⟩,
      ⟨[], by simp [handleEvent, onNewConnection]⟩⟩
  | clientDisconnected client => exact ⟨⟨[], by simp [handleEvent, onClientDisconnected]⟩,
      ⟨[], by simp [handleEvent, onClientDisconnected]⟩⟩
  | saveTimeout now => exact hsame _ rfl
  | textMessage now client doc =>
      cases doc with
      | object msg =>
          have hw := hwf now client msg rfl
          obtain ⟨h3, h6⟩ := h _ rfl
          show (∃ added, (onTextMessageReceived s d now client
            (JsonValue.object msg)).server.m_boardState.map (recordId "imageId") = _) ∧
            (∃ added, (onTextMessageReceived s d now client
            (JsonValue.object msg)).server.m_textState.map (recordId "textId") = _)
          by_cases h1 : (QJsonObject.value msg "type").toString = "imageAdd"
          · rw [onText_imageAdd s d now client msg h1]
            split
            · exact hsame _ rfl
            · exact ⟨⟨[recordId "imageId" (JsonValue.object (QJsonObject.ref msg "imageId"))],
                by simp [relay]⟩, ⟨[], by simp [relay]⟩⟩
          by_cases h2 : (QJsonObject.value msg "type").toString = "imageUpdate"
          · rw [onText_imageUpdate s d now client msg h2]
            refine ⟨⟨[], ?_⟩, ⟨[], by simp [relay]⟩⟩
            show (mergeUpdate "imageId" _ s.m_boardState _).map (recordId "imageId") = _
            rw [mergeUpdate_ids "imageId" _ (QJsonObject.wellFormed_ref msg "imageId" hw) _ _
              (QJsonObject.toString_value_ref msg "imageId")]
            simp
          by_cases h4 : (QJsonObject.value msg "type").toString = "textAdd"
          · rw [onText_textAdd s d now client msg h4]
            split
            · exact hsame _ rfl
            · exact ⟨⟨[], by simp [relay]⟩,
                ⟨[recordId "textId" (JsonValue.object (QJsonObject.ref msg "textId"))],
                  by simp [relay]⟩⟩
          by_cases h5 : (QJsonObject.value msg "type").toString = "textUpdate"
          · rw [onText_textUpdate s d now client msg h5]
            refine ⟨⟨[], by simp [relay]⟩, ⟨[], ?_⟩⟩
            show (mergeUpdate "textId" _ s.m_textState _).map (recordId "textId") = _
            rw [mergeUpdate_ids "textId" _ (QJsonObject.wellFormed_ref msg "textId" hw) _ _
              (QJsonObject.toString_value_ref msg "textId")]
            simp
          by_cases h7 : (QJsonObject.value msg "type").toString = "pushSync"
          · rw [onText_pushSync s d now client msg h7]
            obtain ⟨a1, e1⟩ := pushMerge_extends "imageId"
              (QJsonObject.value msg "images").toArray s.m_boardState false
            obtain ⟨a2, e2⟩ := pushMerge_extends "textId"
              (QJsonObject.value msg "texts").toArray s.m_textState
              (pushMerge "imageId" s.m_boardState false
                (QJsonObject.value msg "images").toArray).2
            refine ⟨⟨a1.map (recordId "imageId"), ?_⟩, ⟨a2.map (recordId "textId"), ?_⟩⟩
            · show (pushMerge "imageId" s.m_boardState false _).1.map _ = _
              rw [e1, List.map_append]
            · show (pushMerge "textId" s.m_textState _ _).1.map _ = _
              rw [e2, List.map_append]
          · exact hsame _ (onText_other s d now client msg h1 h2 h3 h4 h5 h6 h7).1
      | undefined => exact hsame _ rfl
      | null => exact hsame _ rfl
      | bool b => exact hsame _ rfl
      | double q => exact hsame _ rfl
      | string str => exact hsame _ rfl
      | array items => exact hsame _ rfl

theorem runEvents_cons (s : SyncServer) (d : Disk) (e : HubEvent) (rest : List HubEvent) :
    (s.runEvents d (e :: rest)).server =
      ((s.handleEvent d e).server.runEvents (s.handleEvent d e).disk rest).server := rfl

/-- C23. RoomState outlives sessions: over any sequence of hub events (connections,
disconnections, save-timer timeouts, text frames) in which no frame is an imageAdd,
imageUpdate, imageRemove, textAdd, textUpdate, textRemove or pushSync message, the
stored images and texts at the end are those at the start; and over any sequence in
which no frame is an imageRemove or textRemove message (objects binding no key twice),
every stored id is still stored at the end, in place: the ids at the end are the ids at
the start followed by the ids added. -/
theorem roomstate_outlives_sessions (s : SyncServer) (d : Disk) (events : List HubEvent) :
    ((∀ e ∈ events, ∀ t, e.messageType = some t → t ∉ storingTypes) →
      (s.runEvents d events).server.m_boardState = s.m_boardState ∧
      (s.runEvents d events).server.m_textState = s.m_textState) ∧
    ((∀ e ∈ events, ∀ now client msg,
        e = HubEvent.textMessage now client (JsonValue.object msg) →
        QJsonObject.WellFormed msg) →
      (∀ e ∈ events, ∀ t, e.messageType = some t → t ≠ "imageRemove" ∧ t ≠ "textRemove") →
      (∃ added, (s.runEvents d events).server.m_boardState.map (recordId "imageId") =
        s.m_boardState.map (recordId "imageId") ++ added) ∧
      (∃ added, (s.runEvents d events).server.m_textState.map (recordId "textId") =
        s.m_textState.map (recordId "textId") ++ added)) := by
  induction events generalizing s d with
  | nil => exact ⟨fun _ => ⟨rfl, rfl⟩, fun _ _ => ⟨⟨[], by simp [runEvents]⟩,
      ⟨[], by simp [runEvents]⟩⟩⟩
  | cons e rest ih =>
      obtain ⟨ih1, ih2⟩ := ih (s.handleEvent d e).server (s.handleEvent d e).disk
      rw [runEvents_cons]
      refine ⟨fun h => ?_, fun hwf h => ?_⟩
      · obtain ⟨a1, a2⟩ := handleEvent_frame s d e (h e (List.mem_cons_self e rest))
        obtain ⟨b1, b2⟩ := ih1 (fun e2 he2 => h e2 (List.mem_cons_of_mem e he2))
        exact ⟨b1.trans a1, b2.trans a2⟩
      · obtain ⟨⟨x1, a1⟩, ⟨x2, a2⟩⟩ := handleEvent_keeps s d e
          (hwf e (List.mem_cons_self e rest)) (h e (List.mem_cons_self e rest))
        obtain ⟨⟨y1, b1⟩, ⟨y2, b2⟩⟩ := ih2
          (fun e2 he2 => hwf e2 (List.mem_cons_of_mem e he2))
          (fun e2 he2 => h e2 (List.mem_cons_of_mem e he2))
        exact ⟨⟨x1 ++ y1, by rw [b1, a1, List.append_assoc]⟩,
          ⟨x2 ++ y2, by rw [b2, a2, List.append_assoc]⟩⟩

end SyncServer

/-! ## Concurrent edits of one image, end to end -/

/-- The message `sendImageUpdate` builds, field by field: it carries all five geometry
fields of the local item. -/
theorem CollabManager.imageUpdateMsg_eq (m : CollabManager) (item : ImageItem) :
    CollabManager.imageUpdateMsg m item =
      [("type", JsonValue.string "imageUpdate"),
       ("oderId", JsonValue.string m.m_client.m_oderId),
       ("imageId", JsonValue.string item.id), ("x", JsonValue.double item.x),
       ("y", JsonValue.double item.y), ("rotation", JsonValue.double item.rotation),
       ("scale", JsonValue.double item.scale), ("zIndex", JsonValue.double item.zValue)] := rfl

theorem CollabManager.imageUpdateMsg_wellFormed (m : CollabManager) (item : ImageItem) :
    QJsonObject.WellFormed (CollabManager.imageUpdateMsg m item) := by
  rw [CollabManager.imageUpdateMsg_eq]
  unfold QJsonObject.WellFormed QJsonObject.keys
  simp only [List.map_cons, List.map_nil]
  decide

namespace SyncServer

/-- C26 (amended). Two participants change the same stored image and each orchestrator
sends the imageUpdate it builds for its local item: after the hub has handled both, the
record is in its place and its position, rotation, scale and z-index are those of the
item whose update was handled last, in either arrival order; the update handled first
leaves no geometry field of its own behind. -/
theorem concurrent_updates_last_wins (s : SyncServer) (d : Disk) (now1 now2 : String)
    (c1 c2 : Socket) (m1 m2 : CollabManager) (i1 i2 : ImageItem) (pre : QJsonArray)
    (rec : JsonValue) (post : QJsonArray)
    (hid1 : i1.id = recordId "imageId" rec) (hid2 : i2.id = recordId "imageId" rec)
    (hst : s.m_boardState = pre ++ rec :: post)
    (hpre : ∀ p ∈ pre, recordId "imageId" p ≠ recordId "imageId" rec) :
    (∃ merged,
      (onTextMessageReceived
        (onTextMessageReceived s d now1 c1
          (JsonValue.object (CollabManager.imageUpdateMsg m1 i1))).server
        (onTextMessageReceived s d now1 c1
          (JsonValue.object (CollabManager.imageUpdateMsg m1 i1))).disk now2 c2
        (JsonValue.object (CollabManager.imageUpdateMsg m2 i2))).server.m_boardState =
          pre ++ JsonValue.object merged :: post ∧
      QJsonObject.value merged "x" = JsonValue.double i2.x ∧
      QJsonObject.value merged "y" = JsonValue.double i2.y ∧
      QJsonObject.value merged "rotation" = JsonValue.double i2.rotation ∧
      QJsonObject.value merged "scale" = JsonValue.double i2.scale ∧
      QJsonObject.value merged "zIndex" = JsonValue.double i2.zValue) ∧
    (∃ merged,
      (onTextMessageReceived
        (onTextMessageReceived s d now1 c2
          (JsonValue.object (CollabManager.imageUpdateMsg m2 i2))).server
        (onTextMessageReceived s d now1 c2
          (JsonValue.object (CollabManager.imageUpdateMsg m2 i2))).disk now2 c1
        (JsonValue.object (CollabManager.imageUpdateMsg m1 i1))).server.m_boardState =
          pre ++ JsonValue.object merged :: post ∧
      QJsonObject.value merged "x" = JsonValue.double i1.x ∧
      QJsonObject.value merged "y" = JsonValue.double i1.y ∧
      QJsonObject.value merged "rotation" = JsonValue.double i1.rotation ∧
      QJsonObject.value merged "scale" = JsonValue.double i1.scale ∧
      QJsonObject.value merged "zIndex" = JsonValue.double i1.zValue) := by
  have key : ∀ (ca cb : Socket) (ma mb : CollabManager) (ia ib : ImageItem),
      ia.id = recordId "imageId" rec → ib.id = recordId "imageId" rec →
      ∃ merged,
        (onTextMessageReceived
          (onTextMessageReceived s d now1 ca
            (JsonValue.object (CollabManager.imageUpdateMsg ma ia))).server
          (onTextMessageReceived s d now1 ca
            (JsonValue.object (CollabManager.imageUpdateMsg ma ia))).disk now2 cb
          (JsonValue.object (CollabManager.imageUpdateMsg mb ib))).server.m_boardState =
            pre ++ JsonValue.object merged :: post ∧
        QJsonObject.value merged "x" = JsonValue.double ib.x ∧
        QJsonObject.value merged "y" = JsonValue.double ib.y ∧
        QJsonObject.value merged "rotation" = JsonValue.double ib.rotation ∧
        QJsonObject.value merged "scale" = JsonValue.double ib.scale ∧
        QJsonObject.value merged "zIndex" = JsonValue.double ib.zValue := by
    intro ca cb ma mb ia ib ha hb
    obtain ⟨merged, h1, h2⟩ := two_updates_at s d now1 now2 ca cb
      (CollabManager.imageUpdateMsg ma ia) (CollabManager.imageUpdateMsg mb ib) pre rec post
      (CollabManager.imageUpdateMsg_wellFormed ma ia)
      (CollabManager.imageUpdateMsg_wellFormed mb ib) rfl rfl ha hb hst hpre
    refine ⟨merged, h1, ?_, ?_, ?_, ?_, ?_⟩
    · rw [h2 "x" (by decide)]; rfl
    · rw [h2 "y" (by decide)]; rfl
    · rw [h2 "rotation" (by decide)]; rfl
    · rw [h2 "scale" (by decide)]; rfl
    · rw [h2 "zIndex" (by decide)]; rfl
  exact ⟨key c1 c2 m1 m2 i1 i2 hid1 hid2, key c2 c1 m2 m1 i2 i1 hid2 hid1⟩

end SyncServer

/-! ## Orchestrator: applying a snapshot twice, and whose geometry wins -/

theorem qhash_value_append_some {κ α : Type} [DecidableEq κ] (h a : List (κ × α)) (k : κ)
    (v : α) (hv : QHash.value h k = some v) : QHash.value (h ++ a) k = some v := by
  induction h with
  | nil => simp [QHash.value] at hv
  | cons kv rest ih =>
      obtain ⟨k1, w⟩ := kv
      by_cases h1 : k1 = k
      · simp only [QHash.value, h1, if_true] at hv
        simp [QHash.value, h1, hv]
      · simp only [QHash.value, h1, if_false] at hv
        simp [QHash.value, h1, ih hv]

namespace CollabManager

/-- The item `createImage` adds, for an id the scene does not hold: its id, position,
rotation and scale are the arguments. -/
theorem createImage_item (P : Platform) (m : CollabManager) (sc : CanvasScene) (isGif : Bool)
    (id : String) (data : QByteArray) (x y rotation scale : Rat)
    (habsent : QHash.value sc.m_items id = none) :
    (createImage P m sc isGif id data x y rotation scale).1.m_scene = m.m_scene ∨
    ∃ item : ImageItem, item.id = id ∧ item.x = x ∧ item.y = y ∧ item.rotation = rotation ∧
      item.scale = scale ∧
      (createImage P m sc isGif id data x y rotation scale).1.m_scene =
        some { sc with m_items := sc.m_items ++ [(id, item)] } := by
  cases isGif with
  | true =>
      by_cases hw : P.canWrite (P.tempPath m.uuidCount) = true
      · right
        refine ⟨⟨id, P.loadFromData data, P.tempPath m.uuidCount, x, y, rotation, scale,
          (sc.nextZValue : Rat)⟩, rfl, rfl, rfl, rfl, rfl, ?_⟩
        simp [createImage, hw, CanvasScene.addImageItemFromFile, habsent, qhash_insert_new]
      · left
        simp [createImage, hw]
  | false =>
      by_cases hn : (P.loadFromData data).isNull = true
      · left
        simp [createImage, hn]
      · right
        refine ⟨⟨id, P.loadFromData data, "", x, y, rotation, scale,
          (sc.nextZValue : Rat)⟩, rfl, rfl, rfl, rfl, rfl, ?_⟩
        simp [createImage, hn, CanvasScene.addImageItem, habsent, qhash_insert_new]

/-- One round of the image loop, in detail: the scene is as before, or the record's id was
absent and not empty and one image made from the record is added under it. -/
theorem fullSyncImage_detail (P : Platform) (acc : Handled) (v : JsonValue) (sc : CanvasScene)
    (hs : acc.1.m_scene = some sc) :
    (fullSyncImage P acc v).1.m_scene = some sc ∨
    (QHash.value sc.m_items (SyncServer.recordId "imageId" v) = none ∧
      ∃ item : ImageItem, FromRecord item v ∧
        (fullSyncImage P acc v).1.m_scene =
          some { sc with m_items := sc.m_items ++ [(SyncServer.recordId "imageId" v, item)] }) := by
  have hid : SyncServer.recordId "imageId" v =
      (QJsonObject.value v.toObject "imageId").toString := rfl
  by_cases h1 : (QJsonObject.value v.toObject "imageId").toString = ""
  · left
    simp [fullSyncImage, hs, h1]
  by_cases h2 : (sc.findImageItem (QJsonObject.value v.toObject "imageId").toString).isSome = true
  · left
    simp [fullSyncImage, hs, h1, h2]
  by_cases h3 : (QJsonObject.value v.toObject "imageData").toString = ""
  · left
    simp [fullSyncImage, hs, h1, h2, h3]
  by_cases h4 : P.fromBase64 (QJsonObject.value v.toObject "imageData").toString = []
  · left
    simp [fullSyncImage, hs, h1, h2, h3, h4]
  have habsent : QHash.value sc.m_items (QJsonObject.value v.toObject "imageId").toString
      = none := by
    cases hq : QHash.value sc.m_items (QJsonObject.value v.toObject "imageId").toString with
    | none => rfl
    | some it => simp [CanvasScene.findImageItem, hq] at h2
  have hr : (fullSyncImage P acc v).1 =
      (createImage P acc.1 sc ((QJsonObject.value v.toObject "isGif").toBool false)
        (QJsonObject.value v.toObject "imageId").toString
        (P.fromBase64 (QJsonObject.value v.toObject "imageData").toString)
        (QJsonObject.value v.toObject "x").toDouble (QJsonObject.value v.toObject "y").toDouble
        (QJsonObject.value v.toObject "rotation").toDouble
        ((QJsonObject.value v.toObject "scale").toDouble 1)).1 := by
    simp [fullSyncImage, hs, h1, h2, h3, h4]
  rw [hr, hid]
  rcases createImage_item P acc.1 sc ((QJsonObject.value v.toObject "isGif").toBool false)
    (QJsonObject.value v.toObject "imageId").toString
    (P.fromBase64 (QJsonObject.value v.toObject "imageData").toString)
    (QJsonObject.value v.toObject "x").toDouble (QJsonObject.value v.toObject "y").toDouble
    (QJsonObject.value v.toObject "rotation").toDouble
    ((QJsonObject.value v.toObject "scale").toDouble 1) habsent with h | ⟨item, i1, i2, i3, i4, i5, h⟩
  · left
    rw [h, hs]
  · right
    exact ⟨habsent, item, ⟨i1, i2, i3, i4, i5⟩, h⟩

/-- One round of the text loop, in detail: the scene is as before, or the record's id was
absent and one text is added under it. -/
theorem fullSyncText_detail (P : Platform) (acc : Handled) (v : JsonValue) (sc : CanvasScene)
    (hs : acc.1.m_scene = some sc) :
    (fullSyncText P acc v).1.m_scene = some sc ∨
    (QHash.value sc.m_textItems (SyncServer.recordId "textId" v) = none ∧
      ∃ item : TextItem, (fullSyncText P acc v).1.m_scene =
        some { sc with m_textItems :=
          sc.m_textItems ++ [(SyncServer.recordId "textId" v, item)] }) := by
  have hid : SyncServer.recordId "textId" v =
      (QJsonObject.value v.toObject "textId").toString := rfl
  by_cases h1 : (QJsonObject.value v.toObject "textId").toString = ""
  · left
    simp [fullSyncText, hs, h1]
  cases hq : QHash.value sc.m_textItems (QJsonObject.value v.toObject "textId").toString with
  | some it =>
      left
      simp [fullSyncText, hs, h1, CanvasScene.findTextItem, hq]
  | none =>
      right
      rw [hid]
      refine ⟨hq, ?_⟩
      simp only [fullSyncText, hs, h1, if_false, CanvasScene.findTextItem, hq,
        CanvasScene.addTextItem, qhash_insert_new _ _ _ hq]
      exact ⟨_, rfl⟩

/-- The image loop, in detail: images are added at the end of `m_items`, each under an id
the scene did not hold, made from a record of the snapshot with that id; ids stay
pairwise distinct; the texts are untouched. -/
theorem fullSyncImages_detail (P : Platform) (vals : QJsonArray) (acc : Handled)
    (sc : CanvasScene) (hs : acc.1.m_scene = some sc) :
    ∃ added, (vals.foldl (fullSyncImage P) acc).1.m_scene =
        some { sc with m_items := sc.m_items ++ added } ∧
      ((sc.m_items.map Prod.fst).Nodup → ((sc.m_items ++ added).map Prod.fst).Nodup) ∧
      ∀ kv ∈ added, QHash.value sc.m_items kv.1 = none ∧
        ∃ v ∈ vals, kv.1 = SyncServer.recordId "imageId" v ∧ FromRecord kv.2 v := by
  induction vals generalizing acc sc with
  | nil => exact ⟨[], by simp [hs], by simp, by simp⟩
  | cons v rest ih =>
      rw [List.foldl_cons]
      rcases fullSyncImage_detail P acc v sc hs with h | ⟨habs, item, hfrom, h⟩
      · obtain ⟨added, e1, e2, e3⟩ := ih (fullSyncImage P acc v) sc h
        refine ⟨added, e1, e2, fun kv hkv => ?_⟩
        obtain ⟨a, w, hw, b⟩ := e3 kv hkv
        exact ⟨a, w, List.mem_cons_of_mem _ hw, b⟩
      · obtain ⟨added, e1, e2, e3⟩ := ih (fullSyncImage P acc v) _ h
        refine ⟨(SyncServer.recordId "imageId" v, item) :: added, ?_, ?_, ?_⟩
        · rw [e1]
          simp
        · intro hnd
          have hnd1 : ((sc.m_items ++ [(SyncServer.recordId "imageId" v, item)]).map
              Prod.fst).Nodup := by
            rw [List.map_append]
            refine List.Nodup.append hnd (List.nodup_singleton _) ?_
            intro a ha hb
            simp only [List.map_cons, List.map_nil, List.mem_singleton] at hb
            subst hb
            exact (qhash_value_none_iff sc.m_items _).1 habs ha
          have := e2 hnd1
          simpa using this
        · intro kv hkv
          rcases List.mem_cons.1 hkv with hk | hk
          · subst hk
            exact ⟨habs, v, List.mem_cons_self _ _, rfl, hfrom⟩
          · obtain ⟨a, w, hw, b⟩ := e3 kv hk
            refine ⟨?_, w, List.mem_cons_of_mem _ hw, b⟩
            cases hq : QHash.value sc.m_items kv.1 with
            | none => rfl
            | some it =>
                have := qhash_value_append_some sc.m_items
                  [(SyncServer.recordId "imageId" v, item)] kv.1 it hq
                simp only at a
                rw [this] at a
                cases a

/-- The text loop, in detail: texts are added at the end of `m_textItems`; ids stay pairwise
distinct; the images are untouched. -/
theorem fullSyncTexts_detail (P : Platform) (vals : QJsonArray) (acc : Handled)
    (sc : CanvasScene) (hs : acc.1.m_scene = some sc) :
    ∃ added, (vals.foldl (fullSyncText P) acc).1.m_scene =
        some { sc with m_textItems := sc.m_textItems ++ added } ∧
      ((sc.m_textItems.map Prod.fst).Nodup →
        ((sc.m_textItems ++ added).map Prod.fst).Nodup) := by
  induction vals generalizing acc sc with
  | nil => exact ⟨[], by simp [hs], by simp⟩
  | cons v rest ih =>
      rw [List.foldl_cons]
      rcases fullSyncText_detail P acc v sc hs with h | ⟨habs, item, h⟩
      · exact ih (fullSyncText P acc v) sc h
      · obtain ⟨added, e1, e2⟩ := ih (fullSyncText P acc v) _ h
        refine ⟨(SyncServer.recordId "textId" v, item) :: added, ?_, ?_⟩
        · rw [e1]
          simp
        · intro hnd
          have hnd1 : ((sc.m_textItems ++ [(SyncServer.recordId "textId" v, item)]).map
              Prod.fst).Nodup := by
            rw [List.map_append]
            refine List.Nodup.append hnd (List.nodup_singleton _) ?_
            intro a ha hb
            simp only [List.map_cons, List.map_nil, List.mem_singleton] at hb
            subst hb
            exact (qhash_value_none_iff sc.m_textItems _).1 habs ha
          have := e2 hnd1
          simpa using this

/-- The scene after `handleFullSync`: the tables as before, followed by the items added;
every added image is under an id the scene did not hold and made from a record of the
snapshot with that id; ids of each kind stay pairwise distinct. -/
theorem handleFullSync_detail (P : Platform) (m : CollabManager) (message : QJsonObject)
    (sc : CanvasScene) (hs : m.m_scene = some sc) :
    ∃ addI addT, (handleFullSync P m message).1.m_scene =
        some { sc with m_items := sc.m_items ++ addI, m_textItems := sc.m_textItems ++ addT } ∧
      ((sc.m_items.map Prod.fst).Nodup → ((sc.m_items ++ addI).map Prod.fst).Nodup) ∧
      ((sc.m_textItems.map Prod.fst).Nodup → ((sc.m_textItems ++ addT).map Prod.fst).Nodup) ∧
      ∀ kv ∈ addI, QHash.value sc.m_items kv.1 = none ∧
        ∃ v ∈ (QJsonObject.value message "images").toArray,
          kv.1 = SyncServer.recordId "imageId" v ∧ FromRecord kv.2 v := by
  obtain ⟨addI, i1, i2, i3⟩ := fullSyncImages_detail P
    (QJsonObject.value message "images").toArray ({ m with m_isSyncing := true }, []) sc hs
  obtain ⟨addT, t1, t2⟩ := fullSyncTexts_detail P (QJsonObject.value message "texts").toArray
    ((QJsonObject.value message "images").toArray.foldl (fullSyncImage P)
      ({ m with m_isSyncing := true }, [])) _ i1
  refine ⟨addI, addT, ?_, i2, t2, i3⟩
  have hr : (handleFullSync P m message).1.m_scene =
      ((QJsonObject.value message "texts").toArray.foldl (fullSyncText P)
        ((QJsonObject.value message "images").toArray.foldl (fullSyncImage P)
          ({ m with m_isSyncing := true }, []))).1.m_scene := by
    unfold handleFullSync
    split
    · next h =>
      rw [hs] at h
      cases h
    · rfl
  rw [hr, t1]

/-- A round of the image loop changes nothing for a record whose id is empty or already
in the mirror, or whose payload is unusable, when temporary files can be written. -/
theorem fullSyncImage_skip (P : Platform) (hw : ∀ n, P.canWrite (P.tempPath n) = true)
    (acc : Handled) (v : JsonValue)
    (h : SyncServer.recordId "imageId" v = "" ∨
      SyncServer.recordId "imageId" v ∈ acc.1.imageKeys ∨ ¬ DecodableBy P v.toObject) :
    fullSyncImage P acc v = acc := by
  have hid : SyncServer.recordId "imageId" v =
      (QJsonObject.value v.toObject "imageId").toString := rfl
  rw [hid] at h
  cases hs : acc.1.m_scene with
  | none => simp [fullSyncImage, hs]
  | some sc =>
      by_cases h1 : (QJsonObject.value v.toObject "imageId").toString = ""
      · simp [fullSyncImage, hs, h1]
      by_cases h2 : (sc.findImageItem
          (QJsonObject.value v.toObject "imageId").toString).isSome = true
      · simp [fullSyncImage, hs, h1, h2]
      by_cases h3 : (QJsonObject.value v.toObject "imageData").toString = ""
      · simp [fullSyncImage, hs, h1, h2, h3]
      by_cases h4 : P.fromBase64 (QJsonObject.value v.toObject "imageData").toString = []
      · simp [fullSyncImage, hs, h1, h2, h3, h4]
      have hnot : ¬ DecodableBy P v.toObject := by
        rcases h with h | h | h
        · exact absurd h h1
        · exfalso
          simp only [imageKeys, hs] at h
          exact h2 ((qhash_value_isSome_iff sc.m_items _).2 h)
        · exact h
      have hgif : (QJsonObject.value v.toObject "isGif").toBool false = false := by
        cases hg : (QJsonObject.value v.toObject "isGif").toBool false with
        | false => rfl
        | true =>
            exfalso
            refine hnot ⟨h3, h4, ?_⟩
            rw [if_pos hg]
            exact hw
      have hnull : (P.loadFromData (P.fromBase64
          (QJsonObject.value v.toObject "imageData").toString)).isNull = true := by
        cases hn : (P.loadFromData (P.fromBase64
            (QJsonObject.value v.toObject "imageData").toString)).isNull with
        | true => rfl
        | false =>
            exfalso
            refine hnot ⟨h3, h4, ?_⟩
            rw [hgif]
            simpa using hn
      simp [fullSyncImage, hs, h1, h2, h3, h4, hgif, createImage, hnull]

/-- A round of the text loop changes nothing for a record whose id is empty or already in
the mirror. -/
theorem fullSyncText_skip (P : Platform) (acc : Handled) (v : JsonValue)
    (h : SyncServer.recordId "textId" v = "" ∨ SyncServer.recordId "textId" v ∈ acc.1.textKeys) :
    fullSyncText P acc v = acc := by
  have hid : SyncServer.recordId "textId" v =
      (QJsonObject.value v.toObject "textId").toString := rfl
  rw [hid] at h
  cases hs : acc.1.m_scene with
  | none => simp [fullSyncText, hs]
  | some sc =>
      rcases h with h | h
      · simp [fullSyncText, hs, h]
      · simp only [textKeys, hs] at h
        have h2 := (qhash_value_isSome_iff sc.m_textItems _).2 h
        by_cases h1 : (QJsonObject.value v.toObject "textId").toString = ""
        · simp [fullSyncText, hs, h1]
        · simp [fullSyncText, hs, h1, CanvasScene.findTextItem, h2]

theorem fullSyncImages_skip (P : Platform) (hw : ∀ n, P.canWrite (P.tempPath n) = true)
    (vals : QJsonArray) (acc : Handled)
    (h : ∀ v ∈ vals, SyncServer.recordId "imageId" v = "" ∨
      SyncServer.recordId "imageId" v ∈ acc.1.imageKeys ∨ ¬ DecodableBy P v.toObject) :
    vals.foldl (fullSyncImage P) acc = acc := by
  induction vals with
  | nil => rfl
  | cons v rest ih =>
      rw [List.foldl_cons, fullSyncImage_skip P hw acc v (h v (List.mem_cons_self _ _))]
      exact ih (fun w hw2 => h w (List.mem_cons_of_mem _ hw2))

theorem fullSyncTexts_skip (P : Platform) (vals : QJsonArray) (acc : Handled)
    (h : ∀ v ∈ vals, SyncServer.recordId "textId" v = "" ∨
      SyncServer.recordId "textId" v ∈ acc.1.textKeys) :
    vals.foldl (fullSyncText P) acc = acc := by
  induction vals with
  | nil => rfl
  | cons v rest ih =>
      rw [List.foldl_cons, fullSyncText_skip P acc v (h v (List.mem_cons_self _ _))]
      exact ih (fun w hw2 => h w (List.mem_cons_of_mem _ hw2))

/-- Applying a snapshot to the state a first application of it left changes nothing and
sends nothing, when temporary files can be written. -/
theorem handleFullSync_again (P : Platform) (hw : ∀ n, P.canWrite (P.tempPath n) = true)
    (m : CollabManager) (message : QJsonObject) :
    handleFullSync P (handleFullSync P m message).1 message =
      ((handleFullSync P m message).1, []) := by
  cases hs : m.m_scene with
  | none =>
      have hr : handleFullSync P m message = (m, []) := by simp [handleFullSync, hs]
      rw [hr]
      exact hr
  | some sc =>
      obtain ⟨_, hsync, _, himg, htxt⟩ := handleFullSync_spec P m message sc hs
      obtain ⟨addI, addT, hsc, _, _, _⟩ := handleFullSync_detail P m message sc hs
      obtain ⟨F, hF⟩ : ∃ F, F = (handleFullSync P m message).1 := ⟨_, rfl⟩
      rw [← hF] at hsync himg htxt hsc ⊢
      have hI : (QJsonObject.value message "images").toArray.foldl (fullSyncImage P)
          ({ F with m_isSyncing := true }, []) = ({ F with m_isSyncing := true }, []) := by
        refine fullSyncImages_skip P hw _ _ (fun v hv => ?_)
        by_cases h1 : SyncServer.recordId "imageId" v = ""
        · exact Or.inl h1
        by_cases h2 : DecodableBy P v.toObject
        · exact Or.inr (Or.inl (himg v hv h1 h2))
        · exact Or.inr (Or.inr h2)
      have hT : (QJsonObject.value message "texts").toArray.foldl (fullSyncText P)
          ({ F with m_isSyncing := true }, []) = ({ F with m_isSyncing := true }, []) := by
        refine fullSyncTexts_skip P _ _ (fun v hv => ?_)
        by_cases h1 : SyncServer.recordId "textId" v = ""
        · exact Or.inl h1
        · exact Or.inr (htxt v hv h1)
      have hr : handleFullSync P F message =
          ({ ((QJsonObject.value message "texts").toArray.foldl (fullSyncText P)
              ((QJsonObject.value message "images").toArray.foldl (fullSyncImage P)
                ({ F with m_isSyncing := true }, []))).1 with m_isSyncing := false },
           ((QJsonObject.value message "texts").toArray.foldl (fullSyncText P)
              ((QJsonObject.value message "images").toArray.foldl (fullSyncImage P)
                ({ F with m_isSyncing := true }, []))).2) := by
        unfold handleFullSync
        split
        · next h =>
          rw [hsc] at h
          cases h
        · rfl
      rw [hr, hI, hT]
      cases F
      simp only at hsync
      subst hsync
      rfl

/-- C24 (amended). Applying a fullSync is idempotent, when temporary files can be written: for
every state and every fullSync message, a second application returns the state the
first one left and sends nothing.  On a mirror whose tables bind no id twice, no id is
bound twice afterwards either: an id the mirror held before is bound exactly once, and so
is the non-empty id of every record with a usable payload (of every text record),
however often the id occurs in the message. -/
theorem fullsync_idempotent (P : Platform) (hw : ∀ n, P.canWrite (P.tempPath n) = true)
    (m : CollabManager) (message : QJsonObject) :
    handleFullSync P (handleFullSync P m message).1 message =
      ((handleFullSync P m message).1, []) ∧
    (∀ sc, m.m_scene = some sc → (sc.m_items.map Prod.fst).Nodup →
      (handleFullSync P m message).1.imageKeys.Nodup ∧
      (∀ id ∈ m.imageKeys, (handleFullSync P m message).1.imageKeys.count id = 1) ∧
      (∀ v ∈ (QJsonObject.value message "images").toArray,
        SyncServer.recordId "imageId" v ≠ "" → DecodableBy P v.toObject →
        (handleFullSync P m message).1.imageKeys.count (SyncServer.recordId "imageId" v) = 1)) ∧
    (∀ sc, m.m_scene = some sc → (sc.m_textItems.map Prod.fst).Nodup →
      (handleFullSync P m message).1.textKeys.Nodup ∧
      (∀ id ∈ m.textKeys, (handleFullSync P m message).1.textKeys.count id = 1) ∧
      (∀ v ∈ (QJsonObject.value message "texts").toArray,
        SyncServer.recordId "textId" v ≠ "" →
        (handleFullSync P m message).1.textKeys.count (SyncServer.recordId "textId" v) = 1)) := by
  refine ⟨handleFullSync_again P hw m message, fun sc hs hnd => ?_, fun sc hs hnd => ?_⟩
  · obtain ⟨_, _, _, himg, _⟩ := handleFullSync_spec P m message sc hs
    obtain ⟨addI, addT, hsc, n1, _, _⟩ := handleFullSync_detail P m message sc hs
    have hkeys : (handleFullSync P m message).1.imageKeys = (sc.m_items ++ addI).map Prod.fst := by
      simp only [imageKeys, hsc]
    have hnd2 : (handleFullSync P m message).1.imageKeys.Nodup := by
      rw [hkeys]
      exact n1 hnd
    refine ⟨hnd2, fun id hid => ?_, fun v hv h1 h2 => ?_⟩
    · refine List.count_eq_one_of_mem hnd2 ?_
      rw [hkeys, List.map_append]
      simp only [imageKeys, hs] at hid
      exact List.mem_append_left _ hid
    · exact List.count_eq_one_of_mem hnd2 (himg v hv h1 h2)
  · obtain ⟨_, _, _, _, htxt⟩ := handleFullSync_spec P m message sc hs
    obtain ⟨addI, addT, hsc, _, n2, _⟩ := handleFullSync_detail P m message sc hs
    have hkeys : (handleFullSync P m message).1.textKeys =
        (sc.m_textItems ++ addT).map Prod.fst := by
      simp only [textKeys, hsc]
    have hnd2 : (handleFullSync P m message).1.textKeys.Nodup := by
      rw [hkeys]
      exact n2 hnd
    refine ⟨hnd2, fun id hid => ?_, fun v hv h1 => ?_⟩
    · refine List.count_eq_one_of_mem hnd2 ?_
      rw [hkeys, List.map_append]
      simp only [textKeys, hs] at hid
      exact List.mem_append_left _ hid
    · exact List.count_eq_one_of_mem hnd2 (htxt v hv h1)

end CollabManager

/-! ## Orchestrator: the guard between inbound messages -/

namespace CollabManager

theorem createImage_client (P : Platform) (m : CollabManager) (sc : CanvasScene) (isGif : Bool)
    (id : String) (data : QByteArray) (x y rotation scale : Rat) :
    (createImage P m sc isGif id data x y rotation scale).1.m_client = m.m_client := by
  unfold createImage
  split
  · dsimp only
    split <;> rfl
  · dsimp only
    split <;> rfl

theorem userListEntry_guard (P : Platform) (m : CollabManager) (v : JsonValue) :
    (userListEntry P m v).m_isSyncing = m.m_isSyncing ∧
    (userListEntry P m v).m_client = m.m_client := by
  unfold userListEntry
  dsimp only
  split <;> exact ⟨rfl, rfl⟩

theorem userList_guard (P : Platform) (vals : QJsonArray) (m : CollabManager) :
    (vals.foldl (userListEntry P) m).m_isSyncing = m.m_isSyncing ∧
    (vals.foldl (userListEntry P) m).m_client = m.m_client := by
  induction vals generalizing m with
  | nil => exact ⟨rfl, rfl⟩
  | cons v rest ih =>
      obtain ⟨a1, a2⟩ := userListEntry_guard P m v
      obtain ⟨b1, b2⟩ := ih (userListEntry P m v)
      exact ⟨b1.trans a1, b2.trans a2⟩

theorem fullSyncImage_client (P : Platform) (acc : Handled) (v : JsonValue) :
    (fullSyncImage P acc v).1.m_client = acc.1.m_client := by
  unfold fullSyncImage
  split
  · rfl
  · dsimp only
    split
    · rfl
    · split
      · rfl
      · split
        · rfl
        · split
          · rfl
          · exact createImage_client P _ _ _ _ _ _ _ _ _

theorem fullSyncText_client (P : Platform) (acc : Handled) (v : JsonValue) :
    (fullSyncText P acc v).1.m_client = acc.1.m_client := by
  unfold fullSyncText
  split
  · rfl
  · dsimp only
    split
    · rfl
    · split <;> rfl

theorem fullSyncImages_client (P : Platform) (vals : QJsonArray) (acc : Handled) :
    (vals.foldl (fullSyncImage P) acc).1.m_client = acc.1.m_client := by
  induction vals generalizing acc with
  | nil => rfl
  | cons v rest ih => exact (ih _).trans (fullSyncImage_client P acc v)

theorem fullSyncTexts_client (P : Platform) (vals : QJsonArray) (acc : Handled) :
    (vals.foldl (fullSyncText P) acc).1.m_client = acc.1.m_client := by
  induction vals generalizing acc with
  | nil => rfl
  | cons v rest ih => exact (ih _).trans (fullSyncText_client P acc v)

/-- The dispatch of `onMessageReceived`: what holds of the outcome of each handler and of
no handler at all holds of the outcome of handling a message. -/
theorem onMessageReceived_cases (P : Platform) (m : CollabManager) (message : QJsonObject)
    (Q : Handled → Prop)
    (hjoin : Q (handleJoin P m message)) (hleave : Q (handleLeave m message))
    (hlist : Q (handleUserList P m message)) (hcur : Q (handleCursor m message))
    (hadd : Q (handleImageAdd P m message)) (hupd : Q (handleImageUpdate P m message))
    (hrem : Q (handleImageRemove P m message)) (htadd : Q (handleTextAdd P m message))
    (htupd : Q (handleTextUpdate P m message)) (htrem : Q (handleTextRemove P m message))
    (hfull : Q (handleFullSync P m message)) (hnone : Q (m, [])) :
    Q (onMessageReceived P m message) := by
  unfold onMessageReceived
  dsimp only
  by_cases h0 : (QJsonObject.value message "type").toString = "join"
  · rw [if_pos h0]
    exact hjoin
  rw [if_neg h0]
  by_cases h1 : (QJsonObject.value message "type").toString = "leave"
  · rw [if_pos h1]
    exact hleave
  rw [if_neg h1]
  by_cases h2 : (QJsonObject.value message "type").toString = "userList"
  · rw [if_pos h2]
    exact hlist
  rw [if_neg h2]
  by_cases h3 : (QJsonObject.value message "type").toString = "cursor"
  · rw [if_pos h3]
    exact hcur
  rw [if_neg h3]
  by_cases h4 : (QJsonObject.value message "type").toString = "imageAdd"
  · rw [if_pos h4]
    exact hadd
  rw [if_neg h4]
  by_cases h5 : (QJsonObject.value message "type").toString = "imageUpdate"
  · rw [if_pos h5]
    exact hupd
  rw [if_neg h5]
  by_cases h6 : (QJsonObject.value message "type").toString = "imageRemove"
  · rw [if_pos h6]
    exact hrem
  rw [if_neg h6]
  by_cases h7 : (QJsonObject.value message "type").toString = "textAdd"
  · rw [if_pos h7]
    exact htadd
  rw [if_neg h7]
  by_cases h8 : (QJsonObject.value message "type").toString = "textUpdate"
  · rw [if_pos h8]
    exact htupd
  rw [if_neg h8]
  by_cases h9 : (QJsonObject.value message "type").toString = "textRemove"
  · rw [if_pos h9]
    exact htrem
  rw [if_neg h9]
  by_cases h10 : (QJsonObject.value message "type").toString = "sync"
  · rw [if_pos h10]
    exact hupd
  rw [if_neg h10]
  by_cases h11 : (QJsonObject.value message "type").toString = "fullSync"
  · rw [if_pos h11]
    exact hfull
  rw [if_neg h11]
  exact hnone

/-- Every handler that sets the guard clears it before it returns, and a handler that
returns early has not set it: a message handled with the guard released leaves the guard
released, and leaves the transport client as it was. -/
theorem onMessageReceived_guard (P : Platform) (m : CollabManager) (message : QJsonObject)
    (h0 : m.m_isSyncing = false) :
    (onMessageReceived P m message).1.m_isSyncing = false ∧
    (onMessageReceived P m message).1.m_client = m.m_client := by
  have hadd : (handleImageAdd P m message).1.m_isSyncing = false ∧
      (handleImageAdd P m message).1.m_client = m.m_client := by
    unfold handleImageAdd
    dsimp only
    split
    · exact ⟨h0, rfl⟩
    · split
      · exact ⟨h0, rfl⟩
      · refine ⟨rfl, ?_⟩
        cases hs : m.m_scene with
        | none => rfl
        | some sc => exact createImage_client P _ _ _ _ _ _ _ _ _
  have hupd : (handleImageUpdate P m message).1.m_isSyncing = false ∧
      (handleImageUpdate P m message).1.m_client = m.m_client := by
    unfold handleImageUpdate
    dsimp only
    split
    · exact ⟨h0, rfl⟩
    · split
      · exact ⟨h0, rfl⟩
      · split
        · exact ⟨h0, rfl⟩
        · exact ⟨rfl, rfl⟩
  have hrem : (handleImageRemove P m message).1.m_isSyncing = false ∧
      (handleImageRemove P m message).1.m_client = m.m_client := by
    unfold handleImageRemove
    dsimp only
    split
    · exact ⟨h0, rfl⟩
    · split <;> exact ⟨rfl, rfl⟩
  have htadd : (handleTextAdd P m message).1.m_isSyncing = false ∧
      (handleTextAdd P m message).1.m_client = m.m_client := by
    unfold handleTextAdd
    split
    · exact ⟨h0, rfl⟩
    · dsimp only
      split
      · exact ⟨h0, rfl⟩
      · split
        · exact ⟨h0, rfl⟩
        · exact ⟨rfl, rfl⟩
  have htupd : (handleTextUpdate P m message).1.m_isSyncing = false ∧
      (handleTextUpdate P m message).1.m_client = m.m_client := by
    unfold handleTextUpdate
    split
    · exact ⟨h0, rfl⟩
    · dsimp only
      split
      · exact ⟨h0, rfl⟩
      · split
        · exact ⟨h0, rfl⟩
        · exact ⟨rfl, rfl⟩
  have htrem : (handleTextRemove P m message).1.m_isSyncing = false ∧
      (handleTextRemove P m message).1.m_client = m.m_client := by
    unfold handleTextRemove
    split
    · exact ⟨h0, rfl⟩
    · dsimp only
      split
      · exact ⟨h0, rfl⟩
      · exact ⟨rfl, rfl⟩
  have hfull : (handleFullSync P m message).1.m_isSyncing = false ∧
      (handleFullSync P m message).1.m_client = m.m_client := by
    unfold handleFullSync
    split
    · exact ⟨h0, rfl⟩
    · refine ⟨rfl, ?_⟩
      dsimp only
      rw [fullSyncTexts_client, fullSyncImages_client]
  have hjoin : (handleJoin P m message).1.m_isSyncing = false ∧
      (handleJoin P m message).1.m_client = m.m_client := by
    unfold handleJoin
    dsimp only
    split
    · unfold pushLocalState
      split
      · exact ⟨h0, rfl⟩
      · split <;> exact ⟨h0, rfl⟩
    · exact ⟨h0, rfl⟩
  have hleave : (handleLeave m message).1.m_isSyncing = false ∧
      (handleLeave m message).1.m_client = m.m_client := by
    unfold handleLeave
    dsimp only
    split <;> exact ⟨h0, rfl⟩
  have hlist : (handleUserList P m message).1.m_isSyncing = false ∧
      (handleUserList P m message).1.m_client = m.m_client := by
    unfold handleUserList
    obtain ⟨a, b⟩ := userList_guard P (QJsonObject.value message "users").toArray m
    exact ⟨a.trans h0, b⟩
  have hcur : (handleCursor m message).1.m_isSyncing = false ∧
      (handleCursor m message).1.m_client = m.m_client := by
    unfold handleCursor
    dsimp only
    split
    · exact ⟨h0, rfl⟩
    · split <;> exact ⟨h0, rfl⟩
  exact onMessageReceived_cases P m message
    (fun r => r.1.m_isSyncing = false ∧ r.1.m_client = m.m_client)
    hjoin hleave hlist hcur hadd hupd hrem htadd htupd htrem hfull ⟨h0, rfl⟩

/-- C30. The guard is always released: starting with the guard released, after any
sequence of inbound messages of any type (self echoes, duplicates, unknown targets and
undecodable payloads among them) the guard is released and the transport client is as it
was; hence, if the orchestrator is connected, the slot run for any scene signal of a
local edit puts exactly one frame on the wire. -/
theorem guard_always_released (P : Platform) (m : CollabManager) (messages : List QJsonObject)
    (h0 : m.m_isSyncing = false) :
    (receiveAll P m messages).1.m_isSyncing = false ∧
    (receiveAll P m messages).1.m_client = m.m_client ∧
    (m.isConnected = true → ∀ sig : SceneSignal,
      (onSceneSignal P (receiveAll P m messages).1 sig).length = 1) := by
  have hrun : (receiveAll P m messages).1.m_isSyncing = false ∧
      (receiveAll P m messages).1.m_client = m.m_client := by
    induction messages generalizing m with
    | nil => exact ⟨h0, rfl⟩
    | cons message rest ih =>
        obtain ⟨a1, a2⟩ := onMessageReceived_guard P m message h0
        obtain ⟨b1, b2⟩ := ih (onMessageReceived P m message).1 a1
        exact ⟨b1, b2.trans a2⟩
  refine ⟨hrun.1, hrun.2, fun hc sig => ?_⟩
  have hc2 : (receiveAll P m messages).1.m_client.isConnected = true := by
    rw [hrun.2]
    exact hc
  cases sig <;> simp [onSceneSignal, isConnected, send, hrun.1, hc2]

end CollabManager

/-! ## Concrete runs: stale geometry, lost edits, participants keyed by the wrong field -/

/-- C26 (counterexample). The hub stores `B` at `x = 0` with rotation 30; participant `x`
moves it to `x = 5`, participant `y` rotates it to 90, and each sends the imageUpdate it
builds.  Handled in the order `x`, `y` the stored record has `x = 0` and rotation 90; in
the order `y`, `x` it has `x = 5` and rotation 30: one of the two edits is lost. -/
theorem concurrent_edit_lost :
    (SyncServer.onTextMessageReceived
      (exampleServer.onTextMessageReceived exampleDisk "t1" 1
        (JsonValue.object (CollabManager.imageUpdateMsg
          (exampleManager "x" (exampleScene "B")) exampleMovedB))).server exampleDisk "t2" 2
      (JsonValue.object (CollabManager.imageUpdateMsg
        (exampleManager "y" (exampleScene "B")) exampleRotatedB))).server.m_boardState.map
      (fun rec => (QJsonObject.value rec.toObject "x",
        QJsonObject.value rec.toObject "rotation")) =
      [(JsonValue.double 0, JsonValue.double 90)] ∧
    (SyncServer.onTextMessageReceived
      (exampleServer.onTextMessageReceived exampleDisk "t1" 2
        (JsonValue.object (CollabManager.imageUpdateMsg
          (exampleManager "y" (exampleScene "B")) exampleRotatedB))).server exampleDisk "t2" 1
      (JsonValue.object (CollabManager.imageUpdateMsg
        (exampleManager "x" (exampleScene "B")) exampleMovedB))).server.m_boardState.map
      (fun rec => (QJsonObject.value rec.toObject "x",
        QJsonObject.value rec.toObject "rotation")) =
      [(JsonValue.double 5, JsonValue.double 30)] :=
  ⟨rfl, rfl⟩

/-- C27. Participant `u3` joins a hub that has the two other connections `c1` and `c2`:
the hub replies with a user list of two entries, each `{userId: ...}`; handling it, the
joiner's orchestrator ends with one collaborator, keyed by the empty text, and
`userCount()` is 2. -/
theorem user_list_makes_one_peer :
    SyncServer.framesFor 3 (exampleHub3.onTextMessageReceived exampleDisk "t1" 3
      (JsonValue.object exampleJoin3)).sent = [exampleHub3.userListMsg "c3"] ∧
    (QJsonObject.value (exampleHub3.userListMsg "c3") "users").toArray =
      [JsonValue.object [("userId", JsonValue.string "c1")],
       JsonValue.object [("userId", JsonValue.string "c2")]] ∧
    (CollabManager.onMessageReceived examplePlatform (exampleManager "u3" exampleBoard)
      (exampleHub3.userListMsg "c3")).1.m_collaborators.map Prod.fst = [""] ∧
    (CollabManager.onMessageReceived examplePlatform (exampleManager "u3" exampleBoard)
      (exampleHub3.userListMsg "c3")).1.userCount = 2 :=
  ⟨rfl, rfl, rfl, rfl⟩

/-- C28. Participant `x` joins and moves its pointer; the hub relays both frames to
participant `y`, whose orchestrator then holds a collaborator and a remote cursor keyed
`x`.  The connection of `x` drops and the hub broadcasts `{type: leave, userId: c1}`;
after handling it the orchestrator of `y` still holds the collaborator and the remote
cursor keyed `x`. -/
theorem leave_notice_keeps_peer :
    SyncServer.framesFor 2 (exampleServer.onClientDisconnected exampleDisk 1).sent =
      [[("type", JsonValue.string "leave"), ("userId", JsonValue.string "c1")]] ∧
    (CollabManager.receiveAll examplePlatform (exampleManager "y" exampleBoard)
      (SyncServer.framesFor 2 (exampleServer.onTextMessageReceived exampleDisk "t1" 1
          (JsonValue.object exampleJoinX)).sent ++
        SyncServer.framesFor 2 (exampleServer.onTextMessageReceived exampleDisk "t2" 1
          (JsonValue.object exampleCursorX)).sent)).1.m_collaborators.map Prod.fst = ["x"] ∧
    (CollabManager.receiveAll examplePlatform (exampleManager "y" exampleBoard)
      (SyncServer.framesFor 2 (exampleServer.onTextMessageReceived exampleDisk "t1" 1
          (JsonValue.object exampleJoinX)).sent ++
        SyncServer.framesFor 2 (exampleServer.onTextMessageReceived exampleDisk "t2" 1
          (JsonValue.object exampleCursorX)).sent ++
        SyncServer.framesFor 2 (exampleServer.onClientDisconnected exampleDisk
          1).sent)).1.m_collaborators.map Prod.fst = ["x"] ∧
    ((CollabManager.receiveAll examplePlatform (exampleManager "y" exampleBoard)
      (SyncServer.framesFor 2 (exampleServer.onTextMessageReceived exampleDisk "t1" 1
          (JsonValue.object exampleJoinX)).sent ++
        SyncServer.framesFor 2 (exampleServer.onTextMessageReceived exampleDisk "t2" 1
          (JsonValue.object exampleCursorX)).sent ++
        SyncServer.framesFor 2 (exampleServer.onClientDisconnected exampleDisk
          1).sent)).1.m_scene.map (fun sc => sc.m_remoteCursors.map Prod.fst)) = some ["x"] :=
  ⟨rfl, rfl, rfl, rfl⟩

/-- Frames that do not bind the key the hub reads, one by one: an imageAdd without
`imageId` is stored and relayed with `imageId` bound to null; a frame without `type` is
relayed with `type` bound to null; a pushed item without `imageId` is stored with
`imageId` bound to null. -/
theorem frames_without_the_key_read :
    (exampleServer.onTextMessageReceived exampleDisk "t0" 1
      (JsonValue.object exampleBareAdd)).server.m_boardState =
      [exampleRecord, JsonValue.object [("type", JsonValue.string "imageAdd"),
        ("x", JsonValue.double 7), ("imageId", JsonValue.null)]] ∧
    SyncServer.framesFor 2 (exampleServer.onTextMessageReceived exampleDisk "t0" 1
      (JsonValue.object exampleBareAdd)).sent =
      [[("type", JsonValue.string "imageAdd"), ("x", JsonValue.double 7),
        ("imageId", JsonValue.null), ("userId", JsonValue.string "c1")]] ∧
    SyncServer.framesFor 2 (exampleServer.onTextMessageReceived exampleDisk "t0" 1
      (JsonValue.object exampleNoType)).sent =
      [[("oderId", JsonValue.string "u1"), ("type", JsonValue.null),
        ("userId", JsonValue.string "c1")]] ∧
    (exampleServer.onTextMessageReceived exampleDisk "t0" 1
      (JsonValue.object exampleBarePush)).server.m_boardState =
      [exampleRecord, JsonValue.object [("x", JsonValue.double 3),
        ("imageId", JsonValue.null)]] :=
  ⟨rfl, rfl, rfl, rfl⟩

/-! ## The theorems at concrete inputs -/

theorem hub_add_idempotent_witness :
    (exampleServer.m_boardState.map (SyncServer.recordId "imageId")).Nodup ∧
    (exampleServer.m_textState.map (SyncServer.recordId "textId")).Nodup ∧
    ((exampleServer.onTextMessageReceived exampleDisk "t0" 1
        (JsonValue.object exampleImageAdd)).server.m_boardState.map
      (SyncServer.recordId "imageId")).count
        (QJsonObject.value exampleImageAdd "imageId").toString = 1 ∧
    (SyncServer.onTextMessageReceived
      (exampleServer.onTextMessageReceived exampleDisk "t0" 1
        (JsonValue.object exampleBareAdd)).server
      (exampleServer.onTextMessageReceived exampleDisk "t0" 1
        (JsonValue.object exampleBareAdd)).disk "t1" 2 (JsonValue.object exampleBareAdd)).sent =
      [(1, [("type", JsonValue.string "imageAdd"), ("x", JsonValue.double 7),
        ("imageId", JsonValue.null), ("userId", JsonValue.string "c2")])] :=
  ⟨by decide, by decide,
    (SyncServer.hub_add_idempotent exampleServer exampleDisk "t0" "t1" 1 2 exampleImageAdd
      (Or.inl rfl) (by decide) (by decide)).2.1 rfl,
    (SyncServer.hub_add_idempotent exampleServer exampleDisk "t0" "t1" 1 2 exampleBareAdd
      (Or.inl rfl) (by decide) (by decide)).2.2.2.1⟩

theorem example_wellFormed :
    QJsonObject.WellFormed exampleUpdateX ∧ QJsonObject.WellFormed exampleUpdateY := by
  unfold QJsonObject.WellFormed
  exact ⟨by decide, by decide⟩

theorem hub_disjoint_updates_witness :
    (∀ k ∈ SyncServer.geometryFields,
      ¬ (QJsonObject.contains exampleUpdateX k = true ∧
        QJsonObject.contains exampleUpdateY k = true)) ∧
    ∃ m12 m21,
      ((exampleServer.onTextMessageReceived exampleDisk "t0" 1
          (JsonValue.object exampleUpdateX)).server.onTextMessageReceived
        (exampleServer.onTextMessageReceived exampleDisk "t0" 1
          (JsonValue.object exampleUpdateX)).disk "t1" 2
        (JsonValue.object exampleUpdateY)).server.m_boardState =
        [] ++ JsonValue.object m12 :: [] ∧
      ((exampleServer.onTextMessageReceived exampleDisk "t0" 2
          (JsonValue.object exampleUpdateY)).server.onTextMessageReceived
        (exampleServer.onTextMessageReceived exampleDisk "t0" 2
          (JsonValue.object exampleUpdateY)).disk "t1" 1
        (JsonValue.object exampleUpdateX)).server.m_boardState =
        [] ++ JsonValue.object m21 :: [] ∧
      (QJsonObject.value m12 "x" = JsonValue.double 5 ∧
        QJsonObject.value m21 "x" = JsonValue.double 5) ∧
      (QJsonObject.value m12 "y" = JsonValue.double 9 ∧
        QJsonObject.value m21 "y" = JsonValue.double 9) ∧
      (QJsonObject.value m12 "rotation" = JsonValue.double 30 ∧
        QJsonObject.value m21 "rotation" = JsonValue.double 30) ∧
      (QJsonObject.value m12 "scale" = JsonValue.double 2 ∧
        QJsonObject.value m21 "scale" = JsonValue.double 2) := by
  have hdisj : ∀ k ∈ SyncServer.geometryFields,
      ¬ (QJsonObject.contains exampleUpdateX k = true ∧
        QJsonObject.contains exampleUpdateY k = true) := by decide
  obtain ⟨m12, m21, h12, h21, hv⟩ :=
    SyncServer.hub_disjoint_updates_both_survive exampleServer exampleDisk "t0" "t1" 1 2
      exampleUpdateX exampleUpdateY [] exampleRecord [] example_wellFormed.1
      example_wellFormed.2 rfl rfl rfl rfl rfl (by simp) hdisj
  exact ⟨hdisj, m12, m21, h12, h21, (hv "x" (by decide)).1 rfl,
    (hv "y" (by decide)).2.1 rfl, (hv "rotation" (by decide)).2.2 rfl rfl,
    (hv "scale" (by decide)).2.2 rfl rfl⟩

theorem self_echo_suppressed_witness :
    (QJsonObject.value exampleImageAdd "oderId").toString =
      (exampleManager "u1" (exampleScene "img1")).m_client.m_oderId ∧
    CollabManager.handleImageAdd examplePlatform (exampleManager "u1" (exampleScene "img1"))
      exampleImageAdd = (exampleManager "u1" (exampleScene "img1"), []) ∧
    CollabManager.handleImageRemove examplePlatform (exampleManager "u1" (exampleScene "img1"))
      exampleImageAdd = (exampleManager "u1" (exampleScene "img1"), []) :=
  ⟨rfl,
    (CollabManager.self_echo_suppressed examplePlatform
      (exampleManager "u1" (exampleScene "img1")) exampleImageAdd rfl).1,
    (CollabManager.self_echo_suppressed examplePlatform
      (exampleManager "u1" (exampleScene "img1")) exampleImageAdd rfl).2.2.1⟩

theorem exampleNet_scenario : Scenario exampleNet := by
  refine
    { ready := ?_, decodable := ?_, routes := ?_, emptyImages := rfl, emptyTexts := rfl,
      noneToHub := rfl, noneToPeers := fun _ => rfl }
  · intro p
    cases p
    · refine ⟨rfl, rfl, exampleScene "img1", rfl, ?_, ?_⟩
      · intro kv hkv
        simp only [exampleScene, List.mem_singleton] at hkv
        subst hkv
        exact ⟨rfl, by decide, fun n => by show "/tmp/collabref_0.gif" ≠ ""; decide⟩
      · intro kv hkv
        simp [exampleScene] at hkv
    · refine ⟨rfl, rfl, exampleScene "img2", rfl, ?_, ?_⟩
      · intro kv hkv
        simp only [exampleScene, List.mem_singleton] at hkv
        subst hkv
        exact ⟨rfl, by decide, fun n => by show "/tmp/collabref_0.gif" ≠ ""; decide⟩
      · intro kv hkv
        simp [exampleScene] at hkv
  · intro p q _ sc hsc item hitem
    cases p
    · have he : sc = exampleScene "img1" := (Option.some.inj hsc).symm
      subst he
      simp only [exampleScene, CanvasScene.imageItems, List.map_cons, List.map_nil,
        List.mem_singleton] at hitem
      subst hitem
      refine ⟨by decide, ?_, ?_⟩
      · show examplePlatform.fromBase64 _ ≠ []
        decide
      · show (if _ then ∀ n, examplePlatform.canWrite (examplePlatform.tempPath n) = true
          else (examplePlatform.loadFromData (examplePlatform.fromBase64 _)).isNull = false)
        rw [if_neg (by decide)]
        decide
    · have he : sc = exampleScene "img2" := (Option.some.inj hsc).symm
      subst he
      simp only [exampleScene, CanvasScene.imageItems, List.map_cons, List.map_nil,
        List.mem_singleton] at hitem
      subst hitem
      refine ⟨by decide, ?_, ?_⟩
      · show examplePlatform.fromBase64 _ ≠ []
        decide
      · show (if _ then ∀ n, examplePlatform.canWrite (examplePlatform.tempPath n) = true
          else (examplePlatform.loadFromData (examplePlatform.fromBase64 _)).isNull = false)
        rw [if_neg (by decide)]
        decide
  · refine ⟨fun p => ?_, by decide⟩
    cases p
    · exact ⟨by decide, rfl⟩
    · exact ⟨by decide, rfl⟩

theorem reconciliation_converges_witness :
    Scenario exampleNet ∧ (∀ p, NetAction.push p ∈ exampleActs) ∧
    (exampleNet.run exampleActs).toHub = [] ∧
    (∀ p, (exampleNet.run exampleActs).inbox p = []) ∧
    (∀ p id, id ∈ ((exampleNet.run exampleActs).mgr p).imageIds ↔
      (id ∈ (exampleNet.mgr Peer.X).imageIds ∨ id ∈ (exampleNet.mgr Peer.Y).imageIds)) :=
  ⟨exampleNet_scenario, fun p => by cases p <;> simp [exampleActs], rfl,
    fun p => by cases p <;> rfl,
    (Network.reconciliation_converges exampleNet exampleActs exampleNet_scenario
      (fun p => by cases p <;> simp [exampleActs]) rfl (fun p => by cases p <;> rfl)).1⟩

theorem hub_push_merge_if_absent_witness :
    (QJsonObject.value examplePush "type").toString = "pushSync" ∧
    (∃ added, (exampleServer.onTextMessageReceived exampleDisk "t0" 1
      (JsonValue.object examplePush)).server.m_boardState = exampleServer.m_boardState ++ added) ∧
    (SyncServer.pushMerge "imageId" exampleServer.m_boardState false [exampleBareItem]).1 =
      [exampleRecord, JsonValue.object [("x", JsonValue.double 3),
        ("imageId", JsonValue.null)]] :=
  ⟨rfl, (SyncServer.hub_push_merge_if_absent exampleServer exampleDisk "t0" 1 examplePush rfl).1,
    ((SyncServer.hub_push_merge_if_absent exampleServer exampleDisk "t0" 1 exampleBarePush
      rfl).2.2.1 [] exampleBareItem [] rfl).1 rfl⟩

theorem hub_push_replies_witness :
    exampleServer.m_clients.Nodup ∧
    QHash.value exampleServer.m_clientsById (exampleServer.clientId 1) = some 1 ∧
    (∀ c ∈ exampleServer.m_clients, c ≠ 1 → exampleServer.clientId c ≠ exampleServer.clientId 1) ∧
    (exampleServer.onTextMessageReceived exampleDisk "t0" 1
      (JsonValue.object examplePush)).sent.filter (fun f => decide (f.1 = 1)) =
      [(1, (exampleServer.onTextMessageReceived exampleDisk "t0" 1
        (JsonValue.object examplePush)).server.fullSyncMsg)] :=
  ⟨by decide, rfl, by decide,
    (SyncServer.hub_push_replies exampleServer exampleDisk "t0" 1 examplePush rfl (by decide)
      rfl (by decide)).2.1⟩

theorem reconnect_bound_witness :
    "ws://hub:8080" ≠ "" ∧ (∀ e ∈ exampleFailures, e.isConnected = false) ∧
    (((SyncClient.create "me").connectToServer "ws://hub:8080").1.run
      exampleFailures).2.countP ClientEffect.isOpen ≤ 10 ∧
    (((SyncClient.create "me").connectToServer "ws://hub:8080").1.run
      exampleFailures).2.filter ClientEffect.isOpen =
      List.replicate 10 (ClientEffect.socketOpen "ws://hub:8080") ∧
    (((SyncClient.create "me").connectToServer "ws://hub:8080").1.run
      exampleFailures).2.countP ClientEffect.isReconnectFailed = 1 ∧
    (((SyncClient.create "me").connectToServer "ws://hub:8080").1.run
      exampleFailures).1.reconnectTimerActive = false :=
  have h := SyncClient.reconnect_bound (SyncClient.create "me") "ws://hub:8080" exampleFailures
    (by decide) (by decide)
  ⟨by decide, by decide, h.2.2.1, (h.2.2.2.2.2 11).2.1, (h.2.2.2.2.2 11).2.2.1,
    (h.2.2.2.2.2 11).2.2.2.2 (by decide)⟩

theorem persistence_roundtrip_witness :
    (exampleRoom.m_boardState.length = 3 ∧ exampleRoom.m_textState.length = 2) ∧
    exampleRoom.m_saveFilePath ≠ "" ∧
    exampleDisk.canOpen exampleRoom.m_saveFilePath = true ∧
    ((SyncServer.fresh exampleRoom.m_saveFilePath).loadState
      (exampleRoom.saveState exampleDisk "2024-01-01T00:00:00")).m_boardState =
      exampleRoom.m_boardState ∧
    ((SyncServer.fresh exampleRoom.m_saveFilePath).loadState
      (exampleRoom.saveState exampleDisk "2024-01-01T00:00:00")).m_textState =
      exampleRoom.m_textState :=
  ⟨⟨rfl, rfl⟩, by decide, rfl,
    SyncServer.persistence_roundtrip exampleRoom exampleDisk "2024-01-01T00:00:00"
      (Or.inl (by simp [exampleRoom])) (by decide) rfl⟩

/-! ## The theorems of this part at concrete inputs -/

theorem add_dedup_witness :
    (CollabManager.handleImageAdd examplePlatform (exampleManager "x" exampleBoard)
      exampleAddFirst).1.imageKeys.count "A" = 1 ∧
    CollabManager.handleImageAdd examplePlatform
      (CollabManager.handleImageAdd examplePlatform (exampleManager "x" exampleBoard)
        exampleAddFirst).1 exampleAddSecond =
      ((CollabManager.handleImageAdd examplePlatform (exampleManager "x" exampleBoard)
        exampleAddFirst).1, []) ∧
    (CollabManager.handleTextAdd examplePlatform (exampleManager "x" exampleBoard)
      exampleAddFirst).1.textKeys.count "T" = 1 ∧
    CollabManager.handleTextAdd examplePlatform
      (CollabManager.handleTextAdd examplePlatform (exampleManager "x" exampleBoard)
        exampleAddFirst).1 exampleAddSecond =
      ((CollabManager.handleTextAdd examplePlatform (exampleManager "x" exampleBoard)
        exampleAddFirst).1, []) :=
  have h := CollabManager.add_dedup examplePlatform (exampleManager "x" exampleBoard)
    exampleBoard exampleAddFirst exampleAddSecond rfl (by decide) (by decide) (by decide) rfl rfl
  ⟨h.2.2.1 (Or.inr (by decide)), h.2.1 (by decide), h.2.2.2.1, h.2.2.2.2⟩

theorem update_patches_fields_witness :
    ∃ sc1 item1, (CollabManager.handleImageUpdate examplePlatform (exampleManager "x" exampleBoard)
        exampleMoveXY).1.m_scene = some sc1 ∧
      sc1.findImageItem "img1" = some item1 ∧
      item1.x = 5 ∧ item1.y = 9 ∧ item1.rotation = 0 ∧ item1.scale = 2 ∧
      sc1.findTextItem "t1" = exampleBoard.findTextItem "t1" := by
  obtain ⟨sc1, item1, h1, h2, _, hx, hy, hr, hsc, _, _, ht⟩ :=
    (CollabManager.update_patches_fields examplePlatform (exampleManager "x" exampleBoard)
      exampleMoveXY exampleBoard rfl (by decide)).1 _ rfl
  exact ⟨sc1, item1, h1, h2, hx, hy, hr, hsc, by rw [CanvasScene.findTextItem, ht]; rfl⟩

theorem remove_and_unknown_targets_witness :
    (∃ sc1, (CollabManager.handleImageRemove examplePlatform (exampleManager "x" exampleBoard)
        exampleRemoveImg1).1.m_scene = some sc1 ∧
      sc1.findImageItem "img1" = none ∧ sc1.m_textItems = exampleBoard.m_textItems) ∧
    CollabManager.handleTextUpdate examplePlatform (exampleManager "x" exampleBoard)
      exampleRemoveImg1 = (exampleManager "x" exampleBoard, []) := by
  have h := CollabManager.remove_and_unknown_targets examplePlatform
    (exampleManager "x" exampleBoard) exampleRemoveImg1 exampleBoard rfl (by decide) (by decide)
  obtain ⟨sc1, h1, h2, _, h3⟩ := h.1
  exact ⟨⟨sc1, h1, h2, h3⟩, (h.2.2.2 rfl).1⟩

theorem exampleEvents_wellFormed :
    ∀ e ∈ exampleEvents, ∀ now client msg,
      e = HubEvent.textMessage now client (JsonValue.object msg) →
      QJsonObject.WellFormed msg := by
  intro e he now client msg h
  simp only [exampleEvents, List.mem_cons, List.mem_singleton, List.not_mem_nil, or_false] at he
  rcases he with rfl | rfl | rfl | rfl | rfl | rfl | rfl | rfl | rfl <;> cases h <;>
    (unfold QJsonObject.WellFormed; decide)

theorem roomstate_ids_unique_witness :
    (((SyncServer.fresh "shared_board.json").runEvents exampleDisk
      exampleEvents).server.m_boardState.map (SyncServer.recordId "imageId")) = ["A", "B", "C"] ∧
    (((SyncServer.fresh "shared_board.json").runEvents exampleDisk
      exampleEvents).server.m_boardState.map (SyncServer.recordId "imageId")).Nodup ∧
    (((SyncServer.fresh "shared_board.json").runEvents exampleDisk
      exampleEvents).server.m_textState.map (SyncServer.recordId "textId")).Nodup :=
  ⟨rfl, SyncServer.roomstate_ids_unique "shared_board.json" exampleDisk exampleEvents
    exampleEvents_wellFormed⟩

theorem hub_remove_witness :
    (exampleRoom.onTextMessageReceived exampleDisk "t1" 1
      (JsonValue.object exampleRemoveI2)).server.m_boardState.map
      (SyncServer.recordId "imageId") = ["i1", "i3"] := by
  rw [((SyncServer.hub_remove exampleRoom exampleDisk "t1" 1 exampleRemoveI2
    (by decide) (by decide)).1 rfl).1]
  rfl

theorem cursor_messages_spaced_witness :
    exampleFlushMoves.Pairwise (fun a b => a.1 ≤ b.1) ∧ 0 + CURSOR_THROTTLE_MS ≤ 51 :=
  ⟨by decide, CollabManager.cursor_messages_spaced (exampleManager "x" exampleBoard)
    exampleFlushMoves 200 (by decide) 0 0 51 rfl rfl⟩

/-! ## The theorems of the last part at concrete inputs -/

/-- C24 (counterexample). A fullSync that lists the image `E` twice, each time without
payload, applied twice to a mirror without `E`: no image has the id `E` afterwards. -/
theorem snapshot_without_payload_leaves_no_item :
    ((QJsonObject.value exampleFullSync "images").toArray.map
      (SyncServer.recordId "imageId")).count "E" = 2 ∧
    (CollabManager.handleFullSync examplePlatform
      (CollabManager.handleFullSync examplePlatform (exampleManager "x" exampleBoard)
        exampleFullSync).1 exampleFullSync).1.imageKeys.count "E" = 0 :=
  ⟨by decide, by decide⟩

theorem broadcast_all_but_sender_witness :
    SyncServer.framesFor 2 (exampleServer.onTextMessageReceived exampleDisk "t1" 1
      (JsonValue.object exampleImageAdd)).sent =
      [QJsonObject.insert exampleImageAdd "userId" (JsonValue.string "c1")] ∧
    SyncServer.framesFor 1 (exampleServer.onTextMessageReceived exampleDisk "t1" 1
      (JsonValue.object exampleImageAdd)).sent = [] ∧
    SyncServer.framesFor 2 (exampleServer.onTextMessageReceived exampleDisk "t1" 1
      (JsonValue.object exampleBareAdd)).sent =
      [[("type", JsonValue.string "imageAdd"), ("x", JsonValue.double 7),
        ("imageId", JsonValue.null), ("userId", JsonValue.string "c1")]] :=
  have h := SyncServer.broadcast_all_but_sender exampleServer exampleDisk "t1" 1
    exampleImageAdd (by decide) (by decide) rfl (by decide)
  have h2 := SyncServer.broadcast_all_but_sender exampleServer exampleDisk "t1" 1
    exampleBareAdd (by decide) (by decide) rfl (by decide)
  ⟨h.1 2 (by decide) (by decide), h.2.1, h2.1 2 (by decide) (by decide)⟩

theorem request_sync_reply_only_witness :
    (exampleServer.onTextMessageReceived exampleDisk "t1" 1
      (JsonValue.object exampleRequest)).sent = [(1, exampleServer.fullSyncMsg)] ∧
    (exampleServer.onTextMessageReceived exampleDisk "t1" 1
      (JsonValue.object exampleRequest)).server = exampleServer :=
  have h := SyncServer.request_sync_reply_only exampleServer exampleDisk "t1" 1
    exampleRequest rfl rfl
  ⟨h.2.2.1, h.1⟩

theorem roomstate_outlives_sessions_witness :
    (exampleServer.runEvents exampleDisk exampleQuietEvents).server.m_boardState =
      exampleServer.m_boardState ∧
    (exampleServer.runEvents exampleDisk exampleQuietEvents).server.m_clients = [2] :=
  ⟨((SyncServer.roomstate_outlives_sessions exampleServer exampleDisk exampleQuietEvents).1
    (by decide)).1, rfl⟩

theorem fullsync_idempotent_witness :
    CollabManager.handleFullSync examplePlatform
      (CollabManager.handleFullSync examplePlatform (exampleManager "x" exampleBoard)
        exampleFullSync).1 exampleFullSync =
      ((CollabManager.handleFullSync examplePlatform (exampleManager "x" exampleBoard)
        exampleFullSync).1, []) ∧
    (CollabManager.handleFullSync examplePlatform (exampleManager "x" exampleBoard)
      exampleFullSync).1.imageKeys = ["img1", "A"] ∧
    (CollabManager.handleFullSync examplePlatform (exampleManager "x" exampleBoard)
      exampleFullSync).1.imageKeys.count "img1" = 1 :=
  have h := CollabManager.fullsync_idempotent examplePlatform (fun _ => rfl)
    (exampleManager "x" exampleBoard) exampleFullSync
  ⟨h.1, rfl, (h.2.1 exampleBoard rfl (by decide)).2.1 "img1" (by decide)⟩

theorem concurrent_updates_last_wins_witness :
    ∃ merged,
      (SyncServer.onTextMessageReceived
        (exampleServer.onTextMessageReceived exampleDisk "t1" 1
          (JsonValue.object (CollabManager.imageUpdateMsg
            (exampleManager "x" (exampleScene "B")) exampleMovedB))).server
        (exampleServer.onTextMessageReceived exampleDisk "t1" 1
          (JsonValue.object (CollabManager.imageUpdateMsg
            (exampleManager "x" (exampleScene "B")) exampleMovedB))).disk "t2" 2
        (JsonValue.object (CollabManager.imageUpdateMsg
          (exampleManager "y" (exampleScene "B")) exampleRotatedB))).server.m_boardState =
          [JsonValue.object merged] ∧
      QJsonObject.value merged "x" = JsonValue.double 0 ∧
      QJsonObject.value merged "rotation" = JsonValue.double 90 := by
  obtain ⟨merged, h1, hx, _, hr, _, _⟩ := (SyncServer.concurrent_updates_last_wins
    exampleServer exampleDisk "t1" "t2" 1 2 (exampleManager "x" (exampleScene "B"))
    (exampleManager "y" (exampleScene "B")) exampleMovedB exampleRotatedB [] exampleRecord []
    rfl rfl rfl (by simp)).1
  exact ⟨merged, h1, hx, hr⟩

theorem guard_always_released_witness :
    (CollabManager.receiveAll examplePlatform (exampleManager "x" exampleBoard)
      exampleInbound).1.m_isSyncing = false ∧
    (CollabManager.onSceneSignal examplePlatform
      (CollabManager.receiveAll examplePlatform (exampleManager "x" exampleBoard)
        exampleInbound).1 (SceneSignal.imageRemoved "img1")).length = 1 :=
  have h := CollabManager.guard_always_released examplePlatform
    (exampleManager "x" exampleBoard) exampleInbound rfl
  ⟨h.1, h.2.2 rfl (SceneSignal.imageRemoved "img1")⟩

theorem update_saved_by_next_save_witness :
    exampleServer.m_saveFilePath ≠ "" ∧
    exampleSavedDisk.canOpen exampleServer.m_saveFilePath = true ∧
    (SyncServer.restart exampleServer.m_saveFilePath
      ((exampleServer.onTextMessageReceived exampleSavedDisk "t1" 1
        (JsonValue.object exampleUpdateX)).server.saveState
        (exampleServer.onTextMessageReceived exampleSavedDisk "t1" 1
          (JsonValue.object exampleUpdateX)).disk "t2")).m_boardState =
      (exampleServer.onTextMessageReceived exampleSavedDisk "t1" 1
        (JsonValue.object exampleUpdateX)).server.m_boardState ∧
    (exampleServer.onTextMessageReceived exampleSavedDisk "t1" 1
      (JsonValue.object exampleUpdateX)).server.m_boardState.map
        (fun rec => QJsonObject.value rec.toObject "x") = [JsonValue.double 5] :=
  ⟨by decide, rfl,
    (SyncServer.update_saved_by_next_save exampleServer exampleSavedDisk "t1" "t2" 1
      exampleUpdateX (Or.inl ⟨rfl, rfl⟩) (by decide) rfl).2.2.2.2.1, rfl⟩

end CollabRef
